import Mathlib

/-!
# gkc : island-coupled Vlasov integrator (`src/Vlasov/Vlasov_Island.cpp`)

A shallow embedding of the derivative routines of `VlasovIsland` and of the
species set-up of `Plasma`.

Conventions of the embedding

* `double` is modelled by exact rational arithmetic (`ℚ`), `CComplex`
  (C99 `double _Complex`) by pairs of rationals.  Rounding is not modelled.
* Multi-dimensional C arrays are total functions of integer indices, and an
  assignment to an element is a functional update.  The arrays handed to a
  routine are distinct objects: the arrays read (`fs`, `f0`, `f1`, `Coll`,
  `Fields`) are not the arrays written (`ft`, `fss`).
* `for(int k = lo; k <= hi; k++)` is `forLoop lo hi`.
* Members and collaborators that do not live in this translation unit
  (`fft->ky`, `geo->get_kp`, the species table, `calculateExBNonLinearity`,
  grid bounds, stencil constants) are fields of the structure `VlasovIsland`.
-/

namespace GKC

/-! ## Complex numbers -/

/-- C99 `double _Complex` over exact rationals. -/
@[ext]
structure CComplex where
  re : ℚ
  im : ℚ
deriving DecidableEq

namespace CComplex

/-- Embedding of a `double` into `CComplex` (implicit C conversion). -/
def ofReal (r : ℚ) : CComplex := ⟨r, 0⟩

instance : Coe ℚ CComplex := ⟨ofReal⟩
instance : Zero CComplex := ⟨⟨0, 0⟩⟩
instance : One CComplex := ⟨⟨1, 0⟩⟩
instance : Add CComplex := ⟨fun a b => ⟨a.re + b.re, a.im + b.im⟩⟩
instance : Neg CComplex := ⟨fun a => ⟨-a.re, -a.im⟩⟩
instance : Sub CComplex := ⟨fun a b => ⟨a.re - b.re, a.im - b.im⟩⟩
instance : Mul CComplex :=
  ⟨fun a b => ⟨a.re * b.re - a.im * b.im, a.re * b.im + a.im * b.re⟩⟩
instance : NatCast CComplex := ⟨fun n => ⟨n, 0⟩⟩
instance : IntCast CComplex := ⟨fun n => ⟨n, 0⟩⟩
instance : SMul ℕ CComplex := ⟨fun n a => ⟨n * a.re, n * a.im⟩⟩
instance : SMul ℤ CComplex := ⟨fun n a => ⟨n * a.re, n * a.im⟩⟩

/-- The imaginary unit `_imag`. -/
def _imag : CComplex := ⟨0, 1⟩

/-- C99 `conj`. -/
def conj (a : CComplex) : CComplex := ⟨a.re, -a.im⟩

/-- C99 `creal`, converted back to `CComplex` by the assignment `dg_dt = creal(dg_dt)`. -/
def creal (a : CComplex) : CComplex := ofReal a.re

end CComplex

open CComplex

/-! ## Arrays, loops and the objects the routines read -/

/-- Index `[s][m][z][y_k][x][v]` of a phase-space array
`CComplex [NsLD][NmLD][NzLB][Nky][NxLB][NvLB]`. -/
@[ext]
structure Idx6 where
  s : Int
  m : Int
  z : Int
  y_k : Int
  x : Int
  v : Int
deriving DecidableEq

/-- Phase-space array `[NsLD][NmLD][NzLB][Nky][NxLB][NvLB]`. -/
abbrev A6 := Idx6 → CComplex

/-- Array `[Nky][NxLD][NvLD]` (the buffer `nonLinearTerm`) or `[NzLB][Nky][NxLB+4]`. -/
abbrev A3 := Int → Int → Int → CComplex

/-- Array `[NzLB][Nky][NxLB(+4)][NvLB]` (`Xi`, `G`). -/
abbrev A4 := Int → Int → Int → Int → CComplex

/-- Array `Fields[Nq][NsLD][NmLD][NzLB][Nky][NxLB+4]`, indexed `[q][s][m][z][y_k][x]`. -/
abbrev AFields := Int → Int → Int → Int → Int → Int → CComplex

/-- Assignment `a[p] = val`. -/
def A6.set (a : A6) (p : Idx6) (val : CComplex) : A6 := fun q => if q = p then val else a q

/-- Assignment `a[z][y_k][x][v] = val`. -/
def A4.set (a : A4) (z y_k x v : Int) (val : CComplex) : A4 :=
  fun z1 y1 x1 v1 => if z1 = z ∧ y1 = y_k ∧ x1 = x ∧ v1 = v then val else a z1 y1 x1 v1

/-- Constants of `namespace Field` in `Fields/Fields.h`. -/
def Field.phi : Int := 1

/-- Constant `Field::Ap`. -/
def Field.Ap : Int := 2

/-- Constant `Field::Bp`. -/
def Field.Bp : Int := 3

/-- Runs `body k` for `k = k0, k0+1, ...`, `n` times. -/
def loopFrom {σ : Type} (body : Int → σ → σ) : Nat → Int → σ → σ
  | 0, _, st => st
  | n + 1, k, st => loopFrom body n (k + 1) (body k st)

/-- The C loop `for(int k = lo; k <= hi; k++) body`. -/
def forLoop {σ : Type} (lo hi : Int) (body : Int → σ → σ) (st : σ) : σ :=
  loopFrom body (hi + 1 - lo).toNat lo st

/-- Local index bounds of the grid (globals of `Grid`). -/
structure Grid where
  (NsLlD NsLuD NmLlD NmLuD NzLlD NzLuD NkyLlD NkyLuD NxLlD NxLuD NvLlD NvLuD : Int)
  (NzLlB NzLuB NxLlB NxLuB NvLlB NvLuB : Int)
  (NzLB NxLB : Int)
  Nky : Int

/-- The fields of `Species` read by the derivative routines and set by `Plasma`.
`doGyro` is tested for truth (non-zero) by the routines. -/
structure Species where
  name : String
  (q m n0 T0 w_n w_T alpha sigma : ℚ)
  doGyro : Int
  gyroModel : String
  f0_str : String

/-- The local `const double sub = (species[s].doGyro) ? 3./2. : 1./2.;` that
opens the species loop of every derivative routine. -/
def Species.sub (sp : Species) : ℚ := if sp.doGyro ≠ 0 then 3 / 2 else 1 / 2

/-- What the member functions of `VlasovIsland` read from the object and from
its collaborators: grid bounds, the species table, `fft->ky`, `geo->get_kp`,
`geo->eps_hat`, `plasma->B0`, `plasma->beta`, `Nq`, stencil constants, the
island mode `i`, the tables `ky_filter`, `Psi0`, `Phi0`, the flag
`doNonLinear`, and the routine `calculateExBNonLinearity` of the base class,
here in its two call forms: with `(fs, Fields)` (electrostatic) and with
`(G, Xi)` (electromagnetic); each maps the buffer `nonLinearTerm` to its new
content. -/
structure VlasovIsland where
  grid : Grid
  species : Int → Species
  ky : Int → ℚ
  get_kp : Int → CComplex → Int → CComplex
  (eps_hat B0 beta : ℚ)
  Nq : Int
  (_kw_12_dx _kw_12_dx_dx dx : ℚ)
  i : Int
  ky_filter : Int → ℚ
  (Psi0 Phi0 : A3)
  doNonLinear : Bool
  calculateExBNonLinearity : A6 → AFields → Int → Int → Int → A3 → A3
  calculateExBNonLinearity_GXi : A4 → A4 → Int → Int → Int → A3 → A3

/-- The read-only array arguments of a derivative routine. -/
structure Inputs where
  (fs f0 f1 Coll : A6)
  Fields : AFields
  (MagIs dMagIs_dx V M : Int → ℚ)

/-- The arrays a derivative routine writes: `ft`, `fss`, the buffer
`nonLinearTerm` and, in the electromagnetic routine, `Xi`, `G`, `Xi_lin`,
`G_lin`. -/
structure RKState where
  ft : A6
  fss : A6
  nonLinearTerm : A3
  (Xi G Xi_lin G_lin : A4)

/-- The two closing assignments of every routine at the point `p`:
`ft[p] = rk[0]*ft[p] + rk[1]*dg_dt;`
`fss[p] = f1[p] + (rk[2]*ft[p] + dg_dt)*dt;`
the second statement reads `ft[p]` after the first one has written it. -/
def timeIntegrate (rk : Nat → ℚ) (dt : ℚ) (f1 : A6) (p : Idx6) (dg_dt : CComplex)
    (st : RKState) : RKState :=
  let st1 : RKState :=
    { st with ft := st.ft.set p (ofReal (rk 0) * st.ft p + ofReal (rk 1) * dg_dt) }
  { st1 with fss := st1.fss.set p (f1 p + (ofReal (rk 2) * st1.ft p + dg_dt) * ofReal dt) }

/-- The loop nest shared by the routines: species `s`, magnetic moment `m`
(where the electromagnetic routine first runs `setup s m`), position `z`, the
recomputation `nl s m z` of the buffer `nonLinearTerm`, then `y_k` from `ylo`
to `yhi`, `x` and `v`, with the tendency `dg_dt` of the routine evaluated on
the current buffer and folded into `ft`, `fss` by `timeIntegrate`. -/
def sweep (G : Grid) (ylo yhi : Int) (setup : Int → Int → RKState → RKState)
    (nl : Int → Int → Int → RKState → A3)
    (dg_dt : A3 → Idx6 → CComplex) (rk : Nat → ℚ) (dt : ℚ) (f1 : A6)
    (st : RKState) : RKState :=
  forLoop G.NsLlD G.NsLuD (fun s =>
    forLoop G.NmLlD G.NmLuD (fun m st =>
      forLoop G.NzLlD G.NzLuD (fun z st =>
        forLoop ylo yhi (fun y_k =>
          forLoop G.NxLlD G.NxLuD (fun x =>
            forLoop G.NvLlD G.NvLuD (fun v st =>
              timeIntegrate rk dt f1 ⟨s, m, z, y_k, x, v⟩
                (dg_dt st.nonLinearTerm ⟨s, m, z, y_k, x, v⟩) st)))
          { st with nonLinearTerm := nl s m z st })
        (setup s m st))) st

/-- The statement `if(doNonLinear && (rk_step != 0)) calculateExBNonLinearity(nullptr,
nullptr, fs, Fields, z, m, s, nonLinearTerm, Xi_max, false);`. -/
def recomputeNonLinear (self : VlasovIsland) (inp : Inputs) (rk_step : Int)
    (s m z : Int) (st : RKState) : A3 :=
  if self.doNonLinear = true ∧ rk_step ≠ 0 then
    self.calculateExBNonLinearity inp.fs inp.Fields z m s st.nonLinearTerm
  else st.nonLinearTerm

/-- Named locals of one iteration of an island-coupled routine.  The baseline
routine calls the three wavenumber factors `iky_1`, `iky_p1`, `iky_m1`; the
filtered and the legacy routine call them `ky_1`, `ky_p1`, `ky_m1`. -/
structure Locals where
  (ky_1 ky_p1 ky_m1 : CComplex)
  (phi_p1 phi_m1 dphi_dx_p1 dphi_dx_m1 Island_phi : CComplex)
  (dfs_dx_p1 dfs_dx_m1 fs_p1 fs_m1 Island_g : CComplex)
  dg_dt : CComplex

/-! ## `VlasovIsland::Vlasov_2D_Island` -/

/-- The body of the loops of `VlasovIsland::Vlasov_2D_Island` at the point
`p = [s][m][z][y_k][x][v]`; `dg_dt` is the value after the statement
`if(y_k == 0) dg_dt = creal(dg_dt);`.  The hyperviscosity locals `d4_dx_fs`,
`hypvisc_xy` and the locals `isGyro1`, `rho_t2` are computed by the source but
enter no stored value. -/
def Vlasov_2D_Island_locals (self : VlasovIsland) (inp : Inputs) (nonLinearTerm : A3)
    (p : Idx6) : Locals :=
  let s := p.s; let m := p.m; let z := p.z; let y_k := p.y_k; let x := p.x; let v := p.v
  let Nky := self.grid.Nky
  let fs := inp.fs; let Fields := inp.Fields
  let MagIs := inp.MagIs; let dMagIs_dx := inp.dMagIs_dx; let V := inp.V; let M := inp.M
  let _kw_12_dx := ofReal self._kw_12_dx
  let w_n := (self.species s).w_n
  let w_T := (self.species s).w_T
  let alpha := (self.species s).alpha
  let sigma := (self.species s).sigma
  let Temp := (self.species s).T0
  let sub := (self.species s).sub
  let kw_T : ℚ := 1 / Temp
  let iky := _imag * ofReal (self.ky y_k)
  let iky_1 := _imag * ofReal (self.ky 1)
  let iky_p1 := if y_k + 1 ≥ Nky - 1 then 0 else _imag * ofReal (self.ky (y_k + 1))
  let iky_m1 := _imag * ofReal (self.ky (y_k - 1))
  let phi_ := Fields Field.phi s m z y_k x
  let phi_p1 := if y_k + 1 ≥ Nky - 1 then 0 else Fields Field.phi s m z (y_k + 1) x
  let phi_m1 := if y_k - 1 < 0 then conj (Fields Field.phi s m z (1 - y_k) x)
    else Fields Field.phi s m z (y_k - 1) x
  let dphi_dx_p1 := if y_k + 1 ≥ Nky - 1 then 0
    else (8 * (Fields Field.phi s m z (y_k + 1) (x + 1) - Fields Field.phi s m z (y_k + 1) (x - 1))
          - (Fields Field.phi s m z (y_k + 1) (x + 2) - Fields Field.phi s m z (y_k + 1) (x - 2)))
         * _kw_12_dx
  let dphi_dx_m1 := if y_k - 1 < 0
    then conj (8 * (Fields Field.phi s m z (1 - y_k) (x + 1) - Fields Field.phi s m z (1 - y_k) (x - 1))
          - (Fields Field.phi s m z (1 - y_k) (x + 2) - Fields Field.phi s m z (1 - y_k) (x - 2)))
         * _kw_12_dx
    else (8 * (Fields Field.phi s m z (y_k - 1) (x + 1) - Fields Field.phi s m z (y_k - 1) (x - 1))
          - (Fields Field.phi s m z (y_k - 1) (x + 2) - Fields Field.phi s m z (y_k - 1) (x - 2)))
         * _kw_12_dx
  let Island_phi := ofReal (dMagIs_dx x) * (iky_m1 * phi_m1 + iky_p1 * phi_p1)
    - ofReal (MagIs x) * iky_1 * (dphi_dx_m1 - dphi_dx_p1)
  let ikp := self.get_kp x iky z
  let g := fs ⟨s, m, z, y_k, x, v⟩
  let f0_ := inp.f0 ⟨s, m, z, y_k, x, v⟩
  let dfs_dx_p1 := if y_k + 1 ≥ Nky - 1 then 0
    else (8 * (fs ⟨s, m, z, y_k + 1, x + 1, v⟩ - fs ⟨s, m, z, y_k + 1, x - 1, v⟩)
          - (fs ⟨s, m, z, y_k + 1, x + 2, v⟩ - fs ⟨s, m, z, y_k + 1, x - 2, v⟩)) * _kw_12_dx
  let dfs_dx_m1 := if y_k - 1 < 0
    then conj (8 * (fs ⟨s, m, z, 1 - y_k, x + 1, v⟩ - fs ⟨s, m, z, 1 - y_k, x - 1, v⟩)
          - (fs ⟨s, m, z, 1 - y_k, x + 2, v⟩ - fs ⟨s, m, z, 1 - y_k, x - 2, v⟩)) * _kw_12_dx
    else (8 * (fs ⟨s, m, z, y_k - 1, x + 1, v⟩ - fs ⟨s, m, z, y_k - 1, x - 1, v⟩)
          - (fs ⟨s, m, z, y_k - 1, x + 2, v⟩ - fs ⟨s, m, z, y_k - 1, x - 2, v⟩)) * _kw_12_dx
  let fs_p1 := if y_k + 1 ≥ Nky - 1 then 0 else fs ⟨s, m, z, y_k + 1, x, v⟩
  let fs_m1 := if y_k - 1 < 0 then conj (fs ⟨s, m, z, 1 - y_k, x, v⟩)
    else fs ⟨s, m, z, y_k - 1, x, v⟩
  let Island_g := ofReal (dMagIs_dx x) * (iky_m1 * fs_m1 + iky_p1 * fs_p1)
    - ofReal (MagIs x) * iky_1 * (dfs_dx_m1 - dfs_dx_p1)
  let dg_dt :=
    ofReal (-alpha * V v) * (Island_g + ofReal sigma * Island_phi * f0_)
    + nonLinearTerm y_k x v
    - iky * ofReal (w_n + w_T * (((V v * V v) + M m) * kw_T - sub)) * f0_ * phi_
    - ofReal (alpha * V v) * ikp * (g + ofReal sigma * phi_ * f0_)
    + inp.Coll ⟨s, m, z, y_k, x, v⟩
  let dg_dt := if y_k = 0 then creal dg_dt else dg_dt
  { ky_1 := iky_1, ky_p1 := iky_p1, ky_m1 := iky_m1,
    phi_p1 := phi_p1, phi_m1 := phi_m1, dphi_dx_p1 := dphi_dx_p1, dphi_dx_m1 := dphi_dx_m1,
    Island_phi := Island_phi,
    dfs_dx_p1 := dfs_dx_p1, dfs_dx_m1 := dfs_dx_m1, fs_p1 := fs_p1, fs_m1 := fs_m1,
    Island_g := Island_g, dg_dt := dg_dt }

/-- The tendency `dg_dt` that `Vlasov_2D_Island` folds into `ft` and `fss`. -/
def Vlasov_2D_Island_dg_dt (self : VlasovIsland) (inp : Inputs) (nonLinearTerm : A3)
    (p : Idx6) : CComplex :=
  (Vlasov_2D_Island_locals self inp nonLinearTerm p).dg_dt

/-- The routine `VlasovIsland::Vlasov_2D_Island`: the mode loop is
`for(int y_k = 0; y_k < Nky-1; y_k++)` (the Nyquist mode is not evolved).
The copy of `Psi0` into `Field0` made when `Nq > 1` writes an array that the
routine does not read and is not part of the state here. -/
def Vlasov_2D_Island (self : VlasovIsland) (inp : Inputs) (st : RKState)
    (dt : ℚ) (rk_step : Int) (rk : Nat → ℚ) : RKState :=
  sweep self.grid 0 (self.grid.Nky - 2) (fun _ _ st => st) (recomputeNonLinear self inp rk_step)
    (Vlasov_2D_Island_dg_dt self inp) rk dt inp.f1 st

/-! ## `VlasovIsland::Vlasov_2D_Island_orig` -/

/-- The body of the loops of `VlasovIsland::Vlasov_2D_Island_orig` at the point
`p`: the stencils of the baseline routine, `Island_phi` and `Island_g` with
the opposite signs, and no projection of mode 0 on its real part. -/
def Vlasov_2D_Island_orig_locals (self : VlasovIsland) (inp : Inputs) (nonLinearTerm : A3)
    (p : Idx6) : Locals :=
  let s := p.s; let m := p.m; let z := p.z; let y_k := p.y_k; let x := p.x; let v := p.v
  let Nky := self.grid.Nky
  let fs := inp.fs; let Fields := inp.Fields
  let MagIs := inp.MagIs; let dMagIs_dx := inp.dMagIs_dx; let V := inp.V; let M := inp.M
  let _kw_12_dx := ofReal self._kw_12_dx
  let w_n := (self.species s).w_n
  let w_T := (self.species s).w_T
  let alpha := (self.species s).alpha
  let sigma := (self.species s).sigma
  let Temp := (self.species s).T0
  let sub := (self.species s).sub
  let kw_T : ℚ := 1 / Temp
  let ky := _imag * ofReal (self.ky y_k)
  let ky_1 := _imag * ofReal (self.ky 1)
  let ky_p1 := if y_k + 1 ≥ Nky - 1 then 0 else _imag * ofReal (self.ky (y_k + 1))
  let ky_m1 := _imag * ofReal (self.ky (y_k - 1))
  let phi_ := Fields Field.phi s m z y_k x
  let phi_p1 := if y_k + 1 ≥ Nky - 1 then 0 else Fields Field.phi s m z (y_k + 1) x
  let phi_m1 := if y_k - 1 < 0 then conj (Fields Field.phi s m z (1 - y_k) x)
    else Fields Field.phi s m z (y_k - 1) x
  let dphi_dx_p1 := if y_k + 1 ≥ Nky - 1 then 0
    else (8 * (Fields Field.phi s m z (y_k + 1) (x + 1) - Fields Field.phi s m z (y_k + 1) (x - 1))
          - (Fields Field.phi s m z (y_k + 1) (x + 2) - Fields Field.phi s m z (y_k + 1) (x - 2)))
         * _kw_12_dx
  let dphi_dx_m1 := if y_k - 1 < 0
    then conj (8 * (Fields Field.phi s m z (1 - y_k) (x + 1) - Fields Field.phi s m z (1 - y_k) (x - 1))
          - (Fields Field.phi s m z (1 - y_k) (x + 2) - Fields Field.phi s m z (1 - y_k) (x - 2)))
         * _kw_12_dx
    else (8 * (Fields Field.phi s m z (y_k - 1) (x + 1) - Fields Field.phi s m z (y_k - 1) (x - 1))
          - (Fields Field.phi s m z (y_k - 1) (x + 2) - Fields Field.phi s m z (y_k - 1) (x - 2)))
         * _kw_12_dx
  let Island_phi := ofReal (-dMagIs_dx x) * (ky_m1 * phi_m1 + ky_p1 * phi_p1)
    + ofReal (MagIs x) * ky_1 * (dphi_dx_m1 - dphi_dx_p1)
  let kp := self.get_kp x ky z
  let g := fs ⟨s, m, z, y_k, x, v⟩
  let f0_ := inp.f0 ⟨s, m, z, y_k, x, v⟩
  let dfs_dx_p1 := if y_k + 1 ≥ Nky - 1 then 0
    else (8 * (fs ⟨s, m, z, y_k + 1, x + 1, v⟩ - fs ⟨s, m, z, y_k + 1, x - 1, v⟩)
          - (fs ⟨s, m, z, y_k + 1, x + 2, v⟩ - fs ⟨s, m, z, y_k + 1, x - 2, v⟩)) * _kw_12_dx
  let dfs_dx_m1 := if y_k - 1 < 0
    then conj (8 * (fs ⟨s, m, z, 1 - y_k, x + 1, v⟩ - fs ⟨s, m, z, 1 - y_k, x - 1, v⟩)
          - (fs ⟨s, m, z, 1 - y_k, x + 2, v⟩ - fs ⟨s, m, z, 1 - y_k, x - 2, v⟩)) * _kw_12_dx
    else (8 * (fs ⟨s, m, z, y_k - 1, x + 1, v⟩ - fs ⟨s, m, z, y_k - 1, x - 1, v⟩)
          - (fs ⟨s, m, z, y_k - 1, x + 2, v⟩ - fs ⟨s, m, z, y_k - 1, x - 2, v⟩)) * _kw_12_dx
  let fs_p1 := if y_k + 1 ≥ Nky - 1 then 0 else fs ⟨s, m, z, y_k + 1, x, v⟩
  let fs_m1 := if y_k - 1 < 0 then conj (fs ⟨s, m, z, 1 - y_k, x, v⟩)
    else fs ⟨s, m, z, y_k - 1, x, v⟩
  let Island_g := ofReal (-dMagIs_dx x) * (ky_m1 * fs_m1 + ky_p1 * fs_p1)
    + ofReal (MagIs x) * ky_1 * (dfs_dx_m1 - dfs_dx_p1)
  let dg_dt :=
    ofReal (-alpha * V v) * (Island_g + ofReal sigma * Island_phi * f0_)
    + nonLinearTerm y_k x v
    - ky * ofReal (w_n + w_T * (((V v * V v) + M m) * kw_T - sub)) * f0_ * phi_
    - ofReal (alpha * V v) * kp * (g + ofReal sigma * phi_ * f0_)
    + inp.Coll ⟨s, m, z, y_k, x, v⟩
  { ky_1 := ky_1, ky_p1 := ky_p1, ky_m1 := ky_m1,
    phi_p1 := phi_p1, phi_m1 := phi_m1, dphi_dx_p1 := dphi_dx_p1, dphi_dx_m1 := dphi_dx_m1,
    Island_phi := Island_phi,
    dfs_dx_p1 := dfs_dx_p1, dfs_dx_m1 := dfs_dx_m1, fs_p1 := fs_p1, fs_m1 := fs_m1,
    Island_g := Island_g, dg_dt := dg_dt }

/-- The tendency `dg_dt` that `Vlasov_2D_Island_orig` folds into `ft` and `fss`. -/
def Vlasov_2D_Island_orig_dg_dt (self : VlasovIsland) (inp : Inputs) (nonLinearTerm : A3)
    (p : Idx6) : CComplex :=
  (Vlasov_2D_Island_orig_locals self inp nonLinearTerm p).dg_dt

/-- The routine `VlasovIsland::Vlasov_2D_Island_orig`; the mode loop is
`for(int y_k=NkyLlD; y_k<= NkyLuD;y_k++)`. -/
def Vlasov_2D_Island_orig (self : VlasovIsland) (inp : Inputs) (st : RKState)
    (dt : ℚ) (rk_step : Int) (rk : Nat → ℚ) : RKState :=
  sweep self.grid self.grid.NkyLlD self.grid.NkyLuD (fun _ _ st => st)
    (recomputeNonLinear self inp rk_step)
    (Vlasov_2D_Island_orig_dg_dt self inp) rk dt inp.f1 st

/-! ## `VlasovIsland::Vlasov_2D_Island_Equi` -/

/-- The tendency `dg_dt` of `VlasovIsland::Vlasov_2D_Island_Equi` at the point
`p`.  The routine has no parameter `dMagIs_dx`: the name in
`kp = geo->get_kp(x, ky, z) - dMagIs_dx[x] * ky` is the member array, the one
`solve` passes to the other routines.  The locals `dphi_dx`, `dfs_dv`,
`ddfs_dvv`, `isGyro1`, `rho_t2` enter no stored value. -/
def Vlasov_2D_Island_Equi_dg_dt (self : VlasovIsland) (inp : Inputs) (nonLinearTerm : A3)
    (p : Idx6) : CComplex :=
  let s := p.s; let m := p.m; let z := p.z; let y_k := p.y_k; let x := p.x; let v := p.v
  let fs := inp.fs; let Fields := inp.Fields
  let dMagIs_dx := inp.dMagIs_dx; let V := inp.V; let M := inp.M
  let w_n := (self.species s).w_n
  let w_T := (self.species s).w_T
  let alpha := (self.species s).alpha
  let sigma := (self.species s).sigma
  let Temp := (self.species s).T0
  let sub := (self.species s).sub
  let kw_T : ℚ := 1 / Temp
  let ky := _imag * ofReal (self.ky y_k)
  let phi_ := Fields Field.phi s m z y_k x
  let kp := self.get_kp x ky z - ofReal (dMagIs_dx x) * ky
  let half_eta_kperp2_phi : CComplex := 0
  let g := fs ⟨s, m, z, y_k, x, v⟩
  let f0_ := inp.f0 ⟨s, m, z, y_k, x, v⟩
  nonLinearTerm y_k x v
  + ky * (ofReal (-(w_n + w_T * (((V v * V v) + M m) * kw_T - sub))) * f0_ * phi_
          - half_eta_kperp2_phi * f0_)
  - ofReal (alpha * V v) * kp * (g + ofReal sigma * phi_ * f0_)
  + inp.Coll ⟨s, m, z, y_k, x, v⟩

/-- The routine `VlasovIsland::Vlasov_2D_Island_Equi`. -/
def Vlasov_2D_Island_Equi (self : VlasovIsland) (inp : Inputs) (st : RKState)
    (dt : ℚ) (rk_step : Int) (rk : Nat → ℚ) : RKState :=
  sweep self.grid self.grid.NkyLlD self.grid.NkyLuD (fun _ _ st => st)
    (recomputeNonLinear self inp rk_step)
    (Vlasov_2D_Island_Equi_dg_dt self inp) rk dt inp.f1 st

/-! ## `VlasovIsland::Vlasov_2D_Island_filter` -/

/-- Division of a `CComplex` by a `double`. -/
def CComplex.divReal (a : CComplex) (r : ℚ) : CComplex := ⟨a.re / r, a.im / r⟩

/-- The body of the loops of `VlasovIsland::Vlasov_2D_Island_filter` at the
point `p`, with the member `i` as mode offset.  The source is followed to the
letter: `dfs_dx_p1` tests `(y_k+i) >= Nky-i`, and both branches of
`dfs_dx_m1` index the mode `i-y_k`.  The locals `dphi_dx`, `dfs_dv`,
`ddfs_dvv` enter no stored value. -/
def Vlasov_2D_Island_filter_locals (self : VlasovIsland) (inp : Inputs) (nonLinearTerm : A3)
    (p : Idx6) : Locals :=
  let s := p.s; let m := p.m; let z := p.z; let y_k := p.y_k; let x := p.x; let v := p.v
  let Nky := self.grid.Nky
  let i := self.i
  let dx := self.dx
  let fs := inp.fs; let Fields := inp.Fields
  let MagIs := inp.MagIs; let dMagIs_dx := inp.dMagIs_dx; let V := inp.V; let M := inp.M
  let _kw_12_dx := ofReal self._kw_12_dx
  let _kw_12_dx_dx := ofReal self._kw_12_dx_dx
  let w_n := (self.species s).w_n
  let w_T := (self.species s).w_T
  let alpha := (self.species s).alpha
  let sigma := (self.species s).sigma
  let Temp := (self.species s).T0
  let sub := (self.species s).sub
  let kw_T : ℚ := 1 / Temp
  let isGyro1 : Bool := (self.species s).gyroModel = "Gyro-1"
  let rho_t2 : ℚ := (self.species s).T0 * (self.species s).m
    / (((self.species s).q * (self.species s).q) * self.B0)
  let ky := _imag * ofReal (self.ky y_k)
  let ky_1 := _imag * ofReal (self.ky i)
  let ky_p1 := if y_k + i ≥ Nky - 1 then 0 else _imag * ofReal (self.ky (y_k + i))
  let ky_m1 := _imag * ofReal (self.ky (y_k - i))
  let phi_ := Fields Field.phi s m z y_k x
  let phi_p1 := if y_k + i ≥ Nky - 1 then 0 else Fields Field.phi s m z (y_k + i) x
  let phi_m1 := if y_k - i < 0 then conj (Fields Field.phi s m z (i - y_k) x)
    else Fields Field.phi s m z (y_k - i) x
  let dphi_dx_p1 := if y_k + i ≥ Nky - 1 then 0
    else (8 * (Fields Field.phi s m z (y_k + i) (x + 1) - Fields Field.phi s m z (y_k + i) (x - 1))
          - (Fields Field.phi s m z (y_k + i) (x + 2) - Fields Field.phi s m z (y_k + i) (x - 2)))
         * _kw_12_dx
  let dphi_dx_m1 := if y_k - i < 0
    then conj (8 * (Fields Field.phi s m z (i - y_k) (x + 1) - Fields Field.phi s m z (i - y_k) (x - 1))
          - (Fields Field.phi s m z (i - y_k) (x + 2) - Fields Field.phi s m z (i - y_k) (x - 2)))
         * _kw_12_dx
    else (8 * (Fields Field.phi s m z (y_k - i) (x + 1) - Fields Field.phi s m z (y_k - i) (x - 1))
          - (Fields Field.phi s m z (y_k - i) (x + 2) - Fields Field.phi s m z (y_k - i) (x - 2)))
         * _kw_12_dx
  let Island_phi := ofReal (dMagIs_dx x) * (ky_m1 * phi_m1 + ky_p1 * phi_p1)
    - ofReal (MagIs x) * ky_1 * (dphi_dx_m1 - dphi_dx_p1)
  let kp := self.get_kp x ky z
  let half_eta_kperp2_phi : CComplex :=
    if isGyro1 = true then
      let ddphi_dx_dx :=
        (16 * (Fields Field.phi s m z y_k (x + 1) + Fields Field.phi s m z y_k (x - 1))
          - (Fields Field.phi s m z y_k (x + 2) + Fields Field.phi s m z y_k (x - 2))
          - 30 * phi_) * _kw_12_dx_dx
      ofReal (rho_t2 * (1 / 2) * w_T) * ((ky * ky) * phi_ + ddphi_dx_dx)
    else 0
  let g := fs ⟨s, m, z, y_k, x, v⟩
  let f0_ := inp.f0 ⟨s, m, z, y_k, x, v⟩
  let dfs_dx_p1 := if y_k + i ≥ Nky - i then 0
    else CComplex.divReal
      (-fs ⟨s, m, z, y_k + i, x + 2, v⟩ + 6 * fs ⟨s, m, z, y_k + i, x + 1, v⟩
        - 3 * fs ⟨s, m, z, y_k + i, x, v⟩ - 2 * fs ⟨s, m, z, y_k + i, x - 1, v⟩) (6 * dx)
  let dfs_dx_m1 := if y_k - i < 0
    then CComplex.divReal
      (conj (-fs ⟨s, m, z, i - y_k, x + 2, v⟩ + 6 * fs ⟨s, m, z, i - y_k, x + 1, v⟩
        - 3 * fs ⟨s, m, z, i - y_k, x, v⟩ - 2 * fs ⟨s, m, z, i - y_k, x - 1, v⟩)) (6 * dx)
    else CComplex.divReal
      (-fs ⟨s, m, z, i - y_k, x + 2, v⟩ + 6 * fs ⟨s, m, z, i - y_k, x + 1, v⟩
        - 3 * fs ⟨s, m, z, i - y_k, x, v⟩ - 2 * fs ⟨s, m, z, i - y_k, x - 1, v⟩) (6 * dx)
  let fs_p1 := if y_k + i ≥ Nky - 1 then 0 else fs ⟨s, m, z, y_k + i, x, v⟩
  let fs_m1 := if y_k - i < 0 then conj (fs ⟨s, m, z, i - y_k, x, v⟩)
    else fs ⟨s, m, z, y_k - i, x, v⟩
  let Island_g := ofReal (dMagIs_dx x) * (ky_m1 * fs_m1 + ky_p1 * fs_p1)
    - ofReal (MagIs x) * ky_1 * (dfs_dx_m1 - dfs_dx_p1)
  let dg_dt :=
    ofReal (self.ky_filter y_k) * (
      ofReal (-alpha * V v) * (Island_g + ofReal sigma * Island_phi * f0_)
      + nonLinearTerm y_k x v
      + ky * (ofReal (-(w_n + w_T * (((V v * V v) + M m) * kw_T - sub))) * f0_ * phi_
              - half_eta_kperp2_phi * f0_)
      - ofReal (alpha * V v) * kp * (g + ofReal sigma * phi_ * f0_)
      + inp.Coll ⟨s, m, z, y_k, x, v⟩)
  { ky_1 := ky_1, ky_p1 := ky_p1, ky_m1 := ky_m1,
    phi_p1 := phi_p1, phi_m1 := phi_m1, dphi_dx_p1 := dphi_dx_p1, dphi_dx_m1 := dphi_dx_m1,
    Island_phi := Island_phi,
    dfs_dx_p1 := dfs_dx_p1, dfs_dx_m1 := dfs_dx_m1, fs_p1 := fs_p1, fs_m1 := fs_m1,
    Island_g := Island_g, dg_dt := dg_dt }

/-- The tendency `dg_dt` that `Vlasov_2D_Island_filter` folds into `ft` and `fss`. -/
def Vlasov_2D_Island_filter_dg_dt (self : VlasovIsland) (inp : Inputs) (nonLinearTerm : A3)
    (p : Idx6) : CComplex :=
  (Vlasov_2D_Island_filter_locals self inp nonLinearTerm p).dg_dt

/-- The routine `VlasovIsland::Vlasov_2D_Island_filter`. -/
def Vlasov_2D_Island_filter (self : VlasovIsland) (inp : Inputs) (st : RKState)
    (dt : ℚ) (rk_step : Int) (rk : Nat → ℚ) : RKState :=
  sweep self.grid self.grid.NkyLlD self.grid.NkyLuD (fun _ _ st => st)
    (recomputeNonLinear self inp rk_step)
    (Vlasov_2D_Island_filter_dg_dt self inp) rk dt inp.f1 st

/-! ## `VlasovIsland::Vlasov_2D_Island_EM` and the `Xi`/`G` set-up -/

/-- The pair of arrays `(Xi, G)` written by `setupXiAndG` and `setupXiAndG_lin`. -/
structure XiG where
  Xi : A4
  G : A4

/-- The routine `VlasovIsland::setupXiAndG`.  An array-section assignment
`Xi[z][y_k][lo:2][v] = ...` is the loop over the two indices `lo`, `lo+1`. -/
def setupXiAndG (self : VlasovIsland) (g f0 : A6) (Fields : AFields) (V M : Int → ℚ)
    (st : XiG) (m s : Int) : XiG :=
  let G := self.grid
  let sigma := (self.species s).sigma
  let aeb : ℚ := (self.species s).alpha * self.eps_hat * self.beta
  let useAp : Bool := decide (self.Nq ≥ 2)
  let useBp : Bool := decide (self.Nq ≥ 3)
  let XiVal := fun (z y_k x v : Int) =>
    Fields Field.phi s m z y_k x
      - (if useAp = true then ofReal (aeb * V v) * Fields Field.Ap s m z y_k x else 0)
      - (if useBp = true then ofReal (aeb * M m) * Fields Field.Bp s m z y_k x else 0)
  forLoop G.NzLlB G.NzLuB (fun z =>
    forLoop G.NkyLlD G.NkyLuD (fun y_k st =>
      forLoop G.NvLlB G.NvLuB (fun v st =>
          let st := forLoop (G.NxLlB - 2) (G.NxLlB - 2 + 2 - 1)
            (fun x st => { st with Xi := st.Xi.set z y_k x v (XiVal z y_k x v) }) st
          forLoop (G.NxLuB + 1) (G.NxLuB + 1 + 2 - 1)
            (fun x st => { st with Xi := st.Xi.set z y_k x v (XiVal z y_k x v) }) st)
        (forLoop G.NxLlB G.NxLuB (fun x =>
          forLoop G.NvLlB G.NvLuB (fun v st =>
            { Xi := st.Xi.set z y_k x v (XiVal z y_k x v),
              G := st.G.set z y_k x v
                (g ⟨s, m, z, y_k, x, v⟩
                  + ofReal sigma * Fields Field.phi s m z y_k x * f0 ⟨s, m, z, y_k, x, v⟩) })) st))) st

/-- The routine `VlasovIsland::setupXiAndG_lin`. -/
def setupXiAndG_lin (self : VlasovIsland) (g f0 : A6) (Fields : AFields) (V : Int → ℚ)
    (Phi0 : A3) (st : XiG) (m s : Int) : XiG :=
  let G := self.grid
  let sigma := (self.species s).sigma
  let aeb : ℚ := (self.species s).alpha * self.eps_hat * self.beta
  forLoop G.NzLlB G.NzLuB (fun z =>
    forLoop G.NkyLlD G.NkyLuD (fun y_k st =>
      forLoop G.NvLlB G.NvLuB (fun v st =>
          let st := forLoop (G.NxLlB - 2) (G.NxLlB - 2 + 2 - 1)
            (fun x st =>
              { st with Xi := st.Xi.set z y_k x v (ofReal (-aeb * V v) * Fields Field.Ap s m z y_k x) })
            st
          forLoop (G.NxLuB + 1) (G.NxLuB + 1 + 2 - 1)
            (fun x st =>
              { st with Xi := st.Xi.set z y_k x v (ofReal (-aeb * V v) * Fields Field.Ap s m z y_k x) })
            st)
        (forLoop G.NxLlB G.NxLuB (fun x =>
          forLoop G.NvLlB G.NvLuB (fun v st =>
            { Xi := st.Xi.set z y_k x v
                (Phi0 z y_k x - ofReal (aeb * V v) * Fields Field.Ap s m z y_k x),
              G := st.G.set z y_k x v
                (g ⟨s, m, z, y_k, x, v⟩
                  + ofReal sigma * Fields Field.phi s m z y_k x * f0 ⟨s, m, z, y_k, x, v⟩) })) st))) st

/-- The array-section assignment that opens `Vlasov_2D_Island_EM`, for every
owned `s`, `m`:
`Fields[Field::Ap][s][m][NzLlB:NzLB][0:Nky][NxLlB-2:NxLB+4] = Psi0[NzLlB:NzLB][0:Nky][NxLlB-2:NxLB+4];` -/
def Fields_setAp (G : Grid) (Psi0 : A3) (Fields : AFields) : AFields :=
  fun q s m z y_k x =>
    if q = Field.Ap ∧ G.NsLlD ≤ s ∧ s ≤ G.NsLuD ∧ G.NmLlD ≤ m ∧ m ≤ G.NmLuD
        ∧ G.NzLlB ≤ z ∧ z < G.NzLlB + G.NzLB ∧ 0 ≤ y_k ∧ y_k < G.Nky
        ∧ G.NxLlB - 2 ≤ x ∧ x < G.NxLlB - 2 + (G.NxLB + 4)
    then Psi0 z y_k x else Fields q s m z y_k x

/-- The tendency `dg_dt` of `VlasovIsland::Vlasov_2D_Island_EM` at the point
`p`; `Fields` is the array after `Fields_setAp`.  The locals `dphi_dx`, `G_`,
`Xi_`, `isGyro1` enter no stored value. -/
def Vlasov_2D_Island_EM_dg_dt (self : VlasovIsland) (inp : Inputs) (Fields : AFields)
    (nonLinearTerm : A3) (p : Idx6) : CComplex :=
  let s := p.s; let m := p.m; let z := p.z; let y_k := p.y_k; let x := p.x; let v := p.v
  let fs := inp.fs
  let V := inp.V; let M := inp.M
  let w_n := (self.species s).w_n
  let w_T := (self.species s).w_T
  let alpha := (self.species s).alpha
  let sigma := (self.species s).sigma
  let Temp := (self.species s).T0
  let sub := (self.species s).sub
  let phi_ := Fields Field.phi s m z y_k x
  let ky := _imag * ofReal |self.ky y_k|
  let kp := self.get_kp x ky z
  let g := fs ⟨s, m, z, y_k, x, v⟩
  let f0_ := inp.f0 ⟨s, m, z, y_k, x, v⟩
  nonLinearTerm y_k x v
  - ky * ofReal (w_n + w_T * ((V v * V v + M m) / Temp - sub)) * f0_ * phi_
  - ofReal (alpha * V v) * kp * (g + ofReal sigma * phi_ * f0_)
  + inp.Coll ⟨s, m, z, y_k, x, v⟩

/-- The statement of the `m` loop of `Vlasov_2D_Island_EM`:
`if(doNonLinear) setupXiAndG(fs, f0, Fields, Xi, G, Phi0, m, s);`
`else setupXiAndG_lin(fs, f0, Fields, Xi_lin, G_lin, Phi0, m, s);` -/
def Vlasov_2D_Island_EM_setup (self : VlasovIsland) (inp : Inputs) (Fields : AFields)
    (s m : Int) (st : RKState) : RKState :=
  if self.doNonLinear = true then
    let r := setupXiAndG self inp.fs inp.f0 Fields inp.V inp.M ⟨st.Xi, st.G⟩ m s
    { st with Xi := r.Xi, G := r.G }
  else
    let r := setupXiAndG_lin self inp.fs inp.f0 Fields inp.V self.Phi0 ⟨st.Xi_lin, st.G_lin⟩ m s
    { st with Xi_lin := r.Xi, G_lin := r.G }

/-- The statement of the `z` loop of `Vlasov_2D_Island_EM`:
`if(doNonLinear && (rk_step != 0)) calculateExBNonLinearity(G, Xi, nullptr, nullptr, z, m, s, nonLinearTerm, Xi_max, true);`
`else calculateExBNonLinearity(G_lin, Xi_lin, nullptr, nullptr, z, m, s, nonLinearTerm, Xi_max, true);` -/
def Vlasov_2D_Island_EM_nonLinear (self : VlasovIsland) (rk_step : Int)
    (s m z : Int) (st : RKState) : A3 :=
  if self.doNonLinear = true ∧ rk_step ≠ 0 then
    self.calculateExBNonLinearity_GXi st.G st.Xi z m s st.nonLinearTerm
  else
    self.calculateExBNonLinearity_GXi st.G_lin st.Xi_lin z m s st.nonLinearTerm

/-- The routine `VlasovIsland::Vlasov_2D_Island_EM`.  The overwritten `Fields`
and the copy of `Psi0` into `Field0` are not returned. -/
def Vlasov_2D_Island_EM (self : VlasovIsland) (inp : Inputs) (st : RKState)
    (dt : ℚ) (rk_step : Int) (rk : Nat → ℚ) : RKState :=
  let Fields := Fields_setAp self.grid self.Psi0 inp.Fields
  sweep self.grid self.grid.NkyLlD self.grid.NkyLuD
    (Vlasov_2D_Island_EM_setup self inp Fields)
    (Vlasov_2D_Island_EM_nonLinear self rk_step)
    (Vlasov_2D_Island_EM_dg_dt self inp Fields) rk dt inp.f1 st

/-! ## `VlasovIsland::solve` -/

/-- The routine `VlasovIsland::solve`: the chain of string comparisons; the
fatal `check(-1, DMESG("No Such Equation"))` is the error result. -/
def solve (self : VlasovIsland) (equation_type : String) (inp : Inputs) (st : RKState)
    (dt : ℚ) (rk_step : Int) (rk : Nat → ℚ) : Except String RKState :=
  if equation_type = "2D_Island" then
    .ok (Vlasov_2D_Island self inp st dt rk_step rk)
  else if equation_type = "2D_Island_Orig" then
    .ok (Vlasov_2D_Island self inp st dt rk_step rk)
  else if equation_type = "2D_Island_EM" then
    .ok (Vlasov_2D_Island_EM self inp st dt rk_step rk)
  else if equation_type = "2D_Island_Filter" then
    .ok (Vlasov_2D_Island_filter self inp st dt rk_step rk)
  else if equation_type = "2D_Island_Equi" then
    .ok (Vlasov_2D_Island_Equi self inp st dt rk_step rk)
  else .error "No Such Equation"

/-! ## Species set-up of `Plasma::Plasma` -/

/-- The configuration `Setup`: the value stored under a key, as text and as
number, when the key is configured. -/
structure Setup where
  str : String → Option String
  num : String → Option ℚ
  int : String → Option Int

/-- The call `setup->get(key, dflt)` with a string default. -/
def Setup.get (setup : Setup) (key dflt : String) : String := (setup.str key).getD dflt

/-- The call `setup->get(key, dflt)` with a `double` default. -/
def Setup.getNum (setup : Setup) (key : String) (dflt : ℚ) : ℚ := (setup.num key).getD dflt

/-- The call `setup->get(key, dflt)` with an `int` default. -/
def Setup.getInt (setup : Setup) (key : String) (dflt : Int) : Int := (setup.int key).getD dflt

/-- The call `snprintf(buf, n, "%s", str)`: nothing is written when `n = 0`,
otherwise the first `n - 1` characters of `str` and the terminating null
(lengths are counted in characters, as for names in ASCII). -/
def snprintf (buf : String) (n : Nat) (str : String) : String :=
  if n = 0 then buf else str.take (n - 1)

/-- Modelled from the spec: `Species::update(geo, cs)` is declared in
`Plasma.h`, which is not among the sources; it fills the derived scaling
factors of the record, here the two the routines read, `alpha` and `sigma`,
from the maps `alphaOf`, `sigmaOf`. -/
def Species.update (alphaOf sigmaOf : Species → ℚ) (sp : Species) : Species :=
  { sp with alpha := alphaOf sp, sigma := sigmaOf sp }

/-- The assignments of one pass of the loop `for(int s = 1; s <= SPECIES_MAX; s++)`
of `Plasma::Plasma` up to the mass check, on the record `sp = species[s]`. -/
def Plasma_readSpecies (setup : Setup) (Nm : Int) (s : Int) (sp : Species) : Species :=
  let key := "Plasma.Species" ++ toString s
  let species_name := setup.get (key ++ ".Name") "Unnamed"
  let name := snprintf sp.name (min 64 species_name.length) species_name
  let m := setup.getNum (key ++ ".Mass") 1
  let n0 := setup.getNum (key ++ ".Density") 0
  let T0 := setup.getNum (key ++ ".Temperature") 1
  let q := setup.getNum (key ++ ".Charge") 1
  let gyroModel := setup.get (key ++ ".gyroModel") (if Nm > 1 then "Gyro" else "Gyro-1")
  let doGyro : Int := if gyroModel = "Gyro" then 1 else 0
  let f0_str :=
    if doGyro ≠ 0 then setup.get (key ++ ".F0") "n/(pi*T)^1.5*exp(-v^2/T)*exp(-m/T)"
    else setup.get (key ++ ".F0") "n/(pi*T)^1.5*exp(-v^2/T)*T/Nm"
  { name := name, q := q, m := m, n0 := n0, T0 := T0, w_n := sp.w_n, w_T := sp.w_T,
    alpha := sp.alpha, sigma := sp.sigma, doGyro := doGyro, gyroModel := gyroModel,
    f0_str := f0_str }

/-- One pass of the loop over the kinetic species of `Plasma::Plasma`: the
record is read, a mass below `1.e-10` is fatal, the gradient drives `w_T`,
`w_n` are read in the local (not `global`) case, and `update` is called.  The
radial profiles `n[x]`, `T[x]` and their parsers are not part of the record. -/
def Plasma_kineticSpecies (setup : Setup) (Nm : Int) (global : Bool)
    (alphaOf sigmaOf : Species → ℚ) (s : Int) (sp : Species) : Except String Species :=
  let key := "Plasma.Species" ++ toString s
  let sp := Plasma_readSpecies setup Nm s sp
  if sp.m < 1 / 10 ^ 10 then
    .error ("Mass for species " ++ sp.name ++ " choosen too low")
  else
    let sp := if global = true then sp
      else { sp with w_T := setup.getNum (key ++ ".w_T") 0, w_n := setup.getNum (key ++ ".w_n") 0 }
    .ok (Species.update alphaOf sigmaOf sp)

/-! ## Relations between two states of a routine, used to follow one point through the loops -/

/-- The arrays of a state other than `ft` and `fss`. -/
def RKState.aux (st : RKState) : A3 × A4 × A4 × A4 × A4 :=
  (st.nonLinearTerm, st.Xi, st.G, st.Xi_lin, st.G_lin)

/-- The state `st1` has the entries `ft[p]`, `fss[p]` and the other arrays of `st`. -/
def SameAt (p : Idx6) (st st1 : RKState) : Prop :=
  st1.ft p = st.ft p ∧ st1.fss p = st.fss p ∧ st1.aux = st.aux

/-- The state `st1` is `st` after the two closing assignments at `p` with the
tendency `d`, the other arrays being those of `st`. -/
def StepAt (rk : Nat → ℚ) (dt : ℚ) (f1 : A6) (p : Idx6) (d : CComplex)
    (st st1 : RKState) : Prop :=
  st1.aux = st.aux
  ∧ st1.ft p = ofReal (rk 0) * st.ft p + ofReal (rk 1) * d
  ∧ st1.fss p = f1 p + (ofReal (rk 2) * st1.ft p + d) * ofReal dt

/-- The index `p` is one the loops of `sweep` visit. -/
def Grid.owned (G : Grid) (ylo yhi : Int) (p : Idx6) : Prop :=
  G.NsLlD ≤ p.s ∧ p.s ≤ G.NsLuD ∧ G.NmLlD ≤ p.m ∧ p.m ≤ G.NmLuD
  ∧ G.NzLlD ≤ p.z ∧ p.z ≤ G.NzLuD ∧ ylo ≤ p.y_k ∧ p.y_k ≤ yhi
  ∧ G.NxLlD ≤ p.x ∧ p.x ≤ G.NxLuD ∧ G.NvLlD ≤ p.v ∧ p.v ≤ G.NvLuD

instance (G : Grid) (ylo yhi : Int) (p : Idx6) : Decidable (G.owned ylo yhi p) := by
  unfold Grid.owned; infer_instance

/-! ## The accumulation formula of the specification and a one-point configuration -/

/-- The Runge-Kutta accumulation as the specification words it:
`ft_new = rk[0]*ft_old + rk[1]*dg_dt` and
`fss = f1 + (rk[2]*ft_new + dg_dt)*dt`, with the new `ft` in the second formula. -/
def RKAccumulation (rk : Nat → ℚ) (dt : ℚ) (ft_old f1 dg_dt ft_new fss : CComplex) : Prop :=
  ft_new = ofReal (rk 0) * ft_old + ofReal (rk 1) * dg_dt
  ∧ fss = f1 + (ofReal (rk 2) * ft_new + dg_dt) * ofReal dt

/-- A grid with one owned point per axis and `Nky` modes, mode loop bounds
`NkyLlD = 0`, `NkyLuD = Nky - 1`. -/
def pointGrid (Nky : Int) : Grid :=
  { NsLlD := 1, NsLuD := 1, NmLlD := 0, NmLuD := 0, NzLlD := 0, NzLuD := 0,
    NkyLlD := 0, NkyLuD := Nky - 1, NxLlD := 0, NxLuD := 0, NvLlD := 0, NvLuD := 0,
    NzLlB := 0, NzLuB := 0, NxLlB := -2, NxLuB := 2, NvLlB := -2, NvLuB := 2,
    NzLB := 1, NxLB := 5, Nky := Nky }

/-- A species record with unit temperature and coupling coefficients and no drive. -/
def unitSpecies : Species :=
  { name := "Unnamed", q := 1, m := 1, n0 := 1, T0 := 1, w_n := 0, w_T := 0,
    alpha := 1, sigma := 1, doGyro := 1, gyroModel := "Gyro", f0_str := "" }

/-- An object on `pointGrid Nky` with wavenumbers `ky(k) = k`, no parallel
wavenumber, unit stencil constants, mode offset `i`, unit filter, the
nonlinearity switched off and a base-class routine that clears the buffer. -/
def pointVlasov (Nky i : Int) : VlasovIsland :=
  { grid := pointGrid Nky, species := fun _ => unitSpecies, ky := fun k => k,
    get_kp := fun _ _ _ => 0, eps_hat := 1, B0 := 1, beta := 0, Nq := 1,
    _kw_12_dx := 1, _kw_12_dx_dx := 1, dx := 1, i := i, ky_filter := fun _ => 1,
    Psi0 := fun _ _ _ => 0, Phi0 := fun _ _ _ => 0, doNonLinear := false,
    calculateExBNonLinearity := fun _ _ _ _ _ _ => fun _ _ _ => 0,
    calculateExBNonLinearity_GXi := fun _ _ _ _ _ _ => fun _ _ _ => 0 }

/-- Arrays that vanish everywhere, with unit velocity abscissa. -/
def zeroInputs : Inputs :=
  { fs := fun _ => 0, f0 := fun _ => 0, f1 := fun _ => 0, Coll := fun _ => 0,
    Fields := fun _ _ _ _ _ _ => 0, MagIs := fun _ => 0, dMagIs_dx := fun _ => 0,
    V := fun _ => 1, M := fun _ => 0 }

/-- A state whose arrays vanish everywhere. -/
def zeroState : RKState :=
  { ft := fun _ => 0, fss := fun _ => 0, nonLinearTerm := fun _ _ _ => 0,
    Xi := fun _ _ _ _ => 0, G := fun _ _ _ _ => 0,
    Xi_lin := fun _ _ _ _ => 0, G_lin := fun _ _ _ _ => 0 }

/-! ## The tendency as the specification words it -/

/-- The radial derivative `d/dx` of the specification: the fourth-order
centred stencil `(8*(u[x+1] - u[x-1]) - (u[x+2] - u[x-2])) * _kw_12_dx`. -/
def spec_d_dx (_kw_12_dx : ℚ) (u : Int → CComplex) (x : Int) : CComplex :=
  (8 * (u (x + 1) - u (x - 1)) - (u (x + 2) - u (x - 2))) * ofReal _kw_12_dx

/-- The island coupling of the specification for a field `u[y_k][x]`:
`dMagIs_dx[x]*(i*ky(y_k-1)*u[y_k-1] + i*ky(y_k+1)*u[y_k+1])
 - MagIs[x]*i*ky(1)*(d/dx u[y_k-1] - d/dx u[y_k+1])`. -/
def spec_Island (self : VlasovIsland) (inp : Inputs) (u : Int → Int → CComplex)
    (y_k x : Int) : CComplex :=
  ofReal (inp.dMagIs_dx x)
      * (_imag * ofReal (self.ky (y_k - 1)) * u (y_k - 1) x
          + _imag * ofReal (self.ky (y_k + 1)) * u (y_k + 1) x)
    - ofReal (inp.MagIs x) * (_imag * ofReal (self.ky 1))
      * (spec_d_dx self._kw_12_dx (u (y_k - 1)) x - spec_d_dx self._kw_12_dx (u (y_k + 1)) x)

/-- The island coupling with the contributions of the mode `y_k+1` replaced by zero. -/
def spec_Island_truncated (self : VlasovIsland) (inp : Inputs) (u : Int → Int → CComplex)
    (y_k x : Int) : CComplex :=
  ofReal (inp.dMagIs_dx x) * (_imag * ofReal (self.ky (y_k - 1)) * u (y_k - 1) x)
    - ofReal (inp.MagIs x) * (_imag * ofReal (self.ky 1))
      * spec_d_dx self._kw_12_dx (u (y_k - 1)) x

/-- The sum of five terms of the specification, for given values of
`Island_g` and `Island_phi`:
`-alpha*V[v]*(Island_g + sigma*Island_phi*f0) + nonLinearTerm[y_k][x][v]
 - i*ky(y_k)*(w_n + w_T*((V[v]^2 + M[m])/T0 - sub))*f0*phi
 - alpha*V[v]*k_parallel*(g + sigma*phi*f0) + Coll`. -/
def spec_five_terms (self : VlasovIsland) (inp : Inputs) (nonLinearTerm : A3) (p : Idx6)
    (Island_g Island_phi : CComplex) : CComplex :=
  let sp := self.species p.s
  let f0 := inp.f0 p
  let phi := inp.Fields Field.phi p.s p.m p.z p.y_k p.x
  let g := inp.fs p
  let k_parallel := self.get_kp p.x (_imag * ofReal (self.ky p.y_k)) p.z
  let island := -(ofReal sp.alpha * ofReal (inp.V p.v)
    * (Island_g + ofReal sp.sigma * Island_phi * f0))
  let nonlinear := nonLinearTerm p.y_k p.x p.v
  let drive := _imag * ofReal (self.ky p.y_k)
    * ofReal (sp.w_n + sp.w_T * ((inp.V p.v ^ 2 + inp.M p.m) / sp.T0 - sp.sub)) * f0 * phi
  let landau := ofReal sp.alpha * ofReal (inp.V p.v) * k_parallel
    * (g + ofReal sp.sigma * phi * f0)
  island + nonlinear - drive - landau + inp.Coll p

/-- The tendency of the baseline routine as the specification states it for an
evolved mode: the five terms with `Island_phi` and `Island_g` taken on the
stored modes `y_k-1` and `y_k+1`. -/
def spec_dg_dt (self : VlasovIsland) (inp : Inputs) (nonLinearTerm : A3) (p : Idx6) : CComplex :=
  spec_five_terms self inp nonLinearTerm p
    (spec_Island self inp (fun y x => inp.fs ⟨p.s, p.m, p.z, y, x, p.v⟩) p.y_k p.x)
    (spec_Island self inp (fun y x => inp.Fields Field.phi p.s p.m p.z y x) p.y_k p.x)

/-- The five terms with the contributions of the mode `y_k+1` to `Island_phi`
and `Island_g` replaced by zero. -/
def spec_dg_dt_truncated (self : VlasovIsland) (inp : Inputs) (nonLinearTerm : A3)
    (p : Idx6) : CComplex :=
  spec_five_terms self inp nonLinearTerm p
    (spec_Island_truncated self inp (fun y x => inp.fs ⟨p.s, p.m, p.z, y, x, p.v⟩) p.y_k p.x)
    (spec_Island_truncated self inp (fun y x => inp.Fields Field.phi p.s p.m p.z y x) p.y_k p.x)

/-- Inputs on which only the distribution at mode 2 and the island profile
derivative are non-zero. -/
def mode2Inputs : Inputs :=
  { fs := fun q => if q.y_k = 2 then 1 else 0, f0 := fun _ => 0, f1 := fun _ => 0,
    Coll := fun _ => 0, Fields := fun _ _ _ _ _ _ => 0, MagIs := fun _ => 0,
    dMagIs_dx := fun _ => 1, V := fun _ => 1, M := fun _ => 0 }

/-- Inputs that vanish except for an imaginary collision term. -/
def imagCollInputs : Inputs :=
  { fs := fun _ => 0, f0 := fun _ => 0, f1 := fun _ => 0, Coll := fun _ => _imag,
    Fields := fun _ _ _ _ _ _ => 0, MagIs := fun _ => 0, dMagIs_dx := fun _ => 0,
    V := fun _ => 1, M := fun _ => 0 }

/-- The radial derivative the filtered routine applies to the distribution:
`(-u[x+2] + 6*u[x+1] - 3*u[x] - 2*u[x-1]) / (6*dx)`. -/
def filter_d_dx (dx : ℚ) (u : Int → CComplex) (x : Int) : CComplex :=
  CComplex.divReal (-u (x + 2) + 6 * u (x + 1) - 3 * u x - 2 * u (x - 1)) (6 * dx)

/-- Inputs whose distribution is `x` at mode 1 and zero at the other modes. -/
def mode1RampInputs : Inputs :=
  { fs := fun q => if q.y_k = 1 then ofReal q.x else 0, f0 := fun _ => 0, f1 := fun _ => 0,
    Coll := fun _ => 0, Fields := fun _ _ _ _ _ _ => 0, MagIs := fun _ => 1,
    dMagIs_dx := fun _ => 0, V := fun _ => 1, M := fun _ => 0 }

/-- Two input sets agree away from the mode `Y` of the potential and of the
distribution. -/
def AgreeOffMode (Y : Int) (inp inp1 : Inputs) : Prop :=
  (∀ s m z y x v, y ≠ Y → inp.fs ⟨s, m, z, y, x, v⟩ = inp1.fs ⟨s, m, z, y, x, v⟩)
  ∧ (∀ s m z y x, y ≠ Y → inp.Fields Field.phi s m z y x = inp1.Fields Field.phi s m z y x)
  ∧ inp.f0 = inp1.f0 ∧ inp.f1 = inp1.f1 ∧ inp.Coll = inp1.Coll
  ∧ inp.MagIs = inp1.MagIs ∧ inp.dMagIs_dx = inp1.dMagIs_dx ∧ inp.V = inp1.V ∧ inp.M = inp1.M

/-- Inputs whose distribution is `i` at mode 1 and zero at the other modes,
with `dMagIs_dx = 1`. -/
def mode1ImagInputs : Inputs :=
  { fs := fun q => if q.y_k = 1 then _imag else 0, f0 := fun _ => 0, f1 := fun _ => 0,
    Coll := fun _ => 0, Fields := fun _ _ _ _ _ _ => 0, MagIs := fun _ => 0,
    dMagIs_dx := fun _ => 1, V := fun _ => 1, M := fun _ => 0 }

/-- The inputs `mode1ImagInputs` with the distribution set to zero. -/
def profileOnlyInputs : Inputs :=
  { fs := fun _ => 0, f0 := fun _ => 0, f1 := fun _ => 0,
    Coll := fun _ => 0, Fields := fun _ _ _ _ _ _ => 0, MagIs := fun _ => 0,
    dMagIs_dx := fun _ => 1, V := fun _ => 1, M := fun _ => 0 }

/-- The object `pointVlasov Nky i` with the nonlinearity switched on. -/
def pointVlasovNL (Nky i : Int) : VlasovIsland :=
  { pointVlasov Nky i with doNonLinear := true }

/-- The state `zeroState` with every entry of the buffer `nonLinearTerm` set to 1. -/
def unitBufferState : RKState :=
  { ft := fun _ => 0, fss := fun _ => 0, nonLinearTerm := fun _ _ _ => 1,
    Xi := fun _ _ _ _ => 0, G := fun _ _ _ _ => 0,
    Xi_lin := fun _ _ _ _ => 0, G_lin := fun _ _ _ _ => 0 }

/-- A configuration in which no key is set. -/
def emptySetup : Setup := { str := fun _ => none, num := fun _ => none, int := fun _ => none }

/-- The island coupling of the specification for a field `u[y_k][x]` and a
mode offset `i`:
`dMagIs_dx[x]*(i*ky(y_k-i)*u[y_k-i] + i*ky(y_k+i)*u[y_k+i])
 - MagIs[x]*i*ky(i)*(d/dx u[y_k-i] - d/dx u[y_k+i])`. -/
def spec_Island_offset (self : VlasovIsland) (inp : Inputs) (i : Int)
    (u : Int → Int → CComplex) (y_k x : Int) : CComplex :=
  ofReal (inp.dMagIs_dx x)
      * (_imag * ofReal (self.ky (y_k - i)) * u (y_k - i) x
          + _imag * ofReal (self.ky (y_k + i)) * u (y_k + i) x)
    - ofReal (inp.MagIs x) * (_imag * ofReal (self.ky i))
      * (spec_d_dx self._kw_12_dx (u (y_k - i)) x - spec_d_dx self._kw_12_dx (u (y_k + i)) x)

/-- Inputs on which only the distribution at mode 4 and the island profile
derivative are non-zero. -/
def mode4Inputs : Inputs :=
  { fs := fun q => if q.y_k = 4 then 1 else 0, f0 := fun _ => 0, f1 := fun _ => 0,
    Coll := fun _ => 0, Fields := fun _ _ _ _ _ _ => 0, MagIs := fun _ => 0,
    dMagIs_dx := fun _ => 1, V := fun _ => 1, M := fun _ => 0 }

/-- The local `half_eta_kperp2_phi` of `Vlasov_2D_Island_filter` (zero unless
the gyro model of the species is `"Gyro-1"`). -/
def filter_half_eta_kperp2_phi (self : VlasovIsland) (inp : Inputs) (p : Idx6) : CComplex :=
  let sp := self.species p.s
  let ky := _imag * ofReal (self.ky p.y_k)
  let phi_ := inp.Fields Field.phi p.s p.m p.z p.y_k p.x
  if (decide (sp.gyroModel = "Gyro-1")) = true then
    let ddphi_dx_dx :=
      (16 * (inp.Fields Field.phi p.s p.m p.z p.y_k (p.x + 1)
              + inp.Fields Field.phi p.s p.m p.z p.y_k (p.x - 1))
        - (inp.Fields Field.phi p.s p.m p.z p.y_k (p.x + 2)
              + inp.Fields Field.phi p.s p.m p.z p.y_k (p.x - 2))
        - 30 * phi_) * ofReal self._kw_12_dx_dx
    ofReal (sp.T0 * sp.m / ((sp.q * sp.q) * self.B0) * (1 / 2) * sp.w_T)
      * ((ky * ky) * phi_ + ddphi_dx_dx)
  else 0

/-- The line commented `Island term` of the tendency of the filtered routine:
`- alpha*V[v]*(Island_g + sigma*Island_phi*f0_)`. -/
def filter_island_term (self : VlasovIsland) (inp : Inputs) (nonLinearTerm : A3)
    (p : Idx6) : CComplex :=
  let L := Vlasov_2D_Island_filter_locals self inp nonLinearTerm p
  ofReal (-(self.species p.s).alpha * inp.V p.v)
    * (L.Island_g + ofReal (self.species p.s).sigma * L.Island_phi * inp.f0 p)

/-- The lines commented `Driving term` and `Contributions from gyro-1` of the
tendency of the filtered routine:
`ky*(-(w_n + w_T*(((V[v]*V[v]) + M[m])*kw_T - sub))*f0_*phi_ - half_eta_kperp2_phi*f0_)`. -/
def filter_drive_term (self : VlasovIsland) (inp : Inputs) (p : Idx6) : CComplex :=
  let sp := self.species p.s
  _imag * ofReal (self.ky p.y_k)
    * (ofReal (-(sp.w_n + sp.w_T * (((inp.V p.v * inp.V p.v) + inp.M p.m) * (1 / sp.T0) - sp.sub)))
        * inp.f0 p * inp.Fields Field.phi p.s p.m p.z p.y_k p.x
      - filter_half_eta_kperp2_phi self inp p * inp.f0 p)

/-- The line commented `Linear Landau damping` of the tendency of the filtered
routine: `- alpha*V[v]*kp*(g + sigma*phi_*f0_)`. -/
def filter_landau_term (self : VlasovIsland) (inp : Inputs) (p : Idx6) : CComplex :=
  let sp := self.species p.s
  let damping := ofReal (sp.alpha * inp.V p.v)
    * self.get_kp p.x (_imag * ofReal (self.ky p.y_k)) p.z
    * (inp.fs p + ofReal sp.sigma * inp.Fields Field.phi p.s p.m p.z p.y_k p.x * inp.f0 p)
  0 - damping

/-- The tendency of the filtered routine with the weight on the island, the
nonlinear and the drive term only:
`ky_filter[y_k]*(island + nonLinearTerm + drive) + Landau damping + Coll`. -/
def spec_filter_dg_dt_bundle (self : VlasovIsland) (inp : Inputs) (nonLinearTerm : A3)
    (p : Idx6) : CComplex :=
  ofReal (self.ky_filter p.y_k)
      * (filter_island_term self inp nonLinearTerm p + nonLinearTerm p.y_k p.x p.v
          + filter_drive_term self inp p)
    + filter_landau_term self inp p + inp.Coll p

/-- The tendency of the filtered routine with the weight on the whole sum:
`ky_filter[y_k]*(island + nonLinearTerm + drive + Landau damping + Coll)`. -/
def spec_filter_dg_dt_whole (self : VlasovIsland) (inp : Inputs) (nonLinearTerm : A3)
    (p : Idx6) : CComplex :=
  ofReal (self.ky_filter p.y_k)
    * (filter_island_term self inp nonLinearTerm p + nonLinearTerm p.y_k p.x p.v
        + filter_drive_term self inp p + filter_landau_term self inp p + inp.Coll p)

/-- The object `pointVlasov 3 1` with the filter weight `1/2` at every mode. -/
def halfFilterVlasov : VlasovIsland :=
  { pointVlasov 3 1 with ky_filter := fun _ => 1 / 2 }

/-- Inputs that vanish except for the collision term, which is 1. -/
def unitCollInputs : Inputs :=
  { fs := fun _ => 0, f0 := fun _ => 0, f1 := fun _ => 0, Coll := fun _ => 1,
    Fields := fun _ _ _ _ _ _ => 0, MagIs := fun _ => 0, dMagIs_dx := fun _ => 0,
    V := fun _ => 1, M := fun _ => 0 }

/-- The inputs `mode1ImagInputs` with the island profile derivative set to zero. -/
def mode1ImagFlatInputs : Inputs :=
  { fs := fun q => if q.y_k = 1 then _imag else 0, f0 := fun _ => 0, f1 := fun _ => 0,
    Coll := fun _ => 0, Fields := fun _ _ _ _ _ _ => 0, MagIs := fun _ => 0,
    dMagIs_dx := fun _ => 0, V := fun _ => 1, M := fun _ => 0 }

/-- The single-mode linear update of the specification, a function of the
species constants and of the data at one point only:
`-i*ky(k)*(w_n + w_T*((V[v]^2 + M[m])/T0 - sub))*f0*phi
 - alpha*V[v]*k_parallel*(g + sigma*phi*f0) + Coll`. -/
def spec_linear_update (sp : Species) (ky_k V_v M_m : ℚ)
    (k_parallel f0 phi g Coll : CComplex) : CComplex :=
  let drive := _imag * ofReal ky_k
    * ofReal (sp.w_n + sp.w_T * ((V_v ^ 2 + M_m) / sp.T0 - sp.sub)) * f0 * phi
  let landau := ofReal sp.alpha * ofReal V_v * k_parallel * (g + ofReal sp.sigma * phi * f0)
  0 - drive - landau + Coll

/-- Field arrays with the entry `(q + y_k) + i*x` at `[q][s][m][z][y_k][x]`. -/
def indexFields : AFields := fun q _ _ _ y_k x => ⟨q + y_k, x⟩

/-- A pair `(Xi, G)` of arrays that vanish everywhere. -/
def zeroXiG : XiG := { Xi := fun _ _ _ _ => 0, G := fun _ _ _ _ => 0 }

/-! ## The constructor `Plasma::Plasma` -/

/-- Modelled from the spec: `check(status, DMESG(msg))` is declared in
`Global.h`, which is not among the sources; the status `-1` is the fatal
configuration-error path (construction stops with the message), any other
status lets construction go on. -/
def check (status : Int) (msg : String) : Except String Unit :=
  if status = -1 then .error msg else .ok ()

/-- The assignments to `species[0]`, the adiabatic species, on the record
`sp = species[0]`; the mass is set to `0.` and is not read from `setup`. -/
def Plasma_adiabaticSpecies (setup : Setup) (sp : Species) : Species :=
  let species_name := setup.get "Plasma.Species0.Name" "Unnamed" ++ "(ad.)"
  let name := snprintf sp.name (min 64 species_name.length) species_name
  { name := name, q := setup.getNum "Plasma.Species0.Charge" 1, m := 0,
    n0 := setup.getNum "Plasma.Species0.Density" 0,
    T0 := setup.getNum "Plasma.Species0.Temperature" 1,
    w_n := setup.getNum "Plasma.Species0.Phase" 0, w_T := 0,
    alpha := sp.alpha, sigma := sp.sigma,
    doGyro := setup.getInt "Plasma.Species0.FluxAverage" 0,
    gyroModel := sp.gyroModel, f0_str := sp.f0_str }

/-- The two parser checks of the `global` branch of the species loop, with
`Parse n_name var` the status returned by `FunctionParser::Parse` (`-1` when
the expression parses):
`check(((n_parser.Parse(species[s].n_name, "x") == -1) ? 1 : -1), DMESG("Parsing error of Initial condition n(x)"));`
and the same for `T_name`. -/
def Plasma_parseProfiles (setup : Setup) (Parse : String → String → Int) (global : Bool)
    (s : Int) : Except String Unit :=
  let key := "Plasma.Species" ++ toString s
  if global = true then
    let n_name := snprintf "" 64 (setup.get (key ++ ".Density") "0.")
    let T_name := snprintf "" 64 (setup.get (key ++ ".Temperature") "1.")
    match check (if Parse n_name "x" = -1 then 1 else -1)
        "Parsing error of Initial condition n(x)" with
    | .error e => .error e
    | .ok _ =>
      check (if Parse T_name "x" = -1 then 1 else -1) "Parsing error of Initial condition T(x)"
  else .ok ()

/-- One pass of `for(int s = 1; s <= SPECIES_MAX; s++)`: the mass check of
`Plasma_kineticSpecies` comes first, then, in the `global` case, the parser
checks; `update`, which closes the pass, cannot stop construction, so the
record of `Plasma_kineticSpecies` is returned when the parser checks pass. -/
def Plasma_speciesPass (setup : Setup) (Nm : Int) (Parse : String → String → Int)
    (global : Bool) (alphaOf sigmaOf : Species → ℚ) (s : Int) (sp : Species) :
    Except String Species :=
  match Plasma_kineticSpecies setup Nm global alphaOf sigmaOf s sp with
  | .error e => .error e
  | .ok sp1 =>
    match Plasma_parseProfiles setup Parse global s with
    | .error e => .error e
    | .ok _ => .ok sp1

/-- The loop `for(int s = 1; s <= SPECIES_MAX; s++)` over the kinetic species
on the table `species`; a fatal check ends construction, the later passes are
not run. -/
def Plasma_kineticLoop (setup : Setup) (Nm : Int) (Parse : String → String → Int)
    (global : Bool) (alphaOf sigmaOf : Species → ℚ) (SPECIES_MAX : Int)
    (species : Int → Species) : Except String (Int → Species) :=
  forLoop 1 SPECIES_MAX (fun s st =>
    match st with
    | .error e => .error e
    | .ok tbl =>
      match Plasma_speciesPass setup Nm Parse global alphaOf sigmaOf s (tbl s) with
      | .error e => .error e
      | .ok sp => .ok (Function.update tbl s sp)) (.ok species)

/-- The sum `rho0_tot` of
`for(int s = 0; s <= NsGuD; s++) rho0_tot += species[s].q * species[s].n0;`. -/
def Plasma_rho0_tot (NsGuD : Int) (species : Int → Species) : ℚ :=
  forLoop 0 NsGuD (fun s rho0_tot => rho0_tot + (species s).q * (species s).n0) 0

/-- The statement
`if(rho0_tot > 1.e-8) check(setup->get("Plasma.checkTotalCharge", -1), DMESG("VIOLATING charge neutrality, ..."));`. -/
def Plasma_checkTotalCharge (setup : Setup) (NsGuD : Int) (species : Int → Species) :
    Except String Unit :=
  if Plasma_rho0_tot NsGuD species > 1 / 10 ^ 8 then
    check (setup.getInt "Plasma.checkTotalCharge" (-1))
      "VIOLATING charge neutrality, check species q * n and TOTAL_SPECIES! Exciting..."
  else .ok ()

/-- The species part of the constructor `Plasma::Plasma` on the freshly
allocated table `species`: the adiabatic species 0, the loop over the kinetic
species, the check of the total charge.  The result is the table, or the
message of the fatal check that stopped construction.  The scalar members
(`B0`, `beta`, `Nq`, the reference lengths) and `initData` do not enter the
checks. -/
def Plasma_Plasma (setup : Setup) (Nm : Int) (Parse : String → String → Int)
    (alphaOf sigmaOf : Species → ℚ) (SPECIES_MAX NsGuD : Int) (species : Int → Species) :
    Except String (Int → Species) :=
  let global : Bool := decide (setup.getInt "Plasma.Global" 0 ≠ 0)
  let species := Function.update species 0 (Plasma_adiabaticSpecies setup (species 0))
  match Plasma_kineticLoop setup Nm Parse global alphaOf sigmaOf SPECIES_MAX species with
  | .error e => .error e
  | .ok tbl =>
    match Plasma_checkTotalCharge setup NsGuD tbl with
    | .error e => .error e
    | .ok _ => .ok tbl

/-- The configured mass of the kinetic species `s`:
`setup->get("Plasma.Species" + num2str(s) + ".Mass", 1.)`. -/
def Plasma_configuredMass (setup : Setup) (s : Int) : ℚ :=
  setup.getNum ("Plasma.Species" ++ toString s ++ ".Mass") 1

/-- Construction stopped at the mass check of the species loop: the result is
the message `"Mass for species <name> choosen too low"`. -/
def massFatal {α : Type} (r : Except String α) : Prop :=
  ∃ name : String, r = .error ("Mass for species " ++ name ++ " choosen too low")

/-- A configuration with one kinetic species of charge `q` and density 1, all
other keys unset. -/
def chargedSetup (q : ℚ) : Setup :=
  { str := fun _ => none,
    num := fun key =>
      if key = "Plasma.Species1.Charge" then some q
      else if key = "Plasma.Species1.Density" then some 1 else none,
    int := fun _ => none }

/-- A configuration in which the mass of the kinetic species 2 is `0`, all
other keys unset. -/
def masslessSetup : Setup :=
  { str := fun _ => none,
    num := fun key => if key = "Plasma.Species2.Mass" then some 0 else none,
    int := fun _ => none }

/-! ## The filter table of the constructor `VlasovIsland::VlasovIsland` -/

/-- The entry the constructor of `VlasovIsland` stores in `ky_filter[y_k]` for
the wavenumber `ky = fft->ky(y_k)`:
`0.5 + signf*tanh(filter_gradient*(fft->ky(y_k) - ky0))`, with `ky0`,
`filter_gradient`, `signf` read from `Island.Filter.ky0` (default 1.2),
`Island.Filter.Gradient` (default 10) and `Island.Filter.Sign` (default 0.5).
The number type `K` and the library function `tanh` are parameters: `tanh` has
no rational values, and the statements about the table take `K` to be the
real numbers. -/
def VlasovIsland_ky_filter {K : Type} [Field K] (tanh : K → K) (setup : Setup) (ky : K) : K :=
  let ky0 : K := ((setup.getNum "Island.Filter.ky0" (12 / 10) : ℚ) : K)
  let filter_gradient : K := ((setup.getNum "Island.Filter.Gradient" 10 : ℚ) : K)
  let signf : K := ((setup.getNum "Island.Filter.Sign" (1 / 2) : ℚ) : K)
  1 / 2 + signf * tanh (filter_gradient * (ky - ky0))

/-! ## `Moments::getMoment` and `Moments::getMoments` -/

/-- The moment array `Mom[8][NsLD][NzLD][Nky][NxLD]`, indexed from zero. -/
abbrev A5 := Int → Int → Int → Int → Int → CComplex

/-- What `Moments::getMoment` reads from the object and from its
collaborators: grid bounds and the local sizes `NsLD`, `NzLD`, `NxLD`, `NvLD`,
`Nq`, the species table with the thermal velocities `species[s].v_th`, the
reference values and `B0`, `beta` of `plasma`, the constant `M_PI`, the
velocity step `dv`, the weights `grid->dm`, the abscissae `V`, `M`, the flag
`doFieldCorrections`, and the external operations `fields->gyroAverage` (in
place on `Mom_m`, for given `m`, `s`), `parallel->reduce` (on the block
`Mom[idx][s-NsLlD]`), `Y` and `fields->doubleGyroExp` (from `phi0`, `b/2`, `s`
to `AAphi`). -/
structure Moments where
  grid : Grid
  (NsLD NzLD NxLD NvLD : Int)
  Nq : Int
  species : Int → Species
  v_th : Int → ℚ
  (rho_ref L_ref n_ref c_ref B0 beta : ℚ)
  M_PI : ℚ
  dv : ℚ
  dm : Int → ℚ
  (V M : Int → ℚ)
  doFieldCorrections : Bool
  gyroAverage : A4 → Int → Int → A4
  reduce : (Int → Int → Int → CComplex) → Int → Int → Int → CComplex
  Y : Int → ℚ
  doubleGyroExp : A4 → Int → Int → A4

/-- The arrays `getMoment` writes: `Mom` and the local `Mom_m`. -/
structure MomState where
  Mom : A5
  Mom_m : A4

/-- The reduction `__sec_reduce_add` of the terms `term v` over the array
section `[lo:len]`, the indices `lo, ..., lo+len-1`. -/
def sec_reduce_add (lo len : Int) (term : Int → CComplex) : CComplex :=
  forLoop lo (lo + len - 1) (fun v acc => acc + term v) 0

/-- The prefactor `d_pre` of the species loop of `getMoment`:
`rho_L_ref * plasma->n_ref * species[s].n0 * pow(plasma->c_ref * species[s].v_th, a+b)`. -/
def Moments.d_pre (self : Moments) (a b : Nat) (s : Int) : ℚ :=
  let rho_L_ref := self.rho_ref / self.L_ref
  rho_L_ref * self.n_ref * (self.species s).n0 * (self.c_ref * self.v_th s) ^ (a + b)

/-- The weight `d_DK` of the loop over `m`:
`d_pre * M_PI * dv * grid->dm[m] * pow(plasma->B0, b/2)`, with the integer
quotient `b/2`. -/
def Moments.d_DK (self : Moments) (a b : Nat) (s m : Int) : ℚ :=
  self.d_pre a b s * self.M_PI * self.dv * self.dm m * self.B0 ^ (b / 2)

/-- The index ranges of the last three dimensions of `Mom[8][NsLD][NzLD][Nky][NxLD]`
and of `Mom_m[Nq][NzLD][Nky][NxLD]`, which an array section `[:][:][:]` covers. -/
def Moments.inBlock (self : Moments) (z1 y1 x1 : Int) : Prop :=
  0 ≤ z1 ∧ z1 < self.NzLD ∧ 0 ≤ y1 ∧ y1 < self.grid.Nky ∧ 0 ≤ x1 ∧ x1 < self.NxLD

instance (self : Moments) (z1 y1 x1 : Int) : Decidable (self.inBlock z1 y1 x1) := by
  unfold Moments.inBlock
  infer_instance

/-- The loops over `z`, `y_k`, `x` of `getMoment` that fill `Mom_m[0]`:
`Mom_m[0][z-NzLlD][y_k][x-NxLlD] = __sec_reduce_add(pow(M[m], b/2.) * pow(V[NvLlD:NvLD], a) * f[s][m][z][y_k][x][NvLlD:NvLD]);`
the mode loop is `for(int y_k = 0; y_k < Nky-1; y_k++)`.  The exponent `b/2.`
is the integer `b/2` for the even `b` of every call. -/
def getMoment_driftKinetic (self : Moments) (f : A6) (a b : Nat) (s m : Int) (Mom_m : A4) : A4 :=
  let G := self.grid
  forLoop G.NzLlD G.NzLuD (fun z =>
    forLoop 0 (G.Nky - 2) (fun y_k =>
      forLoop G.NxLlD G.NxLuD (fun x Mom_m =>
        Mom_m.set 0 (z - G.NzLlD) y_k (x - G.NxLlD)
          (sec_reduce_add G.NvLlD self.NvLD (fun v =>
            ofReal (self.M m ^ (b / 2) * self.V v ^ a) * f ⟨s, m, z, y_k, x, v⟩))))) Mom_m

/-- The field corrections of `getMoment` for the species `s`, subtracted from
the block `Mom[idx][s-NsLlD]` when `doFieldCorrections` is set; `phi0[0]` is
`Field0[Field::phi][NzLlD:NzLD][:][NxLlD:NxLD]`, the other entries of the
local `phi0` are those of `garbage`, and `j0_par` is zero. -/
def getMoment_fieldCorrection (self : Moments) (Field0 garbage : A4) (a b : Nat) (s : Int)
    (z1 y1 x1 : Int) : CComplex :=
  let G := self.grid
  let d_FC := self.d_pre a b s
  let bT_q_B2vth := self.beta * (self.species s).T0 / (self.B0 * self.B0)
    / ((self.species s).q * self.v_th s)
  let phi0 : A4 := fun q z y x =>
    if q = 0 ∧ self.inBlock z y x then Field0 Field.phi (G.NzLlD + z) y (G.NxLlD + x)
    else garbage q z y x
  let j0_par : CComplex := 0
  let AAphi := self.doubleGyroExp phi0 (b / 2 : Nat) s
  ofReal d_FC * (ofReal (self.Y a) + ofReal (self.Y (a + 1) * bT_q_B2vth) * j0_par)
    * (ofReal (self.species s).q * (phi0 0 z1 y1 x1 - AAphi 0 z1 y1 x1))

/-- One pass of the loop over `m` of `getMoment`: `Mom_m[0]` is filled,
`fields->gyroAverage(Mom_m, Mom_m, m, s, false, true)` is applied in place, and
`Mom[idx][s-NsLlD][:][:][:] += Mom_m[0][:][:][:] * d_DK;`. -/
def getMoment_mStep (self : Moments) (f : A6) (a b : Nat) (idx s m : Int)
    (st : MomState) : MomState :=
  let Mom_m := self.gyroAverage (getMoment_driftKinetic self f a b s m st.Mom_m) m s
  { Mom := fun i s1 z1 y1 x1 =>
      if i = idx ∧ s1 = s - self.grid.NsLlD ∧ self.inBlock z1 y1 x1
      then st.Mom i s1 z1 y1 x1 + Mom_m 0 z1 y1 x1 * ofReal (self.d_DK a b s m)
      else st.Mom i s1 z1 y1 x1,
    Mom_m := Mom_m }

/-- The call `parallel->reduce(&Mom[idx][s-NsLlD][0][0][0], Op::sum, DIR_VM, NzLD * Nky * NxLD)`
on the block `Mom[idx][s-NsLlD]`. -/
def getMoment_reduce (self : Moments) (idx s : Int) (st : MomState) : MomState :=
  { Mom := fun i s1 z1 y1 x1 =>
      if i = idx ∧ s1 = s - self.grid.NsLlD ∧ self.inBlock z1 y1 x1
      then self.reduce (st.Mom idx (s - self.grid.NsLlD)) z1 y1 x1
      else st.Mom i s1 z1 y1 x1,
    Mom_m := st.Mom_m }

/-- The block `if(doFieldCorrections) { ... Mom[idx][s-NsLlD][:][:][:] -= ...; }`. -/
def getMoment_correct (self : Moments) (Field0 garbage : A4) (a b : Nat) (idx s : Int)
    (st : MomState) : MomState :=
  if self.doFieldCorrections = true then
    { Mom := fun i s1 z1 y1 x1 =>
        if i = idx ∧ s1 = s - self.grid.NsLlD ∧ self.inBlock z1 y1 x1
        then st.Mom i s1 z1 y1 x1 - getMoment_fieldCorrection self Field0 garbage a b s z1 y1 x1
        else st.Mom i s1 z1 y1 x1,
      Mom_m := st.Mom_m }
  else st

/-- One pass of the loop over `s` of `getMoment`: the loop over `m`, the
reduction over the processes, the field corrections. -/
def getMoment_sStep (self : Moments) (f : A6) (Field0 garbage : A4) (a b : Nat) (idx s : Int)
    (st : MomState) : MomState :=
  getMoment_correct self Field0 garbage a b idx s
    (getMoment_reduce self idx s
      (forLoop self.grid.NmLlD self.grid.NmLuD (getMoment_mStep self f a b idx s) st))

/-- The state of `getMoment` before the species loop: `Mom[idx][:][:][:][:] = 0.;`
and `if(Nq > 1) Mom_m[1:Nq-1][:][:][:] = 0.;` on the uninitialised local
`Mom_m`, whose content is that of `garbage`. -/
def getMoment_init (self : Moments) (garbage : A4) (Mom : A5) (idx : Int) : MomState :=
  { Mom := fun i s1 z1 y1 x1 =>
      if i = idx ∧ 0 ≤ s1 ∧ s1 < self.NsLD ∧ self.inBlock z1 y1 x1 then 0
      else Mom i s1 z1 y1 x1,
    Mom_m := fun q z1 y1 x1 =>
      if self.Nq > 1 ∧ 1 ≤ q ∧ q < 1 + (self.Nq - 1) ∧ self.inBlock z1 y1 x1 then 0
      else garbage q z1 y1 x1 }

/-- The routine `Moments::getMoment` for exponents `a`, `b` and the moment
index `idx`; `garbage` holds the content of the uninitialised locals. -/
def getMoment (self : Moments) (f : A6) (Field0 garbage : A4) (Mom : A5) (a b : Nat)
    (idx : Int) : A5 :=
  (forLoop self.grid.NsLlD self.grid.NsLuD (getMoment_sStep self f Field0 garbage a b idx)
    (getMoment_init self garbage Mom idx)).Mom

/-- The routine `Moments::getMoments`: eight calls of `getMoment`. -/
def getMoments (self : Moments) (f : A6) (Field0 garbage : A4) (Mom : A5) : A5 :=
  let Mom := getMoment self f Field0 garbage Mom 0 0 0
  let Mom := getMoment self f Field0 garbage Mom 2 0 1
  let Mom := getMoment self f Field0 garbage Mom 0 2 2
  let Mom := getMoment self f Field0 garbage Mom 1 0 3
  let Mom := getMoment self f Field0 garbage Mom 3 0 4
  let Mom := getMoment self f Field0 garbage Mom 1 2 5
  let Mom := getMoment self f Field0 garbage Mom 2 2 6
  getMoment self f Field0 garbage Mom 0 4 7

/-- The exponent pair `(a, b)` of the moment with index `idx`, in the order
of the calls of `getMoments`. -/
def momentExponents (idx : Int) : Nat × Nat :=
  if idx = 0 then (0, 0) else if idx = 1 then (2, 0) else if idx = 2 then (0, 2)
  else if idx = 3 then (1, 0) else if idx = 4 then (3, 0) else if idx = 5 then (1, 2)
  else if idx = 6 then (2, 2) else (0, 4)

/-- A `Moments` object on `pointGrid 3` (one owned point per axis, three
modes) with unit constants, identity gyro-average and reduction, and the
field corrections switched off. -/
def pointMoments : Moments :=
  { grid := pointGrid 3, NsLD := 1, NzLD := 1, NxLD := 1, NvLD := 1, Nq := 1,
    species := fun _ => unitSpecies, v_th := fun _ => 1,
    rho_ref := 1, L_ref := 1, n_ref := 1, c_ref := 1, B0 := 1, beta := 0,
    M_PI := 355 / 113, dv := 1, dm := fun _ => 1, V := fun _ => 2, M := fun _ => 3,
    doFieldCorrections := false, gyroAverage := fun A _ _ => A, reduce := fun A => A,
    Y := fun _ => 0, doubleGyroExp := fun A _ _ => A }

/-! ## The island width of the constructor `VlasovIsland::VlasovIsland` -/

/-- The lambda `psi` of the constructor,
`(1. + p[0]*pow(pow2(x),p[1])) * exp(p[2] * pow2(x))` with
`p[] = { 0.13828847, 0.70216594, -0.01033686 }`.  The number type `K` and the
library functions `pow`, `exp` are parameters; the statements about the island
width take `K` to be the real numbers. -/
def VlasovIsland_psi {K : Type} [Field K] (pow : K → K → K) (exp : K → K) (x : K) : K :=
  (1 + (13828847 / 100000000 : K) * pow (x * x) (70216594 / 100000000))
    * exp ((-1033686 / 100000000 : K) * (x * x))

/-- The lambda `IslandForm` of `IslandWidth`:
`scale * psi(x) * sin(2.*M_PI/Ly * y) * (2.*M_PI/Ly)`. -/
def IslandForm {K : Type} [Field K] (psi sin : K → K) (M_PI Ly scale : K) (x y : K) : K :=
  scale * psi x * sin (2 * M_PI / Ly * y) * (2 * M_PI / Ly)

/-- One pass of the integration loop of `IslandWidth` on the pair `(x_n, y_n)`:
`x_np1 = x_n + ds; y_np1 = y_n + 0.5 * ds * (IslandForm(y_n, x_n) + IslandForm(y_n, x_np1));`. -/
def IslandWidth_step {K : Type} [Field K] (psi sin : K → K) (M_PI Ly scale ds : K)
    (st : K × K) : K × K :=
  let x_n := st.1
  let y_n := st.2
  let x_np1 := x_n + ds
  let y_np1 := y_n + 1 / 2 * ds
    * (IslandForm psi sin M_PI Ly scale y_n x_n + IslandForm psi sin M_PI Ly scale y_n x_np1)
  (x_np1, y_np1)

/-- The pair `(x_n, y_n)` of `IslandWidth` after `n` passes of the loop, from
`x_n = 0.`, `y_n = 1.e-2`, with `ds = Ly/2. / nSteps` and `nSteps = 1024`. -/
def IslandWidth_path {K : Type} [Field K] (psi sin : K → K) (M_PI Ly scale : K) :
    Nat → K × K
  | 0 => (0, 1 / 100)
  | n + 1 => IslandWidth_step psi sin M_PI Ly scale (Ly / 2 / 1024)
      (IslandWidth_path psi sin M_PI Ly scale n)

/-- The lambda `IslandWidth` of the constructor: `0.` for `scale == 0.`,
otherwise twice the `y_n` reached after the 1024 passes of
`for(int step = 0; step < nSteps; step++)`. -/
def IslandWidth {K : Type} [Field K] [DecidableEq K] (psi sin : K → K) (M_PI Ly scale : K) : K :=
  if scale = 0 then 0 else 2 * (IslandWidth_path psi sin M_PI Ly scale 1024).2

/-- A state whose `ft` is 1 everywhere, the other arrays being zero. -/
def unitFtState : RKState :=
  { ft := fun _ => 1, fss := fun _ => 0, nonLinearTerm := fun _ _ _ => 0,
    Xi := fun _ _ _ _ => 0, G := fun _ _ _ _ => 0,
    Xi_lin := fun _ _ _ _ => 0, G_lin := fun _ _ _ _ => 0 }

/-- The object `pointVlasov 4 1` with the radial step `dx = 1/2` and the
stencil constant `_kw_12_dx = 1/(12*dx) = 1/6`. -/
def halfStepVlasov : VlasovIsland :=
  { pointVlasov 4 1 with dx := 1 / 2, _kw_12_dx := 1 / 6 }

/-- Inputs whose distribution and potential are `x + 1` at every mode
`y_k >= 1` and zero at the modes `y_k <= 0`, with `MagIs = 1`. -/
def upperModesRampInputs : Inputs :=
  { fs := fun q => if 1 ≤ q.y_k then ofReal (q.x + 1) else 0, f0 := fun _ => 0,
    f1 := fun _ => 0, Coll := fun _ => 0,
    Fields := fun _ _ _ _ y_k x => if 1 ≤ y_k then ofReal (x + 1) else 0,
    MagIs := fun _ => 1, dMagIs_dx := fun _ => 0, V := fun _ => 1, M := fun _ => 0 }

/-- The inputs `inp` with the island profile `(MagIs, dMagIs_dx)` replaced by
`(-MagIs, -dMagIs_dx)`. -/
def Inputs.negProfile (inp : Inputs) : Inputs :=
  { inp with MagIs := fun x => -inp.MagIs x, dMagIs_dx := fun x => -inp.dMagIs_dx x }

/-- Inputs with a complex potential and a complex distribution at every mode
and a non-zero island profile. -/
def complexInputs : Inputs :=
  { fs := fun q => ⟨q.y_k + 1, q.x + 2⟩, f0 := fun _ => 1, f1 := fun _ => 0,
    Coll := fun _ => 0, Fields := fun _ _ _ _ y_k x => ⟨x + 1, y_k + 3⟩, MagIs := fun _ => 2,
    dMagIs_dx := fun _ => 3, V := fun _ => 1, M := fun _ => 0 }

/-- The lambda `CD4` of the constructor:
`eps = 1.e-8 * x; (8.*(func(x+eps) - func(x-eps)) - (func(x+2.*eps) - func(x-2.*eps))) / (12.*eps)`.
The quotient is `none` when the divisor `12.*eps` is zero. -/
def CD4 {K : Type} [Field K] [DecidableEq K] (func : K → K) (x : K) : Option K :=
  let eps := (1 / 100000000 : K) * x
  if 12 * eps = 0 then none
  else some ((8 * (func (x + eps) - func (x - eps))
    - (func (x + 2 * eps) - func (x - 2 * eps))) / (12 * eps))

/-- The entry `MagIs[x] = 0.5 * width_scale * psi(X[x])` of the constructor. -/
def VlasovIsland_MagIs {K : Type} [Field K] (psi : K → K) (width_scale : K) (X : Int → K)
    (x : Int) : K :=
  1 / 2 * width_scale * psi (X x)

/-- The entry `dMagIs_dx[x] = 0.5 * width_scale * CD4(psi, X[x])` of the
constructor, `none` when `CD4` divides by zero. -/
def VlasovIsland_dMagIs_dx {K : Type} [Field K] [DecidableEq K] (psi : K → K)
    (width_scale : K) (X : Int → K) (x : Int) : Option K :=
  (CD4 psi (X x)).map (fun d => 1 / 2 * width_scale * d)

/-! ## `FFTSolver::parseSuppressMode` -/

/-- Modelled from the spec: `Setup::eraseCharacter(str, chars)` is defined in
`Setup.cpp`, which is not among the sources; it returns `str` without the
characters that occur in `chars`. -/
def Setup.eraseCharacter (str chars : String) : String :=
  String.mk (str.data.filter (fun c => !chars.data.contains c))

/-- The pieces of a list of characters between the delimiters `delim`, with
`acc` the reversed piece read so far. -/
def splitChars (delim : List Char) : List Char → List Char → List String
  | acc, [] => [String.mk acc.reverse]
  | acc, c :: cs =>
    if delim.contains c then String.mk acc.reverse :: splitChars delim [] cs
    else splitChars delim (c :: acc) cs

/-- Modelled from the spec: `Setup::split(str, delim)` is defined in
`Setup.cpp`, which is not among the sources; it returns the pieces of `str`
between the characters of `delim`, the whole string when none occurs. -/
def Setup.split (str delim : String) : List String :=
  splitChars delim.data [] str.data

/-- The value of a list of decimal digits, from the value `acc` of the digits
read so far. -/
def digitsValue : Nat → List Char → Nat
  | acc, [] => acc
  | acc, c :: cs => digitsValue (10 * acc + (c.toNat - 48)) cs

/-- The call `std::stoi(str)`: leading white space is skipped, then an
optional sign and the longest run of decimal digits are read, what follows is
ignored; `none` when there is no digit (`std::invalid_argument`) or the value
is not an `int` (`std::out_of_range`). -/
def stoi (str : String) : Option Int :=
  let cs := str.data.dropWhile Char.isWhitespace
  let neg : Bool := cs.head? = some '-'
  let cs := if cs.head? = some '-' ∨ cs.head? = some '+' then cs.tail else cs
  let ds := cs.takeWhile Char.isDigit
  if ds = [] then none
  else
    let v : Int := if neg = true then -(digitsValue 0 ds : Int) else (digitsValue 0 ds : Int)
    if -2147483648 ≤ v ∧ v ≤ 2147483647 then some v else none

/-- The integers `a, a+1, ..., b-1` pushed by
`for(int i = a; i < b; i++) suppressMode.push_back(i);`. -/
def pushRange (a b : Int) (suppressMode : List Int) : List Int :=
  suppressMode ++ (List.range (b - a).toNat).map (fun k => a + (k : Int))

/-- The body of the loop over the entries of `FFTSolver::parseSuppressMode`
on the entry `it`: an entry in which `find("-")` finds nothing is split at
`"-"` and the range `stoi(res2[0]) .. stoi(res2[1]) - 1` is pushed, any other
entry is pushed as `stoi(entry)`.  An element of `res2` that does not exist,
or a failing `stoi`, ends the call with an error. -/
def parseSuppressMode_entry (it : String) (suppressMode : List Int) :
    Except String (List Int) :=
  if ¬ it.data.contains '-' then
    let res2 := Setup.split it "-"
    match res2 with
    | r0 :: r1 :: _ =>
      match stoi r0, stoi r1 with
      | some a, some b => .ok (pushRange a b suppressMode)
      | _, _ => .error "stoi"
    | _ => .error "res2[1] does not exist"
  else
    match stoi it with
    | some a => .ok (suppressMode ++ [a])
    | none => .error "stoi"

/-- The loop `for(it = result.begin(); it != result.end(); it++)` of
`FFTSolver::parseSuppressMode`. -/
def parseSuppressMode_loop : List String → List Int → Except String (List Int)
  | [], suppressMode => .ok suppressMode
  | it :: rest, suppressMode =>
    match parseSuppressMode_entry it suppressMode with
    | .error e => .error e
    | .ok suppressMode1 => parseSuppressMode_loop rest suppressMode1

/-- The function `FFTSolver::parseSuppressMode(value, suppressMode)`, with the
list `suppressMode` after the call as result. -/
def parseSuppressMode (value : String) (suppressMode : List Int) : Except String (List Int) :=
  if value = "" then .ok suppressMode
  else
    let sub_str := Setup.eraseCharacter value " "
    let result := Setup.split sub_str ","
    parseSuppressMode_loop result suppressMode

/-- The entry rule as the specification words it: the integer itself for an
entry without `-`, the integers `a .. b-1` for an entry `a-b`. -/
def spec_parseSuppressMode_entry (it : String) (suppressMode : List Int) :
    Except String (List Int) :=
  if ¬ it.data.contains '-' then
    match stoi it with
    | some a => .ok (suppressMode ++ [a])
    | none => .error "stoi"
  else
    match Setup.split it "-" with
    | r0 :: r1 :: _ =>
      match stoi r0, stoi r1 with
      | some a, some b => .ok (pushRange a b suppressMode)
      | _, _ => .error "stoi"
    | _ => .error "not of the form a-b"

/-- The loop over the entries with the entry rule of the specification. -/
def spec_parseSuppressMode_loop : List String → List Int → Except String (List Int)
  | [], suppressMode => .ok suppressMode
  | it :: rest, suppressMode =>
    match spec_parseSuppressMode_entry it suppressMode with
    | .error e => .error e
    | .ok suppressMode1 => spec_parseSuppressMode_loop rest suppressMode1

/-- The list after the call as the specification words it: nothing is
appended for the empty string, otherwise the entries of the value without
spaces, separated by commas, are appended in order by the entry rule. -/
def spec_parseSuppressMode (value : String) (suppressMode : List Int) :
    Except String (List Int) :=
  if value = "" then .ok suppressMode
  else spec_parseSuppressMode_loop (Setup.split (Setup.eraseCharacter value " ") ",") suppressMode

/-! ## The calibration of the island width -/

/-- The objective of the calibration, the lambda
`[=](double w)-> double { return IslandWidth(w) - width; }` handed to
`RootFinding::BiSection`. -/
def widthObjective {K : Type} [Field K] [DecidableEq K] (psi sin : K → K)
    (M_PI Ly width : K) (w : K) : K :=
  IslandWidth psi sin M_PI Ly w - width

/-- Modelled from the spec: `RootFinding::BiSection(func, a, b)` is declared in
`Special/RootFinding.h`, which is not among the sources; the specification
says the width equation is "solved by bisection over `[0,100]`".  One halving
of the bracket `(a, b)` at its midpoint `m`: the half `(a, m)` is kept when
`func` changes sign on it (`func(a)*func(m) <= 0`), otherwise the half
`(m, b)`. -/
def BiSection_step {K : Type} [LinearOrderedField K] (func : K → K) (ab : K × K) : K × K :=
  let m := (ab.1 + ab.2) / 2
  if func ab.1 * func m ≤ 0 then (ab.1, m) else (m, ab.2)

/-- Modelled from the spec: the bracket of `BiSection(func, a, b)` after `n`
halvings. -/
def BiSection_bracket {K : Type} [LinearOrderedField K] (func : K → K) (a b : K) :
    Nat → K × K
  | 0 => (a, b)
  | n + 1 => BiSection_step func (BiSection_bracket func a b n)

/-- A configuration with `Plasma.Global = 1` in which the mass of the kinetic
species 2 is `0`, all other keys unset. -/
def globalMasslessSetup : Setup :=
  { str := fun _ => none,
    num := fun key => if key = "Plasma.Species2.Mass" then some 0 else none,
    int := fun key => if key = "Plasma.Global" then some 1 else none }

/-! ## The array arguments of `Vlasov_2D_Island` as storage -/

/-- The six arguments `fs`, `fss`, `f0`, `f1`, `ft`, `Coll` of a derivative
routine as the addresses of the arrays they point to: C passes an array by the
address of its storage, and `solve` passes the caller's `f_in` and `f_out` as
`fs` and `fss` next to the members `f0`, `f`, `ft`, `Coll`, so that two
arguments can name the same storage. -/
structure ArrayArgs where
  (fs fss f0 f1 ft Coll : Nat)

/-- The storage of the six-dimensional arrays, by address, and the buffer
`nonLinearTerm`. -/
structure MemState where
  mem : Nat → A6
  nonLinearTerm : A3

/-- The arrays the routine reads at a moment of the run: `fs`, `f0`, `f1`,
`Coll` as stored at their addresses, the other arguments (`Fields`, `MagIs`,
`dMagIs_dx`, `V`, `M`) from `env`. -/
def ArrayArgs.inputs (a : ArrayArgs) (mem : Nat → A6) (env : Inputs) : Inputs :=
  { env with fs := mem a.fs, f0 := mem a.f0, f1 := mem a.f1, Coll := mem a.Coll }

/-- The two closing assignments at the point `p` on the storage:
`ft[p] = rk[0]*ft[p] + rk[1]*dg_dt;`
`fss[p] = f1[p] + (rk[2]*ft[p] + dg_dt)*dt;`
the second statement reads `f1[p]` and `ft[p]` after the first one has written. -/
def timeIntegrate_mem (a : ArrayArgs) (rk : Nat → ℚ) (dt : ℚ) (p : Idx6) (dg_dt : CComplex)
    (st : MemState) : MemState :=
  let mem1 := Function.update st.mem a.ft
    ((st.mem a.ft).set p (ofReal (rk 0) * st.mem a.ft p + ofReal (rk 1) * dg_dt))
  let mem2 := Function.update mem1 a.fss
    ((mem1 a.fss).set p (mem1 a.f1 p + (ofReal (rk 2) * mem1 a.ft p + dg_dt) * ofReal dt))
  { st with mem := mem2 }

/-- The statement `if(doNonLinear && (rk_step != 0)) calculateExBNonLinearity(nullptr,
nullptr, fs, Fields, z, m, s, nonLinearTerm, Xi_max, false);` on the storage.
The routine of the base class receives the array `fs`, which is not declared
`const`; `fsAfter` is the content it leaves in `fs`. -/
def recomputeNonLinear_mem (self : VlasovIsland) (a : ArrayArgs) (env : Inputs)
    (fsAfter : A6 → AFields → Int → Int → Int → A3 → A6) (rk_step : Int) (s m z : Int)
    (st : MemState) : MemState :=
  if self.doNonLinear = true ∧ rk_step ≠ 0 then
    { mem := Function.update st.mem a.fs
        (fsAfter (st.mem a.fs) env.Fields z m s st.nonLinearTerm),
      nonLinearTerm :=
        self.calculateExBNonLinearity (st.mem a.fs) env.Fields z m s st.nonLinearTerm }
  else st

/-- The routine `VlasovIsland::Vlasov_2D_Island` on the storage of its array
arguments: the loops over `s`, `m`, `z`, the recomputation of the buffer, the
loops `for(int y_k = 0; y_k < Nky-1; y_k++)`, `x`, `v`, with the tendency of
the point computed from the arrays as they are stored when the point is
reached.  The copy of `Psi0` into `Field0` made when `Nq > 1` writes an array
of another shape, which is not part of this storage. -/
def Vlasov_2D_Island_mem (self : VlasovIsland) (a : ArrayArgs) (env : Inputs)
    (fsAfter : A6 → AFields → Int → Int → Int → A3 → A6) (st : MemState)
    (dt : ℚ) (rk_step : Int) (rk : Nat → ℚ) : MemState :=
  forLoop self.grid.NsLlD self.grid.NsLuD (fun s =>
    forLoop self.grid.NmLlD self.grid.NmLuD (fun m =>
      forLoop self.grid.NzLlD self.grid.NzLuD (fun z st =>
        forLoop 0 (self.grid.Nky - 2) (fun y_k =>
          forLoop self.grid.NxLlD self.grid.NxLuD (fun x =>
            forLoop self.grid.NvLlD self.grid.NvLuD (fun v st =>
              timeIntegrate_mem a rk dt ⟨s, m, z, y_k, x, v⟩
                (Vlasov_2D_Island_dg_dt self (a.inputs st.mem env) st.nonLinearTerm
                  ⟨s, m, z, y_k, x, v⟩) st)))
          (recomputeNonLinear_mem self a env fsAfter rk_step s m z st)))) st

/-- The arguments as `solve` passes them when its caller gives the member `f`
as `f_out`: `fss` and `f1` name the same storage. -/
def inPlaceArgs : ArrayArgs := { fs := 0, fss := 1, f0 := 2, f1 := 1, ft := 3, Coll := 4 }

/-- Six arguments with six different addresses. -/
def distinctArgs : ArrayArgs := { fs := 0, fss := 1, f0 := 2, f1 := 5, ft := 3, Coll := 4 }

/-- A storage in which the array at the address 4 is 1 everywhere and the
other arrays vanish, with a zero buffer. -/
def unitCollMem : MemState :=
  { mem := fun addr => if addr = 4 then fun _ => 1 else fun _ => 0,
    nonLinearTerm := fun _ _ _ => 0 }

/-! # Theorems -/

/-! ## Algebra of `CComplex` -/

namespace CComplex

@[simp] theorem ofReal_re (r : ℚ) : (ofReal r).re = r := rfl
@[simp] theorem ofReal_im (r : ℚ) : (ofReal r).im = 0 := rfl
@[simp] theorem coe_re (r : ℚ) : ((r : CComplex)).re = r := rfl
@[simp] theorem coe_im (r : ℚ) : ((r : CComplex)).im = 0 := rfl
@[simp] theorem zero_re : (0 : CComplex).re = 0 := rfl
@[simp] theorem zero_im : (0 : CComplex).im = 0 := rfl
@[simp] theorem one_re : (1 : CComplex).re = 1 := rfl
@[simp] theorem one_im : (1 : CComplex).im = 0 := rfl
@[simp] theorem add_re (a b : CComplex) : (a + b).re = a.re + b.re := rfl
@[simp] theorem add_im (a b : CComplex) : (a + b).im = a.im + b.im := rfl
@[simp] theorem neg_re (a : CComplex) : (-a).re = -a.re := rfl
@[simp] theorem neg_im (a : CComplex) : (-a).im = -a.im := rfl
@[simp] theorem sub_re (a b : CComplex) : (a - b).re = a.re - b.re := rfl
@[simp] theorem sub_im (a b : CComplex) : (a - b).im = a.im - b.im := rfl
@[simp] theorem mul_re (a b : CComplex) : (a * b).re = a.re * b.re - a.im * b.im := rfl
@[simp] theorem mul_im (a b : CComplex) : (a * b).im = a.re * b.im + a.im * b.re := rfl
@[simp] theorem natCast_re (n : ℕ) : ((n : CComplex)).re = n := rfl
@[simp] theorem natCast_im (n : ℕ) : ((n : CComplex)).im = 0 := rfl
@[simp] theorem intCast_re (n : ℤ) : ((n : CComplex)).re = n := rfl
@[simp] theorem intCast_im (n : ℤ) : ((n : CComplex)).im = 0 := rfl
@[simp] theorem nsmul_re (n : ℕ) (a : CComplex) : (n • a).re = n * a.re := rfl
@[simp] theorem nsmul_im (n : ℕ) (a : CComplex) : (n • a).im = n * a.im := rfl
@[simp] theorem zsmul_re (n : ℤ) (a : CComplex) : (n • a).re = n * a.re := rfl
@[simp] theorem zsmul_im (n : ℤ) (a : CComplex) : (n • a).im = n * a.im := rfl
@[simp] theorem imag_re : _imag.re = 0 := rfl
@[simp] theorem imag_im : _imag.im = 1 := rfl
@[simp] theorem conj_re (a : CComplex) : (conj a).re = a.re := rfl
@[simp] theorem conj_im (a : CComplex) : (conj a).im = -a.im := rfl
@[simp] theorem creal_re (a : CComplex) : (creal a).re = a.re := rfl
@[simp] theorem creal_im (a : CComplex) : (creal a).im = 0 := rfl

instance : CommRing CComplex where
  add_assoc a b c := by ext <;> simp <;> ring
  zero_add a := by ext <;> simp
  add_zero a := by ext <;> simp
  add_comm a b := by ext <;> simp <;> ring
  nsmul n a := n • a
  nsmul_zero a := by ext <;> simp
  nsmul_succ n a := by ext <;> simp <;> ring
  zsmul n a := n • a
  zsmul_zero' a := by ext <;> simp
  zsmul_succ' n a := by ext <;> simp <;> ring
  zsmul_neg' n a := by ext <;> simp <;> ring
  neg_add_cancel a := by ext <;> simp
  sub_eq_add_neg a b := by ext <;> simp <;> ring
  mul_assoc a b c := by ext <;> simp <;> ring
  one_mul a := by ext <;> simp
  mul_one a := by ext <;> simp
  left_distrib a b c := by ext <;> simp <;> ring
  right_distrib a b c := by ext <;> simp <;> ring
  zero_mul a := by ext <;> simp
  mul_zero a := by ext <;> simp
  mul_comm a b := by ext <;> simp <;> ring
  natCast_zero := by ext <;> simp
  natCast_succ n := by ext <;> simp
  intCast_ofNat n := by ext <;> simp
  intCast_negSucc n := by ext <;> simp

@[simp] theorem ofNat_re (n : ℕ) [n.AtLeastTwo] :
    (no_index (OfNat.ofNat n) : CComplex).re = OfNat.ofNat n := rfl
@[simp] theorem ofNat_im (n : ℕ) [n.AtLeastTwo] :
    (no_index (OfNat.ofNat n) : CComplex).im = 0 := rfl

theorem conj_mul_ofReal (a : CComplex) (r : ℚ) : conj a * ofReal r = conj (a * ofReal r) := by
  ext <;> simp

end CComplex

/-! ## Loop lemmas -/

theorem loopFrom_inv {σ : Type} (body : Int → σ → σ) (I : σ → Prop) :
    ∀ (n : Nat) (k : Int) (st : σ),
      (∀ j st, k ≤ j → j < k + n → I st → I (body j st)) → I st → I (loopFrom body n k st)
  | 0, _, _, _, h0 => h0
  | n + 1, k, st, h, h0 => by
    apply loopFrom_inv body I n (k + 1) (body k st)
    · intro j st1 hj1 hj2 hI
      exact h j st1 (by omega) (by push_cast; omega) hI
    · exact h k st (le_refl k) (by push_cast; omega) h0

theorem forLoop_inv {σ : Type} (lo hi : Int) (body : Int → σ → σ) (I : σ → Prop) (st : σ)
    (h : ∀ j st, lo ≤ j → j ≤ hi → I st → I (body j st)) (h0 : I st) :
    I (forLoop lo hi body st) := by
  apply loopFrom_inv body I _ lo st _ h0
  intro j st1 hj1 hj2 hI
  exact h j st1 hj1 (by omega) hI

theorem loopFrom_hit {σ : Type} (body : Int → σ → σ) (B A : σ → Prop) (kp : Int)
    (hB : ∀ j st, j ≠ kp → B st → B (body j st))
    (hBA : ∀ st, B st → A (body kp st))
    (hA : ∀ j st, j ≠ kp → A st → A (body j st)) :
    ∀ (n : Nat) (k : Int) (st : σ), k ≤ kp → kp < k + n → B st → A (loopFrom body n k st)
  | 0, k, _, h1, h2, _ => by simp at h2; omega
  | n + 1, k, st, h1, h2, h0 => by
    by_cases hk : k = kp
    · subst hk
      apply loopFrom_inv body A n (k + 1) (body k st)
      · intro j st1 hj1 _ hI
        exact hA j st1 (by omega) hI
      · exact hBA st h0
    · apply loopFrom_hit body B A kp hB hBA hA n (k + 1) (body k st) (by omega)
        (by push_cast at h2; omega)
      exact hB k st hk h0

/-- A loop that meets the index `kp` once: if the other iterations are related
to their input by `S` and the iteration `kp` by `R`, the loop is related by `R`. -/
theorem forLoop_hit {σ : Type} (lo hi kp : Int) (body : Int → σ → σ) (S R : σ → σ → Prop)
    (hlo : lo ≤ kp) (hhi : kp ≤ hi)
    (hSrefl : ∀ a, S a a) (hSS : ∀ a b c, S a b → S b c → S a c)
    (hSR : ∀ a b c, S a b → R b c → R a c) (hRS : ∀ a b c, R a b → S b c → R a c)
    (hmiss : ∀ j st, j ≠ kp → S st (body j st)) (hhit : ∀ st, R st (body kp st)) (st : σ) :
    R st (forLoop lo hi body st) := by
  apply loopFrom_hit body (fun st1 => S st st1) (fun st1 => R st st1) kp _ _ _ _ lo st hlo
    (by omega) (hSrefl st)
  · intro j st1 hj h
    exact hSS _ _ _ h (hmiss j st1 hj)
  · intro st1 h
    exact hSR _ _ _ h (hhit st1)
  · intro j st1 hj h
    exact hRS _ _ _ h (hmiss j st1 hj)

/-- A loop all of whose iterations are related to their input by the preorder
`S` is related by `S`. -/
theorem forLoop_all {σ : Type} (lo hi : Int) (body : Int → σ → σ) (S : σ → σ → Prop)
    (hSrefl : ∀ a, S a a) (hSS : ∀ a b c, S a b → S b c → S a c)
    (hmiss : ∀ j st, lo ≤ j → j ≤ hi → S st (body j st)) (st : σ) :
    S st (forLoop lo hi body st) := by
  apply forLoop_inv lo hi body (fun st1 => S st st1) st _ (hSrefl st)
  intro j st1 h1 h2 h
  exact hSS _ _ _ h (hmiss j st1 h1 h2)

/-! ## One point followed through the loop nest -/

theorem SameAt.refl (p : Idx6) (st : RKState) : SameAt p st st := ⟨rfl, rfl, rfl⟩

theorem SameAt.trans (p : Idx6) (a b c : RKState) (h1 : SameAt p a b) (h2 : SameAt p b c) :
    SameAt p a c :=
  ⟨h2.1.trans h1.1, h2.2.1.trans h1.2.1, h2.2.2.trans h1.2.2⟩

theorem StepAt.of_same_left (rk : Nat → ℚ) (dt : ℚ) (f1 : A6) (p : Idx6) (d : CComplex)
    (a b c : RKState) (h1 : SameAt p a b) (h2 : StepAt rk dt f1 p d b c) :
    StepAt rk dt f1 p d a c :=
  ⟨h2.1.trans h1.2.2, by rw [h2.2.1, h1.1], h2.2.2⟩

theorem StepAt.of_same_right (rk : Nat → ℚ) (dt : ℚ) (f1 : A6) (p : Idx6) (d : CComplex)
    (a b c : RKState) (h1 : StepAt rk dt f1 p d a b) (h2 : SameAt p b c) :
    StepAt rk dt f1 p d a c :=
  ⟨h2.2.2.trans h1.1, by rw [h2.1, h1.2.1], by rw [h2.2.1, h2.1, h1.2.2]⟩

theorem timeIntegrate_miss (rk : Nat → ℚ) (dt : ℚ) (f1 : A6) (p q : Idx6) (d : CComplex)
    (st : RKState) (h : p ≠ q) : SameAt p st (timeIntegrate rk dt f1 q d st) := by
  simp [SameAt, timeIntegrate, A6.set, RKState.aux, h]

theorem timeIntegrate_hit (rk : Nat → ℚ) (dt : ℚ) (f1 : A6) (p : Idx6) (d : CComplex)
    (st : RKState) : StepAt rk dt f1 p d st (timeIntegrate rk dt f1 p d st) := by
  simp [StepAt, timeIntegrate, A6.set, RKState.aux]

/-- The `v` loop at a fixed `(s, m, z, y_k, x)` that is not the one of `p`. -/
theorem vloop_miss (G : Grid) (dg_dt : A3 → Idx6 → CComplex) (rk : Nat → ℚ) (dt : ℚ) (f1 : A6)
    (p : Idx6) (s m z y_k x : Int)
    (h : ¬ (s = p.s ∧ m = p.m ∧ z = p.z ∧ y_k = p.y_k ∧ x = p.x)) (st : RKState) :
    SameAt p st (forLoop G.NvLlD G.NvLuD (fun v st =>
      timeIntegrate rk dt f1 ⟨s, m, z, y_k, x, v⟩
        (dg_dt st.nonLinearTerm ⟨s, m, z, y_k, x, v⟩) st) st) := by
  apply forLoop_all _ _ _ (SameAt p) (SameAt.refl p) (SameAt.trans p)
  intro v st1 _ _
  apply timeIntegrate_miss
  intro hp
  apply h
  subst hp
  simp

/-- The `x` loop at a fixed `(s, m, z, y_k)` that is not the one of `p`. -/
theorem xloop_miss (G : Grid) (dg_dt : A3 → Idx6 → CComplex) (rk : Nat → ℚ) (dt : ℚ) (f1 : A6)
    (p : Idx6) (s m z y_k : Int)
    (h : ¬ (s = p.s ∧ m = p.m ∧ z = p.z ∧ y_k = p.y_k)) (st : RKState) :
    SameAt p st (forLoop G.NxLlD G.NxLuD (fun x =>
      forLoop G.NvLlD G.NvLuD (fun v st =>
        timeIntegrate rk dt f1 ⟨s, m, z, y_k, x, v⟩
          (dg_dt st.nonLinearTerm ⟨s, m, z, y_k, x, v⟩) st)) st) := by
  apply forLoop_all _ _ _ (SameAt p) (SameAt.refl p) (SameAt.trans p)
  intro x st1 _ _
  apply vloop_miss
  intro hp
  exact h ⟨hp.1, hp.2.1, hp.2.2.1, hp.2.2.2.1⟩

/-- The `y_k` loop at a fixed `(s, m, z)` that is not the one of `p`. -/
theorem yloop_miss (G : Grid) (ylo yhi : Int) (dg_dt : A3 → Idx6 → CComplex) (rk : Nat → ℚ)
    (dt : ℚ) (f1 : A6) (p : Idx6) (s m z : Int)
    (h : ¬ (s = p.s ∧ m = p.m ∧ z = p.z)) (st : RKState) :
    SameAt p st (forLoop ylo yhi (fun y_k =>
      forLoop G.NxLlD G.NxLuD (fun x =>
        forLoop G.NvLlD G.NvLuD (fun v st =>
          timeIntegrate rk dt f1 ⟨s, m, z, y_k, x, v⟩
            (dg_dt st.nonLinearTerm ⟨s, m, z, y_k, x, v⟩) st))) st) := by
  apply forLoop_all _ _ _ (SameAt p) (SameAt.refl p) (SameAt.trans p)
  intro y st1 _ _
  apply xloop_miss
  intro hp
  exact h ⟨hp.1, hp.2.1, hp.2.2.1⟩

/-- The three inner loops at the `(s, m, z)` of an owned point `p` perform the
two closing assignments at `p` once, with the tendency taken on the buffer the
block starts with. -/
theorem yloop_hit (G : Grid) (ylo yhi : Int) (dg_dt : A3 → Idx6 → CComplex) (rk : Nat → ℚ)
    (dt : ℚ) (f1 : A6) (p : Idx6) (hp : G.owned ylo yhi p) (buf : A3) (st : RKState)
    (hbuf : st.nonLinearTerm = buf) :
    StepAt rk dt f1 p (dg_dt buf p) st (forLoop ylo yhi (fun y_k =>
      forLoop G.NxLlD G.NxLuD (fun x =>
        forLoop G.NvLlD G.NvLuD (fun v st =>
          timeIntegrate rk dt f1 ⟨p.s, p.m, p.z, y_k, x, v⟩
            (dg_dt st.nonLinearTerm ⟨p.s, p.m, p.z, y_k, x, v⟩) st))) st) := by
  obtain ⟨_, _, _, _, _, _, hy1, hy2, hx1, hx2, hv1, hv2⟩ := hp
  have key : ∀ st : RKState, st.nonLinearTerm = buf →
      StepAt rk dt f1 p (dg_dt buf p) st (forLoop ylo yhi (fun y_k =>
        forLoop G.NxLlD G.NxLuD (fun x =>
          forLoop G.NvLlD G.NvLuD (fun v st =>
            timeIntegrate rk dt f1 ⟨p.s, p.m, p.z, y_k, x, v⟩
              (dg_dt st.nonLinearTerm ⟨p.s, p.m, p.z, y_k, x, v⟩) st))) st) := by
    intro st0 h0
    have hS : ∀ a b : RKState, (a.nonLinearTerm = buf ∧ SameAt p a b) → b.nonLinearTerm = buf := by
      intro a b h
      have := h.2.2.2
      simp only [RKState.aux, Prod.mk.injEq] at this
      rw [this.1]; exact h.1
    -- relations that carry the content of the buffer along
    let S : RKState → RKState → Prop := fun a b => a.nonLinearTerm = buf → SameAt p a b
    let R : RKState → RKState → Prop :=
      fun a b => a.nonLinearTerm = buf → StepAt rk dt f1 p (dg_dt buf p) a b
    have hSrefl : ∀ a, S a a := fun a _ => SameAt.refl p a
    have hSS : ∀ a b c, S a b → S b c → S a c := fun a b c h1 h2 ha =>
      SameAt.trans p a b c (h1 ha) (h2 (hS a b ⟨ha, h1 ha⟩))
    have hSR : ∀ a b c, S a b → R b c → R a c := fun a b c h1 h2 ha =>
      StepAt.of_same_left rk dt f1 p _ a b c (h1 ha) (h2 (hS a b ⟨ha, h1 ha⟩))
    have hRS : ∀ a b c, R a b → S b c → R a c := fun a b c h1 h2 ha =>
      StepAt.of_same_right rk dt f1 p _ a b c (h1 ha)
        (h2 (by have := (h1 ha).1; simp only [RKState.aux, Prod.mk.injEq] at this
                rw [this.1]; exact ha))
    refine forLoop_hit ylo yhi p.y_k _ S R hy1 hy2 hSrefl hSS hSR hRS ?_ ?_ st0 h0
    · intro y st1 hy _
      apply xloop_miss
      intro h; exact hy h.2.2.2
    · intro st1
      refine forLoop_hit G.NxLlD G.NxLuD p.x _ S R hx1 hx2 hSrefl hSS hSR hRS ?_ ?_ st1
      · intro x st2 hx _
        apply vloop_miss
        intro h; exact hx h.2.2.2.2
      · intro st2
        refine forLoop_hit G.NvLlD G.NvLuD p.v _ S R hv1 hv2 hSrefl hSS hSR hRS ?_ ?_ st2
        · intro v st3 hv _
          apply timeIntegrate_miss
          intro h; apply hv; rw [h]
        · intro st3 h3
          rw [h3]
          exact timeIntegrate_hit rk dt f1 p _ st3
  exact key st hbuf

/-- The loop nest `sweep` at an owned point `p`: the two closing assignments
are performed there exactly once, with the tendency evaluated on the buffer
`nl p.s p.m p.z e` computed when the block of `(p.s, p.m, p.z)` is entered in
the state `e`.  `Q` is any property of the arrays other than `ft`, `fss` that
`setup` and the recomputation of the buffer keep; it holds of `e` when it
holds initially. -/
theorem sweep_at (G : Grid) (ylo yhi : Int) (setup : Int → Int → RKState → RKState)
    (nl : Int → Int → Int → RKState → A3) (dg_dt : A3 → Idx6 → CComplex)
    (rk : Nat → ℚ) (dt : ℚ) (f1 : A6) (p : Idx6) (hp : G.owned ylo yhi p)
    (Q : RKState → Prop)
    (hQaux : ∀ a b : RKState, b.aux = a.aux → Q a → Q b)
    (hQsetup : ∀ s m st, Q st → Q (setup s m st))
    (hQnl : ∀ s m z (st : RKState), Q st → Q { st with nonLinearTerm := nl s m z st })
    (hsetup : ∀ s m st, (setup s m st).ft = st.ft ∧ (setup s m st).fss = st.fss)
    (st : RKState) (hQ : Q st) :
    ∃ e : RKState, Q e ∧
      (sweep G ylo yhi setup nl dg_dt rk dt f1 st).ft p
        = ofReal (rk 0) * st.ft p + ofReal (rk 1) * dg_dt (nl p.s p.m p.z e) p ∧
      (sweep G ylo yhi setup nl dg_dt rk dt f1 st).fss p
        = f1 p + (ofReal (rk 2) * (sweep G ylo yhi setup nl dg_dt rk dt f1 st).ft p
                  + dg_dt (nl p.s p.m p.z e) p) * ofReal dt := by
  have hp0 := hp
  obtain ⟨hs1, hs2, hm1, hm2, hz1, hz2, _⟩ := hp
  let S : RKState → RKState → Prop :=
    fun a b => b.ft p = a.ft p ∧ b.fss p = a.fss p ∧ (Q a → Q b)
  let R : RKState → RKState → Prop := fun a b =>
    (Q a → Q b) ∧ (Q a → ∃ e : RKState, Q e ∧
      b.ft p = ofReal (rk 0) * a.ft p + ofReal (rk 1) * dg_dt (nl p.s p.m p.z e) p ∧
      b.fss p = f1 p + (ofReal (rk 2) * b.ft p + dg_dt (nl p.s p.m p.z e) p) * ofReal dt)
  have hSrefl : ∀ a, S a a := fun a => ⟨rfl, rfl, id⟩
  have hSS : ∀ a b c, S a b → S b c → S a c := fun a b c h1 h2 =>
    ⟨h2.1.trans h1.1, h2.2.1.trans h1.2.1, fun h => h2.2.2 (h1.2.2 h)⟩
  have hSR : ∀ a b c, S a b → R b c → R a c := by
    intro a b c h1 h2
    refine ⟨fun h => h2.1 (h1.2.2 h), fun h => ?_⟩
    obtain ⟨e, he, hft, hfss⟩ := h2.2 (h1.2.2 h)
    exact ⟨e, he, by rw [hft, h1.1], hfss⟩
  have hRS : ∀ a b c, R a b → S b c → R a c := by
    intro a b c h1 h2
    refine ⟨fun h => h2.2.2 (h1.1 h), fun h => ?_⟩
    obtain ⟨e, he, hft, hfss⟩ := h1.2 h
    exact ⟨e, he, by rw [h2.1, hft], by rw [h2.2.1, h2.1, hfss]⟩
  -- a block that is not the one of `p`
  have hblock_miss : ∀ (s m z : Int) (st : RKState), ¬ (s = p.s ∧ m = p.m ∧ z = p.z) →
      S st (forLoop ylo yhi (fun y_k =>
        forLoop G.NxLlD G.NxLuD (fun x =>
          forLoop G.NvLlD G.NvLuD (fun v st =>
            timeIntegrate rk dt f1 ⟨s, m, z, y_k, x, v⟩
              (dg_dt st.nonLinearTerm ⟨s, m, z, y_k, x, v⟩) st)))
        { st with nonLinearTerm := nl s m z st }) := by
    intro s m z st0 h
    have h1 := yloop_miss G ylo yhi dg_dt rk dt f1 p s m z h
      { st0 with nonLinearTerm := nl s m z st0 }
    exact ⟨h1.1, h1.2.1, fun hq => hQaux _ _ h1.2.2 (hQnl s m z st0 hq)⟩
  -- the block of `p`
  have hblock_hit : ∀ st : RKState,
      R st (forLoop ylo yhi (fun y_k =>
        forLoop G.NxLlD G.NxLuD (fun x =>
          forLoop G.NvLlD G.NvLuD (fun v st =>
            timeIntegrate rk dt f1 ⟨p.s, p.m, p.z, y_k, x, v⟩
              (dg_dt st.nonLinearTerm ⟨p.s, p.m, p.z, y_k, x, v⟩) st)))
        { st with nonLinearTerm := nl p.s p.m p.z st }) := by
    intro st0
    have h1 := yloop_hit G ylo yhi dg_dt rk dt f1 p hp0 (nl p.s p.m p.z st0)
      { st0 with nonLinearTerm := nl p.s p.m p.z st0 } rfl
    exact ⟨fun hq => hQaux _ _ h1.1 (hQnl _ _ _ st0 hq),
      fun hq => ⟨st0, hq, h1.2.1, h1.2.2⟩⟩
  have hsetupS : ∀ s m st, S st (setup s m st) := fun s m st0 =>
    ⟨by rw [(hsetup s m st0).1], by rw [(hsetup s m st0).2], hQsetup s m st0⟩
  have hR : R st (sweep G ylo yhi setup nl dg_dt rk dt f1 st) := by
    unfold sweep
    refine forLoop_hit G.NsLlD G.NsLuD p.s _ S R hs1 hs2 hSrefl hSS hSR hRS ?_ ?_ st
    · intro s st1 hs
      apply forLoop_all _ _ _ S hSrefl hSS
      intro m st2 _ _
      refine hSS _ _ _ (hsetupS s m st2) ?_
      apply forLoop_all _ _ _ S hSrefl hSS
      intro z st3 _ _
      exact hblock_miss s m z st3 (fun h => hs h.1)
    · intro st1
      refine forLoop_hit G.NmLlD G.NmLuD p.m _ S R hm1 hm2 hSrefl hSS hSR hRS ?_ ?_ st1
      · intro m st2 hm
        refine hSS _ _ _ (hsetupS p.s m st2) ?_
        apply forLoop_all _ _ _ S hSrefl hSS
        intro z st3 _ _
        exact hblock_miss p.s m z st3 (fun h => hm h.2.1)
      · intro st2
        refine hSR _ _ _ (hsetupS p.s p.m st2) ?_
        refine forLoop_hit G.NzLlD G.NzLuD p.z _ S R hz1 hz2 hSrefl hSS hSR hRS ?_ ?_ _
        · intro z st3 hz
          exact hblock_miss p.s p.m z st3 (fun h => hz h.2.2)
        · intro st3
          exact hblock_hit st3
  exact hR.2 hQ

/-- The loop nest `sweep` writes neither `ft` nor `fss` at an index that is not owned. -/
theorem sweep_frame (G : Grid) (ylo yhi : Int) (setup : Int → Int → RKState → RKState)
    (nl : Int → Int → Int → RKState → A3) (dg_dt : A3 → Idx6 → CComplex)
    (rk : Nat → ℚ) (dt : ℚ) (f1 : A6) (p : Idx6) (hp : ¬ G.owned ylo yhi p)
    (hsetup : ∀ s m st, (setup s m st).ft = st.ft ∧ (setup s m st).fss = st.fss)
    (st : RKState) :
    (sweep G ylo yhi setup nl dg_dt rk dt f1 st).ft p = st.ft p ∧
    (sweep G ylo yhi setup nl dg_dt rk dt f1 st).fss p = st.fss p := by
  let S : RKState → RKState → Prop := fun a b => b.ft p = a.ft p ∧ b.fss p = a.fss p
  have hSrefl : ∀ a, S a a := fun a => ⟨rfl, rfl⟩
  have hSS : ∀ a b c, S a b → S b c → S a c := fun a b c h1 h2 =>
    ⟨h2.1.trans h1.1, h2.2.trans h1.2⟩
  have hS : S st (sweep G ylo yhi setup nl dg_dt rk dt f1 st) := by
    unfold sweep
    apply forLoop_all _ _ _ S hSrefl hSS
    intro s st1 hs1 hs2
    apply forLoop_all _ _ _ S hSrefl hSS
    intro m st2 hm1 hm2
    refine hSS _ _ _ ⟨by rw [(hsetup s m st2).1], by rw [(hsetup s m st2).2]⟩ ?_
    apply forLoop_all _ _ _ S hSrefl hSS
    intro z st3 hz1 hz2
    refine hSS _ { st3 with nonLinearTerm := nl s m z st3 } _ ⟨rfl, rfl⟩ ?_
    apply forLoop_all _ _ _ S hSrefl hSS
    intro y st4 hy1 hy2
    apply forLoop_all _ _ _ S hSrefl hSS
    intro x st5 hx1 hx2
    apply forLoop_all _ _ _ S hSrefl hSS
    intro v st6 hv1 hv2
    have h := timeIntegrate_miss rk dt f1 p ⟨s, m, z, y, x, v⟩
      (dg_dt st6.nonLinearTerm ⟨s, m, z, y, x, v⟩) st6
      (by intro h; apply hp; subst h
          exact ⟨hs1, hs2, hm1, hm2, hz1, hz2, hy1, hy2, hx1, hx2, hv1, hv2⟩)
    exact ⟨h.1, h.2.1⟩
  exact hS

/-! ## Claims -/

theorem Vlasov_2D_Island_EM_setup_ft (self : VlasovIsland) (inp : Inputs) (Fields : AFields)
    (s m : Int) (st : RKState) :
    (Vlasov_2D_Island_EM_setup self inp Fields s m st).ft = st.ft
    ∧ (Vlasov_2D_Island_EM_setup self inp Fields s m st).fss = st.fss := by
  unfold Vlasov_2D_Island_EM_setup
  split <;> exact ⟨rfl, rfl⟩

/-- The loop nest of the four electrostatic routines at an owned point: the
tendency is taken on the buffer `recomputeNonLinear ... e`, where `e` is the
state in which the block of the point is entered; when nothing is recomputed
(`doNonLinear` unset or `rk_step == 0`) the buffer of `e` is the initial one. -/
theorem electrostatic_sweep_at (self : VlasovIsland) (inp : Inputs) (rk_step : Int)
    (ylo yhi : Int) (dg_dt : A3 → Idx6 → CComplex) (rk : Nat → ℚ) (dt : ℚ) (st : RKState)
    (p : Idx6) (hp : self.grid.owned ylo yhi p) :
    ∃ e : RKState,
      (¬ (self.doNonLinear = true ∧ rk_step ≠ 0) → e.nonLinearTerm = st.nonLinearTerm)
      ∧ RKAccumulation rk dt (st.ft p) (inp.f1 p)
        (dg_dt (recomputeNonLinear self inp rk_step p.s p.m p.z e) p)
        ((sweep self.grid ylo yhi (fun _ _ st => st) (recomputeNonLinear self inp rk_step)
          dg_dt rk dt inp.f1 st).ft p)
        ((sweep self.grid ylo yhi (fun _ _ st => st) (recomputeNonLinear self inp rk_step)
          dg_dt rk dt inp.f1 st).fss p) := by
  obtain ⟨e, he, h1, h2⟩ := sweep_at self.grid ylo yhi (fun _ _ st => st)
    (recomputeNonLinear self inp rk_step) dg_dt rk dt inp.f1 p hp
    (fun e => ¬ (self.doNonLinear = true ∧ rk_step ≠ 0) → e.nonLinearTerm = st.nonLinearTerm)
    (fun a b hab ha hg => by
      simp only [RKState.aux, Prod.mk.injEq] at hab
      exact hab.1.trans (ha hg))
    (fun _ _ _ h => h)
    (fun s m z st1 h hg => by
      show recomputeNonLinear self inp rk_step s m z st1 = st.nonLinearTerm
      unfold recomputeNonLinear
      rw [if_neg hg]
      exact h hg)
    (fun _ _ _ => ⟨rfl, rfl⟩) st (fun _ => rfl)
  exact ⟨e, he, h1, h2⟩

/-- C1: in each of the five derivative routines, at every grid point the
routine updates (`p` for the baseline routine, whose mode loop stops before
the Nyquist mode, `q` for the other four), the accumulated tendency becomes
`ft_new = rk[0]*ft_old + rk[1]*dg_dt` and the stage output becomes
`fss = f1 + (rk[2]*ft_new + dg_dt)*dt`, the new `ft` entering the second
formula; `dg_dt` is the tendency of the routine on the buffer
`nonLinearTerm` as it stands after the recomputation made when the block of
the point is entered (in a state `e`, whose buffer is the initial one when the
electrostatic routines recompute nothing). -/
theorem C1_rk_accumulation (self : VlasovIsland) (inp : Inputs) (st : RKState) (dt : ℚ)
    (rk_step : Int) (rk : Nat → ℚ) (p q : Idx6)
    (hp : self.grid.owned 0 (self.grid.Nky - 2) p)
    (hq : self.grid.owned self.grid.NkyLlD self.grid.NkyLuD q) :
    (∃ e : RKState,
      (¬ (self.doNonLinear = true ∧ rk_step ≠ 0) → e.nonLinearTerm = st.nonLinearTerm)
      ∧ RKAccumulation rk dt (st.ft p) (inp.f1 p)
        (Vlasov_2D_Island_dg_dt self inp (recomputeNonLinear self inp rk_step p.s p.m p.z e) p)
        ((Vlasov_2D_Island self inp st dt rk_step rk).ft p)
        ((Vlasov_2D_Island self inp st dt rk_step rk).fss p))
    ∧ (∃ e : RKState,
      (¬ (self.doNonLinear = true ∧ rk_step ≠ 0) → e.nonLinearTerm = st.nonLinearTerm)
      ∧ RKAccumulation rk dt (st.ft q) (inp.f1 q)
        (Vlasov_2D_Island_Equi_dg_dt self inp
          (recomputeNonLinear self inp rk_step q.s q.m q.z e) q)
        ((Vlasov_2D_Island_Equi self inp st dt rk_step rk).ft q)
        ((Vlasov_2D_Island_Equi self inp st dt rk_step rk).fss q))
    ∧ (∃ e : RKState,
      (¬ (self.doNonLinear = true ∧ rk_step ≠ 0) → e.nonLinearTerm = st.nonLinearTerm)
      ∧ RKAccumulation rk dt (st.ft q) (inp.f1 q)
        (Vlasov_2D_Island_filter_dg_dt self inp
          (recomputeNonLinear self inp rk_step q.s q.m q.z e) q)
        ((Vlasov_2D_Island_filter self inp st dt rk_step rk).ft q)
        ((Vlasov_2D_Island_filter self inp st dt rk_step rk).fss q))
    ∧ (∃ e : RKState, RKAccumulation rk dt (st.ft q) (inp.f1 q)
        (Vlasov_2D_Island_EM_dg_dt self inp (Fields_setAp self.grid self.Psi0 inp.Fields)
          (Vlasov_2D_Island_EM_nonLinear self rk_step q.s q.m q.z e) q)
        ((Vlasov_2D_Island_EM self inp st dt rk_step rk).ft q)
        ((Vlasov_2D_Island_EM self inp st dt rk_step rk).fss q))
    ∧ (∃ e : RKState,
      (¬ (self.doNonLinear = true ∧ rk_step ≠ 0) → e.nonLinearTerm = st.nonLinearTerm)
      ∧ RKAccumulation rk dt (st.ft q) (inp.f1 q)
        (Vlasov_2D_Island_orig_dg_dt self inp
          (recomputeNonLinear self inp rk_step q.s q.m q.z e) q)
        ((Vlasov_2D_Island_orig self inp st dt rk_step rk).ft q)
        ((Vlasov_2D_Island_orig self inp st dt rk_step rk).fss q)) := by
  refine ⟨?_, ?_, ?_, ?_, ?_⟩
  · exact electrostatic_sweep_at self inp rk_step 0 (self.grid.Nky - 2)
      (Vlasov_2D_Island_dg_dt self inp) rk dt st p hp
  · exact electrostatic_sweep_at self inp rk_step self.grid.NkyLlD self.grid.NkyLuD
      (Vlasov_2D_Island_Equi_dg_dt self inp) rk dt st q hq
  · exact electrostatic_sweep_at self inp rk_step self.grid.NkyLlD self.grid.NkyLuD
      (Vlasov_2D_Island_filter_dg_dt self inp) rk dt st q hq
  · obtain ⟨e, _, h1, h2⟩ := sweep_at self.grid self.grid.NkyLlD self.grid.NkyLuD
      (Vlasov_2D_Island_EM_setup self inp (Fields_setAp self.grid self.Psi0 inp.Fields))
      (Vlasov_2D_Island_EM_nonLinear self rk_step)
      (Vlasov_2D_Island_EM_dg_dt self inp (Fields_setAp self.grid self.Psi0 inp.Fields)) rk dt
      inp.f1 q hq (fun _ => True) (fun _ _ _ _ => trivial) (fun _ _ _ _ => trivial)
      (fun _ _ _ _ _ => trivial)
      (Vlasov_2D_Island_EM_setup_ft self inp (Fields_setAp self.grid self.Psi0 inp.Fields))
      st trivial
    exact ⟨e, h1, h2⟩
  · exact electrostatic_sweep_at self inp rk_step self.grid.NkyLlD self.grid.NkyLuD
      (Vlasov_2D_Island_orig_dg_dt self inp) rk dt st q hq

/-- Witness of C1 on the one-point grid with three modes: the baseline routine
at mode 0 and the electromagnetic routine at the last mode 2. -/
theorem C1_rk_accumulation_witness :
    (pointVlasov 3 1).grid.owned 0 ((pointVlasov 3 1).grid.Nky - 2) ⟨1, 0, 0, 0, 0, 0⟩
    ∧ (pointVlasov 3 1).grid.owned (pointVlasov 3 1).grid.NkyLlD (pointVlasov 3 1).grid.NkyLuD
        ⟨1, 0, 0, 2, 0, 0⟩
    ∧ (∃ e : RKState,
      (¬ ((pointVlasov 3 1).doNonLinear = true ∧ (1 : Int) ≠ 0)
        → e.nonLinearTerm = zeroState.nonLinearTerm)
      ∧ RKAccumulation (fun _ => 1) 1 (zeroState.ft ⟨1, 0, 0, 0, 0, 0⟩)
        (zeroInputs.f1 ⟨1, 0, 0, 0, 0, 0⟩)
        (Vlasov_2D_Island_dg_dt (pointVlasov 3 1) zeroInputs
          (recomputeNonLinear (pointVlasov 3 1) zeroInputs 1 1 0 0 e) ⟨1, 0, 0, 0, 0, 0⟩)
        ((Vlasov_2D_Island (pointVlasov 3 1) zeroInputs zeroState 1 1 (fun _ => 1)).ft
          ⟨1, 0, 0, 0, 0, 0⟩)
        ((Vlasov_2D_Island (pointVlasov 3 1) zeroInputs zeroState 1 1 (fun _ => 1)).fss
          ⟨1, 0, 0, 0, 0, 0⟩))
    ∧ (∃ e : RKState, RKAccumulation (fun _ => 1) 1 (zeroState.ft ⟨1, 0, 0, 2, 0, 0⟩)
        (zeroInputs.f1 ⟨1, 0, 0, 2, 0, 0⟩)
        (Vlasov_2D_Island_EM_dg_dt (pointVlasov 3 1) zeroInputs
          (Fields_setAp (pointVlasov 3 1).grid (pointVlasov 3 1).Psi0 zeroInputs.Fields)
          (Vlasov_2D_Island_EM_nonLinear (pointVlasov 3 1) 1 1 0 0 e) ⟨1, 0, 0, 2, 0, 0⟩)
        ((Vlasov_2D_Island_EM (pointVlasov 3 1) zeroInputs zeroState 1 1 (fun _ => 1)).ft
          ⟨1, 0, 0, 2, 0, 0⟩)
        ((Vlasov_2D_Island_EM (pointVlasov 3 1) zeroInputs zeroState 1 1 (fun _ => 1)).fss
          ⟨1, 0, 0, 2, 0, 0⟩)) :=
  have h := C1_rk_accumulation (pointVlasov 3 1) zeroInputs zeroState 1 1 (fun _ => 1)
    ⟨1, 0, 0, 0, 0, 0⟩ ⟨1, 0, 0, 2, 0, 0⟩ (by decide) (by decide)
  ⟨by decide, by decide, h.1, h.2.2.2.1⟩

theorem CComplex.ofReal_mul (a b : ℚ) : ofReal (a * b) = ofReal a * ofReal b := by
  apply CComplex.ext <;> simp

theorem CComplex.ofReal_neg (a : ℚ) : ofReal (-a) = -ofReal a := by
  apply CComplex.ext <;> simp

theorem drive_coefficient (w_n w_T V M T sub : ℚ) :
    w_n + w_T * (((V * V) + M) * (1 / T) - sub) = w_n + w_T * ((V ^ 2 + M) / T - sub) := by
  ring

/-- The baseline tendency at a mode `1 <= y_k` whose upper neighbour is below
the Nyquist mode is the sum of five terms of the specification. -/
theorem Vlasov_2D_Island_dg_dt_inner (self : VlasovIsland) (inp : Inputs) (nonLinearTerm : A3)
    (p : Idx6) (h1 : 1 ≤ p.y_k) (h2 : p.y_k + 1 < self.grid.Nky - 1) :
    Vlasov_2D_Island_dg_dt self inp nonLinearTerm p = spec_dg_dt self inp nonLinearTerm p := by
  have c1 : ¬ (p.y_k + 1 ≥ self.grid.Nky - 1) := by omega
  have c2 : ¬ (p.y_k - 1 < 0) := by omega
  have c3 : ¬ (p.y_k = 0) := by omega
  simp only [Vlasov_2D_Island_dg_dt, Vlasov_2D_Island_locals, spec_dg_dt, spec_five_terms,
    spec_Island, spec_d_dx, if_neg c1, if_neg c2, if_neg c3, drive_coefficient,
    CComplex.ofReal_mul, CComplex.ofReal_neg]
  ring

/-- The baseline tendency at a mode `1 <= y_k` whose upper neighbour is the
Nyquist mode or beyond is the sum of five terms with that neighbour left out. -/
theorem Vlasov_2D_Island_dg_dt_last (self : VlasovIsland) (inp : Inputs) (nonLinearTerm : A3)
    (p : Idx6) (h1 : 1 ≤ p.y_k) (h2 : p.y_k + 1 ≥ self.grid.Nky - 1) :
    Vlasov_2D_Island_dg_dt self inp nonLinearTerm p
      = spec_dg_dt_truncated self inp nonLinearTerm p := by
  have c2 : ¬ (p.y_k - 1 < 0) := by omega
  have c3 : ¬ (p.y_k = 0) := by omega
  simp only [Vlasov_2D_Island_dg_dt, Vlasov_2D_Island_locals, spec_dg_dt_truncated,
    spec_five_terms, spec_Island_truncated, spec_d_dx, if_pos h2, if_neg c2, if_neg c3,
    drive_coefficient, CComplex.ofReal_mul, CComplex.ofReal_neg]
  ring

/-- C2, counterexample: with three modes, at the evolved mode `y_k = 1 = Nky-2`
the routine leaves out the mode `y_k+1 = 2`; with a distribution that is 1 at
mode 2 and `dMagIs_dx = 1` it stores `dg_dt = 0`, while the five-term sum on
the stored modes is `-2i`. -/
theorem C2_counterexample :
    (pointVlasov 3 1).grid.owned 0 ((pointVlasov 3 1).grid.Nky - 2) ⟨1, 0, 0, 1, 0, 0⟩
    ∧ (1 : Int) ≤ (⟨1, 0, 0, 1, 0, 0⟩ : Idx6).y_k
    ∧ (⟨1, 0, 0, 1, 0, 0⟩ : Idx6).y_k ≤ (pointVlasov 3 1).grid.Nky - 2
    ∧ Vlasov_2D_Island_dg_dt (pointVlasov 3 1) mode2Inputs (fun _ _ _ => 0) ⟨1, 0, 0, 1, 0, 0⟩ = 0
    ∧ spec_dg_dt (pointVlasov 3 1) mode2Inputs (fun _ _ _ => 0) ⟨1, 0, 0, 1, 0, 0⟩ = ⟨0, -2⟩
    ∧ Vlasov_2D_Island_dg_dt (pointVlasov 3 1) mode2Inputs (fun _ _ _ => 0) ⟨1, 0, 0, 1, 0, 0⟩
      ≠ spec_dg_dt (pointVlasov 3 1) mode2Inputs (fun _ _ _ => 0) ⟨1, 0, 0, 1, 0, 0⟩ := by
  have hcode : Vlasov_2D_Island_dg_dt (pointVlasov 3 1) mode2Inputs (fun _ _ _ => 0)
      ⟨1, 0, 0, 1, 0, 0⟩ = 0 := by
    apply CComplex.ext <;>
      simp [Vlasov_2D_Island_dg_dt, Vlasov_2D_Island_locals, pointVlasov, pointGrid,
        mode2Inputs, unitSpecies, Species.sub, Field.phi]
  have hspec : spec_dg_dt (pointVlasov 3 1) mode2Inputs (fun _ _ _ => 0)
      ⟨1, 0, 0, 1, 0, 0⟩ = ⟨0, -2⟩ := by
    apply CComplex.ext <;>
      simp [spec_dg_dt, spec_five_terms, spec_Island, spec_d_dx, pointVlasov, pointGrid,
        mode2Inputs, unitSpecies, Species.sub, Field.phi]
  refine ⟨by decide, by decide, by decide, hcode, hspec, ?_⟩
  rw [hcode, hspec]
  intro h
  have := congrArg CComplex.im h
  norm_num at this

/-- C2, amended: at every evolved mode `1 <= y_k <= Nky-2` the baseline routine
computes `dg_dt` as the plain sum of the five terms, with `Island_phi` and
`Island_g` taken on the stored modes `y_k-1` and `y_k+1` when `y_k+1` is below
the Nyquist mode (`y_k <= Nky-3`), and with the contributions of the mode
`y_k+1` replaced by zero at the last evolved mode `y_k = Nky-2`. -/
theorem C2_five_terms_amended (self : VlasovIsland) (inp : Inputs) (nonLinearTerm : A3)
    (p : Idx6) (h1 : 1 ≤ p.y_k) (h2 : p.y_k ≤ self.grid.Nky - 2) :
    Vlasov_2D_Island_dg_dt self inp nonLinearTerm p
      = if p.y_k ≤ self.grid.Nky - 3 then spec_dg_dt self inp nonLinearTerm p
        else spec_dg_dt_truncated self inp nonLinearTerm p := by
  by_cases h : p.y_k ≤ self.grid.Nky - 3
  · rw [if_pos h]
    exact Vlasov_2D_Island_dg_dt_inner self inp nonLinearTerm p h1 (by omega)
  · rw [if_neg h]
    exact Vlasov_2D_Island_dg_dt_last self inp nonLinearTerm p h1 (by omega)

/-- Witness of the amended C2 at the last evolved mode of a three-mode grid. -/
theorem C2_five_terms_amended_witness :
    (1 : Int) ≤ (⟨1, 0, 0, 1, 0, 0⟩ : Idx6).y_k
    ∧ (⟨1, 0, 0, 1, 0, 0⟩ : Idx6).y_k ≤ (pointVlasov 3 1).grid.Nky - 2
    ∧ Vlasov_2D_Island_dg_dt (pointVlasov 3 1) mode2Inputs (fun _ _ _ => 0) ⟨1, 0, 0, 1, 0, 0⟩
      = if (⟨1, 0, 0, 1, 0, 0⟩ : Idx6).y_k ≤ (pointVlasov 3 1).grid.Nky - 3
        then spec_dg_dt (pointVlasov 3 1) mode2Inputs (fun _ _ _ => 0) ⟨1, 0, 0, 1, 0, 0⟩
        else spec_dg_dt_truncated (pointVlasov 3 1) mode2Inputs (fun _ _ _ => 0)
          ⟨1, 0, 0, 1, 0, 0⟩ :=
  ⟨by decide, by decide,
    C2_five_terms_amended (pointVlasov 3 1) mode2Inputs (fun _ _ _ => 0) ⟨1, 0, 0, 1, 0, 0⟩
      (by decide) (by decide)⟩

/-- The baseline tendency at mode 0 is real, whatever the inputs. -/
theorem Vlasov_2D_Island_dg_dt_mode0_im (self : VlasovIsland) (inp : Inputs)
    (nonLinearTerm : A3) (p : Idx6) (hy : p.y_k = 0) :
    (Vlasov_2D_Island_dg_dt self inp nonLinearTerm p).im = 0 := by
  simp only [Vlasov_2D_Island_dg_dt, Vlasov_2D_Island_locals, if_pos hy, creal_im]

/-- The two closing assignments keep a point real when the tendency, the old
`ft` and the reference `f1` are real there. -/
theorem RKAccumulation_im (rk : Nat → ℚ) (dt : ℚ) (ft_old f1 dg_dt ft_new fss : CComplex)
    (h : RKAccumulation rk dt ft_old f1 dg_dt ft_new fss)
    (hd : dg_dt.im = 0) (hft : ft_old.im = 0) (hf1 : f1.im = 0) :
    ft_new.im = 0 ∧ fss.im = 0 := by
  obtain ⟨h1, h2⟩ := h
  have e1 : ft_new.im = 0 := by rw [h1]; simp [hd, hft]
  refine ⟨e1, ?_⟩
  rw [h2]; simp [hd, hf1, e1]

/-- C3: reality invariant of the baseline routine `Vlasov_2D_Island`.  At mode
`y_k = 0` the tendency `dg_dt` has zero imaginary part for all inputs and any
content of the nonlinear buffer; and at every owned point of mode 0 where the
old `ft` and the reference `f1` are real, the new `ft` and the stage output
`fss` are real (`rk` and `dt` are real by type). -/
theorem C3_reality_baseline (self : VlasovIsland) (inp : Inputs) (st : RKState) (dt : ℚ)
    (rk_step : Int) (rk : Nat → ℚ) (p : Idx6) (hy : p.y_k = 0) :
    (∀ nonLinearTerm : A3, (Vlasov_2D_Island_dg_dt self inp nonLinearTerm p).im = 0)
    ∧ (self.grid.owned 0 (self.grid.Nky - 2) p → (st.ft p).im = 0 → (inp.f1 p).im = 0 →
        ((Vlasov_2D_Island self inp st dt rk_step rk).ft p).im = 0
        ∧ ((Vlasov_2D_Island self inp st dt rk_step rk).fss p).im = 0) := by
  refine ⟨fun nl => Vlasov_2D_Island_dg_dt_mode0_im self inp nl p hy, fun hp hft hf1 => ?_⟩
  obtain ⟨e, _, h1, h2⟩ := sweep_at self.grid 0 (self.grid.Nky - 2) (fun _ _ st => st)
    (recomputeNonLinear self inp rk_step) (Vlasov_2D_Island_dg_dt self inp) rk dt inp.f1 p hp
    (fun _ => True) (fun _ _ _ _ => trivial) (fun _ _ _ _ => trivial)
    (fun _ _ _ _ _ => trivial) (fun _ _ _ => ⟨rfl, rfl⟩) st trivial
  exact RKAccumulation_im rk dt _ _ _ _ _ ⟨h1, h2⟩
    (Vlasov_2D_Island_dg_dt_mode0_im self inp _ p hy) hft hf1

/-- Witness of C3: mode 0 of the one-point grid with three modes, with an
imaginary collision term, real `ft` and `f1`. -/
theorem C3_reality_baseline_witness :
    (⟨1, 0, 0, 0, 0, 0⟩ : Idx6).y_k = 0
    ∧ (pointVlasov 3 1).grid.owned 0 ((pointVlasov 3 1).grid.Nky - 2) ⟨1, 0, 0, 0, 0, 0⟩
    ∧ (zeroState.ft ⟨1, 0, 0, 0, 0, 0⟩).im = 0
    ∧ ((Vlasov_2D_Island_dg_dt (pointVlasov 3 1) { zeroInputs with Coll := fun _ => _imag }
          (fun _ _ _ => _imag) ⟨1, 0, 0, 0, 0, 0⟩).im = 0)
    ∧ ((Vlasov_2D_Island (pointVlasov 3 1) { zeroInputs with Coll := fun _ => _imag }
          zeroState 1 1 (fun _ => 1)).ft ⟨1, 0, 0, 0, 0, 0⟩).im = 0
    ∧ ((Vlasov_2D_Island (pointVlasov 3 1) { zeroInputs with Coll := fun _ => _imag }
          zeroState 1 1 (fun _ => 1)).fss ⟨1, 0, 0, 0, 0, 0⟩).im = 0 :=
  have h := C3_reality_baseline (pointVlasov 3 1) { zeroInputs with Coll := fun _ => _imag }
    zeroState 1 1 (fun _ => 1) ⟨1, 0, 0, 0, 0, 0⟩ rfl
  ⟨rfl, by decide, rfl, h.1 _, (h.2 (by decide) rfl rfl).1, (h.2 (by decide) rfl rfl).2⟩

/-- The loop nest `sweep` at an owned point when neither `setup` nor the
recomputation changes the buffer: the tendency is taken on the initial buffer. -/
theorem sweep_at_const (G : Grid) (ylo yhi : Int) (setup : Int → Int → RKState → RKState)
    (nl : Int → Int → Int → RKState → A3) (dg_dt : A3 → Idx6 → CComplex)
    (rk : Nat → ℚ) (dt : ℚ) (f1 : A6) (p : Idx6) (hp : G.owned ylo yhi p)
    (hnl : ∀ s m z (st : RKState), nl s m z st = st.nonLinearTerm)
    (hsetup : ∀ s m st, (setup s m st).ft = st.ft ∧ (setup s m st).fss = st.fss)
    (hsetup_nl : ∀ s m st, (setup s m st).nonLinearTerm = st.nonLinearTerm)
    (st : RKState) :
    RKAccumulation rk dt (st.ft p) (f1 p) (dg_dt st.nonLinearTerm p)
      ((sweep G ylo yhi setup nl dg_dt rk dt f1 st).ft p)
      ((sweep G ylo yhi setup nl dg_dt rk dt f1 st).fss p) := by
  obtain ⟨e, he, h1, h2⟩ := sweep_at G ylo yhi setup nl dg_dt rk dt f1 p hp
    (fun e => e.nonLinearTerm = st.nonLinearTerm)
    (fun a b hab ha => by
      simp only [RKState.aux, Prod.mk.injEq] at hab
      exact hab.1.trans ha)
    (fun s m st1 h => (hsetup_nl s m st1).trans h)
    (fun s m z st1 h => (hnl s m z st1).trans h)
    hsetup st rfl
  rw [hnl, he] at h1 h2
  exact ⟨h1, h2⟩

/-- C4, the code at a failing input: on the one-point grid with three modes,
all arrays zero except an imaginary collision term, `ft = f1 = 0` (real),
`rk = {0,0,0}` and `dt = 1`, the routines `Vlasov_2D_Island_Equi`,
`Vlasov_2D_Island_filter` and `Vlasov_2D_Island_EM`, reached through `solve`
by `2D_Island_Equi`, `2D_Island_Filter` and `2D_Island_EM`, produce at mode
`y_k = 0` a tendency `dg_dt` and a stage output `fss` with imaginary part 1. -/
theorem C4_reality_fails_in_variants :
    (zeroState.ft ⟨1, 0, 0, 0, 0, 0⟩).im = 0 ∧ (imagCollInputs.f1 ⟨1, 0, 0, 0, 0, 0⟩).im = 0
    ∧ (∀ buf : A3, buf 0 0 0 = 0 →
        (Vlasov_2D_Island_Equi_dg_dt (pointVlasov 3 1) imagCollInputs buf
          ⟨1, 0, 0, 0, 0, 0⟩).im = 1
        ∧ (Vlasov_2D_Island_filter_dg_dt (pointVlasov 3 1) imagCollInputs buf
          ⟨1, 0, 0, 0, 0, 0⟩).im = 1
        ∧ (Vlasov_2D_Island_EM_dg_dt (pointVlasov 3 1) imagCollInputs
          (Fields_setAp (pointVlasov 3 1).grid (pointVlasov 3 1).Psi0 imagCollInputs.Fields) buf
          ⟨1, 0, 0, 0, 0, 0⟩).im = 1)
    ∧ (∃ r : RKState,
        solve (pointVlasov 3 1) "2D_Island_Equi" imagCollInputs zeroState 1 0 (fun _ => 0)
          = .ok r
        ∧ (r.fss ⟨1, 0, 0, 0, 0, 0⟩).im = 1)
    ∧ (∃ r : RKState,
        solve (pointVlasov 3 1) "2D_Island_Filter" imagCollInputs zeroState 1 0 (fun _ => 0)
          = .ok r
        ∧ (r.fss ⟨1, 0, 0, 0, 0, 0⟩).im = 1)
    ∧ (∃ r : RKState,
        solve (pointVlasov 3 1) "2D_Island_EM" imagCollInputs zeroState 1 0 (fun _ => 0)
          = .ok r
        ∧ (r.fss ⟨1, 0, 0, 0, 0, 0⟩).im = 1) := by
  have hown : (pointVlasov 3 1).grid.owned (pointVlasov 3 1).grid.NkyLlD
      (pointVlasov 3 1).grid.NkyLuD ⟨1, 0, 0, 0, 0, 0⟩ := by decide
  have hnl : ∀ (s m z : Int) (st : RKState),
      recomputeNonLinear (pointVlasov 3 1) imagCollInputs 0 s m z st = st.nonLinearTerm := by
    intro s m z st
    simp [recomputeNonLinear]
  have hf1 : (imagCollInputs.f1 ⟨1, 0, 0, 0, 0, 0⟩).im = 0 := rfl
  have hEqui : ∀ buf : A3, buf 0 0 0 = 0 →
      (Vlasov_2D_Island_Equi_dg_dt (pointVlasov 3 1) imagCollInputs buf
        ⟨1, 0, 0, 0, 0, 0⟩).im = 1 := by
    intro buf hb
    simp [Vlasov_2D_Island_Equi_dg_dt, pointVlasov, imagCollInputs, unitSpecies, Species.sub, hb]
  have hfilter : ∀ buf : A3, buf 0 0 0 = 0 →
      (Vlasov_2D_Island_filter_dg_dt (pointVlasov 3 1) imagCollInputs buf
        ⟨1, 0, 0, 0, 0, 0⟩).im = 1 := by
    intro buf hb
    simp [Vlasov_2D_Island_filter_dg_dt, Vlasov_2D_Island_filter_locals, pointVlasov, pointGrid,
      imagCollInputs, unitSpecies, Species.sub, CComplex.divReal, hb]
  have hEM : ∀ buf : A3, buf 0 0 0 = 0 →
      (Vlasov_2D_Island_EM_dg_dt (pointVlasov 3 1) imagCollInputs
        (Fields_setAp (pointVlasov 3 1).grid (pointVlasov 3 1).Psi0 imagCollInputs.Fields) buf
        ⟨1, 0, 0, 0, 0, 0⟩).im = 1 := by
    intro buf hb
    simp [Vlasov_2D_Island_EM_dg_dt, Fields_setAp, pointVlasov, pointGrid, imagCollInputs,
      unitSpecies, Species.sub, Field.phi, Field.Ap, hb]
  have fEqui : ((Vlasov_2D_Island_Equi (pointVlasov 3 1) imagCollInputs zeroState 1 0
      (fun _ => 0)).fss ⟨1, 0, 0, 0, 0, 0⟩).im = 1 := by
    have h2 := (sweep_at_const (pointVlasov 3 1).grid (pointVlasov 3 1).grid.NkyLlD
      (pointVlasov 3 1).grid.NkyLuD (fun _ _ st => st)
      (recomputeNonLinear (pointVlasov 3 1) imagCollInputs 0)
      (Vlasov_2D_Island_Equi_dg_dt (pointVlasov 3 1) imagCollInputs) (fun _ => 0) 1
      imagCollInputs.f1 ⟨1, 0, 0, 0, 0, 0⟩ hown hnl (fun _ _ _ => ⟨rfl, rfl⟩)
      (fun _ _ _ => rfl) zeroState).2
    unfold Vlasov_2D_Island_Equi
    rw [h2]
    have := hEqui zeroState.nonLinearTerm rfl
    simp [this, hf1]
  have fFilter : ((Vlasov_2D_Island_filter (pointVlasov 3 1) imagCollInputs zeroState 1 0
      (fun _ => 0)).fss ⟨1, 0, 0, 0, 0, 0⟩).im = 1 := by
    have h2 := (sweep_at_const (pointVlasov 3 1).grid (pointVlasov 3 1).grid.NkyLlD
      (pointVlasov 3 1).grid.NkyLuD (fun _ _ st => st)
      (recomputeNonLinear (pointVlasov 3 1) imagCollInputs 0)
      (Vlasov_2D_Island_filter_dg_dt (pointVlasov 3 1) imagCollInputs) (fun _ => 0) 1
      imagCollInputs.f1 ⟨1, 0, 0, 0, 0, 0⟩ hown hnl (fun _ _ _ => ⟨rfl, rfl⟩)
      (fun _ _ _ => rfl) zeroState).2
    unfold Vlasov_2D_Island_filter
    rw [h2]
    have := hfilter zeroState.nonLinearTerm rfl
    simp [this, hf1]
  have fEM : ((Vlasov_2D_Island_EM (pointVlasov 3 1) imagCollInputs zeroState 1 0
      (fun _ => 0)).fss ⟨1, 0, 0, 0, 0, 0⟩).im = 1 := by
    obtain ⟨e, _, _, h2⟩ := sweep_at (pointVlasov 3 1).grid (pointVlasov 3 1).grid.NkyLlD
      (pointVlasov 3 1).grid.NkyLuD
      (Vlasov_2D_Island_EM_setup (pointVlasov 3 1) imagCollInputs
        (Fields_setAp (pointVlasov 3 1).grid (pointVlasov 3 1).Psi0 imagCollInputs.Fields))
      (Vlasov_2D_Island_EM_nonLinear (pointVlasov 3 1) 0)
      (Vlasov_2D_Island_EM_dg_dt (pointVlasov 3 1) imagCollInputs
        (Fields_setAp (pointVlasov 3 1).grid (pointVlasov 3 1).Psi0 imagCollInputs.Fields))
      (fun _ => 0) 1 imagCollInputs.f1 ⟨1, 0, 0, 0, 0, 0⟩ hown
      (fun _ => True) (fun _ _ _ _ => trivial) (fun _ _ _ _ => trivial)
      (fun _ _ _ _ _ => trivial)
      (Vlasov_2D_Island_EM_setup_ft (pointVlasov 3 1) imagCollInputs
        (Fields_setAp (pointVlasov 3 1).grid (pointVlasov 3 1).Psi0 imagCollInputs.Fields))
      zeroState trivial
    unfold Vlasov_2D_Island_EM
    simp only []
    rw [h2]
    have := hEM (Vlasov_2D_Island_EM_nonLinear (pointVlasov 3 1) 0 1 0 0 e)
      (by simp [Vlasov_2D_Island_EM_nonLinear, pointVlasov])
    simp [this, hf1]
  exact ⟨rfl, rfl, fun buf hb => ⟨hEqui buf hb, hfilter buf hb, hEM buf hb⟩,
    ⟨_, by simp [solve], fEqui⟩, ⟨_, by simp [solve], fFilter⟩, ⟨_, by simp [solve], fEM⟩⟩

theorem CComplex.conj_divReal (a : CComplex) (r : ℚ) :
    CComplex.divReal (conj a) r = conj (CComplex.divReal a r) := by
  apply CComplex.ext <;> simp [CComplex.divReal, neg_div]

/-- Conjugate substitution in the baseline routine: at `y_k = 0` the values and
radial derivatives used for the mode `-1` of the potential and of the
distribution are the conjugates of those of the stored mode 1; at
`y_k >= 1` the stored mode `y_k-1` is used unchanged. -/
theorem Vlasov_2D_Island_conjugate_substitution (self : VlasovIsland) (inp : Inputs)
    (nonLinearTerm : A3) (p : Idx6) :
    (p.y_k - 1 < 0 →
      (Vlasov_2D_Island_locals self inp nonLinearTerm p).phi_m1
        = conj (inp.Fields Field.phi p.s p.m p.z (1 - p.y_k) p.x)
      ∧ (Vlasov_2D_Island_locals self inp nonLinearTerm p).dphi_dx_m1
        = conj (spec_d_dx self._kw_12_dx
            (fun x => inp.Fields Field.phi p.s p.m p.z (1 - p.y_k) x) p.x)
      ∧ (Vlasov_2D_Island_locals self inp nonLinearTerm p).fs_m1
        = conj (inp.fs ⟨p.s, p.m, p.z, 1 - p.y_k, p.x, p.v⟩)
      ∧ (Vlasov_2D_Island_locals self inp nonLinearTerm p).dfs_dx_m1
        = conj (spec_d_dx self._kw_12_dx
            (fun x => inp.fs ⟨p.s, p.m, p.z, 1 - p.y_k, x, p.v⟩) p.x))
    ∧ (p.y_k - 1 ≥ 0 →
      (Vlasov_2D_Island_locals self inp nonLinearTerm p).phi_m1
        = inp.Fields Field.phi p.s p.m p.z (p.y_k - 1) p.x
      ∧ (Vlasov_2D_Island_locals self inp nonLinearTerm p).dphi_dx_m1
        = spec_d_dx self._kw_12_dx
            (fun x => inp.Fields Field.phi p.s p.m p.z (p.y_k - 1) x) p.x
      ∧ (Vlasov_2D_Island_locals self inp nonLinearTerm p).fs_m1
        = inp.fs ⟨p.s, p.m, p.z, p.y_k - 1, p.x, p.v⟩
      ∧ (Vlasov_2D_Island_locals self inp nonLinearTerm p).dfs_dx_m1
        = spec_d_dx self._kw_12_dx
            (fun x => inp.fs ⟨p.s, p.m, p.z, p.y_k - 1, x, p.v⟩) p.x) := by
  constructor
  · intro h
    simp only [Vlasov_2D_Island_locals, spec_d_dx, if_pos h, conj_mul_ofReal, and_self]
  · intro h
    have h' : ¬ (p.y_k - 1 < 0) := by omega
    simp only [Vlasov_2D_Island_locals, spec_d_dx, if_neg h', and_self]

/-- Conjugate substitution in the filtered routine, for the three quantities
that follow the rule: value and radial derivative of the potential, value of
the distribution; and for the radial derivative of the distribution in the
case `y_k - i < 0`. -/
theorem Vlasov_2D_Island_filter_conjugate_substitution (self : VlasovIsland) (inp : Inputs)
    (nonLinearTerm : A3) (p : Idx6) :
    (p.y_k - self.i < 0 →
      (Vlasov_2D_Island_filter_locals self inp nonLinearTerm p).phi_m1
        = conj (inp.Fields Field.phi p.s p.m p.z (self.i - p.y_k) p.x)
      ∧ (Vlasov_2D_Island_filter_locals self inp nonLinearTerm p).dphi_dx_m1
        = conj (spec_d_dx self._kw_12_dx
            (fun x => inp.Fields Field.phi p.s p.m p.z (self.i - p.y_k) x) p.x)
      ∧ (Vlasov_2D_Island_filter_locals self inp nonLinearTerm p).fs_m1
        = conj (inp.fs ⟨p.s, p.m, p.z, self.i - p.y_k, p.x, p.v⟩)
      ∧ (Vlasov_2D_Island_filter_locals self inp nonLinearTerm p).dfs_dx_m1
        = conj (filter_d_dx self.dx
            (fun x => inp.fs ⟨p.s, p.m, p.z, self.i - p.y_k, x, p.v⟩) p.x))
    ∧ (p.y_k - self.i ≥ 0 →
      (Vlasov_2D_Island_filter_locals self inp nonLinearTerm p).phi_m1
        = inp.Fields Field.phi p.s p.m p.z (p.y_k - self.i) p.x
      ∧ (Vlasov_2D_Island_filter_locals self inp nonLinearTerm p).dphi_dx_m1
        = spec_d_dx self._kw_12_dx
            (fun x => inp.Fields Field.phi p.s p.m p.z (p.y_k - self.i) x) p.x
      ∧ (Vlasov_2D_Island_filter_locals self inp nonLinearTerm p).fs_m1
        = inp.fs ⟨p.s, p.m, p.z, p.y_k - self.i, p.x, p.v⟩
      ∧ (Vlasov_2D_Island_filter_locals self inp nonLinearTerm p).dfs_dx_m1
        = filter_d_dx self.dx
            (fun x => inp.fs ⟨p.s, p.m, p.z, self.i - p.y_k, x, p.v⟩) p.x) := by
  constructor
  · intro h
    simp only [Vlasov_2D_Island_filter_locals, spec_d_dx, filter_d_dx, if_pos h,
      conj_mul_ofReal, CComplex.conj_divReal, and_self]
  · intro h
    have h' : ¬ (p.y_k - self.i < 0) := by omega
    simp only [Vlasov_2D_Island_filter_locals, spec_d_dx, filter_d_dx, if_neg h', and_self]

/-- C5, the code at a failing input: in the filtered routine with mode offset
`i = 1` at the mode `y_k = 2` (so `y_k - i = 1 >= 0`), with a distribution
equal to `x` at mode 1 and zero elsewhere, the radial derivative of the stored
mode `y_k - i = 1` is 1, but the local `dfs_dx_m1` is 0: the routine indexes
the mode `i - y_k = -1` in the branch `y_k - i >= 0`. -/
theorem C5_filter_lower_derivative_wrong_mode :
    (⟨1, 0, 0, 2, 0, 0⟩ : Idx6).y_k - (pointVlasov 4 1).i ≥ 0
    ∧ filter_d_dx (pointVlasov 4 1).dx
        (fun x => mode1RampInputs.fs ⟨1, 0, 0, 2 - (pointVlasov 4 1).i, x, 0⟩) 0 = 1
    ∧ (Vlasov_2D_Island_filter_locals (pointVlasov 4 1) mode1RampInputs (fun _ _ _ => 0)
        ⟨1, 0, 0, 2, 0, 0⟩).dfs_dx_m1 = 0
    ∧ (Vlasov_2D_Island_filter_locals (pointVlasov 4 1) mode1RampInputs (fun _ _ _ => 0)
        ⟨1, 0, 0, 2, 0, 0⟩).dfs_dx_m1
      = filter_d_dx (pointVlasov 4 1).dx
        (fun x => mode1RampInputs.fs ⟨1, 0, 0, (pointVlasov 4 1).i - 2, x, 0⟩) 0 := by
  refine ⟨by decide, ?_, ?_, ?_⟩
  · apply CComplex.ext <;>
      simp [filter_d_dx, CComplex.divReal, pointVlasov, mode1RampInputs]
  · apply CComplex.ext <;>
      simp [Vlasov_2D_Island_filter_locals, CComplex.divReal, pointVlasov, mode1RampInputs]
  · apply CComplex.ext <;>
      simp [Vlasov_2D_Island_filter_locals, filter_d_dx, CComplex.divReal, pointVlasov,
        mode1RampInputs]

/-- C6, counterexample: with `Nky = 2` the only evolved mode is `y_k = 0`, whose
lower neighbour `-1` is replaced by the conjugate of the stored mode 1, the
Nyquist mode `Nky-1`.  Two input sets that differ only in the distribution at
mode 1 give the tendencies 1 and 0. -/
theorem C6_counterexample :
    (2 : Int) ≤ (pointVlasov 2 1).grid.Nky
    ∧ (pointVlasov 2 1).grid.owned 0 ((pointVlasov 2 1).grid.Nky - 2) ⟨1, 0, 0, 0, 0, 0⟩
    ∧ AgreeOffMode ((pointVlasov 2 1).grid.Nky - 1) mode1ImagInputs profileOnlyInputs
    ∧ Vlasov_2D_Island_dg_dt (pointVlasov 2 1) mode1ImagInputs (fun _ _ _ => 0)
        ⟨1, 0, 0, 0, 0, 0⟩ = 1
    ∧ Vlasov_2D_Island_dg_dt (pointVlasov 2 1) profileOnlyInputs (fun _ _ _ => 0)
        ⟨1, 0, 0, 0, 0, 0⟩ = 0
    ∧ Vlasov_2D_Island_dg_dt (pointVlasov 2 1) mode1ImagInputs (fun _ _ _ => 0)
        ⟨1, 0, 0, 0, 0, 0⟩
      ≠ Vlasov_2D_Island_dg_dt (pointVlasov 2 1) profileOnlyInputs (fun _ _ _ => 0)
        ⟨1, 0, 0, 0, 0, 0⟩ := by
  have h1 : Vlasov_2D_Island_dg_dt (pointVlasov 2 1) mode1ImagInputs (fun _ _ _ => 0)
      ⟨1, 0, 0, 0, 0, 0⟩ = 1 := by
    apply CComplex.ext <;>
      simp [Vlasov_2D_Island_dg_dt, Vlasov_2D_Island_locals, pointVlasov, pointGrid,
        mode1ImagInputs, unitSpecies, Species.sub, Field.phi]
  have h0 : Vlasov_2D_Island_dg_dt (pointVlasov 2 1) profileOnlyInputs (fun _ _ _ => 0)
      ⟨1, 0, 0, 0, 0, 0⟩ = 0 := by
    apply CComplex.ext <;>
      simp [Vlasov_2D_Island_dg_dt, Vlasov_2D_Island_locals, pointVlasov, pointGrid,
        profileOnlyInputs, unitSpecies, Species.sub, Field.phi]
  refine ⟨by decide, by decide, ?_, h1, h0, ?_⟩
  · refine ⟨?_, ?_, rfl, rfl, rfl, rfl, rfl, rfl, rfl⟩
    · intro s m z y x v hy
      have hy' : y ≠ 1 := by simpa [pointVlasov, pointGrid] using hy
      simp [mode1ImagInputs, profileOnlyInputs, hy']
    · intro s m z y x _
      rfl
  · rw [h1, h0]
    intro h
    have := congrArg CComplex.re h
    norm_num at this

/-- The upper neighbour in the baseline routine: forced to zero from the
Nyquist mode on, the stored mode `y_k+1` below it. -/
theorem Vlasov_2D_Island_upper_neighbour (self : VlasovIsland) (inp : Inputs)
    (nonLinearTerm : A3) (p : Idx6) :
    (p.y_k + 1 ≥ self.grid.Nky - 1 →
      (Vlasov_2D_Island_locals self inp nonLinearTerm p).ky_p1 = 0
      ∧ (Vlasov_2D_Island_locals self inp nonLinearTerm p).phi_p1 = 0
      ∧ (Vlasov_2D_Island_locals self inp nonLinearTerm p).dphi_dx_p1 = 0
      ∧ (Vlasov_2D_Island_locals self inp nonLinearTerm p).fs_p1 = 0
      ∧ (Vlasov_2D_Island_locals self inp nonLinearTerm p).dfs_dx_p1 = 0)
    ∧ (p.y_k + 1 < self.grid.Nky - 1 →
      (Vlasov_2D_Island_locals self inp nonLinearTerm p).ky_p1
        = _imag * ofReal (self.ky (p.y_k + 1))
      ∧ (Vlasov_2D_Island_locals self inp nonLinearTerm p).phi_p1
        = inp.Fields Field.phi p.s p.m p.z (p.y_k + 1) p.x
      ∧ (Vlasov_2D_Island_locals self inp nonLinearTerm p).dphi_dx_p1
        = spec_d_dx self._kw_12_dx
            (fun x => inp.Fields Field.phi p.s p.m p.z (p.y_k + 1) x) p.x
      ∧ (Vlasov_2D_Island_locals self inp nonLinearTerm p).fs_p1
        = inp.fs ⟨p.s, p.m, p.z, p.y_k + 1, p.x, p.v⟩
      ∧ (Vlasov_2D_Island_locals self inp nonLinearTerm p).dfs_dx_p1
        = spec_d_dx self._kw_12_dx
            (fun x => inp.fs ⟨p.s, p.m, p.z, p.y_k + 1, x, p.v⟩) p.x) := by
  constructor
  · intro h
    simp only [Vlasov_2D_Island_locals, if_pos h, and_self]
  · intro h
    have h' : ¬ (p.y_k + 1 ≥ self.grid.Nky - 1) := by omega
    simp only [Vlasov_2D_Island_locals, spec_d_dx, if_neg h', and_self]

/-- With at least three modes, the baseline tendency at an evolved mode does
not read the potential or the distribution of the Nyquist mode. -/
theorem Vlasov_2D_Island_dg_dt_off_nyquist (self : VlasovIsland) (inp inp1 : Inputs)
    (nonLinearTerm : A3) (p : Idx6) (hN : 3 ≤ self.grid.Nky) (hy0 : 0 ≤ p.y_k)
    (hy1 : p.y_k ≤ self.grid.Nky - 2)
    (hagree : AgreeOffMode (self.grid.Nky - 1) inp inp1) :
    Vlasov_2D_Island_dg_dt self inp nonLinearTerm p
      = Vlasov_2D_Island_dg_dt self inp1 nonLinearTerm p := by
  obtain ⟨hfs, hphi, hf0, _, hColl, hMag, hdMag, hV, hM⟩ := hagree
  by_cases c3 : p.y_k = 0
  · have c2 : p.y_k - 1 < 0 := by omega
    have c1 : ¬ (p.y_k + 1 ≥ self.grid.Nky - 1) := by omega
    simp (disch := omega) only [Vlasov_2D_Island_dg_dt, Vlasov_2D_Island_locals, if_pos c3,
      if_pos c2, if_neg c1, hfs, hphi, hf0, hColl, hMag, hdMag, hV, hM]
  · have c2 : ¬ (p.y_k - 1 < 0) := by omega
    by_cases c1 : p.y_k + 1 ≥ self.grid.Nky - 1
    · simp (disch := omega) only [Vlasov_2D_Island_dg_dt, Vlasov_2D_Island_locals, if_neg c3,
        if_neg c2, if_pos c1, hfs, hphi, hf0, hColl, hMag, hdMag, hV, hM]
    · simp (disch := omega) only [Vlasov_2D_Island_dg_dt, Vlasov_2D_Island_locals, if_neg c3,
        if_neg c2, if_neg c1, hfs, hphi, hf0, hColl, hMag, hdMag, hV, hM]

/-- C6, amended: in the baseline routine the upper-shifted mode `y_k+1`
contributes zero to `Island_phi` and `Island_g` (wavenumber factor, value and
radial derivative are zero) when `y_k+1 >= Nky-1`, and enters with its stored
values otherwise; and for every `Nky >= 3` the tendency at every evolved mode
`0 <= y_k <= Nky-2` is the same for any two input sets that differ only in the
potential and the distribution stored at the Nyquist mode `Nky-1` (the content
of the buffer `nonLinearTerm` being given). -/
theorem C6_nyquist_truncation_amended (self : VlasovIsland) (inp inp1 : Inputs)
    (nonLinearTerm : A3) (p : Idx6) (hN : 3 ≤ self.grid.Nky) (hy0 : 0 ≤ p.y_k)
    (hy1 : p.y_k ≤ self.grid.Nky - 2)
    (hagree : AgreeOffMode (self.grid.Nky - 1) inp inp1) :
    (p.y_k + 1 ≥ self.grid.Nky - 1 →
      (Vlasov_2D_Island_locals self inp nonLinearTerm p).ky_p1 = 0
      ∧ (Vlasov_2D_Island_locals self inp nonLinearTerm p).phi_p1 = 0
      ∧ (Vlasov_2D_Island_locals self inp nonLinearTerm p).dphi_dx_p1 = 0
      ∧ (Vlasov_2D_Island_locals self inp nonLinearTerm p).fs_p1 = 0
      ∧ (Vlasov_2D_Island_locals self inp nonLinearTerm p).dfs_dx_p1 = 0)
    ∧ (p.y_k + 1 < self.grid.Nky - 1 →
      (Vlasov_2D_Island_locals self inp nonLinearTerm p).ky_p1
        = _imag * ofReal (self.ky (p.y_k + 1))
      ∧ (Vlasov_2D_Island_locals self inp nonLinearTerm p).phi_p1
        = inp.Fields Field.phi p.s p.m p.z (p.y_k + 1) p.x
      ∧ (Vlasov_2D_Island_locals self inp nonLinearTerm p).dphi_dx_p1
        = spec_d_dx self._kw_12_dx
            (fun x => inp.Fields Field.phi p.s p.m p.z (p.y_k + 1) x) p.x
      ∧ (Vlasov_2D_Island_locals self inp nonLinearTerm p).fs_p1
        = inp.fs ⟨p.s, p.m, p.z, p.y_k + 1, p.x, p.v⟩
      ∧ (Vlasov_2D_Island_locals self inp nonLinearTerm p).dfs_dx_p1
        = spec_d_dx self._kw_12_dx
            (fun x => inp.fs ⟨p.s, p.m, p.z, p.y_k + 1, x, p.v⟩) p.x)
    ∧ Vlasov_2D_Island_dg_dt self inp nonLinearTerm p
      = Vlasov_2D_Island_dg_dt self inp1 nonLinearTerm p :=
  ⟨(Vlasov_2D_Island_upper_neighbour self inp nonLinearTerm p).1,
    (Vlasov_2D_Island_upper_neighbour self inp nonLinearTerm p).2,
    Vlasov_2D_Island_dg_dt_off_nyquist self inp inp1 nonLinearTerm p hN hy0 hy1 hagree⟩

theorem mode2Inputs_agree : AgreeOffMode ((pointVlasov 3 1).grid.Nky - 1) mode2Inputs
    profileOnlyInputs := by
  refine ⟨?_, ?_, rfl, rfl, rfl, rfl, rfl, rfl, rfl⟩
  · intro s m z y x v hy
    have hy' : y ≠ 2 := by simpa [pointVlasov, pointGrid] using hy
    simp [mode2Inputs, profileOnlyInputs, hy']
  · intro s m z y x _
    rfl

/-- Witness of the amended C6: three modes, the last evolved mode `y_k = 1`,
two input sets that differ only in the distribution at the Nyquist mode 2. -/
theorem C6_nyquist_truncation_amended_witness :
    (3 : Int) ≤ (pointVlasov 3 1).grid.Nky
    ∧ (0 : Int) ≤ (⟨1, 0, 0, 1, 0, 0⟩ : Idx6).y_k
    ∧ (⟨1, 0, 0, 1, 0, 0⟩ : Idx6).y_k ≤ (pointVlasov 3 1).grid.Nky - 2
    ∧ AgreeOffMode ((pointVlasov 3 1).grid.Nky - 1) mode2Inputs profileOnlyInputs
    ∧ mode2Inputs.fs ⟨1, 0, 0, 2, 0, 0⟩ ≠ profileOnlyInputs.fs ⟨1, 0, 0, 2, 0, 0⟩
    ∧ Vlasov_2D_Island_dg_dt (pointVlasov 3 1) mode2Inputs (fun _ _ _ => 0) ⟨1, 0, 0, 1, 0, 0⟩
      = Vlasov_2D_Island_dg_dt (pointVlasov 3 1) profileOnlyInputs (fun _ _ _ => 0)
        ⟨1, 0, 0, 1, 0, 0⟩ :=
  ⟨by decide, by decide, by decide, mode2Inputs_agree,
    by simp [mode2Inputs, profileOnlyInputs, CComplex.ext_iff],
    (C6_nyquist_truncation_amended (pointVlasov 3 1) mode2Inputs profileOnlyInputs
      (fun _ _ _ => 0) ⟨1, 0, 0, 1, 0, 0⟩ (by decide) (by decide) (by decide)
      mode2Inputs_agree).2.2⟩

/-! ### `solve` -/

/-- C7: `solve` takes the fatal path `check(-1, "No Such Equation")` if and only
if `equation_type` is none of the five recognised strings; for each of the five
strings it returns the result of exactly one derivative routine
(`Vlasov_2D_Island` for both `2D_Island` and `2D_Island_Orig`). -/
theorem C7_solve_dispatch (self : VlasovIsland) (equation_type : String) (inp : Inputs)
    (st : RKState) (dt : ℚ) (rk_step : Int) (rk : Nat → ℚ) :
    ((∃ msg, solve self equation_type inp st dt rk_step rk = .error msg)
      ↔ (equation_type ≠ "2D_Island" ∧ equation_type ≠ "2D_Island_Orig"
          ∧ equation_type ≠ "2D_Island_EM" ∧ equation_type ≠ "2D_Island_Filter"
          ∧ equation_type ≠ "2D_Island_Equi"))
    ∧ (∀ msg, solve self equation_type inp st dt rk_step rk = .error msg
        → msg = "No Such Equation")
    ∧ solve self "2D_Island" inp st dt rk_step rk
        = .ok (Vlasov_2D_Island self inp st dt rk_step rk)
    ∧ solve self "2D_Island_Orig" inp st dt rk_step rk
        = .ok (Vlasov_2D_Island self inp st dt rk_step rk)
    ∧ solve self "2D_Island_EM" inp st dt rk_step rk
        = .ok (Vlasov_2D_Island_EM self inp st dt rk_step rk)
    ∧ solve self "2D_Island_Filter" inp st dt rk_step rk
        = .ok (Vlasov_2D_Island_filter self inp st dt rk_step rk)
    ∧ solve self "2D_Island_Equi" inp st dt rk_step rk
        = .ok (Vlasov_2D_Island_Equi self inp st dt rk_step rk) := by
  refine ⟨?_, ?_, ?_, ?_, ?_, ?_, ?_⟩
  · unfold solve
    constructor
    · rintro ⟨msg, h⟩
      split_ifs at h with h1 h2 h3 h4 h5
      exact ⟨h1, h2, h3, h4, h5⟩
    · rintro ⟨h1, h2, h3, h4, h5⟩
      exact ⟨"No Such Equation", by simp [h1, h2, h3, h4, h5]⟩
  · intro msg h
    unfold solve at h
    split_ifs at h
    injection h with h
    exact h.symm
  · simp [solve]
  · simp [solve]
  · simp [solve]
  · simp [solve]
  · simp [solve]

theorem recomputeNonLinear_point (Nky i : Int) (inp : Inputs) (rk_step s m z : Int)
    (st : RKState) :
    recomputeNonLinear (pointVlasov Nky i) inp rk_step s m z st = st.nonLinearTerm := by
  simp [recomputeNonLinear, pointVlasov]

/-- C8, the code at a failing input: `solve` gives the same result for
`2D_Island_Orig` as for `2D_Island` on every input, because both branches call
`Vlasov_2D_Island`; on a four-mode grid with `dMagIs_dx = 1` and a distribution
equal to 1 at mode 2, the result of `solve` with `2D_Island_Orig` has
`fss = -2i` at mode `y_k = 1`, where the routine `Vlasov_2D_Island_orig`
would store `fss = 2i`. -/
theorem C8_orig_runs_baseline :
    (∀ (self : VlasovIsland) (inp : Inputs) (st : RKState) (dt : ℚ) (rk_step : Int)
        (rk : Nat → ℚ),
        solve self "2D_Island_Orig" inp st dt rk_step rk
          = solve self "2D_Island" inp st dt rk_step rk)
    ∧ mode2Inputs.dMagIs_dx 0 ≠ 0
    ∧ (∃ r : RKState,
        solve (pointVlasov 4 1) "2D_Island_Orig" mode2Inputs zeroState 1 0 (fun _ => 0) = .ok r
        ∧ r.fss ⟨1, 0, 0, 1, 0, 0⟩ = ⟨0, -2⟩)
    ∧ (Vlasov_2D_Island_orig (pointVlasov 4 1) mode2Inputs zeroState 1 0 (fun _ => 0)).fss
        ⟨1, 0, 0, 1, 0, 0⟩ = ⟨0, 2⟩ := by
  refine ⟨fun self inp st dt rk_step rk => by simp [solve], by simp [mode2Inputs], ?_, ?_⟩
  · refine ⟨Vlasov_2D_Island (pointVlasov 4 1) mode2Inputs zeroState 1 0 (fun _ => 0),
      by simp [solve], ?_⟩
    have h := (sweep_at_const (pointVlasov 4 1).grid 0 ((pointVlasov 4 1).grid.Nky - 2)
      (fun _ _ st => st) (recomputeNonLinear (pointVlasov 4 1) mode2Inputs 0)
      (Vlasov_2D_Island_dg_dt (pointVlasov 4 1) mode2Inputs) (fun _ => 0) 1
      mode2Inputs.f1 ⟨1, 0, 0, 1, 0, 0⟩ (by decide)
      (recomputeNonLinear_point 4 1 mode2Inputs 0) (fun _ _ _ => ⟨rfl, rfl⟩)
      (fun _ _ _ => rfl) zeroState).2
    unfold Vlasov_2D_Island
    rw [h]
    apply CComplex.ext <;>
      simp [Vlasov_2D_Island_dg_dt, Vlasov_2D_Island_locals, pointVlasov, pointGrid,
        mode2Inputs, zeroState, unitSpecies, Species.sub, Field.phi]
  · have h := (sweep_at_const (pointVlasov 4 1).grid (pointVlasov 4 1).grid.NkyLlD
      (pointVlasov 4 1).grid.NkyLuD
      (fun _ _ st => st) (recomputeNonLinear (pointVlasov 4 1) mode2Inputs 0)
      (Vlasov_2D_Island_orig_dg_dt (pointVlasov 4 1) mode2Inputs) (fun _ => 0) 1
      mode2Inputs.f1 ⟨1, 0, 0, 1, 0, 0⟩ (by decide)
      (recomputeNonLinear_point 4 1 mode2Inputs 0) (fun _ _ _ => ⟨rfl, rfl⟩)
      (fun _ _ _ => rfl) zeroState).2
    unfold Vlasov_2D_Island_orig
    rw [h]
    apply CComplex.ext <;>
      simp [Vlasov_2D_Island_orig_dg_dt, Vlasov_2D_Island_orig_locals, pointVlasov, pointGrid,
        mode2Inputs, zeroState, unitSpecies, Species.sub, Field.phi]

/-! ### The nonlinear buffer at `rk_step == 0` -/

/-- The loop nest `sweep` leaves the buffer as it was when neither `setup` nor
the recomputation changes it. -/
theorem sweep_nonLinearTerm_const (G : Grid) (ylo yhi : Int)
    (setup : Int → Int → RKState → RKState)
    (nl : Int → Int → Int → RKState → A3) (dg_dt : A3 → Idx6 → CComplex)
    (rk : Nat → ℚ) (dt : ℚ) (f1 : A6)
    (hnl : ∀ s m z (st : RKState), nl s m z st = st.nonLinearTerm)
    (hsetup_nl : ∀ s m st, (setup s m st).nonLinearTerm = st.nonLinearTerm)
    (st : RKState) :
    (sweep G ylo yhi setup nl dg_dt rk dt f1 st).nonLinearTerm = st.nonLinearTerm := by
  unfold sweep
  apply forLoop_inv _ _ _ (fun st1 : RKState => st1.nonLinearTerm = st.nonLinearTerm) st _ rfl
  intro s st1 _ _ h1
  apply forLoop_inv _ _ _ (fun st1 : RKState => st1.nonLinearTerm = st.nonLinearTerm) st1 _ h1
  intro m st2 _ _ h2
  apply forLoop_inv _ _ _ (fun st1 : RKState => st1.nonLinearTerm = st.nonLinearTerm)
    (setup s m st2) _ ((hsetup_nl s m st2).trans h2)
  intro z st3 _ _ h3
  apply forLoop_inv _ _ _ (fun st1 : RKState => st1.nonLinearTerm = st.nonLinearTerm)
    { st3 with nonLinearTerm := nl s m z st3 } _ ((hnl s m z st3).trans h3)
  intro y st4 _ _ h4
  apply forLoop_inv _ _ _ (fun st1 : RKState => st1.nonLinearTerm = st.nonLinearTerm) st4 _ h4
  intro x st5 _ _ h5
  apply forLoop_inv _ _ _ (fun st1 : RKState => st1.nonLinearTerm = st.nonLinearTerm) st5 _ h5
  intro v st6 _ _ h6
  exact h6

theorem recomputeNonLinear_rk_step_zero (self : VlasovIsland) (inp : Inputs) (s m z : Int)
    (st : RKState) : recomputeNonLinear self inp 0 s m z st = st.nonLinearTerm := by
  simp [recomputeNonLinear]

/-- The buffer entry enters the baseline tendency additively (its real part at mode 0). -/
theorem Vlasov_2D_Island_dg_dt_buffer (self : VlasovIsland) (inp : Inputs) (nonLinearTerm : A3)
    (p : Idx6) :
    Vlasov_2D_Island_dg_dt self inp nonLinearTerm p
      = Vlasov_2D_Island_dg_dt self inp (fun _ _ _ => 0) p
        + (if p.y_k = 0 then creal (nonLinearTerm p.y_k p.x p.v)
           else nonLinearTerm p.y_k p.x p.v) := by
  by_cases h : p.y_k = 0
  · simp only [Vlasov_2D_Island_dg_dt, Vlasov_2D_Island_locals, if_pos h]
    apply CComplex.ext
    · simp
      ring
    · simp
  · simp only [Vlasov_2D_Island_dg_dt, Vlasov_2D_Island_locals, if_neg h]
    ring

/-- C9, counterexample: with `rk_step = 0` (and `doNonLinear` set) the baseline
routine still adds the content of the buffer: with a buffer of ones instead of
zeros, all other data equal, `dg_dt` and `fss` at the owned point of mode 0
are 1 instead of 0. -/
theorem C9_counterexample :
    Vlasov_2D_Island_dg_dt (pointVlasovNL 3 1) zeroInputs zeroState.nonLinearTerm
        ⟨1, 0, 0, 0, 0, 0⟩ = 0
    ∧ Vlasov_2D_Island_dg_dt (pointVlasovNL 3 1) zeroInputs unitBufferState.nonLinearTerm
        ⟨1, 0, 0, 0, 0, 0⟩ = 1
    ∧ (Vlasov_2D_Island (pointVlasovNL 3 1) zeroInputs zeroState 1 0 (fun _ => 0)).fss
        ⟨1, 0, 0, 0, 0, 0⟩ = 0
    ∧ (Vlasov_2D_Island (pointVlasovNL 3 1) zeroInputs unitBufferState 1 0 (fun _ => 0)).fss
        ⟨1, 0, 0, 0, 0, 0⟩ = 1
    ∧ (Vlasov_2D_Island (pointVlasovNL 3 1) zeroInputs zeroState 1 0 (fun _ => 0)).fss
        ⟨1, 0, 0, 0, 0, 0⟩
      ≠ (Vlasov_2D_Island (pointVlasovNL 3 1) zeroInputs unitBufferState 1 0 (fun _ => 0)).fss
        ⟨1, 0, 0, 0, 0, 0⟩ := by
  have hown : (pointVlasovNL 3 1).grid.owned 0 ((pointVlasovNL 3 1).grid.Nky - 2)
      ⟨1, 0, 0, 0, 0, 0⟩ := by decide
  have d0 : Vlasov_2D_Island_dg_dt (pointVlasovNL 3 1) zeroInputs zeroState.nonLinearTerm
      ⟨1, 0, 0, 0, 0, 0⟩ = 0 := by
    apply CComplex.ext <;>
      simp [Vlasov_2D_Island_dg_dt, Vlasov_2D_Island_locals, pointVlasovNL, pointVlasov,
        pointGrid, zeroInputs, zeroState, unitSpecies, Species.sub, Field.phi]
  have d1 : Vlasov_2D_Island_dg_dt (pointVlasovNL 3 1) zeroInputs unitBufferState.nonLinearTerm
      ⟨1, 0, 0, 0, 0, 0⟩ = 1 := by
    apply CComplex.ext <;>
      simp [Vlasov_2D_Island_dg_dt, Vlasov_2D_Island_locals, pointVlasovNL, pointVlasov,
        pointGrid, zeroInputs, unitBufferState, unitSpecies, Species.sub, Field.phi]
  have f0 : (Vlasov_2D_Island (pointVlasovNL 3 1) zeroInputs zeroState 1 0 (fun _ => 0)).fss
      ⟨1, 0, 0, 0, 0, 0⟩ = 0 := by
    have h := (sweep_at_const (pointVlasovNL 3 1).grid 0 ((pointVlasovNL 3 1).grid.Nky - 2)
      (fun _ _ st => st) (recomputeNonLinear (pointVlasovNL 3 1) zeroInputs 0)
      (Vlasov_2D_Island_dg_dt (pointVlasovNL 3 1) zeroInputs) (fun _ => 0) 1
      zeroInputs.f1 ⟨1, 0, 0, 0, 0, 0⟩ hown
      (recomputeNonLinear_rk_step_zero (pointVlasovNL 3 1) zeroInputs)
      (fun _ _ _ => ⟨rfl, rfl⟩) (fun _ _ _ => rfl) zeroState).2
    unfold Vlasov_2D_Island
    rw [h, d0]
    apply CComplex.ext <;> simp [zeroInputs]
  have f1 : (Vlasov_2D_Island (pointVlasovNL 3 1) zeroInputs unitBufferState 1 0
      (fun _ => 0)).fss ⟨1, 0, 0, 0, 0, 0⟩ = 1 := by
    have h := (sweep_at_const (pointVlasovNL 3 1).grid 0 ((pointVlasovNL 3 1).grid.Nky - 2)
      (fun _ _ st => st) (recomputeNonLinear (pointVlasovNL 3 1) zeroInputs 0)
      (Vlasov_2D_Island_dg_dt (pointVlasovNL 3 1) zeroInputs) (fun _ => 0) 1
      zeroInputs.f1 ⟨1, 0, 0, 0, 0, 0⟩ hown
      (recomputeNonLinear_rk_step_zero (pointVlasovNL 3 1) zeroInputs)
      (fun _ _ _ => ⟨rfl, rfl⟩) (fun _ _ _ => rfl) unitBufferState).2
    unfold Vlasov_2D_Island
    rw [h, d1]
    apply CComplex.ext <;> simp [zeroInputs]
  refine ⟨d0, d1, f0, f1, ?_⟩
  rw [f0, f1]
  intro h
  have := congrArg CComplex.re h
  norm_num at this

/-- C9, amended: when `rk_step == 0` the baseline routine does not recompute
the nonlinear term: the buffer `nonLinearTerm` is left unchanged, the result
does not depend on `calculateExBNonLinearity`, and at every owned point
`dg_dt`, `ft` and `fss` are formed with the entry `nonLinearTerm[y_k][x][v]`
the buffer already holds, which enters `dg_dt` additively (its real part at
mode 0); the nonlinear contribution is zero when that entry is zero. -/
theorem C9_rk_step_zero_amended (self : VlasovIsland) (inp : Inputs) (st : RKState) (dt : ℚ)
    (rk : Nat → ℚ) (p : Idx6) (hp : self.grid.owned 0 (self.grid.Nky - 2) p) :
    (Vlasov_2D_Island self inp st dt 0 rk).nonLinearTerm = st.nonLinearTerm
    ∧ (∀ F : A6 → AFields → Int → Int → Int → A3 → A3,
        Vlasov_2D_Island { self with calculateExBNonLinearity := F } inp st dt 0 rk
          = Vlasov_2D_Island self inp st dt 0 rk)
    ∧ RKAccumulation rk dt (st.ft p) (inp.f1 p)
        (Vlasov_2D_Island_dg_dt self inp st.nonLinearTerm p)
        ((Vlasov_2D_Island self inp st dt 0 rk).ft p)
        ((Vlasov_2D_Island self inp st dt 0 rk).fss p)
    ∧ Vlasov_2D_Island_dg_dt self inp st.nonLinearTerm p
      = Vlasov_2D_Island_dg_dt self inp (fun _ _ _ => 0) p
        + (if p.y_k = 0 then creal (st.nonLinearTerm p.y_k p.x p.v)
           else st.nonLinearTerm p.y_k p.x p.v) := by
  refine ⟨?_, ?_, ?_, Vlasov_2D_Island_dg_dt_buffer self inp st.nonLinearTerm p⟩
  · exact sweep_nonLinearTerm_const self.grid 0 (self.grid.Nky - 2) (fun _ _ st => st)
      (recomputeNonLinear self inp 0) (Vlasov_2D_Island_dg_dt self inp) rk dt inp.f1
      (recomputeNonLinear_rk_step_zero self inp) (fun _ _ _ => rfl) st
  · intro F
    have e1 : recomputeNonLinear { self with calculateExBNonLinearity := F } inp 0
        = recomputeNonLinear self inp 0 := by
      funext s m z st1
      rw [recomputeNonLinear_rk_step_zero, recomputeNonLinear_rk_step_zero]
    have e2 : Vlasov_2D_Island_dg_dt { self with calculateExBNonLinearity := F } inp
        = Vlasov_2D_Island_dg_dt self inp := rfl
    unfold Vlasov_2D_Island
    rw [e1, e2]
  · exact sweep_at_const self.grid 0 (self.grid.Nky - 2) (fun _ _ st => st)
      (recomputeNonLinear self inp 0) (Vlasov_2D_Island_dg_dt self inp) rk dt inp.f1 p hp
      (recomputeNonLinear_rk_step_zero self inp) (fun _ _ _ => ⟨rfl, rfl⟩)
      (fun _ _ _ => rfl) st

/-- Witness of the amended C9 on the one-point grid, nonlinearity switched on,
buffer of ones. -/
theorem C9_rk_step_zero_amended_witness :
    (pointVlasovNL 3 1).grid.owned 0 ((pointVlasovNL 3 1).grid.Nky - 2) ⟨1, 0, 0, 0, 0, 0⟩
    ∧ (Vlasov_2D_Island (pointVlasovNL 3 1) zeroInputs unitBufferState 1 0
        (fun _ => 0)).nonLinearTerm = unitBufferState.nonLinearTerm
    ∧ RKAccumulation (fun _ => 0) 1 (unitBufferState.ft ⟨1, 0, 0, 0, 0, 0⟩)
        (zeroInputs.f1 ⟨1, 0, 0, 0, 0, 0⟩)
        (Vlasov_2D_Island_dg_dt (pointVlasovNL 3 1) zeroInputs unitBufferState.nonLinearTerm
          ⟨1, 0, 0, 0, 0, 0⟩)
        ((Vlasov_2D_Island (pointVlasovNL 3 1) zeroInputs unitBufferState 1 0
          (fun _ => 0)).ft ⟨1, 0, 0, 0, 0, 0⟩)
        ((Vlasov_2D_Island (pointVlasovNL 3 1) zeroInputs unitBufferState 1 0
          (fun _ => 0)).fss ⟨1, 0, 0, 0, 0, 0⟩) :=
  have h := C9_rk_step_zero_amended (pointVlasovNL 3 1) zeroInputs unitBufferState 1
    (fun _ => 0) ⟨1, 0, 0, 0, 0, 0⟩ (by decide)
  ⟨by decide, h.1, h.2.2.1⟩

/-! ### The drive-term offset -/

theorem Plasma_readSpecies_gyro (setup : Setup) (Nm : Int) (s : Int) (sp : Species) :
    (Plasma_readSpecies setup Nm s sp).gyroModel
      = setup.get ("Plasma.Species" ++ toString s ++ ".gyroModel")
          (if Nm > 1 then "Gyro" else "Gyro-1")
    ∧ (Plasma_readSpecies setup Nm s sp).doGyro
      = if (Plasma_readSpecies setup Nm s sp).gyroModel = "Gyro" then 1 else 0 := by
  simp only [Plasma_readSpecies, and_self]

theorem Plasma_kineticSpecies_ok (setup : Setup) (Nm : Int) (global : Bool)
    (alphaOf sigmaOf : Species → ℚ) (s : Int) (sp0 sp : Species)
    (h : Plasma_kineticSpecies setup Nm global alphaOf sigmaOf s sp0 = .ok sp) :
    sp.gyroModel = (Plasma_readSpecies setup Nm s sp0).gyroModel
    ∧ sp.doGyro = (Plasma_readSpecies setup Nm s sp0).doGyro := by
  unfold Plasma_kineticSpecies at h
  simp only [] at h
  split_ifs at h with h1 h2
  · injection h with h; subst h; exact ⟨rfl, rfl⟩
  · injection h with h; subst h; exact ⟨rfl, rfl⟩

/-- C10: for a kinetic species set up by `Plasma::Plasma`, the drive-term offset
`sub` read by every derivative routine is `3/2` if and only if the configured
`gyroModel` string (the value of the key `Plasma.Species<s>.gyroModel`, or the
default `"Gyro"` for `Nm > 1` and `"Gyro-1"` otherwise) equals `"Gyro"`, which
is when `doGyro = 1`; for `"Gyro-1"` and every other string it is `1/2`. -/
theorem C10_drive_offset (setup : Setup) (Nm : Int) (global : Bool)
    (alphaOf sigmaOf : Species → ℚ) (s : Int) (sp0 sp : Species)
    (h : Plasma_kineticSpecies setup Nm global alphaOf sigmaOf s sp0 = .ok sp) :
    sp.gyroModel = setup.get ("Plasma.Species" ++ toString s ++ ".gyroModel")
        (if Nm > 1 then "Gyro" else "Gyro-1")
    ∧ (sp.doGyro = 1 ↔ sp.gyroModel = "Gyro")
    ∧ (sp.sub = 3 / 2 ↔ sp.gyroModel = "Gyro")
    ∧ (sp.gyroModel ≠ "Gyro" → sp.sub = 1 / 2)
    ∧ (sp.gyroModel = "Gyro-1" → sp.sub = 1 / 2) := by
  obtain ⟨hg, hd⟩ := Plasma_kineticSpecies_ok setup Nm global alphaOf sigmaOf s sp0 sp h
  obtain ⟨hg0, hd0⟩ := Plasma_readSpecies_gyro setup Nm s sp0
  rw [← hg] at hd0 hg0
  rw [← hd] at hd0
  have key : sp.gyroModel ≠ "Gyro" → sp.sub = 1 / 2 := by
    intro hne
    simp [Species.sub, hd0, hne]
  refine ⟨hg0, ?_, ?_, key, ?_⟩
  · rw [hd0]
    by_cases hm : sp.gyroModel = "Gyro" <;> simp [hm]
  · by_cases hm : sp.gyroModel = "Gyro"
    · simp [Species.sub, hd0, hm]
    · rw [key hm]
      constructor
      · intro h2; norm_num at h2
      · intro h2; exact absurd h2 hm
  · intro hm
    apply key
    rw [hm]
    decide

theorem Plasma_kineticSpecies_empty :
    ∃ sp, Plasma_kineticSpecies emptySetup 1 false (fun _ => 1) (fun _ => 1) 1 unitSpecies
      = .ok sp := by
  unfold Plasma_kineticSpecies
  simp only []
  have hm : ¬ ((Plasma_readSpecies emptySetup 1 1 unitSpecies).m < 1 / 10 ^ 10) := by
    simp [Plasma_readSpecies, Setup.getNum, emptySetup]
    norm_num
  rw [if_neg hm]
  exact ⟨_, rfl⟩

/-- Witness of C10: with nothing configured and `Nm = 1` the species is built,
its model is the default `"Gyro-1"` and its offset is `1/2`. -/
theorem C10_drive_offset_witness :
    ∃ sp, Plasma_kineticSpecies emptySetup 1 false (fun _ => 1) (fun _ => 1) 1 unitSpecies
        = .ok sp
      ∧ sp.gyroModel = "Gyro-1" ∧ sp.sub = 1 / 2 := by
  obtain ⟨sp, h⟩ := Plasma_kineticSpecies_empty
  have h10 := C10_drive_offset emptySetup 1 false (fun _ => 1) (fun _ => 1) 1 unitSpecies sp h
  have hg : sp.gyroModel = "Gyro-1" := by
    rw [h10.1]
    simp [Setup.get, emptySetup]
  exact ⟨sp, h, hg, h10.2.2.2.2 hg⟩

/-! ### The mode offset of the baseline routine -/

/-- C11, counterexample: with six modes and the configured offset `i = 2`, at
the mode `y_k = 2` (both `y_k-2 = 0` and `y_k+2 = 4` are stored modes below
the Nyquist mode) and a distribution that is 1 at mode 4 with
`dMagIs_dx = 1`, the formula at offset 2 gives `Island_g = 4i`, while the
baseline routine reads the modes 1 and 3 and computes `Island_g = 0`. -/
theorem C11_counterexample :
    (1 : Int) ≤ (pointVlasov 6 2).i
    ∧ (0 : Int) ≤ (⟨1, 0, 0, 2, 0, 0⟩ : Idx6).y_k - (pointVlasov 6 2).i
    ∧ (⟨1, 0, 0, 2, 0, 0⟩ : Idx6).y_k + (pointVlasov 6 2).i < (pointVlasov 6 2).grid.Nky - 1
    ∧ (Vlasov_2D_Island_locals (pointVlasov 6 2) mode4Inputs (fun _ _ _ => 0)
        ⟨1, 0, 0, 2, 0, 0⟩).Island_g = 0
    ∧ spec_Island_offset (pointVlasov 6 2) mode4Inputs (pointVlasov 6 2).i
        (fun y x => mode4Inputs.fs ⟨1, 0, 0, y, x, 0⟩) 2 0 = ⟨0, 4⟩
    ∧ (Vlasov_2D_Island_locals (pointVlasov 6 2) mode4Inputs (fun _ _ _ => 0)
        ⟨1, 0, 0, 2, 0, 0⟩).Island_g
      ≠ spec_Island_offset (pointVlasov 6 2) mode4Inputs (pointVlasov 6 2).i
        (fun y x => mode4Inputs.fs ⟨1, 0, 0, y, x, 0⟩) 2 0 := by
  have hcode : (Vlasov_2D_Island_locals (pointVlasov 6 2) mode4Inputs (fun _ _ _ => 0)
      ⟨1, 0, 0, 2, 0, 0⟩).Island_g = 0 := by
    apply CComplex.ext <;>
      simp [Vlasov_2D_Island_locals, pointVlasov, pointGrid, mode4Inputs, unitSpecies,
        Species.sub, Field.phi]
  have hspec : spec_Island_offset (pointVlasov 6 2) mode4Inputs (pointVlasov 6 2).i
      (fun y x => mode4Inputs.fs ⟨1, 0, 0, y, x, 0⟩) 2 0 = ⟨0, 4⟩ := by
    apply CComplex.ext <;>
      simp [spec_Island_offset, spec_d_dx, pointVlasov, pointGrid, mode4Inputs]
  refine ⟨by decide, by decide, by decide, hcode, hspec, ?_⟩
  rw [hcode, hspec]
  intro h
  have := congrArg CComplex.im h
  norm_num at this

/-- C11, amended: whatever the configured offset `i`, the baseline routine
couples the mode `y_k` with the modes `y_k-1` and `y_k+1` and uses the factor
`i*ky(1)`: at every mode `1 <= y_k <= Nky-3` its `Island_phi` and `Island_g`
equal the specified formula at offset 1, and the locals of the routine are the
same for every value `j` of the member `i`. -/
theorem C11_baseline_offset_one (self : VlasovIsland) (inp : Inputs) (nonLinearTerm : A3)
    (p : Idx6) (j : Int) (h1 : 1 ≤ p.y_k) (h2 : p.y_k + 1 < self.grid.Nky - 1) :
    (Vlasov_2D_Island_locals self inp nonLinearTerm p).Island_phi
      = spec_Island_offset self inp 1 (fun y x => inp.Fields Field.phi p.s p.m p.z y x) p.y_k p.x
    ∧ (Vlasov_2D_Island_locals self inp nonLinearTerm p).Island_g
      = spec_Island_offset self inp 1 (fun y x => inp.fs ⟨p.s, p.m, p.z, y, x, p.v⟩) p.y_k p.x
    ∧ Vlasov_2D_Island_locals { self with i := j } inp nonLinearTerm p
      = Vlasov_2D_Island_locals self inp nonLinearTerm p := by
  have c1 : ¬ (p.y_k + 1 ≥ self.grid.Nky - 1) := by omega
  have c2 : ¬ (p.y_k - 1 < 0) := by omega
  refine ⟨?_, ?_, rfl⟩
  · simp only [Vlasov_2D_Island_locals, spec_Island_offset, spec_d_dx, if_neg c1, if_neg c2]
  · simp only [Vlasov_2D_Island_locals, spec_Island_offset, spec_d_dx, if_neg c1, if_neg c2]

/-- Witness of the amended C11 on a six-mode grid with configured offset 2. -/
theorem C11_baseline_offset_one_witness :
    (1 : Int) ≤ (⟨1, 0, 0, 2, 0, 0⟩ : Idx6).y_k
    ∧ (⟨1, 0, 0, 2, 0, 0⟩ : Idx6).y_k + 1 < (pointVlasov 6 2).grid.Nky - 1
    ∧ (Vlasov_2D_Island_locals (pointVlasov 6 2) mode4Inputs (fun _ _ _ => 0)
        ⟨1, 0, 0, 2, 0, 0⟩).Island_g
      = spec_Island_offset (pointVlasov 6 2) mode4Inputs 1
        (fun y x => mode4Inputs.fs ⟨1, 0, 0, y, x, 0⟩) 2 0 :=
  ⟨by decide, by decide,
    (C11_baseline_offset_one (pointVlasov 6 2) mode4Inputs (fun _ _ _ => 0) ⟨1, 0, 0, 2, 0, 0⟩ 7
      (by decide) (by decide)).2.1⟩

/-! ### The filter weight in the filtered routine -/

/-- C12, counterexample: with the weight `ky_filter = 1/2`, a collision term 1
and every other input zero, the island, nonlinear, drive and Landau terms
vanish; the formula with the weight on the bundle only gives `dg_dt = 1`, the
routine stores `dg_dt = 1/2`: the collision contribution is scaled by the
weight. -/
theorem C12_counterexample :
    filter_island_term halfFilterVlasov unitCollInputs (fun _ _ _ => 0) ⟨1, 0, 0, 1, 0, 0⟩ = 0
    ∧ filter_drive_term halfFilterVlasov unitCollInputs ⟨1, 0, 0, 1, 0, 0⟩ = 0
    ∧ Vlasov_2D_Island_filter_dg_dt halfFilterVlasov unitCollInputs (fun _ _ _ => 0)
        ⟨1, 0, 0, 1, 0, 0⟩ = ⟨1 / 2, 0⟩
    ∧ spec_filter_dg_dt_bundle halfFilterVlasov unitCollInputs (fun _ _ _ => 0)
        ⟨1, 0, 0, 1, 0, 0⟩ = ⟨1, 0⟩
    ∧ Vlasov_2D_Island_filter_dg_dt halfFilterVlasov unitCollInputs (fun _ _ _ => 0)
        ⟨1, 0, 0, 1, 0, 0⟩
      ≠ spec_filter_dg_dt_bundle halfFilterVlasov unitCollInputs (fun _ _ _ => 0)
        ⟨1, 0, 0, 1, 0, 0⟩ := by
  have hcode : Vlasov_2D_Island_filter_dg_dt halfFilterVlasov unitCollInputs (fun _ _ _ => 0)
      ⟨1, 0, 0, 1, 0, 0⟩ = ⟨1 / 2, 0⟩ := by
    apply CComplex.ext <;>
      simp [Vlasov_2D_Island_filter_dg_dt, Vlasov_2D_Island_filter_locals, halfFilterVlasov,
        pointVlasov, pointGrid, unitCollInputs, unitSpecies, Species.sub, Field.phi,
        CComplex.divReal]
  have hspec : spec_filter_dg_dt_bundle halfFilterVlasov unitCollInputs (fun _ _ _ => 0)
      ⟨1, 0, 0, 1, 0, 0⟩ = ⟨1, 0⟩ := by
    apply CComplex.ext <;>
      simp [spec_filter_dg_dt_bundle, filter_island_term, filter_drive_term,
        filter_landau_term, filter_half_eta_kperp2_phi, Vlasov_2D_Island_filter_locals,
        halfFilterVlasov, pointVlasov, pointGrid, unitCollInputs, unitSpecies, Species.sub,
        Field.phi, CComplex.divReal]
  refine ⟨?_, ?_, hcode, hspec, ?_⟩
  · apply CComplex.ext <;>
      simp [filter_island_term, Vlasov_2D_Island_filter_locals, halfFilterVlasov,
        pointVlasov, pointGrid, unitCollInputs, unitSpecies, Species.sub, Field.phi,
        CComplex.divReal]
  · apply CComplex.ext <;>
      simp [filter_drive_term, filter_half_eta_kperp2_phi, halfFilterVlasov,
        pointVlasov, pointGrid, unitCollInputs, unitSpecies, Species.sub, Field.phi]
  · rw [hcode, hspec]
    intro h
    have := congrArg CComplex.re h
    norm_num at this

/-- C12, amended: in the filtered routine the weight `ky_filter[y_k]`
multiplies the whole sum,
`dg_dt = ky_filter[y_k]*(island term + nonLinearTerm + drive term
 + Landau-damping term + collision term)`;
with a weight that is zero the tendency vanishes, Landau damping and
collisions included. -/
theorem C12_filter_weights_whole_sum (self : VlasovIsland) (inp : Inputs)
    (nonLinearTerm : A3) (p : Idx6) :
    Vlasov_2D_Island_filter_dg_dt self inp nonLinearTerm p
      = spec_filter_dg_dt_whole self inp nonLinearTerm p
    ∧ Vlasov_2D_Island_filter_dg_dt { self with ky_filter := fun _ => 0 } inp nonLinearTerm p
      = 0 := by
  constructor
  · simp only [Vlasov_2D_Island_filter_dg_dt, Vlasov_2D_Island_filter_locals,
      spec_filter_dg_dt_whole, filter_island_term, filter_drive_term, filter_landau_term,
      filter_half_eta_kperp2_phi]
    ring
  · simp only [Vlasov_2D_Island_filter_dg_dt, Vlasov_2D_Island_filter_locals]
    apply CComplex.ext <;> simp

/-! ### The equilibrium routine -/

/-- C14, counterexample: two input sets with the same distribution (`i` at
mode 1), fields, collision array, buffer and Runge-Kutta parameters, which
differ only in the island profile derivative (`dMagIs_dx = 1` against
`dMagIs_dx = 0`), give different outputs of `Vlasov_2D_Island_Equi` at the
mode `y_k = 1`: `ft = -1`, `fss = -2` against `ft = 0`, `fss = 0`. -/
theorem C14_counterexample :
    mode1ImagInputs.fs = mode1ImagFlatInputs.fs
    ∧ mode1ImagInputs.f0 = mode1ImagFlatInputs.f0
    ∧ mode1ImagInputs.f1 = mode1ImagFlatInputs.f1
    ∧ mode1ImagInputs.Coll = mode1ImagFlatInputs.Coll
    ∧ mode1ImagInputs.Fields = mode1ImagFlatInputs.Fields
    ∧ mode1ImagInputs.V = mode1ImagFlatInputs.V
    ∧ mode1ImagInputs.M = mode1ImagFlatInputs.M
    ∧ (Vlasov_2D_Island_Equi (pointVlasov 3 1) mode1ImagInputs zeroState 1 0
        (fun _ => 1)).ft ⟨1, 0, 0, 1, 0, 0⟩ = ⟨-1, 0⟩
    ∧ (Vlasov_2D_Island_Equi (pointVlasov 3 1) mode1ImagFlatInputs zeroState 1 0
        (fun _ => 1)).ft ⟨1, 0, 0, 1, 0, 0⟩ = 0
    ∧ (Vlasov_2D_Island_Equi (pointVlasov 3 1) mode1ImagInputs zeroState 1 0
        (fun _ => 1)).fss ⟨1, 0, 0, 1, 0, 0⟩ = ⟨-2, 0⟩
    ∧ (Vlasov_2D_Island_Equi (pointVlasov 3 1) mode1ImagFlatInputs zeroState 1 0
        (fun _ => 1)).fss ⟨1, 0, 0, 1, 0, 0⟩ = 0 := by
  have hown : (pointVlasov 3 1).grid.owned (pointVlasov 3 1).grid.NkyLlD
      (pointVlasov 3 1).grid.NkyLuD ⟨1, 0, 0, 1, 0, 0⟩ := by decide
  have hnl : ∀ (inp : Inputs) (s m z : Int) (st : RKState),
      recomputeNonLinear (pointVlasov 3 1) inp 0 s m z st = st.nonLinearTerm := by
    intro inp s m z st
    simp [recomputeNonLinear]
  have dA : Vlasov_2D_Island_Equi_dg_dt (pointVlasov 3 1) mode1ImagInputs
      zeroState.nonLinearTerm ⟨1, 0, 0, 1, 0, 0⟩ = ⟨-1, 0⟩ := by
    apply CComplex.ext <;>
      simp [Vlasov_2D_Island_Equi_dg_dt, pointVlasov, mode1ImagInputs, unitSpecies,
        Species.sub, zeroState, Field.phi]
  have dB : Vlasov_2D_Island_Equi_dg_dt (pointVlasov 3 1) mode1ImagFlatInputs
      zeroState.nonLinearTerm ⟨1, 0, 0, 1, 0, 0⟩ = 0 := by
    apply CComplex.ext <;>
      simp [Vlasov_2D_Island_Equi_dg_dt, pointVlasov, mode1ImagFlatInputs, unitSpecies,
        Species.sub, zeroState, Field.phi]
  have hA := sweep_at_const (pointVlasov 3 1).grid (pointVlasov 3 1).grid.NkyLlD
    (pointVlasov 3 1).grid.NkyLuD (fun _ _ st => st)
    (recomputeNonLinear (pointVlasov 3 1) mode1ImagInputs 0)
    (Vlasov_2D_Island_Equi_dg_dt (pointVlasov 3 1) mode1ImagInputs) (fun _ => 1) 1
    mode1ImagInputs.f1 ⟨1, 0, 0, 1, 0, 0⟩ hown (hnl mode1ImagInputs) (fun _ _ _ => ⟨rfl, rfl⟩)
    (fun _ _ _ => rfl) zeroState
  have hB := sweep_at_const (pointVlasov 3 1).grid (pointVlasov 3 1).grid.NkyLlD
    (pointVlasov 3 1).grid.NkyLuD (fun _ _ st => st)
    (recomputeNonLinear (pointVlasov 3 1) mode1ImagFlatInputs 0)
    (Vlasov_2D_Island_Equi_dg_dt (pointVlasov 3 1) mode1ImagFlatInputs) (fun _ => 1) 1
    mode1ImagFlatInputs.f1 ⟨1, 0, 0, 1, 0, 0⟩ hown (hnl mode1ImagFlatInputs)
    (fun _ _ _ => ⟨rfl, rfl⟩) (fun _ _ _ => rfl) zeroState
  rw [dA] at hA
  rw [dB] at hB
  have fA : (Vlasov_2D_Island_Equi (pointVlasov 3 1) mode1ImagInputs zeroState 1 0
      (fun _ => 1)).ft ⟨1, 0, 0, 1, 0, 0⟩ = ⟨-1, 0⟩ := by
    unfold Vlasov_2D_Island_Equi
    rw [hA.1]
    apply CComplex.ext <;> simp [zeroState]
  have fB : (Vlasov_2D_Island_Equi (pointVlasov 3 1) mode1ImagFlatInputs zeroState 1 0
      (fun _ => 1)).ft ⟨1, 0, 0, 1, 0, 0⟩ = 0 := by
    unfold Vlasov_2D_Island_Equi
    rw [hB.1]
    apply CComplex.ext <;> simp [zeroState]
  refine ⟨rfl, rfl, rfl, rfl, rfl, rfl, rfl, fA, fB, ?_, ?_⟩
  · have h2 := hA.2
    unfold Vlasov_2D_Island_Equi at fA ⊢
    rw [h2, fA]
    apply CComplex.ext
    · simp [mode1ImagInputs]
      norm_num
    · simp [mode1ImagInputs]
  · have h2 := hB.2
    unfold Vlasov_2D_Island_Equi at fB ⊢
    rw [h2, fB]
    apply CComplex.ext <;> simp [mode1ImagFlatInputs]

/-- C14, amended: the outputs of `Vlasov_2D_Island_Equi` are independent of
the island amplitude `MagIs`; the routine reads the profile derivative
`dMagIs_dx` in `kp = geo->get_kp(x, ky, z) - dMagIs_dx[x]*ky`, and replacing
`dMagIs_dx` by another array `d` adds
`alpha*V[v]*((d[x] - dMagIs_dx[x])*i*ky(y_k))*(g + sigma*phi*f0)` to the tendency. -/
theorem C14_equi_reads_profile_derivative (self : VlasovIsland) (inp : Inputs) (st : RKState)
    (dt : ℚ) (rk_step : Int) (rk : Nat → ℚ) (MagIs1 d : Int → ℚ) (nonLinearTerm : A3)
    (p : Idx6) :
    Vlasov_2D_Island_Equi self { inp with MagIs := MagIs1 } st dt rk_step rk
      = Vlasov_2D_Island_Equi self inp st dt rk_step rk
    ∧ Vlasov_2D_Island_Equi_dg_dt self { inp with dMagIs_dx := d } nonLinearTerm p
      = Vlasov_2D_Island_Equi_dg_dt self inp nonLinearTerm p
        + ofReal ((self.species p.s).alpha * inp.V p.v)
          * (ofReal (d p.x - inp.dMagIs_dx p.x) * (_imag * ofReal (self.ky p.y_k)))
          * (inp.fs p
              + ofReal (self.species p.s).sigma * inp.Fields Field.phi p.s p.m p.z p.y_k p.x
                * inp.f0 p) := by
  refine ⟨rfl, ?_⟩
  simp only [Vlasov_2D_Island_Equi_dg_dt]
  apply CComplex.ext <;> simp <;> ring

/-- C15: with a zero buffer entry and `dMagIs_dx[x] = 0` the tendency of
`Vlasov_2D_Island_Equi` is the single-mode linear update, a function of the
data at the point itself; with `MagIs[x] = 0` as well, the baseline routine
computes the same tendency at every mode `y_k >= 1`. -/
theorem C15_equi_linear_update (self : VlasovIsland) (inp : Inputs) (nonLinearTerm : A3)
    (p : Idx6) (hnl : nonLinearTerm p.y_k p.x p.v = 0) (hd : inp.dMagIs_dx p.x = 0) :
    Vlasov_2D_Island_Equi_dg_dt self inp nonLinearTerm p
      = spec_linear_update (self.species p.s) (self.ky p.y_k) (inp.V p.v) (inp.M p.m)
          (self.get_kp p.x (_imag * ofReal (self.ky p.y_k)) p.z) (inp.f0 p)
          (inp.Fields Field.phi p.s p.m p.z p.y_k p.x) (inp.fs p) (inp.Coll p)
    ∧ (inp.MagIs p.x = 0 → 1 ≤ p.y_k →
        Vlasov_2D_Island_dg_dt self inp nonLinearTerm p
          = Vlasov_2D_Island_Equi_dg_dt self inp nonLinearTerm p) := by
  constructor
  · simp only [Vlasov_2D_Island_Equi_dg_dt, spec_linear_update, hnl, hd, drive_coefficient,
      CComplex.ofReal_mul, CComplex.ofReal_neg]
    apply CComplex.ext <;> simp <;> ring
  · intro hM hk
    have c3 : ¬ (p.y_k = 0) := by omega
    simp only [Vlasov_2D_Island_dg_dt, Vlasov_2D_Island_locals, Vlasov_2D_Island_Equi_dg_dt,
      hnl, hd, hM, if_neg c3, CComplex.ofReal_mul, CComplex.ofReal_neg]
    apply CComplex.ext <;> simp <;> ring

/-- Witness of C15 on the three-mode one-point grid at the mode `y_k = 1`. -/
theorem C15_equi_linear_update_witness :
    (fun _ _ _ => 0 : A3) 1 0 0 = 0 ∧ unitCollInputs.dMagIs_dx 0 = 0
    ∧ unitCollInputs.MagIs 0 = 0 ∧ (1 : Int) ≤ (⟨1, 0, 0, 1, 0, 0⟩ : Idx6).y_k
    ∧ Vlasov_2D_Island_dg_dt (pointVlasov 3 1) unitCollInputs (fun _ _ _ => 0)
        ⟨1, 0, 0, 1, 0, 0⟩
      = Vlasov_2D_Island_Equi_dg_dt (pointVlasov 3 1) unitCollInputs (fun _ _ _ => 0)
        ⟨1, 0, 0, 1, 0, 0⟩ :=
  ⟨rfl, rfl, rfl, by decide,
    (C15_equi_linear_update (pointVlasov 3 1) unitCollInputs (fun _ _ _ => 0)
      ⟨1, 0, 0, 1, 0, 0⟩ rfl rfl).2 rfl (by decide)⟩

/-! ### `setupXiAndG` -/

/-- A loop one of whose iterations establishes `A`, while every iteration
keeps it, ends in `A`. -/
theorem forLoop_establish {σ : Type} (lo hi kp : Int) (body : Int → σ → σ) (A : σ → Prop)
    (hlo : lo ≤ kp) (hhi : kp ≤ hi) (hit : ∀ st, A (body kp st))
    (keep : ∀ j st, A st → A (body j st)) (st : σ) : A (forLoop lo hi body st) :=
  loopFrom_hit body (fun _ => True) A kp (fun _ _ _ _ => trivial) (fun st _ => hit st)
    (fun j st _ h => keep j st h) _ lo st hlo (by omega) trivial

/-- The loop nest of `setupXiAndG` for arbitrary values `XiVal`, `GVal`
written to `Xi` and `G`: a property `A` of the pair that every assignment keeps
and that the assignments at a point `(z, y_k, x, v)` of the swept range
establish holds on return. -/
theorem xig_nest (G : Grid) (XiVal GVal : Int → Int → Int → Int → CComplex) (A : XiG → Prop)
    (z y_k x v : Int)
    (hz : G.NzLlB ≤ z ∧ z ≤ G.NzLuB) (hy : G.NkyLlD ≤ y_k ∧ y_k ≤ G.NkyLuD)
    (hv : G.NvLlB ≤ v ∧ v ≤ G.NvLuB) (hx : G.NxLlB - 2 ≤ x ∧ x ≤ G.NxLuB + 2)
    (keepFull : ∀ z1 y1 x1 v1 (st : XiG), A st →
      A { Xi := st.Xi.set z1 y1 x1 v1 (XiVal z1 y1 x1 v1),
          G := st.G.set z1 y1 x1 v1 (GVal z1 y1 x1 v1) })
    (keepXi : ∀ z1 y1 x1 v1 (st : XiG), A st →
      A { st with Xi := st.Xi.set z1 y1 x1 v1 (XiVal z1 y1 x1 v1) })
    (hitFull : G.NxLlB ≤ x → x ≤ G.NxLuB → ∀ st : XiG,
      A { Xi := st.Xi.set z y_k x v (XiVal z y_k x v),
          G := st.G.set z y_k x v (GVal z y_k x v) })
    (hitXi : (x < G.NxLlB ∨ G.NxLuB < x) → ∀ st : XiG,
      A { st with Xi := st.Xi.set z y_k x v (XiVal z y_k x v) })
    (st : XiG) :
    A (forLoop G.NzLlB G.NzLuB (fun z =>
        forLoop G.NkyLlD G.NkyLuD (fun y_k st =>
          forLoop G.NvLlB G.NvLuB (fun v st =>
              let st := forLoop (G.NxLlB - 2) (G.NxLlB - 2 + 2 - 1)
                (fun x st => { st with Xi := st.Xi.set z y_k x v (XiVal z y_k x v) }) st
              forLoop (G.NxLuB + 1) (G.NxLuB + 1 + 2 - 1)
                (fun x st => { st with Xi := st.Xi.set z y_k x v (XiVal z y_k x v) }) st)
            (forLoop G.NxLlB G.NxLuB (fun x =>
              forLoop G.NvLlB G.NvLuB (fun v st =>
                { Xi := st.Xi.set z y_k x v (XiVal z y_k x v),
                  G := st.G.set z y_k x v (GVal z y_k x v) })) st))) st) := by
  have kBlock : ∀ (z1 y1 : Int) (st : XiG), A st →
      A (forLoop G.NxLlB G.NxLuB (fun x =>
          forLoop G.NvLlB G.NvLuB (fun v st =>
            { Xi := st.Xi.set z1 y1 x v (XiVal z1 y1 x v),
              G := st.G.set z1 y1 x v (GVal z1 y1 x v) })) st) := by
    intro z1 y1 st h
    apply forLoop_inv _ _ _ A st _ h
    intro x1 st1 _ _ h1
    apply forLoop_inv _ _ _ A st1 _ h1
    intro v1 st2 _ _ h2
    exact keepFull z1 y1 x1 v1 st2 h2
  have kSlice : ∀ (lo hi z1 y1 v1 : Int) (st : XiG), A st →
      A (forLoop lo hi
          (fun x st => { st with Xi := st.Xi.set z1 y1 x v1 (XiVal z1 y1 x v1) }) st) := by
    intro lo hi z1 y1 v1 st h
    apply forLoop_inv _ _ _ A st _ h
    intro x1 st1 _ _ h1
    exact keepXi z1 y1 x1 v1 st1 h1
  have kSlices : ∀ (z1 y1 : Int) (st : XiG), A st →
      A (forLoop G.NvLlB G.NvLuB (fun v st =>
          let st := forLoop (G.NxLlB - 2) (G.NxLlB - 2 + 2 - 1)
            (fun x st => { st with Xi := st.Xi.set z1 y1 x v (XiVal z1 y1 x v) }) st
          forLoop (G.NxLuB + 1) (G.NxLuB + 1 + 2 - 1)
            (fun x st => { st with Xi := st.Xi.set z1 y1 x v (XiVal z1 y1 x v) }) st) st) := by
    intro z1 y1 st h
    apply forLoop_inv _ _ _ A st _ h
    intro v1 st1 _ _ h1
    exact kSlice _ _ z1 y1 v1 _ (kSlice _ _ z1 y1 v1 st1 h1)
  have kY : ∀ (z1 : Int) (st : XiG), A st →
      A (forLoop G.NkyLlD G.NkyLuD (fun y_k st =>
          forLoop G.NvLlB G.NvLuB (fun v st =>
              let st := forLoop (G.NxLlB - 2) (G.NxLlB - 2 + 2 - 1)
                (fun x st => { st with Xi := st.Xi.set z1 y_k x v (XiVal z1 y_k x v) }) st
              forLoop (G.NxLuB + 1) (G.NxLuB + 1 + 2 - 1)
                (fun x st => { st with Xi := st.Xi.set z1 y_k x v (XiVal z1 y_k x v) }) st)
            (forLoop G.NxLlB G.NxLuB (fun x =>
              forLoop G.NvLlB G.NvLuB (fun v st =>
                { Xi := st.Xi.set z1 y_k x v (XiVal z1 y_k x v),
                  G := st.G.set z1 y_k x v (GVal z1 y_k x v) })) st)) st) := by
    intro z1 st h
    apply forLoop_inv _ _ _ A st _ h
    intro y1 st1 _ _ h1
    exact kSlices z1 y1 _ (kBlock z1 y1 st1 h1)
  apply forLoop_establish G.NzLlB G.NzLuB z _ A hz.1 hz.2 _ (fun z1 st1 h1 => kY z1 st1 h1)
  intro st1
  apply forLoop_establish G.NkyLlD G.NkyLuD y_k _ A hy.1 hy.2 _
    (fun y1 st2 h2 => kSlices z y1 _ (kBlock z y1 st2 h2))
  intro st2
  by_cases hin : G.NxLlB ≤ x ∧ x ≤ G.NxLuB
  · apply kSlices
    apply forLoop_establish G.NxLlB G.NxLuB x _ A hin.1 hin.2 _
    · intro x1 st3 h3
      apply forLoop_inv _ _ _ A st3 _ h3
      intro v1 st4 _ _ h4
      exact keepFull z y_k x1 v1 st4 h4
    · intro st3
      exact forLoop_establish G.NvLlB G.NvLuB v _ A hv.1 hv.2 (hitFull hin.1 hin.2)
        (fun v1 st4 h4 => keepFull z y_k x v1 st4 h4) st3
  · have hout : x < G.NxLlB ∨ G.NxLuB < x := by omega
    apply forLoop_establish G.NvLlB G.NvLuB v _ A hv.1 hv.2 _
      (fun v1 st3 h3 => kSlice _ _ z y_k v1 _ (kSlice _ _ z y_k v1 st3 h3))
    intro st3
    by_cases hlow : x < G.NxLlB
    · apply kSlice
      exact forLoop_establish (G.NxLlB - 2) (G.NxLlB - 2 + 2 - 1) x _ A hx.1 (by omega)
        (hitXi hout) (fun x1 st4 h4 => keepXi z y_k x1 v st4 h4) st3
    · exact forLoop_establish (G.NxLuB + 1) (G.NxLuB + 1 + 2 - 1) x _ A (by omega) (by omega)
        (hitXi hout) (fun x1 st4 h4 => keepXi z y_k x1 v st4 h4) _

/-- Writing the value `f` of a point at that point keeps `a = f` at any point. -/
theorem A4.set_same_value (a : A4) (f : Int → Int → Int → Int → CComplex)
    (z y x v z1 y1 x1 v1 : Int) (h : a z y x v = f z y x v) :
    (a.set z1 y1 x1 v1 (f z1 y1 x1 v1)) z y x v = f z y x v := by
  simp only [A4.set]
  by_cases hc : z = z1 ∧ y = y1 ∧ x = x1 ∧ v = v1
  · rw [if_pos hc]
    obtain ⟨rfl, rfl, rfl, rfl⟩ := hc
    rfl
  · rw [if_neg hc]
    exact h

/-- The values left by the loop nest of `setupXiAndG`: `XiVal` in `Xi` at every
point with `x` from `NxLlB-2` to `NxLuB+2`, `GVal` in `G` at every point with
`x` from `NxLlB` to `NxLuB`. -/
theorem xig_nest_values (G : Grid) (XiVal GVal : Int → Int → Int → Int → CComplex)
    (z y_k x v : Int)
    (hz : G.NzLlB ≤ z ∧ z ≤ G.NzLuB) (hy : G.NkyLlD ≤ y_k ∧ y_k ≤ G.NkyLuD)
    (hv : G.NvLlB ≤ v ∧ v ≤ G.NvLuB) (hx : G.NxLlB - 2 ≤ x ∧ x ≤ G.NxLuB + 2) (st : XiG) :
    (forLoop G.NzLlB G.NzLuB (fun z =>
        forLoop G.NkyLlD G.NkyLuD (fun y_k st =>
          forLoop G.NvLlB G.NvLuB (fun v st =>
              let st := forLoop (G.NxLlB - 2) (G.NxLlB - 2 + 2 - 1)
                (fun x st => { st with Xi := st.Xi.set z y_k x v (XiVal z y_k x v) }) st
              forLoop (G.NxLuB + 1) (G.NxLuB + 1 + 2 - 1)
                (fun x st => { st with Xi := st.Xi.set z y_k x v (XiVal z y_k x v) }) st)
            (forLoop G.NxLlB G.NxLuB (fun x =>
              forLoop G.NvLlB G.NvLuB (fun v st =>
                { Xi := st.Xi.set z y_k x v (XiVal z y_k x v),
                  G := st.G.set z y_k x v (GVal z y_k x v) })) st))) st).Xi z y_k x v
      = XiVal z y_k x v
    ∧ (G.NxLlB ≤ x ∧ x ≤ G.NxLuB →
      (forLoop G.NzLlB G.NzLuB (fun z =>
        forLoop G.NkyLlD G.NkyLuD (fun y_k st =>
          forLoop G.NvLlB G.NvLuB (fun v st =>
              let st := forLoop (G.NxLlB - 2) (G.NxLlB - 2 + 2 - 1)
                (fun x st => { st with Xi := st.Xi.set z y_k x v (XiVal z y_k x v) }) st
              forLoop (G.NxLuB + 1) (G.NxLuB + 1 + 2 - 1)
                (fun x st => { st with Xi := st.Xi.set z y_k x v (XiVal z y_k x v) }) st)
            (forLoop G.NxLlB G.NxLuB (fun x =>
              forLoop G.NvLlB G.NvLuB (fun v st =>
                { Xi := st.Xi.set z y_k x v (XiVal z y_k x v),
                  G := st.G.set z y_k x v (GVal z y_k x v) })) st))) st).G z y_k x v
      = GVal z y_k x v) := by
  constructor
  · exact xig_nest G XiVal GVal (fun e => e.Xi z y_k x v = XiVal z y_k x v) z y_k x v hz hy hv hx
      (fun z1 y1 x1 v1 e he => A4.set_same_value e.Xi XiVal z y_k x v z1 y1 x1 v1 he)
      (fun z1 y1 x1 v1 e he => A4.set_same_value e.Xi XiVal z y_k x v z1 y1 x1 v1 he)
      (fun _ _ e => by simp [A4.set])
      (fun _ e => by simp [A4.set])
      st
  · intro hin
    exact xig_nest G XiVal GVal (fun e => e.G z y_k x v = GVal z y_k x v) z y_k x v hz hy hv hx
      (fun z1 y1 x1 v1 e he => A4.set_same_value e.G GVal z y_k x v z1 y1 x1 v1 he)
      (fun z1 y1 x1 v1 e he => he)
      (fun _ _ e => by simp [A4.set])
      (fun hout _ => by omega)
      st

/-- C16: on return from `setupXiAndG`, for every `z`, `y_k`, `v` of the swept
ranges, `Xi[z][y_k][x][v]` is
`phi - (Nq >= 2 ? alpha*eps_hat*beta*V[v]*Ap : 0) - (Nq >= 3 ? alpha*eps_hat*beta*M[m]*Bp : 0)`
at every `x` from `NxLlB-2` to `NxLuB+2`, `G[z][y_k][x][v]` is
`g + sigma*phi*f0` at every `x` from `NxLlB` to `NxLuB`, and with `Nq = 1`
`Xi` equals `phi`. -/
theorem C16_setupXiAndG (self : VlasovIsland) (g f0 : A6) (Fields : AFields)
    (V M : Int → ℚ) (st : XiG) (m s z y_k x v : Int)
    (hz : self.grid.NzLlB ≤ z ∧ z ≤ self.grid.NzLuB)
    (hy : self.grid.NkyLlD ≤ y_k ∧ y_k ≤ self.grid.NkyLuD)
    (hv : self.grid.NvLlB ≤ v ∧ v ≤ self.grid.NvLuB)
    (hx : self.grid.NxLlB - 2 ≤ x ∧ x ≤ self.grid.NxLuB + 2) :
    (setupXiAndG self g f0 Fields V M st m s).Xi z y_k x v
      = Fields Field.phi s m z y_k x
        - (if self.Nq ≥ 2
            then ofReal ((self.species s).alpha * self.eps_hat * self.beta * V v)
              * Fields Field.Ap s m z y_k x
            else 0)
        - (if self.Nq ≥ 3
            then ofReal ((self.species s).alpha * self.eps_hat * self.beta * M m)
              * Fields Field.Bp s m z y_k x
            else 0)
    ∧ (self.grid.NxLlB ≤ x ∧ x ≤ self.grid.NxLuB →
        (setupXiAndG self g f0 Fields V M st m s).G z y_k x v
          = g ⟨s, m, z, y_k, x, v⟩
            + ofReal (self.species s).sigma * Fields Field.phi s m z y_k x
              * f0 ⟨s, m, z, y_k, x, v⟩)
    ∧ (self.Nq = 1 →
        (setupXiAndG self g f0 Fields V M st m s).Xi z y_k x v = Fields Field.phi s m z y_k x) := by
  have h := xig_nest_values self.grid
    (fun z y_k x v => Fields Field.phi s m z y_k x
      - (if decide (self.Nq ≥ 2) = true
          then ofReal ((self.species s).alpha * self.eps_hat * self.beta * V v)
            * Fields Field.Ap s m z y_k x
          else 0)
      - (if decide (self.Nq ≥ 3) = true
          then ofReal ((self.species s).alpha * self.eps_hat * self.beta * M m)
            * Fields Field.Bp s m z y_k x
          else 0))
    (fun z y_k x v => g ⟨s, m, z, y_k, x, v⟩
      + ofReal (self.species s).sigma * Fields Field.phi s m z y_k x
        * f0 ⟨s, m, z, y_k, x, v⟩)
    z y_k x v hz hy hv hx st
  have hXi : (setupXiAndG self g f0 Fields V M st m s).Xi z y_k x v
      = Fields Field.phi s m z y_k x
        - (if self.Nq ≥ 2
            then ofReal ((self.species s).alpha * self.eps_hat * self.beta * V v)
              * Fields Field.Ap s m z y_k x
            else 0)
        - (if self.Nq ≥ 3
            then ofReal ((self.species s).alpha * self.eps_hat * self.beta * M m)
              * Fields Field.Bp s m z y_k x
            else 0) := by
    have hd : (setupXiAndG self g f0 Fields V M st m s).Xi z y_k x v
        = Fields Field.phi s m z y_k x
          - (if decide (self.Nq ≥ 2) = true
              then ofReal ((self.species s).alpha * self.eps_hat * self.beta * V v)
                * Fields Field.Ap s m z y_k x
              else 0)
          - (if decide (self.Nq ≥ 3) = true
              then ofReal ((self.species s).alpha * self.eps_hat * self.beta * M m)
                * Fields Field.Bp s m z y_k x
              else 0) := h.1
    simp only [decide_eq_true_eq] at hd
    exact hd
  refine ⟨hXi, h.2, ?_⟩
  intro hq
  rw [hXi]
  have h2 : ¬ (self.Nq ≥ 2) := by omega
  have h3 : ¬ (self.Nq ≥ 3) := by omega
  rw [if_neg h2, if_neg h3]
  apply CComplex.ext <;> simp

/-- Witness of C16 on the one-point grid (`NxLlB = -2`), at the outermost
field-halo cell `x = -4`, with `Nq = 1`. -/
theorem C16_setupXiAndG_witness :
    ((pointVlasov 3 1).grid.NzLlB ≤ (0 : Int) ∧ (0 : Int) ≤ (pointVlasov 3 1).grid.NzLuB)
    ∧ ((pointVlasov 3 1).grid.NkyLlD ≤ (1 : Int) ∧ (1 : Int) ≤ (pointVlasov 3 1).grid.NkyLuD)
    ∧ ((pointVlasov 3 1).grid.NvLlB ≤ (0 : Int) ∧ (0 : Int) ≤ (pointVlasov 3 1).grid.NvLuB)
    ∧ ((pointVlasov 3 1).grid.NxLlB - 2 ≤ (-4 : Int)
        ∧ (-4 : Int) ≤ (pointVlasov 3 1).grid.NxLuB + 2)
    ∧ (pointVlasov 3 1).Nq = 1
    ∧ (setupXiAndG (pointVlasov 3 1) zeroInputs.fs zeroInputs.f0 indexFields zeroInputs.V
        zeroInputs.M zeroXiG 0 1).Xi 0 1 (-4) 0 = indexFields Field.phi 1 0 0 1 (-4) :=
  ⟨by decide, by decide, by decide, by decide, rfl,
    (C16_setupXiAndG (pointVlasov 3 1) zeroInputs.fs zeroInputs.f0 indexFields zeroInputs.V
      zeroInputs.M zeroXiG 0 1 0 1 (-4) 0 (by decide) (by decide) (by decide) (by decide)).2.2
      rfl⟩

/-! ### The checks of `Plasma::Plasma` -/

theorem massmsg_ne_parse_n (name : String) :
    "Mass for species " ++ name ++ " choosen too low"
      ≠ "Parsing error of Initial condition n(x)" := by
  intro h
  have := congrArg (fun s => s.data.head?) h
  simp at this

theorem massmsg_ne_parse_T (name : String) :
    "Mass for species " ++ name ++ " choosen too low"
      ≠ "Parsing error of Initial condition T(x)" := by
  intro h
  have := congrArg (fun s => s.data.head?) h
  simp at this

theorem massmsg_ne_charge (name : String) :
    "Mass for species " ++ name ++ " choosen too low"
      ≠ "VIOLATING charge neutrality, check species q * n and TOTAL_SPECIES! Exciting..." := by
  intro h
  have := congrArg (fun s => s.data.head?) h
  simp at this

theorem Plasma_readSpecies_m (setup : Setup) (Nm s : Int) (sp : Species) :
    (Plasma_readSpecies setup Nm s sp).m = Plasma_configuredMass setup s := rfl

/-- The mass check of one pass: a configured mass below `1.e-10` stops
construction with the mass message, any other mass lets the pass return a record. -/
theorem Plasma_kineticSpecies_cases (setup : Setup) (Nm : Int) (global : Bool)
    (alphaOf sigmaOf : Species → ℚ) (s : Int) (sp : Species) :
    (Plasma_configuredMass setup s < 1 / 10 ^ 10
      ∧ massFatal (Plasma_kineticSpecies setup Nm global alphaOf sigmaOf s sp))
    ∨ (¬ Plasma_configuredMass setup s < 1 / 10 ^ 10
      ∧ ∃ sp1, Plasma_kineticSpecies setup Nm global alphaOf sigmaOf s sp = .ok sp1
        ∧ sp1.q = setup.getNum ("Plasma.Species" ++ toString s ++ ".Charge") 1
        ∧ sp1.n0 = setup.getNum ("Plasma.Species" ++ toString s ++ ".Density") 0) := by
  by_cases h : Plasma_configuredMass setup s < 1 / 10 ^ 10
  · left
    refine ⟨h, (Plasma_readSpecies setup Nm s sp).name, ?_⟩
    unfold Plasma_kineticSpecies
    simp only [Plasma_readSpecies_m]
    rw [if_pos h]
  · right
    refine ⟨h, ?_⟩
    unfold Plasma_kineticSpecies
    simp only [Plasma_readSpecies_m]
    rw [if_neg h]
    refine ⟨_, rfl, ?_, ?_⟩
    · cases global <;> rfl
    · cases global <;> rfl


/-- The outcome of one pass of the species loop. -/
theorem Plasma_speciesPass_cases (setup : Setup) (Nm : Int) (Parse : String → String → Int)
    (global : Bool) (alphaOf sigmaOf : Species → ℚ) (s : Int) (sp : Species) :
    (Plasma_configuredMass setup s < 1 / 10 ^ 10
      ∧ massFatal (Plasma_speciesPass setup Nm Parse global alphaOf sigmaOf s sp))
    ∨ (¬ Plasma_configuredMass setup s < 1 / 10 ^ 10
      ∧ ((∃ sp1, Plasma_speciesPass setup Nm Parse global alphaOf sigmaOf s sp = .ok sp1
            ∧ sp1.q = setup.getNum ("Plasma.Species" ++ toString s ++ ".Charge") 1
            ∧ sp1.n0 = setup.getNum ("Plasma.Species" ++ toString s ++ ".Density") 0)
        ∨ (global = true
            ∧ (Plasma_speciesPass setup Nm Parse global alphaOf sigmaOf s sp
                  = .error "Parsing error of Initial condition n(x)"
              ∨ Plasma_speciesPass setup Nm Parse global alphaOf sigmaOf s sp
                  = .error "Parsing error of Initial condition T(x)")))) := by
  rcases Plasma_kineticSpecies_cases setup Nm global alphaOf sigmaOf s sp with
    ⟨h, name, hk⟩ | ⟨h, sp1, hk, hq, hn⟩
  · left
    refine ⟨h, name, ?_⟩
    unfold Plasma_speciesPass
    rw [hk]
  · right
    refine ⟨h, ?_⟩
    unfold Plasma_speciesPass
    rw [hk]
    cases global with
    | false =>
      left
      exact ⟨sp1, by simp [Plasma_parseProfiles], hq, hn⟩
    | true =>
      by_cases hn1 : Parse (snprintf "" 64
          (setup.get ("Plasma.Species" ++ toString s ++ ".Density") "0.")) "x" = -1
      · by_cases hT1 : Parse (snprintf "" 64
            (setup.get ("Plasma.Species" ++ toString s ++ ".Temperature") "1.")) "x" = -1
        · left
          exact ⟨sp1, by simp [Plasma_parseProfiles, check, hn1, hT1], hq, hn⟩
        · right
          exact ⟨rfl, Or.inr (by simp [Plasma_parseProfiles, check, hn1, hT1])⟩
      · right
        exact ⟨rfl, Or.inl (by simp [Plasma_parseProfiles, check, hn1])⟩

/-- A species below the mass floor makes the species loop fatal. -/
theorem Plasma_kineticLoop_fatal (setup : Setup) (Nm : Int) (Parse : String → String → Int)
    (global : Bool) (alphaOf sigmaOf : Species → ℚ) (SPECIES_MAX : Int)
    (species : Int → Species) (s : Int) (h1 : 1 ≤ s) (h2 : s ≤ SPECIES_MAX)
    (hlow : Plasma_configuredMass setup s < 1 / 10 ^ 10) :
    ∃ e, Plasma_kineticLoop setup Nm Parse global alphaOf sigmaOf SPECIES_MAX species
      = .error e := by
  unfold Plasma_kineticLoop
  apply forLoop_establish 1 SPECIES_MAX s _
    (fun st : Except String (Int → Species) => ∃ e, st = .error e) h1 h2
  · intro st
    cases st with
    | error e => exact ⟨e, rfl⟩
    | ok tbl =>
      rcases Plasma_speciesPass_cases setup Nm Parse global alphaOf sigmaOf s (tbl s) with
        ⟨_, name, hk⟩ | ⟨h, _⟩
      · exact ⟨"Mass for species " ++ name ++ " choosen too low", by simp only [hk]⟩
      · exact absurd hlow h
  · rintro j st ⟨e, rfl⟩
    exact ⟨e, rfl⟩

/-- Where a fatal message of the species loop comes from: the mass check of a
species below the floor, or, in the `global` case, a parser check. -/
theorem Plasma_kineticLoop_error (setup : Setup) (Nm : Int) (Parse : String → String → Int)
    (global : Bool) (alphaOf sigmaOf : Species → ℚ) (SPECIES_MAX : Int)
    (species : Int → Species) (e : String)
    (h : Plasma_kineticLoop setup Nm Parse global alphaOf sigmaOf SPECIES_MAX species
      = .error e) :
    ((∃ s, 1 ≤ s ∧ s ≤ SPECIES_MAX ∧ Plasma_configuredMass setup s < 1 / 10 ^ 10)
      ∧ massFatal (Except.error e : Except String (Int → Species)))
    ∨ (global = true ∧ (e = "Parsing error of Initial condition n(x)"
        ∨ e = "Parsing error of Initial condition T(x)")) := by
  revert e
  unfold Plasma_kineticLoop
  apply forLoop_inv 1 SPECIES_MAX _
    (fun st : Except String (Int → Species) => ∀ e, st = .error e →
      ((∃ s, 1 ≤ s ∧ s ≤ SPECIES_MAX ∧ Plasma_configuredMass setup s < 1 / 10 ^ 10)
        ∧ massFatal (Except.error e : Except String (Int → Species)))
      ∨ (global = true ∧ (e = "Parsing error of Initial condition n(x)"
          ∨ e = "Parsing error of Initial condition T(x)")))
  · intro j st hj1 hj2 hI e he
    cases st with
    | error e1 =>
      simp only at he
      exact hI e he
    | ok tbl =>
      simp only at he
      rcases Plasma_speciesPass_cases setup Nm Parse global alphaOf sigmaOf j (tbl j) with
        ⟨hlow, name, hk⟩ | ⟨_, ⟨sp1, hk, _⟩ | ⟨hg, hk | hk⟩⟩
      · rw [hk] at he
        simp only [Except.error.injEq] at he
        left
        exact ⟨⟨j, hj1, hj2, hlow⟩, name, by rw [he]⟩
      · rw [hk] at he
        simp at he
      · rw [hk] at he
        simp only [Except.error.injEq] at he
        right
        exact ⟨hg, Or.inl he.symm⟩
      · rw [hk] at he
        simp only [Except.error.injEq] at he
        right
        exact ⟨hg, Or.inr he.symm⟩
  · intro e he
    simp at he

/-- The records a completed species loop leaves in the table: charge and
density of the species `1..SPECIES_MAX` as configured, the other entries
untouched. -/
theorem Plasma_kineticLoop_table (setup : Setup) (Nm : Int) (Parse : String → String → Int)
    (global : Bool) (alphaOf sigmaOf : Species → ℚ) (SPECIES_MAX : Int)
    (species tbl : Int → Species)
    (h : Plasma_kineticLoop setup Nm Parse global alphaOf sigmaOf SPECIES_MAX species
      = .ok tbl) (s : Int) :
    (1 ≤ s ∧ s ≤ SPECIES_MAX →
      (tbl s).q = setup.getNum ("Plasma.Species" ++ toString s ++ ".Charge") 1
      ∧ (tbl s).n0 = setup.getNum ("Plasma.Species" ++ toString s ++ ".Density") 0)
    ∧ (¬ (1 ≤ s ∧ s ≤ SPECIES_MAX) → tbl s = species s) := by
  revert tbl
  unfold Plasma_kineticLoop
  have step : ∀ (j : Int) (tbl0 tbl1 : Int → Species),
      (match Plasma_speciesPass setup Nm Parse global alphaOf sigmaOf j (tbl0 j) with
        | .error e => (Except.error e : Except String (Int → Species))
        | .ok sp => .ok (Function.update tbl0 j sp)) = .ok tbl1 →
      (∀ k, k ≠ j → tbl1 k = tbl0 k)
      ∧ (tbl1 j).q = setup.getNum ("Plasma.Species" ++ toString j ++ ".Charge") 1
      ∧ (tbl1 j).n0 = setup.getNum ("Plasma.Species" ++ toString j ++ ".Density") 0 := by
    intro j tbl0 tbl1 he
    rcases Plasma_speciesPass_cases setup Nm Parse global alphaOf sigmaOf j (tbl0 j) with
      ⟨_, name, hk⟩ | ⟨_, ⟨sp1, hk, hq, hn⟩ | ⟨_, hk | hk⟩⟩
    · rw [hk] at he
      simp at he
    · rw [hk] at he
      simp only [Except.ok.injEq] at he
      subst he
      refine ⟨fun k hk1 => by simp [Function.update, hk1], by simpa using hq, by simpa using hn⟩
    · rw [hk] at he
      simp at he
    · rw [hk] at he
      simp at he
  intro tbl h
  constructor
  · intro hs
    revert tbl
    apply forLoop_establish 1 SPECIES_MAX s _
      (fun st : Except String (Int → Species) => ∀ tbl, st = .ok tbl →
        (tbl s).q = setup.getNum ("Plasma.Species" ++ toString s ++ ".Charge") 1
        ∧ (tbl s).n0 = setup.getNum ("Plasma.Species" ++ toString s ++ ".Density") 0)
      hs.1 hs.2
    · intro st tbl1 he
      cases st with
      | error e1 => simp at he
      | ok tbl0 => exact (step s tbl0 tbl1 he).2
    · intro j st hI tbl1 he
      cases st with
      | error e1 => simp at he
      | ok tbl0 =>
        obtain ⟨hk, hq, hn⟩ := step j tbl0 tbl1 he
        by_cases hjs : s = j
        · subst hjs
          exact ⟨hq, hn⟩
        · rw [hk s hjs]
          exact hI tbl0 rfl
  · intro hs
    revert tbl
    apply forLoop_inv 1 SPECIES_MAX _
      (fun st : Except String (Int → Species) => ∀ tbl, st = .ok tbl → tbl s = species s)
    · intro j st hj1 hj2 hI tbl1 he
      cases st with
      | error e1 => simp at he
      | ok tbl0 =>
        obtain ⟨hk, _⟩ := step j tbl0 tbl1 he
        rw [hk s (by rintro rfl; exact hs ⟨hj1, hj2⟩)]
        exact hI tbl0 rfl
    · intro tbl he
      simp only [Except.ok.injEq] at he
      rw [he]

/-- Under the default configuration (`Plasma.checkTotalCharge` unset) the check
of the total charge is fatal exactly when `rho0_tot > 1.e-8`. -/
theorem Plasma_checkTotalCharge_default (setup : Setup) (NsGuD : Int)
    (species : Int → Species) (h : setup.int "Plasma.checkTotalCharge" = none) :
    Plasma_checkTotalCharge setup NsGuD species
      = if Plasma_rho0_tot NsGuD species > 1 / 10 ^ 8
        then .error
          "VIOLATING charge neutrality, check species q * n and TOTAL_SPECIES! Exciting..."
        else .ok () := by
  simp [Plasma_checkTotalCharge, check, Setup.getInt, h]

/-- The constructor on the configuration `chargedSetup q` with one kinetic
species: the total charge is `q`, and construction is fatal exactly when
`q > 1.e-8`. -/
theorem Plasma_Plasma_chargedSetup (q : ℚ) (Parse : String → String → Int)
    (alphaOf sigmaOf : Species → ℚ) (species : Int → Species) :
    (q > 1 / 10 ^ 8 →
      Plasma_Plasma (chargedSetup q) 1 Parse alphaOf sigmaOf 1 1 species
        = .error
          "VIOLATING charge neutrality, check species q * n and TOTAL_SPECIES! Exciting...")
    ∧ (¬ q > 1 / 10 ^ 8 →
      ∃ tbl, Plasma_Plasma (chargedSetup q) 1 Parse alphaOf sigmaOf 1 1 species = .ok tbl
        ∧ Plasma_rho0_tot 1 tbl = q) := by
  have hrho : ∀ tbl : Int → Species,
      Plasma_kineticLoop (chargedSetup q) 1 Parse false alphaOf sigmaOf 1
        (Function.update species 0 (Plasma_adiabaticSpecies (chargedSetup q) (species 0)))
        = .ok tbl → Plasma_rho0_tot 1 tbl = q := by
    intro tbl h
    have t0 := (Plasma_kineticLoop_table _ _ _ _ _ _ _ _ _ h 0).2 (by omega)
    have t1 := (Plasma_kineticLoop_table _ _ _ _ _ _ _ _ _ h 1).1 (by omega)
    have q1 : (chargedSetup q).getNum ("Plasma.Species" ++ toString (1 : Int) ++ ".Charge") 1
        = q := rfl
    have n1 : (chargedSetup q).getNum ("Plasma.Species" ++ toString (1 : Int) ++ ".Density") 0
        = 1 := rfl
    have n0 : (Plasma_adiabaticSpecies (chargedSetup q) (species 0)).n0 = 0 := rfl
    simp [Plasma_rho0_tot, forLoop, loopFrom, t0, t1.1, t1.2, q1, n1, n0]
  have hloop : ∃ tbl, Plasma_kineticLoop (chargedSetup q) 1 Parse false alphaOf sigmaOf 1
      (Function.update species 0 (Plasma_adiabaticSpecies (chargedSetup q) (species 0)))
      = .ok tbl := by
    cases hl : Plasma_kineticLoop (chargedSetup q) 1 Parse false alphaOf sigmaOf 1
      (Function.update species 0 (Plasma_adiabaticSpecies (chargedSetup q) (species 0))) with
    | ok tbl => exact ⟨tbl, rfl⟩
    | error e =>
      rcases Plasma_kineticLoop_error _ _ _ _ _ _ _ _ e hl with ⟨⟨s, h1, h2, hlow⟩, _⟩ | ⟨hg, _⟩
      · have hs : s = 1 := by omega
        subst hs
        have hm : Plasma_configuredMass (chargedSetup q) 1 = 1 := rfl
        rw [hm] at hlow
        norm_num at hlow
      · simp at hg
  obtain ⟨tbl, hl⟩ := hloop
  have hr := hrho tbl hl
  have hg : decide ((chargedSetup q).getInt "Plasma.Global" 0 ≠ 0) = false := rfl
  have hc := Plasma_checkTotalCharge_default (chargedSetup q) 1 tbl rfl
  rw [hr] at hc
  constructor
  · intro hq
    rw [if_pos hq] at hc
    simp only [Plasma_Plasma, hg, hl, hc]
  · intro hq
    rw [if_neg hq] at hc
    exact ⟨tbl, by simp only [Plasma_Plasma, hg, hl, hc], hr⟩

/-- C19, the code at a failing input: under the default configuration
(`Plasma.checkTotalCharge` unset) a table whose only charged species has
charge `-1` and density 1 has net charge density `-1`, below `-1.e-8`, and
construction completes; the same table with charge `+1` takes the fatal path,
and a neutral table does not. -/
theorem C19_negative_net_charge_passes (Parse : String → String → Int)
    (alphaOf sigmaOf : Species → ℚ) (species : Int → Species) :
    (chargedSetup (-1)).int "Plasma.checkTotalCharge" = none
    ∧ (∃ tbl, Plasma_Plasma (chargedSetup (-1)) 1 Parse alphaOf sigmaOf 1 1 species = .ok tbl
        ∧ Plasma_rho0_tot 1 tbl = -1 ∧ Plasma_rho0_tot 1 tbl < -(1 / 10 ^ 8))
    ∧ Plasma_Plasma (chargedSetup 1) 1 Parse alphaOf sigmaOf 1 1 species
        = .error
          "VIOLATING charge neutrality, check species q * n and TOTAL_SPECIES! Exciting..."
    ∧ (∃ tbl, Plasma_Plasma (chargedSetup 0) 1 Parse alphaOf sigmaOf 1 1 species = .ok tbl
        ∧ Plasma_rho0_tot 1 tbl = 0) := by
  refine ⟨rfl, ?_, ?_, ?_⟩
  · obtain ⟨tbl, h1, h2⟩ :=
      (Plasma_Plasma_chargedSetup (-1) Parse alphaOf sigmaOf species).2 (by norm_num)
    exact ⟨tbl, h1, h2, by rw [h2]; norm_num⟩
  · exact (Plasma_Plasma_chargedSetup 1 Parse alphaOf sigmaOf species).1 (by norm_num)
  · exact (Plasma_Plasma_chargedSetup 0 Parse alphaOf sigmaOf species).2 (by norm_num)

/-- The fatal results of the constructor: those of the species loop and the
message of the charge check. -/
theorem Plasma_Plasma_error (setup : Setup) (Nm : Int) (Parse : String → String → Int)
    (alphaOf sigmaOf : Species → ℚ) (SPECIES_MAX NsGuD : Int) (species : Int → Species)
    (e : String)
    (h : Plasma_Plasma setup Nm Parse alphaOf sigmaOf SPECIES_MAX NsGuD species = .error e) :
    Plasma_kineticLoop setup Nm Parse (decide (setup.getInt "Plasma.Global" 0 ≠ 0))
        alphaOf sigmaOf SPECIES_MAX
        (Function.update species 0 (Plasma_adiabaticSpecies setup (species 0))) = .error e
    ∨ e = "VIOLATING charge neutrality, check species q * n and TOTAL_SPECIES! Exciting..." := by
  unfold Plasma_Plasma at h
  simp only at h
  cases hl : Plasma_kineticLoop setup Nm Parse (decide (setup.getInt "Plasma.Global" 0 ≠ 0))
      alphaOf sigmaOf SPECIES_MAX
      (Function.update species 0 (Plasma_adiabaticSpecies setup (species 0))) with
  | error e1 =>
    rw [hl] at h
    simp only [Except.error.injEq] at h
    left
    rw [h]
  | ok tbl =>
    rw [hl] at h
    right
    simp only at h
    unfold Plasma_checkTotalCharge check at h
    split_ifs at h
    · simp only [Except.error.injEq] at h
      exact h.symm

/-- C20, counterexample: with one kinetic species of charge 1, density 1 and
the default mass 1, no kinetic species is below the mass floor, and
construction takes the fatal path of the charge check.  With
`Plasma.Global = 1`, a parser that rejects every profile and the mass of
species 2 configured as 0, a species is below the floor and construction stops
at the parser check of species 1, before the mass check of species 2. -/
theorem C20_counterexample :
    (¬ ∃ s : Int, 1 ≤ s ∧ s ≤ 1 ∧ Plasma_configuredMass (chargedSetup 1) s < 1 / 10 ^ 10)
    ∧ Plasma_Plasma (chargedSetup 1) 1 (fun _ _ => -1) (fun _ => 1) (fun _ => 1) 1 1
        (fun _ => unitSpecies)
      = .error "VIOLATING charge neutrality, check species q * n and TOTAL_SPECIES! Exciting..."
    ∧ (∃ s : Int, 1 ≤ s ∧ s ≤ 2 ∧ Plasma_configuredMass globalMasslessSetup s < 1 / 10 ^ 10)
    ∧ Plasma_Plasma globalMasslessSetup 1 (fun _ _ => 0) (fun _ => 1) (fun _ => 1) 2 2
        (fun _ => unitSpecies)
      = .error "Parsing error of Initial condition n(x)"
    ∧ ¬ massFatal (Plasma_Plasma globalMasslessSetup 1 (fun _ _ => 0) (fun _ => 1)
        (fun _ => 1) 2 2 (fun _ => unitSpecies)) := by
  have hB : Plasma_Plasma globalMasslessSetup 1 (fun _ _ => 0) (fun _ => 1) (fun _ => 1) 2 2
      (fun _ => unitSpecies) = .error "Parsing error of Initial condition n(x)" := by
    have hg : decide (globalMasslessSetup.getInt "Plasma.Global" 0 ≠ 0) = true := by decide
    have hpass : ∀ sp : Species,
        Plasma_speciesPass globalMasslessSetup 1 (fun _ _ => 0) true (fun _ => 1) (fun _ => 1)
          1 sp = .error "Parsing error of Initial condition n(x)" := by
      intro sp
      rcases Plasma_kineticSpecies_cases globalMasslessSetup 1 true (fun _ => 1) (fun _ => 1)
        1 sp with ⟨hlow, _⟩ | ⟨_, sp1, hk, _⟩
      · have hm : Plasma_configuredMass globalMasslessSetup 1 = 1 := rfl
        rw [hm] at hlow
        norm_num at hlow
      · unfold Plasma_speciesPass
        rw [hk]
        simp [Plasma_parseProfiles, check]
    have hl : Plasma_kineticLoop globalMasslessSetup 1 (fun _ _ => 0) true (fun _ => 1)
        (fun _ => 1) 2
        (Function.update (fun _ => unitSpecies) 0
          (Plasma_adiabaticSpecies globalMasslessSetup unitSpecies))
        = .error "Parsing error of Initial condition n(x)" := by
      simp [Plasma_kineticLoop, forLoop, loopFrom, hpass]
    simp only [Plasma_Plasma, hg, hl]
  refine ⟨?_, ?_, ?_, hB, ?_⟩
  · rintro ⟨s, h1, h2, hlow⟩
    have hs : s = 1 := by omega
    subst hs
    have hm : Plasma_configuredMass (chargedSetup 1) 1 = 1 := rfl
    rw [hm] at hlow
    norm_num at hlow
  · exact (Plasma_Plasma_chargedSetup 1 (fun _ _ => -1) (fun _ => 1) (fun _ => 1)
      (fun _ => unitSpecies)).1 (by norm_num)
  · refine ⟨2, by decide, by decide, ?_⟩
    have hm : Plasma_configuredMass globalMasslessSetup 2 = 0 := rfl
    rw [hm]
    norm_num
  · rw [hB]
    rintro ⟨name, hn⟩
    simp only [Except.error.injEq] at hn
    exact massmsg_ne_parse_n name hn.symm

/-- C20, amended: a kinetic species `s` in `1..SPECIES_MAX` with configured mass below
`1.e-10` makes construction fatal; construction stops at the mass check only
if there is such a species; when `Plasma.Global` is unset or zero (no parser
check can stop the loop earlier) construction stops at the mass check if and
only if there is such a species; with no mass configured (default 1) it never
stops there, although the adiabatic species 0 has mass 0. -/
theorem C20_mass_floor (setup : Setup) (Nm : Int) (Parse : String → String → Int)
    (alphaOf sigmaOf : Species → ℚ) (SPECIES_MAX NsGuD : Int) (species : Int → Species) :
    ((∃ s, 1 ≤ s ∧ s ≤ SPECIES_MAX ∧ Plasma_configuredMass setup s < 1 / 10 ^ 10) →
      ∃ e, Plasma_Plasma setup Nm Parse alphaOf sigmaOf SPECIES_MAX NsGuD species = .error e)
    ∧ (massFatal (Plasma_Plasma setup Nm Parse alphaOf sigmaOf SPECIES_MAX NsGuD species) →
      ∃ s, 1 ≤ s ∧ s ≤ SPECIES_MAX ∧ Plasma_configuredMass setup s < 1 / 10 ^ 10)
    ∧ (setup.getInt "Plasma.Global" 0 = 0 →
      ((∃ s, 1 ≤ s ∧ s ≤ SPECIES_MAX ∧ Plasma_configuredMass setup s < 1 / 10 ^ 10)
        ↔ massFatal (Plasma_Plasma setup Nm Parse alphaOf sigmaOf SPECIES_MAX NsGuD species)))
    ∧ ((∀ s : Int, setup.num ("Plasma.Species" ++ toString s ++ ".Mass") = none) →
      ¬ massFatal (Plasma_Plasma setup Nm Parse alphaOf sigmaOf SPECIES_MAX NsGuD species))
    ∧ (Plasma_adiabaticSpecies setup (species 0)).m = 0 := by
  have hA : (∃ s, 1 ≤ s ∧ s ≤ SPECIES_MAX ∧ Plasma_configuredMass setup s < 1 / 10 ^ 10) →
      ∃ e, Plasma_kineticLoop setup Nm Parse (decide (setup.getInt "Plasma.Global" 0 ≠ 0))
        alphaOf sigmaOf SPECIES_MAX
        (Function.update species 0 (Plasma_adiabaticSpecies setup (species 0))) = .error e
        ∧ Plasma_Plasma setup Nm Parse alphaOf sigmaOf SPECIES_MAX NsGuD species = .error e := by
    rintro ⟨s, h1, h2, hlow⟩
    obtain ⟨e, he⟩ := Plasma_kineticLoop_fatal setup Nm Parse
      (decide (setup.getInt "Plasma.Global" 0 ≠ 0)) alphaOf sigmaOf SPECIES_MAX
      (Function.update species 0 (Plasma_adiabaticSpecies setup (species 0))) s h1 h2 hlow
    exact ⟨e, he, by simp only [Plasma_Plasma, he]⟩
  have hB : massFatal (Plasma_Plasma setup Nm Parse alphaOf sigmaOf SPECIES_MAX NsGuD species) →
      ∃ s, 1 ≤ s ∧ s ≤ SPECIES_MAX ∧ Plasma_configuredMass setup s < 1 / 10 ^ 10 := by
    rintro ⟨name, hm⟩
    rcases Plasma_Plasma_error _ _ _ _ _ _ _ _ _ hm with hl | hc
    · rcases Plasma_kineticLoop_error _ _ _ _ _ _ _ _ _ hl with ⟨hs, _⟩ | ⟨_, hp | hp⟩
      · exact hs
      · exact absurd hp (massmsg_ne_parse_n name)
      · exact absurd hp (massmsg_ne_parse_T name)
    · exact absurd hc (massmsg_ne_charge name)
  refine ⟨fun h => ?_, hB, fun hg => ⟨fun h => ?_, hB⟩, fun hd hm => ?_, rfl⟩
  · obtain ⟨e, _, he⟩ := hA h
    exact ⟨e, he⟩
  · obtain ⟨e, hl, he⟩ := hA h
    rcases Plasma_kineticLoop_error _ _ _ _ _ _ _ _ _ hl with ⟨_, name, hn⟩ | ⟨hglob, _⟩
    · simp only [Except.error.injEq] at hn
      exact ⟨name, by rw [he, hn]⟩
    · simp [hg] at hglob
  · obtain ⟨s, _, _, hlow⟩ := hB hm
    simp only [Plasma_configuredMass, Setup.getNum, hd s, Option.getD_none] at hlow
    norm_num at hlow

/-- Witness of C20: with the mass of species 2 configured as 0 and
`SPECIES_MAX = 2`, construction stops at the mass check. -/
theorem C20_mass_floor_witness :
    masslessSetup.getInt "Plasma.Global" 0 = 0
    ∧ (∃ s : Int, 1 ≤ s ∧ s ≤ 2 ∧ Plasma_configuredMass masslessSetup s < 1 / 10 ^ 10)
    ∧ massFatal (Plasma_Plasma masslessSetup 1 (fun _ _ => -1) (fun _ => 1) (fun _ => 1) 2 2
        (fun _ => unitSpecies)) :=
  have hlow : ∃ s : Int, 1 ≤ s ∧ s ≤ 2 ∧ Plasma_configuredMass masslessSetup s < 1 / 10 ^ 10 :=
    ⟨2, by decide, by decide, by
      rw [show Plasma_configuredMass masslessSetup 2 = 0 from rfl]
      norm_num⟩
  ⟨rfl, hlow,
    ((C20_mass_floor masslessSetup 1 (fun _ _ => -1) (fun _ => 1) (fun _ => 1) 2 2
      (fun _ => unitSpecies)).2.2.1 rfl).mp hlow⟩

/-! ### The filter weight -/

theorem Real_tanh_le_tanh (x y : ℝ) (h : x ≤ y) : Real.tanh x ≤ Real.tanh y := by
  rw [Real.tanh_eq_sinh_div_cosh, Real.tanh_eq_sinh_div_cosh,
    div_le_div_iff₀ (Real.cosh_pos x) (Real.cosh_pos y)]
  have hs : Real.sinh (x - y) ≤ 0 := Real.sinh_nonpos_iff.mpr (by linarith)
  rw [Real.sinh_sub] at hs
  linarith

theorem Real_tanh_lt_one (x : ℝ) : Real.tanh x < 1 := by
  rw [Real.tanh_eq_sinh_div_cosh, div_lt_one (Real.cosh_pos x)]
  exact Real.sinh_lt_cosh x

theorem Real_neg_one_lt_tanh (x : ℝ) : -1 < Real.tanh x := by
  rw [Real.tanh_eq_sinh_div_cosh, lt_div_iff₀ (Real.cosh_pos x)]
  have := Real.exp_pos x
  rw [← Real.cosh_add_sinh] at this
  linarith

theorem Real_tanh_pos (x : ℝ) (h : 0 < x) : 0 < Real.tanh x := by
  rw [Real.tanh_eq_sinh_div_cosh]
  exact div_pos (Real.sinh_pos_iff.mpr h) (Real.cosh_pos x)

/-- The filter weight under the default parameters, over the reals. -/
theorem VlasovIsland_ky_filter_default (ky : ℝ) :
    VlasovIsland_ky_filter Real.tanh emptySetup ky
      = 1 / 2 + 1 / 2 * Real.tanh (10 * (ky - 12 / 10)) := by
  simp only [VlasovIsland_ky_filter, Setup.getNum, emptySetup, Option.getD_none]
  norm_num

/-- C13, counterexample: under the default filter parameters the weight at
`ky = 1.2` is `1/2` and the weight at the larger wavenumber `ky = 2.2` is
`1/2 + tanh(10)/2 > 1/2`: the weight is not non-increasing. -/
theorem C13_counterexample :
    emptySetup.num "Island.Filter.ky0" = none
    ∧ emptySetup.num "Island.Filter.Gradient" = none
    ∧ emptySetup.num "Island.Filter.Sign" = none
    ∧ (12 / 10 : ℝ) ≤ 22 / 10
    ∧ VlasovIsland_ky_filter Real.tanh emptySetup (12 / 10) = 1 / 2
    ∧ ¬ (VlasovIsland_ky_filter Real.tanh emptySetup (22 / 10)
          ≤ VlasovIsland_ky_filter Real.tanh emptySetup (12 / 10)) := by
  have h1 : VlasovIsland_ky_filter Real.tanh emptySetup (12 / 10) = 1 / 2 := by
    rw [VlasovIsland_ky_filter_default]
    norm_num
  refine ⟨rfl, rfl, rfl, by norm_num, h1, ?_⟩
  rw [h1, VlasovIsland_ky_filter_default]
  have := Real_tanh_pos (10 * (22 / 10 - 12 / 10)) (by norm_num)
  linarith

/-- C13, amended: under the default filter parameters (`ky0 = 1.2`,
`Gradient = 10`, `Sign = 0.5`) the weight
`0.5 + sign*tanh(gradient*(ky - ky0))` is non-decreasing in `ky`
(`ky_a <= ky_b` implies `weight(ky_a) <= weight(ky_b)`) and lies in `[0, 1]`. -/
theorem C13_filter_weight_nondecreasing (ky_a ky_b : ℝ) (h : ky_a ≤ ky_b) :
    VlasovIsland_ky_filter Real.tanh emptySetup ky_a
      ≤ VlasovIsland_ky_filter Real.tanh emptySetup ky_b
    ∧ 0 ≤ VlasovIsland_ky_filter Real.tanh emptySetup ky_a
    ∧ VlasovIsland_ky_filter Real.tanh emptySetup ky_a ≤ 1 := by
  rw [VlasovIsland_ky_filter_default, VlasovIsland_ky_filter_default]
  have hm := Real_tanh_le_tanh (10 * (ky_a - 12 / 10)) (10 * (ky_b - 12 / 10)) (by linarith)
  have h1 := Real_tanh_lt_one (10 * (ky_a - 12 / 10))
  have h2 := Real_neg_one_lt_tanh (10 * (ky_a - 12 / 10))
  refine ⟨by linarith, by linarith, by linarith⟩

/-- Witness of the amended C13 at the wavenumbers 1 and 2. -/
theorem C13_filter_weight_nondecreasing_witness :
    (1 : ℝ) ≤ 2
    ∧ VlasovIsland_ky_filter Real.tanh emptySetup 1
      ≤ VlasovIsland_ky_filter Real.tanh emptySetup 2 :=
  ⟨by norm_num, (C13_filter_weight_nondecreasing 1 2 (by norm_num)).1⟩

/-! ### `Moments::getMoment` -/

/-- A loop each of whose iterations adds `g j` to the observed value `obs`
adds the sum of the `g j`. -/
theorem loopFrom_sum_obs {σ : Type} (body : Int → σ → σ) (obs : σ → CComplex)
    (g : Int → CComplex) :
    ∀ (n : Nat) (k : Int) (st : σ),
      (∀ j st, k ≤ j → j < k + n → obs (body j st) = obs st + g j) →
      obs (loopFrom body n k st) = obs st + ∑ j in Finset.range n, g (k + j)
  | 0, _, _, _ => by simp [loopFrom]
  | n + 1, k, st, h => by
    have ih := loopFrom_sum_obs body obs g n (k + 1) (body k st)
      (fun j st1 hj1 hj2 => h j st1 (by omega) (by push_cast; omega))
    rw [loopFrom, ih, h k st (le_refl k) (by push_cast; omega), Finset.sum_range_succ']
    simp only [Nat.cast_add, Nat.cast_one, Nat.cast_zero, add_zero]
    have : ∀ j : ℕ, g (k + 1 + (j : Int)) = g (k + ((j : Int) + 1)) := by
      intro j
      congr 1
      ring
    simp only [this]
    ring

/-- The integers from `lo` to `hi` are the shifts `lo + j` of the naturals
below `hi + 1 - lo`. -/
theorem sum_range_eq_sum_Icc (lo hi : Int) (g : Int → CComplex) :
    ∑ j in Finset.range (hi + 1 - lo).toNat, g (lo + j) = ∑ m in Finset.Icc lo hi, g m := by
  have himg : Finset.Icc lo hi
      = (Finset.range (hi + 1 - lo).toNat).image (fun j : ℕ => lo + (j : Int)) := by
    ext x
    simp only [Finset.mem_Icc, Finset.mem_image, Finset.mem_range]
    constructor
    · rintro ⟨h1, h2⟩
      exact ⟨(x - lo).toNat, by omega, by omega⟩
    · rintro ⟨j, hj, rfl⟩
      omega
  rw [himg, Finset.sum_image]
  intro x _ y _ hxy
  simpa using hxy

/-- The `for` loop form of `loopFrom_sum_obs`. -/
theorem forLoop_sum_obs {σ : Type} (lo hi : Int) (body : Int → σ → σ) (obs : σ → CComplex)
    (g : Int → CComplex) (st : σ)
    (h : ∀ j st, lo ≤ j → j ≤ hi → obs (body j st) = obs st + g j) :
    obs (forLoop lo hi body st) = obs st + ∑ m in Finset.Icc lo hi, g m := by
  unfold forLoop
  rw [loopFrom_sum_obs body obs g _ lo st (fun j st1 h1 h2 => h j st1 h1 (by omega)),
    sum_range_eq_sum_Icc]

/-- The reduction over an array section is the sum over its indices. -/
theorem sec_reduce_add_eq_sum (lo len : Int) (term : Int → CComplex) :
    sec_reduce_add lo len term = ∑ v in Finset.Icc lo (lo + len - 1), term v := by
  unfold sec_reduce_add
  rw [forLoop_sum_obs lo (lo + len - 1) (fun v acc => acc + term v) (fun acc => acc) term 0
    (fun _ _ _ _ => rfl)]
  simp

/-- Three nested loops that write `val z y_k x` to `Mom_m[0][z-z0][y_k][x-x0]`
leave `val z y_k x` there for every point of the swept ranges. -/
theorem driftKinetic_nest (zlo zhi ylo yhi xlo xhi z0 x0 : Int)
    (val : Int → Int → Int → CComplex) (A : A4) (z y_k x : Int)
    (hz : zlo ≤ z ∧ z ≤ zhi) (hy : ylo ≤ y_k ∧ y_k ≤ yhi) (hx : xlo ≤ x ∧ x ≤ xhi) :
    (forLoop zlo zhi (fun z =>
      forLoop ylo yhi (fun y_k =>
        forLoop xlo xhi (fun x (Mom_m : A4) =>
          Mom_m.set 0 (z - z0) y_k (x - x0) (val z y_k x)))) A) 0 (z - z0) y_k (x - x0)
      = val z y_k x := by
  have key : ∀ (z1 y1 x1 : Int) (B : A4),
      B 0 (z - z0) y_k (x - x0) = val z y_k x →
      (B.set 0 (z1 - z0) y1 (x1 - x0) (val z1 y1 x1)) 0 (z - z0) y_k (x - x0)
        = val z y_k x := by
    intro z1 y1 x1 B hB
    simp only [A4.set, true_and]
    by_cases hc : z - z0 = z1 - z0 ∧ y_k = y1 ∧ x - x0 = x1 - x0
    · rw [if_pos hc]
      obtain ⟨h1, h2, h3⟩ := hc
      have e1 : z1 = z := by omega
      have e3 : x1 = x := by omega
      rw [e1, e3, ← h2]
    · rw [if_neg hc]
      exact hB
  apply forLoop_establish zlo zhi z _
    (fun B : A4 => B 0 (z - z0) y_k (x - x0) = val z y_k x) hz.1 hz.2
  · intro B
    apply forLoop_establish ylo yhi y_k _
      (fun B : A4 => B 0 (z - z0) y_k (x - x0) = val z y_k x) hy.1 hy.2
    · intro B1
      apply forLoop_establish xlo xhi x _
        (fun B : A4 => B 0 (z - z0) y_k (x - x0) = val z y_k x) hx.1 hx.2
      · intro B2
        simp [A4.set]
      · intro x1 B2 h2
        exact key z y_k x1 B2 h2
    · intro y1 B1 h1
      apply forLoop_inv _ _ _ (fun B : A4 => B 0 (z - z0) y_k (x - x0) = val z y_k x) B1 _ h1
      intro x1 B2 _ _ h2
      exact key z y1 x1 B2 h2
  · intro z1 B h
    apply forLoop_inv _ _ _ (fun B : A4 => B 0 (z - z0) y_k (x - x0) = val z y_k x) B _ h
    intro y1 B1 _ _ h1
    apply forLoop_inv _ _ _ (fun B : A4 => B 0 (z - z0) y_k (x - x0) = val z y_k x) B1 _ h1
    intro x1 B2 _ _ h2
    exact key z1 y1 x1 B2 h2

/-- The entry of `Mom_m[0]` that the loops over `z`, `y_k`, `x` leave for an
owned point with `y_k < Nky-1`. -/
theorem getMoment_driftKinetic_at (self : Moments) (f : A6) (a b : Nat) (s m : Int)
    (Mom_m : A4) (z y_k x : Int)
    (hz : self.grid.NzLlD ≤ z ∧ z ≤ self.grid.NzLuD)
    (hy : 0 ≤ y_k ∧ y_k < self.grid.Nky - 1)
    (hx : self.grid.NxLlD ≤ x ∧ x ≤ self.grid.NxLuD) :
    getMoment_driftKinetic self f a b s m Mom_m 0 (z - self.grid.NzLlD) y_k
        (x - self.grid.NxLlD)
      = sec_reduce_add self.grid.NvLlD self.NvLD (fun v =>
          ofReal (self.M m ^ (b / 2) * self.V v ^ a) * f ⟨s, m, z, y_k, x, v⟩) :=
  driftKinetic_nest self.grid.NzLlD self.grid.NzLuD 0 (self.grid.Nky - 2) self.grid.NxLlD
    self.grid.NxLuD self.grid.NzLlD self.grid.NxLlD
    (fun z y_k x => sec_reduce_add self.grid.NvLlD self.NvLD (fun v =>
      ofReal (self.M m ^ (b / 2) * self.V v ^ a) * f ⟨s, m, z, y_k, x, v⟩))
    Mom_m z y_k x hz ⟨hy.1, by omega⟩ hx

/-- The routine `getMoment` writes the moment `idx` only. -/
theorem getMoment_frame (self : Moments) (f : A6) (Field0 garbage : A4) (Mom : A5)
    (a b : Nat) (idx i : Int) (hi : i ≠ idx) (s1 z1 y1 x1 : Int) :
    getMoment self f Field0 garbage Mom a b idx i s1 z1 y1 x1 = Mom i s1 z1 y1 x1 := by
  unfold getMoment
  have hc : ∀ P : Prop, ¬ (i = idx ∧ P) := fun P h => hi h.1
  apply forLoop_inv _ _ _ (fun st : MomState => st.Mom i s1 z1 y1 x1 = Mom i s1 z1 y1 x1)
  · intro s st _ _ h
    have hm : (forLoop self.grid.NmLlD self.grid.NmLuD (getMoment_mStep self f a b idx s)
        st).Mom i s1 z1 y1 x1 = Mom i s1 z1 y1 x1 := by
      apply forLoop_inv _ _ _ (fun st : MomState => st.Mom i s1 z1 y1 x1 = Mom i s1 z1 y1 x1)
        st _ h
      intro m st1 _ _ h1
      simp only [getMoment_mStep, if_neg (hc _)]
      exact h1
    unfold getMoment_sStep getMoment_correct
    by_cases hFC : self.doFieldCorrections = true
    · simp only [hFC, if_true, if_neg (hc _), getMoment_reduce]
      exact hm
    · simp only [hFC, Bool.false_eq_true, if_false, if_neg (hc _), getMoment_reduce]
      exact hm
  · simp only [getMoment_init, if_neg (hc _)]

theorem getMoment_mStep_miss (self : Moments) (f : A6) (a b : Nat) (idx s m : Int)
    (st : MomState) (i s1 z1 y1 x1 : Int)
    (h : ¬ (i = idx ∧ s1 = s - self.grid.NsLlD ∧ self.inBlock z1 y1 x1)) :
    (getMoment_mStep self f a b idx s m st).Mom i s1 z1 y1 x1 = st.Mom i s1 z1 y1 x1 := by
  unfold getMoment_mStep
  exact if_neg h

theorem getMoment_mStep_hit (self : Moments) (f : A6) (a b : Nat) (idx s m : Int)
    (st : MomState) (i s1 z1 y1 x1 : Int)
    (h : i = idx ∧ s1 = s - self.grid.NsLlD ∧ self.inBlock z1 y1 x1) :
    (getMoment_mStep self f a b idx s m st).Mom i s1 z1 y1 x1
      = st.Mom i s1 z1 y1 x1
        + self.gyroAverage (getMoment_driftKinetic self f a b s m st.Mom_m) m s 0 z1 y1 x1
          * ofReal (self.d_DK a b s m) := by
  unfold getMoment_mStep
  exact if_pos h

theorem getMoment_reduce_miss (self : Moments) (idx s : Int) (st : MomState)
    (i s1 z1 y1 x1 : Int)
    (h : ¬ (i = idx ∧ s1 = s - self.grid.NsLlD ∧ self.inBlock z1 y1 x1)) :
    (getMoment_reduce self idx s st).Mom i s1 z1 y1 x1 = st.Mom i s1 z1 y1 x1 := by
  unfold getMoment_reduce
  exact if_neg h

theorem getMoment_reduce_hit (self : Moments) (idx s : Int) (st : MomState)
    (i s1 z1 y1 x1 : Int)
    (h : i = idx ∧ s1 = s - self.grid.NsLlD ∧ self.inBlock z1 y1 x1) :
    (getMoment_reduce self idx s st).Mom i s1 z1 y1 x1
      = self.reduce (st.Mom idx (s - self.grid.NsLlD)) z1 y1 x1 := by
  unfold getMoment_reduce
  exact if_pos h

theorem getMoment_correct_off (self : Moments) (Field0 garbage : A4) (a b : Nat) (idx s : Int)
    (st : MomState) (hFC : self.doFieldCorrections = false) :
    getMoment_correct self Field0 garbage a b idx s st = st := by
  unfold getMoment_correct
  rw [hFC]
  rfl

/-- The moment `idx` that `getMoment` leaves at an owned point with
`y_k < Nky-1`, when the gyro-average and the reduction over the processes are
the identity and the field corrections are switched off. -/
theorem getMoment_value (self : Moments) (f : A6) (Field0 garbage : A4) (Mom : A5)
    (a b : Nat) (idx s z y_k x : Int)
    (hgyro : ∀ A m s, self.gyroAverage A m s = A) (hred : ∀ A, self.reduce A = A)
    (hFC : self.doFieldCorrections = false)
    (hNs : self.NsLD = self.grid.NsLuD - self.grid.NsLlD + 1)
    (hNz : self.NzLD = self.grid.NzLuD - self.grid.NzLlD + 1)
    (hNx : self.NxLD = self.grid.NxLuD - self.grid.NxLlD + 1)
    (hs : self.grid.NsLlD ≤ s ∧ s ≤ self.grid.NsLuD)
    (hz : self.grid.NzLlD ≤ z ∧ z ≤ self.grid.NzLuD)
    (hy : 0 ≤ y_k ∧ y_k < self.grid.Nky - 1)
    (hx : self.grid.NxLlD ≤ x ∧ x ≤ self.grid.NxLuD) :
    getMoment self f Field0 garbage Mom a b idx idx (s - self.grid.NsLlD)
        (z - self.grid.NzLlD) y_k (x - self.grid.NxLlD)
      = ∑ m in Finset.Icc self.grid.NmLlD self.grid.NmLuD,
          ofReal (self.d_DK a b s m)
            * (ofReal (self.M m ^ (b / 2))
              * ∑ v in Finset.Icc self.grid.NvLlD (self.grid.NvLlD + self.NvLD - 1),
                  ofReal (self.V v ^ a) * f ⟨s, m, z, y_k, x, v⟩) := by
  have hblock : self.inBlock (z - self.grid.NzLlD) y_k (x - self.grid.NxLlD) := by
    unfold Moments.inBlock
    omega
  have hterm : ∀ m : Int,
      sec_reduce_add self.grid.NvLlD self.NvLD (fun v =>
          ofReal (self.M m ^ (b / 2) * self.V v ^ a) * f ⟨s, m, z, y_k, x, v⟩)
        * ofReal (self.d_DK a b s m)
      = ofReal (self.d_DK a b s m)
          * (ofReal (self.M m ^ (b / 2))
            * ∑ v in Finset.Icc self.grid.NvLlD (self.grid.NvLlD + self.NvLD - 1),
                ofReal (self.V v ^ a) * f ⟨s, m, z, y_k, x, v⟩) := by
    intro m
    rw [sec_reduce_add_eq_sum, Finset.mul_sum, mul_comm]
    congr 1
    apply Finset.sum_congr rfl
    intro v _
    rw [CComplex.ofReal_mul]
    ring
  have hmiss : ∀ (j : Int) (st : MomState), j ≠ s →
      (getMoment_sStep self f Field0 garbage a b idx j st).Mom idx (s - self.grid.NsLlD)
          (z - self.grid.NzLlD) y_k (x - self.grid.NxLlD)
        = st.Mom idx (s - self.grid.NsLlD) (z - self.grid.NzLlD) y_k (x - self.grid.NxLlD) := by
    intro j st hj
    have hc : ¬ (idx = idx ∧ s - self.grid.NsLlD = j - self.grid.NsLlD
        ∧ self.inBlock (z - self.grid.NzLlD) y_k (x - self.grid.NxLlD)) :=
      fun h => hj (by omega)
    unfold getMoment_sStep
    rw [getMoment_correct_off _ _ _ _ _ _ _ _ hFC, getMoment_reduce_miss _ _ _ _ _ _ _ _ _ hc]
    apply forLoop_inv _ _ _ (fun st1 : MomState =>
      st1.Mom idx (s - self.grid.NsLlD) (z - self.grid.NzLlD) y_k (x - self.grid.NxLlD)
        = st.Mom idx (s - self.grid.NsLlD) (z - self.grid.NzLlD) y_k (x - self.grid.NxLlD))
      st _ rfl
    intro m st1 _ _ h1
    rw [getMoment_mStep_miss _ _ _ _ _ _ _ _ _ _ _ _ _ hc]
    exact h1
  have hhit : ∀ st : MomState,
      (getMoment_sStep self f Field0 garbage a b idx s st).Mom idx (s - self.grid.NsLlD)
          (z - self.grid.NzLlD) y_k (x - self.grid.NxLlD)
        = st.Mom idx (s - self.grid.NsLlD) (z - self.grid.NzLlD) y_k (x - self.grid.NxLlD)
          + ∑ m in Finset.Icc self.grid.NmLlD self.grid.NmLuD,
              ofReal (self.d_DK a b s m)
                * (ofReal (self.M m ^ (b / 2))
                  * ∑ v in Finset.Icc self.grid.NvLlD (self.grid.NvLlD + self.NvLD - 1),
                      ofReal (self.V v ^ a) * f ⟨s, m, z, y_k, x, v⟩) := by
    intro st
    have hc : idx = idx ∧ s - self.grid.NsLlD = s - self.grid.NsLlD
        ∧ self.inBlock (z - self.grid.NzLlD) y_k (x - self.grid.NxLlD) := ⟨rfl, rfl, hblock⟩
    unfold getMoment_sStep
    rw [getMoment_correct_off _ _ _ _ _ _ _ _ hFC, getMoment_reduce_hit _ _ _ _ _ _ _ _ _ hc,
      hred]
    apply forLoop_sum_obs self.grid.NmLlD self.grid.NmLuD (getMoment_mStep self f a b idx s)
      (fun st1 : MomState =>
        st1.Mom idx (s - self.grid.NsLlD) (z - self.grid.NzLlD) y_k (x - self.grid.NxLlD))
      (fun m => ofReal (self.d_DK a b s m)
        * (ofReal (self.M m ^ (b / 2))
          * ∑ v in Finset.Icc self.grid.NvLlD (self.grid.NvLlD + self.NvLD - 1),
              ofReal (self.V v ^ a) * f ⟨s, m, z, y_k, x, v⟩))
    intro m st1 _ _
    show (getMoment_mStep self f a b idx s m st1).Mom idx (s - self.grid.NsLlD)
        (z - self.grid.NzLlD) y_k (x - self.grid.NxLlD) = _
    rw [getMoment_mStep_hit _ _ _ _ _ _ _ _ _ _ _ _ _ hc, hgyro,
      getMoment_driftKinetic_at self f a b s m st1.Mom_m z y_k x hz hy hx, hterm]
  unfold getMoment
  have h := forLoop_hit self.grid.NsLlD self.grid.NsLuD s
    (getMoment_sStep self f Field0 garbage a b idx)
    (fun st st1 : MomState =>
      st1.Mom idx (s - self.grid.NsLlD) (z - self.grid.NzLlD) y_k (x - self.grid.NxLlD)
        = st.Mom idx (s - self.grid.NsLlD) (z - self.grid.NzLlD) y_k (x - self.grid.NxLlD))
    (fun st st1 : MomState =>
      st1.Mom idx (s - self.grid.NsLlD) (z - self.grid.NzLlD) y_k (x - self.grid.NxLlD)
        = st.Mom idx (s - self.grid.NsLlD) (z - self.grid.NzLlD) y_k (x - self.grid.NxLlD)
          + ∑ m in Finset.Icc self.grid.NmLlD self.grid.NmLuD,
              ofReal (self.d_DK a b s m)
                * (ofReal (self.M m ^ (b / 2))
                  * ∑ v in Finset.Icc self.grid.NvLlD (self.grid.NvLlD + self.NvLD - 1),
                      ofReal (self.V v ^ a) * f ⟨s, m, z, y_k, x, v⟩))
    hs.1 hs.2 (fun _ => rfl) (fun _ _ _ h1 h2 => h2.trans h1)
    (fun _ _ _ h1 h2 => by dsimp only at h1 h2 ⊢; rw [h2, h1])
    (fun _ _ _ h1 h2 => by dsimp only at h1 h2 ⊢; rw [h2, h1])
    (fun j st hj => hmiss j st hj) hhit (getMoment_init self garbage Mom idx)
  rw [h]
  have hinit : (getMoment_init self garbage Mom idx).Mom idx (s - self.grid.NsLlD)
      (z - self.grid.NzLlD) y_k (x - self.grid.NxLlD) = 0 := by
    have hc : idx = idx ∧ 0 ≤ s - self.grid.NsLlD ∧ s - self.grid.NsLlD < self.NsLD
        ∧ self.inBlock (z - self.grid.NzLlD) y_k (x - self.grid.NxLlD) :=
      ⟨rfl, by omega, by omega, hblock⟩
    unfold getMoment_init
    exact if_pos hc
  rw [hinit, zero_add]

/-- C17: `getMoments` writes the eight moments `idx = 0..7` and no other, with
the exponent pairs `(a, b)` = (0,0), (2,0), (0,2), (1,0), (3,0), (1,2), (2,2),
(0,4); with an identity gyro-average, an identity reduction over the processes
and the field corrections switched off, the moment `idx` of the species `s` at
an owned point `(z, y_k, x)` with `y_k < Nky-1`, stored at
`Mom[idx][s-NsLlD][z-NzLlD][y_k][x-NxLlD]`, is
`sum over m of d_DK(m) * M[m]^(b/2) * sum over the local v of V[v]^a * f[s][m][z][y_k][x][v]`
with `d_DK(m) = (rho_ref/L_ref)*n_ref*n0_s*(c_ref*v_th_s)^(a+b) * pi * dv * dm[m] * B0^(b/2)`. -/
theorem C17_getMoments (self : Moments) (f : A6) (Field0 garbage : A4) (Mom : A5)
    (idx s z y_k x : Int)
    (hgyro : ∀ A m s, self.gyroAverage A m s = A) (hred : ∀ A, self.reduce A = A)
    (hFC : self.doFieldCorrections = false)
    (hNs : self.NsLD = self.grid.NsLuD - self.grid.NsLlD + 1)
    (hNz : self.NzLD = self.grid.NzLuD - self.grid.NzLlD + 1)
    (hNx : self.NxLD = self.grid.NxLuD - self.grid.NxLlD + 1)
    (hNv : self.NvLD = self.grid.NvLuD - self.grid.NvLlD + 1)
    (hidx : 0 ≤ idx ∧ idx ≤ 7)
    (hs : self.grid.NsLlD ≤ s ∧ s ≤ self.grid.NsLuD)
    (hz : self.grid.NzLlD ≤ z ∧ z ≤ self.grid.NzLuD)
    (hy : 0 ≤ y_k ∧ y_k < self.grid.Nky - 1)
    (hx : self.grid.NxLlD ≤ x ∧ x ≤ self.grid.NxLuD) :
    (momentExponents 0, momentExponents 1, momentExponents 2, momentExponents 3,
        momentExponents 4, momentExponents 5, momentExponents 6, momentExponents 7)
      = ((0, 0), (2, 0), (0, 2), (1, 0), (3, 0), (1, 2), (2, 2), (0, 4))
    ∧ getMoments self f Field0 garbage Mom idx (s - self.grid.NsLlD) (z - self.grid.NzLlD)
          y_k (x - self.grid.NxLlD)
        = ∑ m in Finset.Icc self.grid.NmLlD self.grid.NmLuD,
            ofReal (self.d_DK (momentExponents idx).1 (momentExponents idx).2 s m)
              * (ofReal (self.M m ^ ((momentExponents idx).2 / 2))
                * ∑ v in Finset.Icc self.grid.NvLlD self.grid.NvLuD,
                    ofReal (self.V v ^ (momentExponents idx).1) * f ⟨s, m, z, y_k, x, v⟩)
    ∧ (∀ (a b : Nat) (m : Int), self.d_DK a b s m
        = self.rho_ref / self.L_ref * self.n_ref * (self.species s).n0
            * (self.c_ref * self.v_th s) ^ (a + b) * self.M_PI * self.dv * self.dm m
            * self.B0 ^ (b / 2))
    ∧ (∀ i s1 z1 y1 x1 : Int, (i < 0 ∨ 7 < i) →
        getMoments self f Field0 garbage Mom i s1 z1 y1 x1 = Mom i s1 z1 y1 x1) := by
  have hv : self.grid.NvLlD + self.NvLD - 1 = self.grid.NvLuD := by omega
  have hval := fun (Mom1 : A5) (a b : Nat) =>
    getMoment_value self f Field0 garbage Mom1 a b idx s z y_k x hgyro hred hFC hNs hNz hNx
      hs hz hy hx
  simp only [hv] at hval
  refine ⟨rfl, ?_, fun a b m => rfl, ?_⟩
  · have hcases : idx = 0 ∨ idx = 1 ∨ idx = 2 ∨ idx = 3 ∨ idx = 4 ∨ idx = 5 ∨ idx = 6
        ∨ idx = 7 := by omega
    unfold getMoments
    rcases hcases with h | h | h | h | h | h | h | h <;> subst h <;>
      (try simp (disch := decide) only [getMoment_frame]) <;> exact hval _ _ _
  · intro i s1 z1 y1 x1 hi
    unfold getMoments
    simp (disch := omega) only [getMoment_frame]

/-- Witness of C17: the moment 5, exponents `(1, 2)`, on the one-point grid. -/
theorem C17_getMoments_witness :
    (∀ A m s, pointMoments.gyroAverage A m s = A) ∧ (∀ A, pointMoments.reduce A = A)
    ∧ pointMoments.doFieldCorrections = false
    ∧ getMoments pointMoments (fun _ => 1) (fun _ _ _ _ => 0) (fun _ _ _ _ => 0)
          (fun _ _ _ _ _ => 0) 5 (1 - pointMoments.grid.NsLlD) (0 - pointMoments.grid.NzLlD)
          1 (0 - pointMoments.grid.NxLlD)
        = ∑ m in Finset.Icc pointMoments.grid.NmLlD pointMoments.grid.NmLuD,
            ofReal (pointMoments.d_DK (momentExponents 5).1 (momentExponents 5).2 1 m)
              * (ofReal (pointMoments.M m ^ ((momentExponents 5).2 / 2))
                * ∑ v in Finset.Icc pointMoments.grid.NvLlD pointMoments.grid.NvLuD,
                    ofReal (pointMoments.V v ^ (momentExponents 5).1)
                      * (fun _ => 1 : A6) ⟨1, m, 0, 1, 0, v⟩) :=
  ⟨fun _ _ _ => rfl, fun _ => rfl, rfl,
    (C17_getMoments pointMoments (fun _ => 1) (fun _ _ _ _ => 0) (fun _ _ _ _ => 0)
      (fun _ _ _ _ _ => 0) 5 1 0 1 0 (fun _ _ _ => rfl) (fun _ => rfl) rfl (by decide)
      (by decide) (by decide) (by decide) (by decide) (by decide) (by decide) (by decide)
      (by decide)).2.1⟩

/-! ### The island width -/

/-- The function `psi` over the reals, with `pow` the real power and `exp`
the real exponential, is positive. -/
theorem VlasovIsland_psi_pos (x : ℝ) :
    0 < VlasovIsland_psi (fun a b : ℝ => a ^ b) Real.exp x := by
  unfold VlasovIsland_psi
  have h1 : (0 : ℝ) ≤ (x * x) ^ (70216594 / 100000000 : ℝ) :=
    Real.rpow_nonneg (mul_self_nonneg x) _
  have h2 := Real.exp_pos ((-1033686 / 100000000 : ℝ) * (x * x))
  positivity

/-- The function `psi` over the reals is continuous. -/
theorem VlasovIsland_psi_continuous :
    Continuous (VlasovIsland_psi (fun a b : ℝ => a ^ b) Real.exp) := by
  unfold VlasovIsland_psi
  have h : Continuous fun x : ℝ => (x * x) ^ (70216594 / 100000000 : ℝ) :=
    Continuous.rpow_const (by fun_prop) (fun x => Or.inr (by norm_num))
  fun_prop

/-- The abscissa after `n` passes is `n*ds`. -/
theorem IslandWidth_path_fst (psi : ℝ → ℝ) (Ly scale : ℝ) (n : Nat) :
    (IslandWidth_path psi Real.sin Real.pi Ly scale n).1 = n * (Ly / 2 / 1024) := by
  induction n with
  | zero => simp [IslandWidth_path]
  | succ n ih =>
    simp only [IslandWidth_path, IslandWidth_step, ih]
    push_cast
    ring

/-- On the integration path the sine factor of `IslandForm` is not negative. -/
theorem IslandForm_sin_nonneg (Ly : ℝ) (hLy : 0 < Ly) (k : Nat) (hk : k ≤ 1024) :
    0 ≤ Real.sin (2 * Real.pi / Ly * (k * (Ly / 2 / 1024))) := by
  have e : 2 * Real.pi / Ly * (k * (Ly / 2 / 1024)) = Real.pi * (k / 1024) := by
    field_simp
    ring
  rw [e]
  have hk1 : (k : ℝ) / 1024 ≤ 1 := by
    rw [div_le_one (by norm_num)]
    exact_mod_cast hk
  have hk0 : (0 : ℝ) ≤ (k : ℝ) / 1024 := by positivity
  apply Real.sin_nonneg_of_nonneg_of_le_pi
  · exact mul_nonneg Real.pi_pos.le hk0
  · calc Real.pi * (k / 1024) ≤ Real.pi * 1 := by
          exact mul_le_mul_of_nonneg_left hk1 Real.pi_pos.le
      _ = Real.pi := mul_one _

/-- The increment of one pass is not negative for a scale factor that is not
negative. -/
theorem IslandWidth_step_increment (psi : ℝ → ℝ) (hpsi : ∀ x, 0 < psi x) (Ly scale : ℝ)
    (hLy : 0 < Ly) (hscale : 0 ≤ scale) (n : Nat) (hn : n + 1 ≤ 1024) :
    (IslandWidth_path psi Real.sin Real.pi Ly scale n).2
      ≤ (IslandWidth_path psi Real.sin Real.pi Ly scale (n + 1)).2 := by
  have hx := IslandWidth_path_fst psi Ly scale n
  have h1 := IslandForm_sin_nonneg Ly hLy n (by omega)
  have h2 := IslandForm_sin_nonneg Ly hLy (n + 1) hn
  have hc : 0 < 2 * Real.pi / Ly := by positivity
  have hp := (hpsi (IslandWidth_path psi Real.sin Real.pi Ly scale n).2).le
  have hds : 0 < Ly / 2 / 1024 := by positivity
  have e : (IslandWidth_path psi Real.sin Real.pi Ly scale n).1 + Ly / 2 / 1024
      = ((n + 1 : ℕ) : ℝ) * (Ly / 2 / 1024) := by
    rw [hx]
    push_cast
    ring
  simp only [IslandWidth_path, IslandWidth_step, IslandForm]
  rw [e, hx]
  have t1 : 0 ≤ scale * psi (IslandWidth_path psi Real.sin Real.pi Ly scale n).2
      * Real.sin (2 * Real.pi / Ly * (n * (Ly / 2 / 1024))) * (2 * Real.pi / Ly) := by
    positivity
  have t2 : 0 ≤ scale * psi (IslandWidth_path psi Real.sin Real.pi Ly scale n).2
      * Real.sin (2 * Real.pi / Ly * (((n + 1 : ℕ) : ℝ) * (Ly / 2 / 1024)))
      * (2 * Real.pi / Ly) := by
    positivity
  have t3 : 0 ≤ 1 / 2 * (Ly / 2 / 1024)
      * (scale * psi (IslandWidth_path psi Real.sin Real.pi Ly scale n).2
          * Real.sin (2 * Real.pi / Ly * (n * (Ly / 2 / 1024))) * (2 * Real.pi / Ly)
        + scale * psi (IslandWidth_path psi Real.sin Real.pi Ly scale n).2
          * Real.sin (2 * Real.pi / Ly * (((n + 1 : ℕ) : ℝ) * (Ly / 2 / 1024)))
          * (2 * Real.pi / Ly)) := by
    positivity
  linarith

/-- The ordinate never falls below its start value `1.e-2`. -/
theorem IslandWidth_path_ge (psi : ℝ → ℝ) (hpsi : ∀ x, 0 < psi x) (Ly scale : ℝ)
    (hLy : 0 < Ly) (hscale : 0 ≤ scale) (n : Nat) (hn : n ≤ 1024) :
    1 / 100 ≤ (IslandWidth_path psi Real.sin Real.pi Ly scale n).2 := by
  induction n with
  | zero => simp [IslandWidth_path]
  | succ n ih =>
    exact (ih (by omega)).trans (IslandWidth_step_increment psi hpsi Ly scale hLy hscale n hn)

/-- The first pass raises the ordinate of a positive scale factor. -/
theorem IslandWidth_path_one_gt (psi : ℝ → ℝ) (hpsi : ∀ x, 0 < psi x) (Ly scale : ℝ)
    (hLy : 0 < Ly) (hscale : 0 < scale) :
    1 / 100 < (IslandWidth_path psi Real.sin Real.pi Ly scale 1).2 := by
  have hc : 0 < 2 * Real.pi / Ly := by positivity
  have hp := hpsi (1 / 100)
  have hds : 0 < Ly / 2 / 1024 := by positivity
  have hs : 0 < Real.sin (2 * Real.pi / Ly * (0 + Ly / 2 / 1024)) := by
    have e : 2 * Real.pi / Ly * (0 + Ly / 2 / 1024) = Real.pi / 1024 := by
      field_simp
      ring
    rw [e]
    apply Real.sin_pos_of_pos_of_lt_pi
    · positivity
    · have := Real.pi_pos
      linarith [div_lt_self Real.pi_pos (by norm_num : (1 : ℝ) < 1024)]
  simp only [IslandWidth_path, IslandWidth_step, IslandForm, mul_zero, Real.sin_zero,
    zero_mul, zero_add] at hs ⊢
  have t : 0 < 1 / 2 * (Ly / 2 / 1024)
      * (scale * psi (1 / 100) * Real.sin (2 * Real.pi / Ly * (Ly / 2 / 1024))
          * (2 * Real.pi / Ly)) := by
    positivity
  linarith

/-- With a positive scale factor the ordinate after the 1024 passes is above `1.e-2`. -/
theorem IslandWidth_path_gt (psi : ℝ → ℝ) (hpsi : ∀ x, 0 < psi x) (Ly scale : ℝ)
    (hLy : 0 < Ly) (hscale : 0 < scale) (n : Nat) (h1 : 1 ≤ n) (hn : n ≤ 1024) :
    1 / 100 < (IslandWidth_path psi Real.sin Real.pi Ly scale n).2 := by
  induction n with
  | zero => omega
  | succ n ih =>
    by_cases h0 : n = 0
    · subst h0
      exact IslandWidth_path_one_gt psi hpsi Ly scale hLy hscale
    · exact (ih (by omega) (by omega)).trans_le
        (IslandWidth_step_increment psi hpsi Ly scale hLy hscale.le n hn)

/-- With the scale factor zero the ordinate stays at `1.e-2`. -/
theorem IslandWidth_path_zero (psi : ℝ → ℝ) (Ly : ℝ) (n : Nat) :
    (IslandWidth_path psi Real.sin Real.pi Ly 0 n).2 = 1 / 100 := by
  induction n with
  | zero => simp [IslandWidth_path]
  | succ n ih =>
    simp only [IslandWidth_path, IslandWidth_step, IslandForm, ih]
    ring

/-- The pair reached after `n` passes depends continuously on the scale factor. -/
theorem IslandWidth_path_continuous (psi : ℝ → ℝ) (hpsi : Continuous psi) (Ly : ℝ) (n : Nat) :
    Continuous (fun scale : ℝ => IslandWidth_path psi Real.sin Real.pi Ly scale n) := by
  induction n with
  | zero =>
    simp only [IslandWidth_path]
    exact continuous_const
  | succ n ih =>
    simp only [IslandWidth_path, IslandWidth_step, IslandForm]
    have h1 : Continuous fun scale : ℝ =>
        (IslandWidth_path psi Real.sin Real.pi Ly scale n).1 := continuous_fst.comp ih
    have h2 : Continuous fun scale : ℝ =>
        (IslandWidth_path psi Real.sin Real.pi Ly scale n).2 := continuous_snd.comp ih
    have h3 : Continuous fun scale : ℝ =>
        psi (IslandWidth_path psi Real.sin Real.pi Ly scale n).2 := hpsi.comp h2
    fun_prop

/-- The island width over the reals for a scale factor that is not zero. -/
theorem IslandWidth_of_ne_zero (psi : ℝ → ℝ) (Ly scale : ℝ) (h : scale ≠ 0) :
    IslandWidth psi Real.sin Real.pi Ly scale
      = 2 * (IslandWidth_path psi Real.sin Real.pi Ly scale 1024).2 := by
  unfold IslandWidth
  rw [if_neg h]

/-- The island width of a positive scale factor is above `2.e-2`. -/
theorem IslandWidth_gt (psi : ℝ → ℝ) (hpsi : ∀ x, 0 < psi x) (Ly scale : ℝ) (hLy : 0 < Ly)
    (hscale : 0 < scale) : 2 / 100 < IslandWidth psi Real.sin Real.pi Ly scale := by
  rw [IslandWidth_of_ne_zero psi Ly scale hscale.ne']
  have := IslandWidth_path_gt psi hpsi Ly scale hLy hscale 1024 (by norm_num) (le_refl _)
  linarith

/-- One pass of the integration loop adds `scale` times a weight: `psi(y_n)`
times `pi/2048` times the sum of the two sines. -/
theorem IslandWidth_step_eq (psi : ℝ → ℝ) (Ly scale : ℝ) (hLy : 0 < Ly) (n : Nat) :
    (IslandWidth_path psi Real.sin Real.pi Ly scale (n + 1)).2
      = (IslandWidth_path psi Real.sin Real.pi Ly scale n).2
        + scale * (psi (IslandWidth_path psi Real.sin Real.pi Ly scale n).2 * (Real.pi / 2048)
          * (Real.sin (2 * Real.pi / Ly * (n * (Ly / 2 / 1024)))
            + Real.sin (2 * Real.pi / Ly * (((n + 1 : ℕ) : ℝ) * (Ly / 2 / 1024))))) := by
  have hx := IslandWidth_path_fst psi Ly scale n
  have e : (IslandWidth_path psi Real.sin Real.pi Ly scale n).1 + Ly / 2 / 1024
      = ((n + 1 : ℕ) : ℝ) * (Ly / 2 / 1024) := by
    rw [hx]
    push_cast
    ring
  have hne : Ly ≠ 0 := hLy.ne'
  simp only [IslandWidth_path, IslandWidth_step, IslandForm]
  rw [e, hx]
  field_simp
  ring

/-- The function `psi` over the reals is at most 15. -/
theorem VlasovIsland_psi_le (x : ℝ) :
    VlasovIsland_psi (fun a b : ℝ => a ^ b) Real.exp x ≤ 15 := by
  unfold VlasovIsland_psi
  have h0 : (0 : ℝ) ≤ x * x := mul_self_nonneg x
  have hp : (x * x) ^ (70216594 / 100000000 : ℝ) ≤ 1 + x * x := by
    by_cases h : x * x ≤ 1
    · have := Real.rpow_le_one h0 h (by norm_num : (0 : ℝ) ≤ 70216594 / 100000000)
      linarith
    · rw [not_le] at h
      have := Real.rpow_le_rpow_of_exponent_le h.le
        (by norm_num : (70216594 / 100000000 : ℝ) ≤ 1)
      rw [Real.rpow_one] at this
      linarith
  have hp0 : (0 : ℝ) ≤ (x * x) ^ (70216594 / 100000000 : ℝ) := Real.rpow_nonneg h0 _
  have hE := Real.exp_pos ((-1033686 / 100000000 : ℝ) * (x * x))
  have hE1 : Real.exp ((-1033686 / 100000000 : ℝ) * (x * x)) ≤ 1 := by
    rw [Real.exp_le_one_iff]
    nlinarith
  have hprod : Real.exp ((-1033686 / 100000000 : ℝ) * (x * x))
      * Real.exp ((1033686 / 100000000 : ℝ) * (x * x)) = 1 := by
    rw [← Real.exp_add]
    have : (-1033686 / 100000000 : ℝ) * (x * x) + (1033686 / 100000000 : ℝ) * (x * x) = 0 := by
      ring
    rw [this, Real.exp_zero]
  have hlin := Real.add_one_le_exp ((1033686 / 100000000 : ℝ) * (x * x))
  have htE : (x * x) * Real.exp ((-1033686 / 100000000 : ℝ) * (x * x)) ≤ 100 := by
    have h1 := mul_le_mul_of_nonneg_left hlin hE.le
    rw [hprod] at h1
    nlinarith
  have hstep : (1 + (13828847 / 100000000 : ℝ) * (x * x) ^ (70216594 / 100000000 : ℝ))
      * Real.exp ((-1033686 / 100000000 : ℝ) * (x * x))
      ≤ (1 + (13828847 / 100000000 : ℝ) * (1 + x * x))
        * Real.exp ((-1033686 / 100000000 : ℝ) * (x * x)) := by
    apply mul_le_mul_of_nonneg_right _ hE.le
    linarith
  nlinarith

/-- With a scale factor of at most 100 the ordinate after `n` passes is at most
`1/100 + 6*n`. -/
theorem IslandWidth_path_le (Ly scale : ℝ) (hLy : 0 < Ly) (h2 : scale ≤ 100)
    (n : Nat) (hn : n ≤ 1024) :
    (IslandWidth_path (VlasovIsland_psi (fun a b : ℝ => a ^ b) Real.exp) Real.sin Real.pi
        Ly scale n).2 ≤ 1 / 100 + 6 * (n : ℝ) := by
  induction n with
  | zero => simp [IslandWidth_path]
  | succ n ih =>
    have ih1 := ih (by omega)
    rw [IslandWidth_step_eq _ Ly scale hLy n]
    have s1 := IslandForm_sin_nonneg Ly hLy n (by omega)
    have s2 := IslandForm_sin_nonneg Ly hLy (n + 1) hn
    have s1u := Real.sin_le_one (2 * Real.pi / Ly * (n * (Ly / 2 / 1024)))
    have s2u := Real.sin_le_one (2 * Real.pi / Ly * (((n + 1 : ℕ) : ℝ) * (Ly / 2 / 1024)))
    have hp := VlasovIsland_psi_pos (IslandWidth_path
      (VlasovIsland_psi (fun a b : ℝ => a ^ b) Real.exp) Real.sin Real.pi Ly scale n).2
    have hp2 := VlasovIsland_psi_le (IslandWidth_path
      (VlasovIsland_psi (fun a b : ℝ => a ^ b) Real.exp) Real.sin Real.pi Ly scale n).2
    have hpi := Real.pi_pos
    have hpi4 := Real.pi_le_four
    have hA0 : 0 ≤ VlasovIsland_psi (fun a b : ℝ => a ^ b) Real.exp
        (IslandWidth_path (VlasovIsland_psi (fun a b : ℝ => a ^ b) Real.exp)
          Real.sin Real.pi Ly scale n).2 * (Real.pi / 2048)
        * (Real.sin (2 * Real.pi / Ly * (n * (Ly / 2 / 1024)))
          + Real.sin (2 * Real.pi / Ly * (((n + 1 : ℕ) : ℝ) * (Ly / 2 / 1024)))) := by
      positivity
    have hA1 : VlasovIsland_psi (fun a b : ℝ => a ^ b) Real.exp
        (IslandWidth_path (VlasovIsland_psi (fun a b : ℝ => a ^ b) Real.exp)
          Real.sin Real.pi Ly scale n).2 * (Real.pi / 2048)
        * (Real.sin (2 * Real.pi / Ly * (n * (Ly / 2 / 1024)))
          + Real.sin (2 * Real.pi / Ly * (((n + 1 : ℕ) : ℝ) * (Ly / 2 / 1024))))
        ≤ 15 * (4 / 2048) * 2 := by
      apply mul_le_mul _ (by linarith) (by linarith) (by positivity)
      apply mul_le_mul hp2 _ (by positivity) (by norm_num)
      exact div_le_div_of_nonneg_right hpi4 (by norm_num)
    generalize VlasovIsland_psi (fun a b : ℝ => a ^ b) Real.exp
        (IslandWidth_path (VlasovIsland_psi (fun a b : ℝ => a ^ b) Real.exp)
          Real.sin Real.pi Ly scale n).2 * (Real.pi / 2048)
        * (Real.sin (2 * Real.pi / Ly * (n * (Ly / 2 / 1024)))
          + Real.sin (2 * Real.pi / Ly * (((n + 1 : ℕ) : ℝ) * (Ly / 2 / 1024)))) = A
      at hA0 hA1 ⊢
    have hsA : scale * A ≤ 100 * (15 * (4 / 2048) * 2) := mul_le_mul h2 hA1 hA0 (by norm_num)
    push_cast
    linarith

/-- C18, counterexample: for the target width `W = 1.e-2` (and `Ly = 1`) no
scale factor of the bracket `[0, 100]` has an island width within `1e-5`
relative of `W`: the width is 0 at `w = 0` and above `2.e-2` for `w > 0`.
Nor has one for the target width `W = 2.e4`: the island width of a scale
factor of the bracket is below `12289`. -/
theorem C18_counterexample :
    (0 : ℝ) < 1 / 100 ∧ (0 : ℝ) < 1
    ∧ (∀ w : ℝ, 0 ≤ w → w ≤ 100 →
      ¬ |IslandWidth (VlasovIsland_psi (fun a b : ℝ => a ^ b) Real.exp) Real.sin Real.pi 1 w
          - 1 / 100| ≤ 1 / 10 ^ 5 * (1 / 100))
    ∧ (0 : ℝ) < 20000
    ∧ (∀ w : ℝ, 0 ≤ w → w ≤ 100 →
      ¬ |IslandWidth (VlasovIsland_psi (fun a b : ℝ => a ^ b) Real.exp) Real.sin Real.pi 1 w
          - 20000| ≤ 1 / 10 ^ 5 * 20000) := by
  refine ⟨by norm_num, by norm_num, ?_, by norm_num, ?_⟩
  · intro w hw0 _ habs
    rcases hw0.eq_or_lt with h0 | hpos
    · subst h0
      simp only [IslandWidth, if_true] at habs
      norm_num at habs
      rw [abs_of_pos (by norm_num : (0 : ℝ) < 1 / 100)] at habs
      norm_num at habs
    · have hgt := IslandWidth_gt _ VlasovIsland_psi_pos 1 w (by norm_num) hpos
      rw [abs_le] at habs
      norm_num at habs
      linarith [habs.2]
  · intro w hw0 hw1 habs
    rw [abs_le] at habs
    rcases hw0.eq_or_lt with h0 | hpos
    · subst h0
      simp only [IslandWidth, if_true] at habs
      norm_num at habs
    · rw [IslandWidth_of_ne_zero _ 1 w hpos.ne'] at habs
      have hle := IslandWidth_path_le 1 w (by norm_num) hw1 1024 (le_refl _)
      norm_num at hle
      norm_num at habs
      linarith [habs.1]

/-- The brackets of the bisection are nested in the first one, halve their
width at every step, and keep a sign change of `func` between their ends. -/
theorem BiSection_bracket_spec (func : ℝ → ℝ) (a b : ℝ) (hab : a ≤ b)
    (hsign : func a * func b ≤ 0) (n : Nat) :
    a ≤ (BiSection_bracket func a b n).1
    ∧ (BiSection_bracket func a b n).1 ≤ (BiSection_bracket func a b n).2
    ∧ (BiSection_bracket func a b n).2 ≤ b
    ∧ (BiSection_bracket func a b n).2 - (BiSection_bracket func a b n).1 = (b - a) / 2 ^ n
    ∧ func (BiSection_bracket func a b n).1 * func (BiSection_bracket func a b n).2 ≤ 0 := by
  induction n with
  | zero => simp [BiSection_bracket, hab, hsign]
  | succ n ih =>
    obtain ⟨h1, h2, h3, h4, h5⟩ := ih
    simp only [BiSection_bracket, BiSection_step]
    split_ifs with hm
    · refine ⟨h1, by linarith, by linarith, ?_, hm⟩
      rw [pow_succ]
      field_simp
      field_simp at h4
      linarith
    · refine ⟨by linarith, by linarith, h3, ?_, ?_⟩
      · rw [pow_succ]
        field_simp
        field_simp at h4
        linarith
      · rw [not_le] at hm
        rcases mul_pos_iff.mp hm with ⟨ha, hmid⟩ | ⟨ha, hmid⟩
        · rcases mul_nonpos_iff.mp h5 with ⟨_, hb⟩ | ⟨ha', _⟩
          · exact mul_nonpos_of_nonneg_of_nonpos hmid.le hb
          · exact absurd ha (not_lt.mpr ha')
        · rcases mul_nonpos_iff.mp h5 with ⟨ha', _⟩ | ⟨_, hb⟩
          · exact absurd ha (not_lt.mpr ha')
          · exact mul_nonpos_of_nonpos_of_nonneg hmid.le hb

/-- The island width as a function of the scale factor without the branch
`scale == 0.` is continuous. -/
theorem IslandWidth_branch_continuous (Ly : ℝ) :
    Continuous (fun w : ℝ =>
      2 * (IslandWidth_path (VlasovIsland_psi (fun a b : ℝ => a ^ b) Real.exp) Real.sin
        Real.pi Ly w 1024).2) :=
  continuous_const.mul
    (continuous_snd.comp (IslandWidth_path_continuous _ VlasovIsland_psi_continuous Ly 1024))

/-- Every value above `2.e-2` and up to `IslandWidth(100)` is the island width
of a scale factor `0 < w <= 100`. -/
theorem IslandWidth_reaches (Ly v : ℝ) (hv1 : 2 / 100 < v)
    (hv2 : v ≤ IslandWidth (VlasovIsland_psi (fun a b : ℝ => a ^ b) Real.exp) Real.sin
      Real.pi Ly 100) :
    ∃ w : ℝ, 0 < w ∧ w ≤ 100
      ∧ IslandWidth (VlasovIsland_psi (fun a b : ℝ => a ^ b) Real.exp) Real.sin Real.pi Ly w
        = v := by
  have hcont := IslandWidth_branch_continuous Ly
  have h0 : 2 * (IslandWidth_path (VlasovIsland_psi (fun a b : ℝ => a ^ b) Real.exp) Real.sin
      Real.pi Ly 0 1024).2 = 2 / 100 := by
    rw [IslandWidth_path_zero]
    norm_num
  rw [IslandWidth_of_ne_zero _ Ly 100 (by norm_num)] at hv2
  have hivt := intermediate_value_Icc (by norm_num : (0 : ℝ) ≤ 100) hcont.continuousOn
  have hmem : v ∈ Set.Icc
      (2 * (IslandWidth_path (VlasovIsland_psi (fun a b : ℝ => a ^ b) Real.exp) Real.sin
        Real.pi Ly 0 1024).2)
      (2 * (IslandWidth_path (VlasovIsland_psi (fun a b : ℝ => a ^ b) Real.exp) Real.sin
        Real.pi Ly 100 1024).2) := by
    rw [h0]
    exact ⟨hv1.le, hv2⟩
  obtain ⟨w, ⟨hw0, hw100⟩, hw⟩ := hivt hmem
  have hne : w ≠ 0 := by
    rintro rfl
    simp only [h0] at hw
    linarith
  exact ⟨w, lt_of_le_of_ne hw0 (Ne.symm hne), hw100, by
    rw [IslandWidth_of_ne_zero _ Ly w hne]
    exact hw⟩

/-- A sign change of the objective between two scale factors `0 <= a <= b`,
for a target width above `2.e-2`, encloses a root of the objective. -/
theorem widthObjective_root_between (Ly W : ℝ) (hW : 2 / 100 < W) (a b : ℝ) (ha : 0 ≤ a)
    (hab : a ≤ b)
    (hsign : widthObjective (VlasovIsland_psi (fun a b : ℝ => a ^ b) Real.exp) Real.sin
        Real.pi Ly W a
      * widthObjective (VlasovIsland_psi (fun a b : ℝ => a ^ b) Real.exp) Real.sin
        Real.pi Ly W b ≤ 0) :
    ∃ w : ℝ, a ≤ w ∧ w ≤ b
      ∧ widthObjective (VlasovIsland_psi (fun a b : ℝ => a ^ b) Real.exp) Real.sin
        Real.pi Ly W w = 0 := by
  have hcont : Continuous (fun w : ℝ =>
      2 * (IslandWidth_path (VlasovIsland_psi (fun a b : ℝ => a ^ b) Real.exp) Real.sin
        Real.pi Ly w 1024).2 - W) := (IslandWidth_branch_continuous Ly).sub continuous_const
  have hg0 : 2 * (IslandWidth_path (VlasovIsland_psi (fun a b : ℝ => a ^ b) Real.exp) Real.sin
      Real.pi Ly 0 1024).2 - W < 0 := by
    rw [IslandWidth_path_zero]
    linarith
  have hf0 : widthObjective (VlasovIsland_psi (fun a b : ℝ => a ^ b) Real.exp) Real.sin
      Real.pi Ly W 0 < 0 := by
    simp only [widthObjective, IslandWidth, if_true]
    linarith
  have hfg : ∀ w : ℝ, w ≠ 0 →
      widthObjective (VlasovIsland_psi (fun a b : ℝ => a ^ b) Real.exp) Real.sin
        Real.pi Ly W w
      = 2 * (IslandWidth_path (VlasovIsland_psi (fun a b : ℝ => a ^ b) Real.exp) Real.sin
        Real.pi Ly w 1024).2 - W := by
    intro w hw
    simp only [widthObjective, IslandWidth_of_ne_zero _ Ly w hw]
  have hroot : ∀ w : ℝ, 0 ≤ w →
      2 * (IslandWidth_path (VlasovIsland_psi (fun a b : ℝ => a ^ b) Real.exp) Real.sin
        Real.pi Ly w 1024).2 - W = 0 →
      widthObjective (VlasovIsland_psi (fun a b : ℝ => a ^ b) Real.exp) Real.sin
        Real.pi Ly W w = 0 := by
    intro w hw hz
    have hne : w ≠ 0 := by
      rintro rfl
      rw [hz] at hg0
      exact lt_irrefl _ hg0
    rw [hfg w hne, hz]
  have hsg : ∀ w : ℝ,
      (widthObjective (VlasovIsland_psi (fun a b : ℝ => a ^ b) Real.exp) Real.sin
        Real.pi Ly W w ≤ 0 →
        2 * (IslandWidth_path (VlasovIsland_psi (fun a b : ℝ => a ^ b) Real.exp) Real.sin
          Real.pi Ly w 1024).2 - W ≤ 0)
      ∧ (0 ≤ widthObjective (VlasovIsland_psi (fun a b : ℝ => a ^ b) Real.exp) Real.sin
        Real.pi Ly W w →
        0 ≤ 2 * (IslandWidth_path (VlasovIsland_psi (fun a b : ℝ => a ^ b) Real.exp) Real.sin
          Real.pi Ly w 1024).2 - W) := by
    intro w
    by_cases hw : w = 0
    · subst hw
      exact ⟨fun _ => hg0.le, fun h => absurd hf0 (not_lt.mpr h)⟩
    · rw [hfg w hw]
      exact ⟨id, id⟩
  rcases mul_nonpos_iff.mp hsign with ⟨h1, h2⟩ | ⟨h1, h2⟩
  · have hmem : (0 : ℝ) ∈ Set.Icc
        (2 * (IslandWidth_path (VlasovIsland_psi (fun a b : ℝ => a ^ b) Real.exp) Real.sin
          Real.pi Ly b 1024).2 - W)
        (2 * (IslandWidth_path (VlasovIsland_psi (fun a b : ℝ => a ^ b) Real.exp) Real.sin
          Real.pi Ly a 1024).2 - W) := ⟨(hsg b).1 h2, (hsg a).2 h1⟩
    obtain ⟨w, ⟨hw1, hw2⟩, hw⟩ := intermediate_value_Icc' hab hcont.continuousOn hmem
    exact ⟨w, hw1, hw2, hroot w (ha.trans hw1) hw⟩
  · have hmem : (0 : ℝ) ∈ Set.Icc
        (2 * (IslandWidth_path (VlasovIsland_psi (fun a b : ℝ => a ^ b) Real.exp) Real.sin
          Real.pi Ly a 1024).2 - W)
        (2 * (IslandWidth_path (VlasovIsland_psi (fun a b : ℝ => a ^ b) Real.exp) Real.sin
          Real.pi Ly b 1024).2 - W) := ⟨(hsg a).1 h1, (hsg b).2 h2⟩
    obtain ⟨w, ⟨hw1, hw2⟩, hw⟩ := intermediate_value_Icc hab hcont.continuousOn hmem
    exact ⟨w, hw1, hw2, hroot w (ha.trans hw1) hw⟩

/-- C18, amended: for `Ly > 0` and a target width `W` with
`2.e-2 < W*(1 + 1e-5)` and `W*(1 - 1e-5) <= IslandWidth(100)` there is a scale
factor `w` of the bracket `[0, 100]` whose island width is within `1e-5`
relative of `W`.  For `2.e-2 < W <= IslandWidth(100)` the objective
`IslandWidth(w) - W` has a root in the bracket, and every bracket of the
bisection over `[0, 100]` lies in `[0, 100]`, has the width `100/2^n` and
contains a root of the objective.  For a target width `W > 0` with
`W*(1 + 1e-5) < 2.e-2` no scale factor of the bracket has an island width
within `1e-5` relative of `W`. -/
theorem C18_island_width_root (Ly W : ℝ) (hLy : 0 < Ly)
    (hW1 : 2 / 100 < W * (1 + 1 / 10 ^ 5))
    (hW2 : W * (1 - 1 / 10 ^ 5)
      ≤ IslandWidth (VlasovIsland_psi (fun a b : ℝ => a ^ b) Real.exp) Real.sin Real.pi Ly 100) :
    (∃ w : ℝ, 0 ≤ w ∧ w ≤ 100
      ∧ |IslandWidth (VlasovIsland_psi (fun a b : ℝ => a ^ b) Real.exp) Real.sin Real.pi Ly w
          - W| ≤ 1 / 10 ^ 5 * W)
    ∧ (2 / 100 < W →
      W ≤ IslandWidth (VlasovIsland_psi (fun a b : ℝ => a ^ b) Real.exp) Real.sin Real.pi
        Ly 100 →
      (∃ w : ℝ, 0 < w ∧ w ≤ 100
        ∧ widthObjective (VlasovIsland_psi (fun a b : ℝ => a ^ b) Real.exp) Real.sin Real.pi
          Ly W w = 0)
      ∧ ∀ n : Nat,
        0 ≤ (BiSection_bracket
            (widthObjective (VlasovIsland_psi (fun a b : ℝ => a ^ b) Real.exp) Real.sin
              Real.pi Ly W) 0 100 n).1
        ∧ (BiSection_bracket
            (widthObjective (VlasovIsland_psi (fun a b : ℝ => a ^ b) Real.exp) Real.sin
              Real.pi Ly W) 0 100 n).1
          ≤ (BiSection_bracket
            (widthObjective (VlasovIsland_psi (fun a b : ℝ => a ^ b) Real.exp) Real.sin
              Real.pi Ly W) 0 100 n).2
        ∧ (BiSection_bracket
            (widthObjective (VlasovIsland_psi (fun a b : ℝ => a ^ b) Real.exp) Real.sin
              Real.pi Ly W) 0 100 n).2 ≤ 100
        ∧ (BiSection_bracket
            (widthObjective (VlasovIsland_psi (fun a b : ℝ => a ^ b) Real.exp) Real.sin
              Real.pi Ly W) 0 100 n).2
          - (BiSection_bracket
            (widthObjective (VlasovIsland_psi (fun a b : ℝ => a ^ b) Real.exp) Real.sin
              Real.pi Ly W) 0 100 n).1 = 100 / 2 ^ n
        ∧ ∃ w : ℝ,
          (BiSection_bracket
            (widthObjective (VlasovIsland_psi (fun a b : ℝ => a ^ b) Real.exp) Real.sin
              Real.pi Ly W) 0 100 n).1 ≤ w
          ∧ w ≤ (BiSection_bracket
            (widthObjective (VlasovIsland_psi (fun a b : ℝ => a ^ b) Real.exp) Real.sin
              Real.pi Ly W) 0 100 n).2
          ∧ widthObjective (VlasovIsland_psi (fun a b : ℝ => a ^ b) Real.exp) Real.sin
            Real.pi Ly W w = 0)
    ∧ (∀ W1 : ℝ, 0 < W1 → W1 * (1 + 1 / 10 ^ 5) < 2 / 100 →
      ∀ w : ℝ, 0 ≤ w → w ≤ 100 →
        ¬ |IslandWidth (VlasovIsland_psi (fun a b : ℝ => a ^ b) Real.exp) Real.sin Real.pi
            Ly w - W1| ≤ 1 / 10 ^ 5 * W1) := by
  have hWpos : 0 < W := by
    by_contra h
    rw [not_lt] at h
    nlinarith
  have h100 := IslandWidth_gt _ VlasovIsland_psi_pos Ly 100 hLy (by norm_num)
  refine ⟨?_, fun hW3 hW4 => ⟨?_, fun n => ?_⟩, ?_⟩
  · by_cases h : W * (1 + 1 / 10 ^ 5)
        ≤ IslandWidth (VlasovIsland_psi (fun a b : ℝ => a ^ b) Real.exp) Real.sin Real.pi
          Ly 100
    · obtain ⟨w, hw0, hw1, hw⟩ := IslandWidth_reaches Ly _ hW1 h
      refine ⟨w, hw0.le, hw1, ?_⟩
      rw [hw, abs_le]
      constructor
      · nlinarith
      · linarith
    · rw [not_le] at h
      refine ⟨100, by norm_num, le_refl _, ?_⟩
      rw [abs_le]
      constructor
      · linarith
      · linarith
  · obtain ⟨w, hw0, hw1, hw⟩ := IslandWidth_reaches Ly W hW3 hW4
    exact ⟨w, hw0, hw1, by simp only [widthObjective, hw, sub_self]⟩
  · have hs0 : widthObjective (VlasovIsland_psi (fun a b : ℝ => a ^ b) Real.exp) Real.sin
          Real.pi Ly W 0
        * widthObjective (VlasovIsland_psi (fun a b : ℝ => a ^ b) Real.exp) Real.sin
          Real.pi Ly W 100 ≤ 0 := by
      apply mul_nonpos_of_nonpos_of_nonneg
      · simp only [widthObjective, IslandWidth, if_true]
        linarith
      · simp only [widthObjective]
        linarith
    obtain ⟨b1, b2, b3, b4, b5⟩ := BiSection_bracket_spec
      (widthObjective (VlasovIsland_psi (fun a b : ℝ => a ^ b) Real.exp) Real.sin Real.pi Ly W)
      0 100 (by norm_num) hs0 n
    refine ⟨b1, b2, b3, by rw [b4, sub_zero], ?_⟩
    exact widthObjective_root_between Ly W hW3 _ _ b1 b2 b5
  · intro W1 hW1pos hW1small w hw0 _ habs
    rw [abs_le] at habs
    rcases hw0.eq_or_lt with h0 | hpos
    · subst h0
      simp only [IslandWidth, if_true] at habs
      nlinarith [habs.1]
    · have hgt := (IslandWidth_gt _ VlasovIsland_psi_pos Ly w hLy hpos).le
      linarith [habs.2]

/-- Witness of the amended C18 for `Ly = 1` and the target width half-way
between `2.e-2` and `IslandWidth(100)`. -/
theorem C18_island_width_root_witness :
    (0 : ℝ) < 1
    ∧ 2 / 100 < (2 / 100 + IslandWidth (VlasovIsland_psi (fun a b : ℝ => a ^ b) Real.exp)
        Real.sin Real.pi 1 100) / 2 * (1 + 1 / 10 ^ 5)
    ∧ (2 / 100 + IslandWidth (VlasovIsland_psi (fun a b : ℝ => a ^ b) Real.exp)
        Real.sin Real.pi 1 100) / 2 * (1 - 1 / 10 ^ 5)
      ≤ IslandWidth (VlasovIsland_psi (fun a b : ℝ => a ^ b) Real.exp) Real.sin Real.pi 1 100
    ∧ ∃ w : ℝ, 0 ≤ w ∧ w ≤ 100
      ∧ |IslandWidth (VlasovIsland_psi (fun a b : ℝ => a ^ b) Real.exp) Real.sin Real.pi 1 w
          - (2 / 100 + IslandWidth (VlasovIsland_psi (fun a b : ℝ => a ^ b) Real.exp)
            Real.sin Real.pi 1 100) / 2|
        ≤ 1 / 10 ^ 5 * ((2 / 100 + IslandWidth (VlasovIsland_psi (fun a b : ℝ => a ^ b)
            Real.exp) Real.sin Real.pi 1 100) / 2) :=
  have hgt := IslandWidth_gt (VlasovIsland_psi (fun a b : ℝ => a ^ b) Real.exp)
    VlasovIsland_psi_pos 1 100 (by norm_num) (by norm_num)
  have h1 : 2 / 100 < (2 / 100 + IslandWidth (VlasovIsland_psi (fun a b : ℝ => a ^ b) Real.exp)
      Real.sin Real.pi 1 100) / 2 * (1 + 1 / 10 ^ 5) := by nlinarith
  have h2 : (2 / 100 + IslandWidth (VlasovIsland_psi (fun a b : ℝ => a ^ b) Real.exp)
      Real.sin Real.pi 1 100) / 2 * (1 - 1 / 10 ^ 5)
      ≤ IslandWidth (VlasovIsland_psi (fun a b : ℝ => a ^ b) Real.exp) Real.sin Real.pi 1 100 := by
    nlinarith
  ⟨by norm_num, h1, h2, (C18_island_width_root 1 _ (by norm_num) h1 h2).1⟩

/-! ### Zero tendency and the frame of the baseline routine -/

/-- With `rk = {0, 0, 0}` the accumulation sets `ft` to zero and `fss` to
`f1 + dg_dt*dt`, which is `f1` for a zero tendency. -/
theorem RKAccumulation_zero (rk : Nat → ℚ) (dt : ℚ) (ft_old f1 dg_dt ft_new fss : CComplex)
    (h : RKAccumulation rk dt ft_old f1 dg_dt ft_new fss)
    (h0 : rk 0 = 0) (h1 : rk 1 = 0) (h2 : rk 2 = 0) :
    ft_new = 0 ∧ fss = f1 + dg_dt * ofReal dt ∧ (dg_dt = 0 → fss = f1) := by
  obtain ⟨hft, hfss⟩ := h
  have hz : ft_new = 0 := by
    rw [hft, h0, h1]
    apply CComplex.ext <;> simp
  have hs : fss = f1 + dg_dt * ofReal dt := by
    rw [hfss, hz, h2]
    apply CComplex.ext <;> simp
  refine ⟨hz, hs, fun hd => ?_⟩
  rw [hs, hd]
  apply CComplex.ext <;> simp

/-- C21: in each of the five routines, with `rk = {0, 0, 0}`, at every grid
point the routine updates (`p` for the baseline routine, `q` for the other
four) the accumulated tendency `ft` becomes zero, whatever `dt` and the prior
`ft`, and the stage output `fss` is `f1 + dg_dt*dt` for the tendency `dg_dt`
the routine computes there (on the buffer of the state `e` in which the block
of the point is entered), so that `fss` equals `f1` when that tendency is zero. -/
theorem C21_zero_tendency (self : VlasovIsland) (inp : Inputs) (st : RKState) (dt : ℚ)
    (rk_step : Int) (rk : Nat → ℚ) (p q : Idx6)
    (hp : self.grid.owned 0 (self.grid.Nky - 2) p)
    (hq : self.grid.owned self.grid.NkyLlD self.grid.NkyLuD q)
    (h0 : rk 0 = 0) (h1 : rk 1 = 0) (h2 : rk 2 = 0) :
    (∃ e : RKState,
      (¬ (self.doNonLinear = true ∧ rk_step ≠ 0) → e.nonLinearTerm = st.nonLinearTerm)
      ∧ (Vlasov_2D_Island self inp st dt rk_step rk).ft p = 0
      ∧ (Vlasov_2D_Island_dg_dt self inp (recomputeNonLinear self inp rk_step p.s p.m p.z e) p
          = 0 → (Vlasov_2D_Island self inp st dt rk_step rk).fss p = inp.f1 p))
    ∧ (∃ e : RKState,
      (¬ (self.doNonLinear = true ∧ rk_step ≠ 0) → e.nonLinearTerm = st.nonLinearTerm)
      ∧ (Vlasov_2D_Island_Equi self inp st dt rk_step rk).ft q = 0
      ∧ (Vlasov_2D_Island_Equi_dg_dt self inp
            (recomputeNonLinear self inp rk_step q.s q.m q.z e) q = 0
          → (Vlasov_2D_Island_Equi self inp st dt rk_step rk).fss q = inp.f1 q))
    ∧ (∃ e : RKState,
      (¬ (self.doNonLinear = true ∧ rk_step ≠ 0) → e.nonLinearTerm = st.nonLinearTerm)
      ∧ (Vlasov_2D_Island_filter self inp st dt rk_step rk).ft q = 0
      ∧ (Vlasov_2D_Island_filter_dg_dt self inp
            (recomputeNonLinear self inp rk_step q.s q.m q.z e) q = 0
          → (Vlasov_2D_Island_filter self inp st dt rk_step rk).fss q = inp.f1 q))
    ∧ (∃ e : RKState,
      (Vlasov_2D_Island_EM self inp st dt rk_step rk).ft q = 0
      ∧ (Vlasov_2D_Island_EM_dg_dt self inp (Fields_setAp self.grid self.Psi0 inp.Fields)
            (Vlasov_2D_Island_EM_nonLinear self rk_step q.s q.m q.z e) q = 0
          → (Vlasov_2D_Island_EM self inp st dt rk_step rk).fss q = inp.f1 q))
    ∧ (∃ e : RKState,
      (¬ (self.doNonLinear = true ∧ rk_step ≠ 0) → e.nonLinearTerm = st.nonLinearTerm)
      ∧ (Vlasov_2D_Island_orig self inp st dt rk_step rk).ft q = 0
      ∧ (Vlasov_2D_Island_orig_dg_dt self inp
            (recomputeNonLinear self inp rk_step q.s q.m q.z e) q = 0
          → (Vlasov_2D_Island_orig self inp st dt rk_step rk).fss q = inp.f1 q)) := by
  refine ⟨?_, ?_, ?_, ?_, ?_⟩
  · obtain ⟨e, he, hacc⟩ := electrostatic_sweep_at self inp rk_step 0 (self.grid.Nky - 2)
      (Vlasov_2D_Island_dg_dt self inp) rk dt st p hp
    obtain ⟨hz, _, hs⟩ := RKAccumulation_zero rk dt _ _ _ _ _ hacc h0 h1 h2
    exact ⟨e, he, hz, hs⟩
  · obtain ⟨e, he, hacc⟩ := electrostatic_sweep_at self inp rk_step self.grid.NkyLlD
      self.grid.NkyLuD (Vlasov_2D_Island_Equi_dg_dt self inp) rk dt st q hq
    obtain ⟨hz, _, hs⟩ := RKAccumulation_zero rk dt _ _ _ _ _ hacc h0 h1 h2
    exact ⟨e, he, hz, hs⟩
  · obtain ⟨e, he, hacc⟩ := electrostatic_sweep_at self inp rk_step self.grid.NkyLlD
      self.grid.NkyLuD (Vlasov_2D_Island_filter_dg_dt self inp) rk dt st q hq
    obtain ⟨hz, _, hs⟩ := RKAccumulation_zero rk dt _ _ _ _ _ hacc h0 h1 h2
    exact ⟨e, he, hz, hs⟩
  · obtain ⟨e, _, hacc1, hacc2⟩ := sweep_at self.grid self.grid.NkyLlD self.grid.NkyLuD
      (Vlasov_2D_Island_EM_setup self inp (Fields_setAp self.grid self.Psi0 inp.Fields))
      (Vlasov_2D_Island_EM_nonLinear self rk_step)
      (Vlasov_2D_Island_EM_dg_dt self inp (Fields_setAp self.grid self.Psi0 inp.Fields)) rk dt
      inp.f1 q hq (fun _ => True) (fun _ _ _ _ => trivial) (fun _ _ _ _ => trivial)
      (fun _ _ _ _ _ => trivial)
      (Vlasov_2D_Island_EM_setup_ft self inp (Fields_setAp self.grid self.Psi0 inp.Fields))
      st trivial
    obtain ⟨hz, _, hs⟩ := RKAccumulation_zero rk dt _ _ _ _ _ ⟨hacc1, hacc2⟩ h0 h1 h2
    exact ⟨e, hz, hs⟩
  · obtain ⟨e, he, hacc⟩ := electrostatic_sweep_at self inp rk_step self.grid.NkyLlD
      self.grid.NkyLuD (Vlasov_2D_Island_orig_dg_dt self inp) rk dt st q hq
    obtain ⟨hz, _, hs⟩ := RKAccumulation_zero rk dt _ _ _ _ _ hacc h0 h1 h2
    exact ⟨e, he, hz, hs⟩

/-- Witness of C21 on the one-point grid with three modes, zero inputs, a
prior `ft` equal to 1 everywhere and `dt = 5`. -/
theorem C21_zero_tendency_witness :
    (pointVlasov 3 1).grid.owned 0 ((pointVlasov 3 1).grid.Nky - 2) ⟨1, 0, 0, 1, 0, 0⟩
    ∧ (pointVlasov 3 1).grid.owned (pointVlasov 3 1).grid.NkyLlD (pointVlasov 3 1).grid.NkyLuD
        ⟨1, 0, 0, 2, 0, 0⟩
    ∧ (Vlasov_2D_Island (pointVlasov 3 1) zeroInputs unitFtState 5 0 (fun _ => 0)).ft
        ⟨1, 0, 0, 1, 0, 0⟩ = 0
    ∧ (Vlasov_2D_Island (pointVlasov 3 1) zeroInputs unitFtState 5 0 (fun _ => 0)).fss
        ⟨1, 0, 0, 1, 0, 0⟩ = zeroInputs.f1 ⟨1, 0, 0, 1, 0, 0⟩ := by
  obtain ⟨e, he, hz, hs⟩ := (C21_zero_tendency (pointVlasov 3 1) zeroInputs unitFtState 5 0
    (fun _ => 0) ⟨1, 0, 0, 1, 0, 0⟩ ⟨1, 0, 0, 2, 0, 0⟩ (by decide) (by decide) rfl rfl rfl).1
  refine ⟨by decide, by decide, hz, hs ?_⟩
  have hb : recomputeNonLinear (pointVlasov 3 1) zeroInputs 0 1 0 0 e
      = unitFtState.nonLinearTerm := by
    simp only [recomputeNonLinear, ne_eq, not_true_eq_false, and_false, if_false]
    exact he (by simp)
  show Vlasov_2D_Island_dg_dt (pointVlasov 3 1) zeroInputs
    (recomputeNonLinear (pointVlasov 3 1) zeroInputs 0 1 0 0 e) ⟨1, 0, 0, 1, 0, 0⟩ = 0
  rw [hb]
  apply CComplex.ext <;>
    simp [Vlasov_2D_Island_dg_dt, Vlasov_2D_Island_locals, pointVlasov, pointGrid,
      zeroInputs, unitSpecies, Species.sub, Field.phi, unitFtState]

/-- The closing assignments at `q` leave every array entry other than `ft[q]`
and `fss[q]` as it was. -/
theorem timeIntegrate_mem_frame (a : ArrayArgs) (rk : Nat → ℚ) (dt : ℚ) (q : Idx6)
    (d : CComplex) (st : MemState) (addr : Nat) (p : Idx6)
    (h : (addr ≠ a.ft ∧ addr ≠ a.fss) ∨ p ≠ q) :
    (timeIntegrate_mem a rk dt q d st).mem addr p = st.mem addr p := by
  unfold timeIntegrate_mem
  rcases h with ⟨h1, h2⟩ | h
  · simp [Function.update, h1, h2]
  · by_cases e2 : addr = a.fss
    · by_cases e1 : addr = a.ft
      · subst e2
        simp [Function.update, A6.set, h, e1]
      · subst e2
        simp [Function.update, A6.set, h, e1]
    · by_cases e1 : addr = a.ft
      · subst e1
        simp [Function.update, A6.set, h, e2]
      · simp [Function.update, e1, e2]

/-- The recomputation of the buffer leaves the storage as it was when the
routine of the base class is not called or does not write `fs`. -/
theorem recomputeNonLinear_mem_frame (self : VlasovIsland) (a : ArrayArgs) (env : Inputs)
    (fsAfter : A6 → AFields → Int → Int → Int → A3 → A6) (rk_step : Int) (s m z : Int)
    (st : MemState)
    (hfs : ¬ (self.doNonLinear = true ∧ rk_step ≠ 0)
      ∨ ∀ fs F z m s nl, fsAfter fs F z m s nl = fs) :
    (recomputeNonLinear_mem self a env fsAfter rk_step s m z st).mem = st.mem := by
  unfold recomputeNonLinear_mem
  rcases hfs with h | h
  · rw [if_neg h]
  · split_ifs
    · simp only [h]
      exact Function.update_eq_self _ _
    · rfl

/-- The frame of the routine on the storage: an array entry changes only if it
is an entry of `ft` or `fss` at an owned index with a mode `0 <= y_k <= Nky-2`. -/
theorem Vlasov_2D_Island_mem_frame (self : VlasovIsland) (a : ArrayArgs) (env : Inputs)
    (fsAfter : A6 → AFields → Int → Int → Int → A3 → A6) (st : MemState)
    (dt : ℚ) (rk_step : Int) (rk : Nat → ℚ)
    (hfs : ¬ (self.doNonLinear = true ∧ rk_step ≠ 0)
      ∨ ∀ fs F z m s nl, fsAfter fs F z m s nl = fs)
    (addr : Nat) (p : Idx6)
    (h : (addr ≠ a.ft ∧ addr ≠ a.fss) ∨ ¬ self.grid.owned 0 (self.grid.Nky - 2) p) :
    (Vlasov_2D_Island_mem self a env fsAfter st dt rk_step rk).mem addr p = st.mem addr p := by
  let S : MemState → MemState → Prop := fun u w => w.mem addr p = u.mem addr p
  have hSrefl : ∀ u, S u u := fun u => rfl
  have hSS : ∀ u v w, S u v → S v w → S u w := fun u v w h1 h2 => Eq.trans h2 h1
  have hS : S st (Vlasov_2D_Island_mem self a env fsAfter st dt rk_step rk) := by
    unfold Vlasov_2D_Island_mem
    apply forLoop_all _ _ _ S hSrefl hSS
    intro s st1 hs1 hs2
    apply forLoop_all _ _ _ S hSrefl hSS
    intro m st2 hm1 hm2
    apply forLoop_all _ _ _ S hSrefl hSS
    intro z st3 hz1 hz2
    refine hSS _ (recomputeNonLinear_mem self a env fsAfter rk_step s m z st3) _ ?_ ?_
    · show (recomputeNonLinear_mem self a env fsAfter rk_step s m z st3).mem addr p
        = st3.mem addr p
      rw [recomputeNonLinear_mem_frame self a env fsAfter rk_step s m z st3 hfs]
    apply forLoop_all _ _ _ S hSrefl hSS
    intro y st4 hy1 hy2
    apply forLoop_all _ _ _ S hSrefl hSS
    intro x st5 hx1 hx2
    apply forLoop_all _ _ _ S hSrefl hSS
    intro v st6 hv1 hv2
    apply timeIntegrate_mem_frame
    rcases h with h | h
    · exact Or.inl h
    · right
      intro hp
      apply h
      subst hp
      exact ⟨hs1, hs2, hm1, hm2, hz1, hz2, hy1, hy2, hx1, hx2, hv1, hv2⟩
  exact hS

/-- C22, counterexample: `solve` passes its argument `f_out` as `fss` and the
member `f` as `f1`; when its caller gives `f` as `f_out` the two arguments
name the same storage, and the assignment to `fss[p]` overwrites `f1[p]`.  On
the grid with the single evolved mode `y_k = 0`, with `Coll = 1`, the other
arrays zero, `rk = {0, 0, 0}` and `dt = 1`, the entry of `f1` at the owned
point is 0 before the call and 1 after it. -/
theorem C22_counterexample :
    inPlaceArgs.fss = inPlaceArgs.f1
    ∧ (pointVlasov 2 1).grid.owned 0 ((pointVlasov 2 1).grid.Nky - 2) ⟨1, 0, 0, 0, 0, 0⟩
    ∧ unitCollMem.mem inPlaceArgs.f1 ⟨1, 0, 0, 0, 0, 0⟩ = 0
    ∧ (Vlasov_2D_Island_mem (pointVlasov 2 1) inPlaceArgs zeroInputs
        (fun fs _ _ _ _ _ => fs) unitCollMem 1 0 (fun _ => 0)).mem inPlaceArgs.f1
        ⟨1, 0, 0, 0, 0, 0⟩ = 1 := by
  refine ⟨rfl, by decide, ?_, ?_⟩
  · simp [unitCollMem, inPlaceArgs]
  · have hl : Vlasov_2D_Island_mem (pointVlasov 2 1) inPlaceArgs zeroInputs
        (fun fs _ _ _ _ _ => fs) unitCollMem 1 0 (fun _ => 0)
        = timeIntegrate_mem inPlaceArgs (fun _ => 0) 1 ⟨1, 0, 0, 0, 0, 0⟩
            (Vlasov_2D_Island_dg_dt (pointVlasov 2 1)
              (inPlaceArgs.inputs unitCollMem.mem zeroInputs) unitCollMem.nonLinearTerm
              ⟨1, 0, 0, 0, 0, 0⟩) unitCollMem := by
      simp [Vlasov_2D_Island_mem, recomputeNonLinear_mem, forLoop, loopFrom, pointVlasov,
        pointGrid]
    rw [hl]
    have hd : Vlasov_2D_Island_dg_dt (pointVlasov 2 1)
        (inPlaceArgs.inputs unitCollMem.mem zeroInputs) unitCollMem.nonLinearTerm
        ⟨1, 0, 0, 0, 0, 0⟩ = 1 := by
      apply CComplex.ext <;>
        simp [Vlasov_2D_Island_dg_dt, Vlasov_2D_Island_locals, ArrayArgs.inputs, inPlaceArgs,
          unitCollMem, zeroInputs, pointVlasov, pointGrid, unitSpecies, Species.sub, Field.phi]
    rw [hd]
    apply CComplex.ext <;>
      simp [timeIntegrate_mem, Function.update, A6.set, inPlaceArgs, unitCollMem]

/-- C22, amended: the baseline routine leaves `ft` and `fss` unchanged at every
index that is not an owned index with a mode `0 <= y_k <= Nky-2`: in
particular at every entry of the Nyquist mode `y_k = Nky-1` and at every halo
entry (an index outside the owned range in `s`, `m`, `z`, `x` or `v`).  On
the storage of the array arguments, when `calculateExBNonLinearity` is not
called or does not write `fs`: no array entry at an index off that range
changes, no array stored apart from `ft` and `fss` changes, and so each of
`fs`, `f0`, `f1`, `Coll` is unchanged when its storage is neither that of `ft`
nor that of `fss`. -/
theorem C22_baseline_frame (self : VlasovIsland) (inp : Inputs) (st : RKState) (dt : ℚ)
    (rk_step : Int) (rk : Nat → ℚ) (p : Idx6)
    (hp : ¬ self.grid.owned 0 (self.grid.Nky - 2) p) :
    (Vlasov_2D_Island self inp st dt rk_step rk).ft p = st.ft p
    ∧ (Vlasov_2D_Island self inp st dt rk_step rk).fss p = st.fss p
    ∧ (∀ q : Idx6, q.y_k = self.grid.Nky - 1 →
        (Vlasov_2D_Island self inp st dt rk_step rk).ft q = st.ft q
        ∧ (Vlasov_2D_Island self inp st dt rk_step rk).fss q = st.fss q)
    ∧ (∀ q : Idx6,
        (q.s < self.grid.NsLlD ∨ self.grid.NsLuD < q.s ∨ q.m < self.grid.NmLlD
          ∨ self.grid.NmLuD < q.m ∨ q.z < self.grid.NzLlD ∨ self.grid.NzLuD < q.z
          ∨ q.x < self.grid.NxLlD ∨ self.grid.NxLuD < q.x ∨ q.v < self.grid.NvLlD
          ∨ self.grid.NvLuD < q.v ∨ q.y_k < 0 ∨ self.grid.Nky - 2 < q.y_k) →
        (Vlasov_2D_Island self inp st dt rk_step rk).ft q = st.ft q
        ∧ (Vlasov_2D_Island self inp st dt rk_step rk).fss q = st.fss q)
    ∧ (∀ (a : ArrayArgs) (fsAfter : A6 → AFields → Int → Int → Int → A3 → A6) (ms : MemState),
        (¬ (self.doNonLinear = true ∧ rk_step ≠ 0)
          ∨ ∀ fs F z m s nl, fsAfter fs F z m s nl = fs) →
        (∀ (addr : Nat) (q : Idx6), ¬ self.grid.owned 0 (self.grid.Nky - 2) q →
          (Vlasov_2D_Island_mem self a inp fsAfter ms dt rk_step rk).mem addr q
            = ms.mem addr q)
        ∧ (∀ addr : Nat, addr ≠ a.ft → addr ≠ a.fss →
          (Vlasov_2D_Island_mem self a inp fsAfter ms dt rk_step rk).mem addr = ms.mem addr)
        ∧ (a.fs ≠ a.ft → a.fs ≠ a.fss →
          (Vlasov_2D_Island_mem self a inp fsAfter ms dt rk_step rk).mem a.fs = ms.mem a.fs)
        ∧ (a.f0 ≠ a.ft → a.f0 ≠ a.fss →
          (Vlasov_2D_Island_mem self a inp fsAfter ms dt rk_step rk).mem a.f0 = ms.mem a.f0)
        ∧ (a.f1 ≠ a.ft → a.f1 ≠ a.fss →
          (Vlasov_2D_Island_mem self a inp fsAfter ms dt rk_step rk).mem a.f1 = ms.mem a.f1)
        ∧ (a.Coll ≠ a.ft → a.Coll ≠ a.fss →
          (Vlasov_2D_Island_mem self a inp fsAfter ms dt rk_step rk).mem a.Coll
            = ms.mem a.Coll)) := by
  have hframe : ∀ q : Idx6, ¬ self.grid.owned 0 (self.grid.Nky - 2) q →
      (Vlasov_2D_Island self inp st dt rk_step rk).ft q = st.ft q
      ∧ (Vlasov_2D_Island self inp st dt rk_step rk).fss q = st.fss q := fun q hq =>
    sweep_frame self.grid 0 (self.grid.Nky - 2) (fun _ _ st => st)
      (recomputeNonLinear self inp rk_step) (Vlasov_2D_Island_dg_dt self inp) rk dt inp.f1 q hq
      (fun _ _ _ => ⟨rfl, rfl⟩) st
  have hmem : ∀ (a : ArrayArgs) (fsAfter : A6 → AFields → Int → Int → Int → A3 → A6)
      (ms : MemState),
      (¬ (self.doNonLinear = true ∧ rk_step ≠ 0)
        ∨ ∀ fs F z m s nl, fsAfter fs F z m s nl = fs) →
      ∀ addr : Nat, addr ≠ a.ft → addr ≠ a.fss →
        (Vlasov_2D_Island_mem self a inp fsAfter ms dt rk_step rk).mem addr = ms.mem addr := by
    intro a fsAfter ms hfs addr h1 h2
    funext q
    exact Vlasov_2D_Island_mem_frame self a inp fsAfter ms dt rk_step rk hfs addr q
      (Or.inl ⟨h1, h2⟩)
  refine ⟨(hframe p hp).1, (hframe p hp).2, fun q hq => ?_, fun q hq => ?_,
    fun a fsAfter ms hfs => ⟨fun addr q hq => ?_, hmem a fsAfter ms hfs,
      hmem a fsAfter ms hfs _, hmem a fsAfter ms hfs _, hmem a fsAfter ms hfs _,
      hmem a fsAfter ms hfs _⟩⟩
  · apply hframe
    unfold Grid.owned
    omega
  · apply hframe
    unfold Grid.owned
    omega
  · exact Vlasov_2D_Island_mem_frame self a inp fsAfter ms dt rk_step rk hfs addr q (Or.inr hq)

/-- Witness of C22 at the Nyquist mode of the one-point grid with three modes,
and for six arguments stored at six different addresses. -/
theorem C22_baseline_frame_witness :
    ¬ (pointVlasov 3 1).grid.owned 0 ((pointVlasov 3 1).grid.Nky - 2) ⟨1, 0, 0, 2, 0, 0⟩
    ∧ (Vlasov_2D_Island (pointVlasov 3 1) imagCollInputs unitFtState 1 0 (fun _ => 1)).ft
        ⟨1, 0, 0, 2, 0, 0⟩ = unitFtState.ft ⟨1, 0, 0, 2, 0, 0⟩
    ∧ (Vlasov_2D_Island (pointVlasov 3 1) imagCollInputs unitFtState 1 0 (fun _ => 1)).fss
        ⟨1, 0, 0, 2, 0, 0⟩ = unitFtState.fss ⟨1, 0, 0, 2, 0, 0⟩
    ∧ distinctArgs.f1 ≠ distinctArgs.ft ∧ distinctArgs.f1 ≠ distinctArgs.fss
    ∧ (Vlasov_2D_Island_mem (pointVlasov 3 1) distinctArgs imagCollInputs
        (fun fs _ _ _ _ _ => fs) unitCollMem 1 0 (fun _ => 1)).mem distinctArgs.f1
      = unitCollMem.mem distinctArgs.f1 :=
  have h := C22_baseline_frame (pointVlasov 3 1) imagCollInputs unitFtState 1 0 (fun _ => 1)
    ⟨1, 0, 0, 2, 0, 0⟩ (by decide)
  ⟨by decide, h.1, h.2.1, by decide, by decide,
    (h.2.2.2.2 distinctArgs (fun fs _ _ _ _ _ => fs) unitCollMem
      (Or.inr (fun _ _ _ _ _ _ => rfl))).2.2.2.2.1 (by decide) (by decide)⟩

/-! ### The fourth-order radial stencil -/

/-! ### The order of the radial stencil -/

/-- The centred five-point difference is exact on polynomials of degree at
most 4: with `12*h*k = 1`,
`(8*(P(t+h) - P(t-h)) - (P(t+2h) - P(t-2h)))*k = P'(t)`. -/
theorem stencil_exact_deg4 (P : Polynomial CComplex) (hP : P.natDegree ≤ 4)
    (t h k : CComplex) (hk : 12 * h * k = 1) :
    (8 * (P.eval (t + h) - P.eval (t - h)) - (P.eval (t + 2 * h) - P.eval (t - 2 * h))) * k
      = (Polynomial.derivative P).eval t := by
  have hsum := Polynomial.as_sum_range' P 5 (by omega)
  rw [hsum]
  simp only [Finset.sum_range_succ, Finset.sum_range_zero, zero_add, Polynomial.eval_add,
    Polynomial.eval_monomial, Polynomial.derivative_add, Polynomial.derivative_monomial]
  simp only [Nat.cast_ofNat, Nat.cast_one, Nat.cast_zero, mul_zero, Polynomial.monomial_zero_right,
    Polynomial.eval_zero, Polynomial.eval_monomial, pow_zero, pow_one, mul_one]
  linear_combination
    (P.coeff 1 + 2 * P.coeff 2 * t + 3 * P.coeff 3 * t ^ 2 + 4 * P.coeff 4 * t ^ 3) * hk

/-- On the fifth power the centred five-point difference misses the
derivative by `4*h^4`. -/
theorem stencil_pow5 (t h k : CComplex) (hk : 12 * h * k = 1) :
    (8 * ((t + h) ^ 5 - (t - h) ^ 5) - ((t + 2 * h) ^ 5 - (t - 2 * h) ^ 5)) * k
      = 5 * t ^ 4 - 4 * h ^ 4 := by
  linear_combination (5 * t ^ 4 - 4 * h ^ 4) * hk

/-- The stencil `spec_d_dx` with `_kw_12_dx = 1/(12*dx)` on the samples
`u[x] = U(X0 + x*dx)` of a function `U` of the radial coordinate. -/
theorem spec_d_dx_sampled (U : CComplex → CComplex) (X0 dx : ℚ) (x : Int) :
    spec_d_dx (1 / (12 * dx)) (fun x => U (ofReal (X0 + x * dx))) x
      = (8 * (U (ofReal (X0 + x * dx) + ofReal dx) - U (ofReal (X0 + x * dx) - ofReal dx))
          - (U (ofReal (X0 + x * dx) + 2 * ofReal dx)
              - U (ofReal (X0 + x * dx) - 2 * ofReal dx))) * ofReal (1 / (12 * dx)) := by
  have e1 : ofReal (X0 + ((x + 1 : Int) : ℚ) * dx) = ofReal (X0 + x * dx) + ofReal dx := by
    apply CComplex.ext
    · simp
      ring
    · simp
  have e2 : ofReal (X0 + ((x - 1 : Int) : ℚ) * dx) = ofReal (X0 + x * dx) - ofReal dx := by
    apply CComplex.ext
    · simp
      ring
    · simp
  have e3 : ofReal (X0 + ((x + 2 : Int) : ℚ) * dx) = ofReal (X0 + x * dx) + 2 * ofReal dx := by
    apply CComplex.ext
    · simp
      ring
    · simp
  have e4 : ofReal (X0 + ((x - 2 : Int) : ℚ) * dx) = ofReal (X0 + x * dx) - 2 * ofReal dx := by
    apply CComplex.ext
    · simp
      ring
    · simp
  simp only [spec_d_dx, e1, e2, e3, e4]

theorem ofReal_stencil_weight (dx : ℚ) (hdx : 0 < dx) :
    12 * ofReal dx * ofReal (1 / (12 * dx)) = 1 := by
  have h : dx ≠ 0 := hdx.ne'
  apply CComplex.ext
  · simp
    field_simp
    ring
  · simp

/-- C23: in the baseline routine with `_kw_12_dx = 1/(12*dx)`, `dx > 0`, the
radial derivative `dphi_dx_p1` of a potential sampled on the uniform grid
`X0 + x*dx` from a polynomial `P` of degree at most 4 is `P'` at the grid
point, exactly; for the fifth power it is `5*X^4 - 4*dx^4`, which is not the
derivative `5*X^4`. -/
theorem C23_stencil_fourth_order (self : VlasovIsland) (inp : Inputs) (nonLinearTerm : A3)
    (p : Idx6) (P : Polynomial CComplex) (X0 dx : ℚ) (hdx : 0 < dx)
    (hkw : self._kw_12_dx = 1 / (12 * dx)) (hy : p.y_k + 1 < self.grid.Nky - 1) :
    (P.natDegree ≤ 4 →
      (Vlasov_2D_Island_locals self
          { inp with Fields := fun _ _ _ _ _ x => P.eval (ofReal (X0 + x * dx)) }
          nonLinearTerm p).dphi_dx_p1
        = (Polynomial.derivative P).eval (ofReal (X0 + p.x * dx)))
    ∧ (Vlasov_2D_Island_locals self
          { inp with Fields := fun _ _ _ _ _ x => ofReal (X0 + x * dx) ^ 5 }
          nonLinearTerm p).dphi_dx_p1
        = 5 * ofReal (X0 + p.x * dx) ^ 4 - 4 * ofReal dx ^ 4
    ∧ (Vlasov_2D_Island_locals self
          { inp with Fields := fun _ _ _ _ _ x => ofReal (X0 + x * dx) ^ 5 }
          nonLinearTerm p).dphi_dx_p1
        ≠ 5 * ofReal (X0 + p.x * dx) ^ 4 := by
  have hk := ofReal_stencil_weight dx hdx
  have h5 : (Vlasov_2D_Island_locals self
      { inp with Fields := fun _ _ _ _ _ x => ofReal (X0 + x * dx) ^ 5 }
      nonLinearTerm p).dphi_dx_p1 = 5 * ofReal (X0 + p.x * dx) ^ 4 - 4 * ofReal dx ^ 4 := by
    rw [((Vlasov_2D_Island_upper_neighbour self _ nonLinearTerm p).2 hy).2.2.1, hkw]
    exact (spec_d_dx_sampled (fun t => t ^ 5) X0 dx p.x).trans (stencil_pow5 _ _ _ hk)
  refine ⟨fun hP => ?_, h5, ?_⟩
  · rw [((Vlasov_2D_Island_upper_neighbour self _ nonLinearTerm p).2 hy).2.2.1, hkw]
    exact (spec_d_dx_sampled (fun t => P.eval t) X0 dx p.x).trans
      (stencil_exact_deg4 P hP _ _ _ hk)
  · rw [h5]
    intro h
    have h4 : (4 * ofReal dx ^ 4 : CComplex) = 0 := by
      linear_combination -h
    have hre := congrArg CComplex.re h4
    have e : (4 * ofReal dx ^ 4 : CComplex) = ofReal (4 * dx ^ 4) := by
      apply CComplex.ext <;> simp [pow_succ]
    rw [e] at hre
    simp at hre
    exact hdx.ne' hre

/-- Witness of C23: the polynomial `X^4` on the grid `x*dx` with `dx = 1/2`. -/
theorem C23_stencil_fourth_order_witness :
    (0 : ℚ) < 1 / 2
    ∧ (halfStepVlasov)._kw_12_dx = 1 / (12 * (1 / 2))
    ∧ (⟨1, 0, 0, 1, 0, 0⟩ : Idx6).y_k + 1 < halfStepVlasov.grid.Nky - 1
    ∧ (Polynomial.X ^ 4 : Polynomial CComplex).natDegree ≤ 4
    ∧ (Vlasov_2D_Island_locals halfStepVlasov
          { zeroInputs with Fields := fun _ _ _ _ _ x =>
              (Polynomial.X ^ 4 : Polynomial CComplex).eval (ofReal (0 + x * (1 / 2))) }
          (fun _ _ _ => 0) ⟨1, 0, 0, 1, 0, 0⟩).dphi_dx_p1
        = (Polynomial.derivative (Polynomial.X ^ 4 : Polynomial CComplex)).eval
            (ofReal (0 + (⟨1, 0, 0, 1, 0, 0⟩ : Idx6).x * (1 / 2))) :=
  have hdeg : (Polynomial.X ^ 4 : Polynomial CComplex).natDegree ≤ 4 :=
    Polynomial.natDegree_X_pow_le 4
  ⟨by norm_num, by norm_num [halfStepVlasov, pointVlasov], by decide, hdeg,
    (C23_stencil_fourth_order halfStepVlasov zeroInputs (fun _ _ _ => 0) ⟨1, 0, 0, 1, 0, 0⟩
      (Polynomial.X ^ 4) 0 (1 / 2) (by norm_num) (by norm_num [halfStepVlasov, pointVlasov])
      (by decide)).1 hdeg⟩

/-! ### The boundary rules of the distribution derivatives in the filtered routine -/

/-- C24, the code at a failing input: in the filtered routine with mode offset
`i = 2` and `Nky = 6`, with a distribution and a potential equal to `x + 1` at
the modes `y_k >= 1`.  At the mode `y_k = 2` the upper neighbour `y_k + i = 4`
is below `Nky - 1 = 5`, and `fs_p1`, `phi_p1`, `dphi_dx_p1` are the non-zero
values of the stored mode 4, but `dfs_dx_p1` is 0 where the radial derivative
of the stored mode 4 is 1: the routine tests `(y_k+i) >= Nky-i`.  At the mode
`y_k = 3` the lower neighbour `y_k - i = 1` is a stored mode whose radial
derivative is 1, but `dfs_dx_m1` is 0, the derivative of the mode
`i - y_k = -1`. -/
theorem C24_filter_distribution_derivative_rules :
    ¬ ((⟨1, 0, 0, 2, 0, 0⟩ : Idx6).y_k + (pointVlasov 6 2).i ≥ (pointVlasov 6 2).grid.Nky - 1)
    ∧ (Vlasov_2D_Island_filter_locals (pointVlasov 6 2) upperModesRampInputs (fun _ _ _ => 0)
        ⟨1, 0, 0, 2, 0, 0⟩).fs_p1 = 1
    ∧ (Vlasov_2D_Island_filter_locals (pointVlasov 6 2) upperModesRampInputs (fun _ _ _ => 0)
        ⟨1, 0, 0, 2, 0, 0⟩).phi_p1 = 1
    ∧ (Vlasov_2D_Island_filter_locals (pointVlasov 6 2) upperModesRampInputs (fun _ _ _ => 0)
        ⟨1, 0, 0, 2, 0, 0⟩).dphi_dx_p1 = 12
    ∧ filter_d_dx (pointVlasov 6 2).dx
        (fun x => upperModesRampInputs.fs ⟨1, 0, 0, 2 + (pointVlasov 6 2).i, x, 0⟩) 0 = 1
    ∧ (Vlasov_2D_Island_filter_locals (pointVlasov 6 2) upperModesRampInputs (fun _ _ _ => 0)
        ⟨1, 0, 0, 2, 0, 0⟩).dfs_dx_p1 = 0
    ∧ (⟨1, 0, 0, 3, 0, 0⟩ : Idx6).y_k - (pointVlasov 6 2).i ≥ 0
    ∧ filter_d_dx (pointVlasov 6 2).dx
        (fun x => upperModesRampInputs.fs ⟨1, 0, 0, 3 - (pointVlasov 6 2).i, x, 0⟩) 0 = 1
    ∧ (Vlasov_2D_Island_filter_locals (pointVlasov 6 2) upperModesRampInputs (fun _ _ _ => 0)
        ⟨1, 0, 0, 3, 0, 0⟩).dfs_dx_m1 = 0
    ∧ (Vlasov_2D_Island_filter_locals (pointVlasov 6 2) upperModesRampInputs (fun _ _ _ => 0)
        ⟨1, 0, 0, 3, 0, 0⟩).dfs_dx_m1
      = filter_d_dx (pointVlasov 6 2).dx
        (fun x => upperModesRampInputs.fs ⟨1, 0, 0, (pointVlasov 6 2).i - 3, x, 0⟩) 0 := by
  refine ⟨by decide, ?_, ?_, ?_, ?_, ?_, by decide, ?_, ?_, ?_⟩
  · apply CComplex.ext <;>
      simp [Vlasov_2D_Island_filter_locals, pointVlasov, pointGrid, upperModesRampInputs]
  · apply CComplex.ext <;>
      simp [Vlasov_2D_Island_filter_locals, pointVlasov, pointGrid, upperModesRampInputs]
  · apply CComplex.ext <;>
      norm_num [Vlasov_2D_Island_filter_locals, pointVlasov, pointGrid, upperModesRampInputs]
  · apply CComplex.ext <;>
      norm_num [filter_d_dx, CComplex.divReal, pointVlasov, upperModesRampInputs]
  · apply CComplex.ext <;>
      simp [Vlasov_2D_Island_filter_locals, CComplex.divReal, pointVlasov, pointGrid,
        upperModesRampInputs]
  · apply CComplex.ext <;>
      norm_num [filter_d_dx, CComplex.divReal, pointVlasov, upperModesRampInputs]
  · apply CComplex.ext <;>
      simp [Vlasov_2D_Island_filter_locals, CComplex.divReal, pointVlasov, pointGrid,
        upperModesRampInputs]
  · apply CComplex.ext <;>
      simp [Vlasov_2D_Island_filter_locals, filter_d_dx, CComplex.divReal, pointVlasov,
        pointGrid, upperModesRampInputs]

/-! ### The legacy routine and the reality of the island terms at mode 0 -/

/-- C25: for identical inputs `Island_phi` and `Island_g` of
`Vlasov_2D_Island_orig` are the negation of those of the baseline routine at
every mode, and at every mode `y_k >= 1` the tendency of the legacy routine
with the profile `(MagIs, dMagIs_dx)` is the tendency of the baseline routine
with `(-MagIs, -dMagIs_dx)`. -/
theorem C25_orig_inverted_signs (self : VlasovIsland) (inp : Inputs) (nonLinearTerm : A3)
    (p : Idx6) :
    (Vlasov_2D_Island_orig_locals self inp nonLinearTerm p).Island_phi
      = -(Vlasov_2D_Island_locals self inp nonLinearTerm p).Island_phi
    ∧ (Vlasov_2D_Island_orig_locals self inp nonLinearTerm p).Island_g
      = -(Vlasov_2D_Island_locals self inp nonLinearTerm p).Island_g
    ∧ (1 ≤ p.y_k →
      Vlasov_2D_Island_orig_dg_dt self inp nonLinearTerm p
        = Vlasov_2D_Island_dg_dt self inp.negProfile nonLinearTerm p) := by
  refine ⟨?_, ?_, fun hk => ?_⟩
  · simp only [Vlasov_2D_Island_orig_locals, Vlasov_2D_Island_locals, CComplex.ofReal_neg]
    ring
  · simp only [Vlasov_2D_Island_orig_locals, Vlasov_2D_Island_locals, CComplex.ofReal_neg]
    ring
  · have c3 : ¬ (p.y_k = 0) := by omega
    simp only [Vlasov_2D_Island_orig_dg_dt, Vlasov_2D_Island_dg_dt,
      Vlasov_2D_Island_orig_locals, Vlasov_2D_Island_locals, Inputs.negProfile, if_neg c3,
      CComplex.ofReal_neg]
    ring

/-- Witness of C25 on a four-mode grid at the mode `y_k = 1`. -/
theorem C25_orig_inverted_signs_witness :
    (1 : Int) ≤ (⟨1, 0, 0, 1, 0, 0⟩ : Idx6).y_k
    ∧ Vlasov_2D_Island_orig_dg_dt (pointVlasov 4 1) complexInputs (fun _ _ _ => 0)
        ⟨1, 0, 0, 1, 0, 0⟩
      = Vlasov_2D_Island_dg_dt (pointVlasov 4 1) complexInputs.negProfile (fun _ _ _ => 0)
        ⟨1, 0, 0, 1, 0, 0⟩ :=
  ⟨by decide,
    (C25_orig_inverted_signs (pointVlasov 4 1) complexInputs (fun _ _ _ => 0)
      ⟨1, 0, 0, 1, 0, 0⟩).2.2 (by decide)⟩

/-- C27: in the baseline routine at the mode `y_k = 0`, with `Nky >= 3` and an
odd wavenumber table (`ky(-1) = -ky(1)`), `Island_phi` and `Island_g` are
real, whatever the potential and the distribution at the mode 1. -/
theorem C27_island_terms_real_at_mode0 (self : VlasovIsland) (inp : Inputs)
    (nonLinearTerm : A3) (p : Idx6) (hy : p.y_k = 0) (hN : 3 ≤ self.grid.Nky)
    (hodd : self.ky (-1) = -self.ky 1) :
    ((Vlasov_2D_Island_locals self inp nonLinearTerm p).Island_phi).im = 0
    ∧ ((Vlasov_2D_Island_locals self inp nonLinearTerm p).Island_g).im = 0 := by
  have c1 : ¬ ((0 : Int) + 1 ≥ self.grid.Nky - 1) := by omega
  have c2 : (0 : Int) - 1 < 0 := by decide
  have e1 : (0 : Int) - 1 = -1 := by decide
  constructor
  · simp only [Vlasov_2D_Island_locals, hy, if_neg c1, if_pos c2, e1, hodd]
    simp
  · simp only [Vlasov_2D_Island_locals, hy, if_neg c1, if_pos c2, e1, hodd]
    simp

/-- Witness of C27 on a three-mode grid with complex data at the mode 1 and the
odd table `ky(k) = k`. -/
theorem C27_island_terms_real_at_mode0_witness :
    (⟨1, 0, 0, 0, 0, 0⟩ : Idx6).y_k = 0 ∧ (3 : Int) ≤ (pointVlasov 3 1).grid.Nky
    ∧ (pointVlasov 3 1).ky (-1) = -(pointVlasov 3 1).ky 1
    ∧ (complexInputs.fs ⟨1, 0, 0, 1, 0, 0⟩).im ≠ 0
    ∧ ((Vlasov_2D_Island_locals (pointVlasov 3 1) complexInputs (fun _ _ _ => 0)
        ⟨1, 0, 0, 0, 0, 0⟩).Island_g).im = 0 :=
  ⟨rfl, by decide, by simp [pointVlasov], by simp [complexInputs],
    (C27_island_terms_real_at_mode0 (pointVlasov 3 1) complexInputs (fun _ _ _ => 0)
      ⟨1, 0, 0, 0, 0, 0⟩ rfl (by decide) (by simp [pointVlasov])).2⟩

/-! ### The tabulated island profile and its derivative -/

/-- C26, the code at a failing input: the entry `dMagIs_dx[x]` is computed
without a zero divisor exactly at the radial coordinates `X[x] != 0`.  On the
grid `X[x] = x` with the profile `psi` of the constructor the entry at `x = 0`
has `eps = 1e-8 * 0 = 0` and the divisor `12*eps = 0`, while the entry at
`x = 1` is computed. -/
theorem C26_profile_derivative_zero_divisor :
    (∀ (func : ℝ → ℝ) (width_scale : ℝ) (X : Int → ℝ) (x : Int),
      VlasovIsland_dMagIs_dx func width_scale X x = none ↔ X x = 0)
    ∧ (12 * ((1 / 100000000 : ℝ) * ((fun x : Int => (x : ℝ)) 0)) = 0)
    ∧ VlasovIsland_dMagIs_dx (VlasovIsland_psi (fun a b : ℝ => a ^ b) Real.exp) 1
        (fun x : Int => (x : ℝ)) 0 = none
    ∧ (VlasovIsland_dMagIs_dx (VlasovIsland_psi (fun a b : ℝ => a ^ b) Real.exp) 1
        (fun x : Int => (x : ℝ)) 1).isSome = true := by
  have hgen : ∀ (func : ℝ → ℝ) (width_scale : ℝ) (X : Int → ℝ) (x : Int),
      VlasovIsland_dMagIs_dx func width_scale X x = none ↔ X x = 0 := by
    intro func width_scale X x
    unfold VlasovIsland_dMagIs_dx CD4
    by_cases h : X x = 0
    · simp [h]
    · simp [h]
  refine ⟨hgen, by norm_num, (hgen _ _ _ _).2 (by norm_num), ?_⟩
  rw [Option.isSome_iff_ne_none, ne_eq, hgen]
  norm_num

/-! ### The gap of the island width at the scale factor zero -/

/-- C28: over the reals, for `Ly > 0`: `IslandWidth(0) = 0`; for a scale
factor `scale > 0` each of the 1024 increments of the ordinate is not
negative, `psi` is positive, the sine factor is not negative at the 1025
abscissae of the path, and `IslandWidth(scale) >= 0.02`; so neither the scale
factor zero nor a positive one has a width strictly between 0 and 0.02, and
`IslandWidth` is not continuous at zero. -/
theorem C28_island_width_gap (Ly scale : ℝ) (hLy : 0 < Ly) (hscale : 0 < scale) :
    IslandWidth (VlasovIsland_psi (fun a b : ℝ => a ^ b) Real.exp) Real.sin Real.pi Ly 0 = 0
    ∧ (∀ x : ℝ, 0 < VlasovIsland_psi (fun a b : ℝ => a ^ b) Real.exp x)
    ∧ (∀ k : Nat, k ≤ 1024 → 0 ≤ Real.sin (2 * Real.pi / Ly * (k * (Ly / 2 / 1024))))
    ∧ (∀ n : Nat, n < 1024 →
        (IslandWidth_path (VlasovIsland_psi (fun a b : ℝ => a ^ b) Real.exp) Real.sin Real.pi
            Ly scale n).2
          ≤ (IslandWidth_path (VlasovIsland_psi (fun a b : ℝ => a ^ b) Real.exp) Real.sin
            Real.pi Ly scale (n + 1)).2)
    ∧ 2 / 100 ≤ IslandWidth (VlasovIsland_psi (fun a b : ℝ => a ^ b) Real.exp) Real.sin
        Real.pi Ly scale
    ∧ (∀ w : ℝ, 0 ≤ w →
        ¬ (0 < IslandWidth (VlasovIsland_psi (fun a b : ℝ => a ^ b) Real.exp) Real.sin
              Real.pi Ly w
          ∧ IslandWidth (VlasovIsland_psi (fun a b : ℝ => a ^ b) Real.exp) Real.sin
              Real.pi Ly w < 2 / 100))
    ∧ ¬ ContinuousAt (fun w : ℝ =>
        IslandWidth (VlasovIsland_psi (fun a b : ℝ => a ^ b) Real.exp) Real.sin Real.pi Ly w)
        0 := by
  have h0 : IslandWidth (VlasovIsland_psi (fun a b : ℝ => a ^ b) Real.exp) Real.sin Real.pi
      Ly 0 = 0 := by
    simp [IslandWidth]
  have hgt : ∀ w : ℝ, 0 < w →
      2 / 100 < IslandWidth (VlasovIsland_psi (fun a b : ℝ => a ^ b) Real.exp) Real.sin
        Real.pi Ly w :=
    fun w hw => IslandWidth_gt _ VlasovIsland_psi_pos Ly w hLy hw
  refine ⟨h0, VlasovIsland_psi_pos, fun k hk => IslandForm_sin_nonneg Ly hLy k hk,
    fun n hn => IslandWidth_step_increment _ VlasovIsland_psi_pos Ly scale hLy hscale.le n
      (by omega), (hgt scale hscale).le, ?_, ?_⟩
  · intro w hw ⟨hpos, hlt⟩
    rcases hw.eq_or_lt with h | h
    · rw [← h, h0] at hpos
      exact lt_irrefl _ hpos
    · exact lt_asymm hlt (hgt w h)
  · intro hc
    rw [Metric.continuousAt_iff] at hc
    obtain ⟨δ, hδ, hball⟩ := hc (1 / 100) (by norm_num)
    have hd : dist (δ / 2) (0 : ℝ) < δ := by
      rw [Real.dist_eq, sub_zero, abs_of_pos (by linarith)]
      linarith
    have hb := hball hd
    rw [h0, Real.dist_eq, sub_zero] at hb
    have hw := hgt (δ / 2) (by linarith)
    rw [abs_of_pos (by linarith)] at hb
    linarith

/-- Witness of C28 at `Ly = 1` and `scale = 1`. -/
theorem C28_island_width_gap_witness :
    (0 : ℝ) < 1
    ∧ 2 / 100 ≤ IslandWidth (VlasovIsland_psi (fun a b : ℝ => a ^ b) Real.exp) Real.sin
        Real.pi 1 1
    ∧ ¬ ContinuousAt (fun w : ℝ =>
        IslandWidth (VlasovIsland_psi (fun a b : ℝ => a ^ b) Real.exp) Real.sin Real.pi 1 w)
        0 :=
  have h := C28_island_width_gap 1 1 (by norm_num) (by norm_num)
  ⟨by norm_num, h.2.2.2.2.1, h.2.2.2.2.2.2⟩

/-! ### The entries of `parseSuppressMode` -/

/-- C29, the code at failing inputs: the test of the entry is inverted.  For
the value `"0"`, an entry without `-`, the routine splits the entry at `"-"`
and reads the second piece, which does not exist, where the specified result
is the list `[0]`; for the value `"2-5"` it appends the single integer
`stoi("2-5") = 2`, where the specified result is `[2, 3, 4]`; the same for the
entries of `"1, 2-5"`.  The empty string appends nothing. -/
theorem C29_parseSuppressMode_inverted_test :
    parseSuppressMode "0" [] = .error "res2[1] does not exist"
    ∧ spec_parseSuppressMode "0" [] = .ok [0]
    ∧ parseSuppressMode "2-5" [] = .ok [2]
    ∧ spec_parseSuppressMode "2-5" [] = .ok [2, 3, 4]
    ∧ parseSuppressMode "2-5, 7-9" [] = .ok [2, 7]
    ∧ spec_parseSuppressMode "2-5, 7-9" [] = .ok [2, 3, 4, 7, 8]
    ∧ spec_parseSuppressMode "1, 2-5" [] = .ok [1, 2, 3, 4]
    ∧ parseSuppressMode "1, 2-5" [] = .error "res2[1] does not exist"
    ∧ (∀ suppressMode : List Int, parseSuppressMode "" suppressMode = .ok suppressMode) := by
  exact ⟨rfl, rfl, rfl, rfl, rfl, rfl, rfl, rfl, fun _ => rfl⟩

/-! ### The stored species names -/

/-- The name a pass of the species loop stores is the one `snprintf` writes
with the size `min(64, length)`. -/
theorem Plasma_speciesPass_name (setup : Setup) (Nm : Int) (Parse : String → String → Int)
    (global : Bool) (alphaOf sigmaOf : Species → ℚ) (s : Int) (sp sp1 : Species)
    (h : Plasma_speciesPass setup Nm Parse global alphaOf sigmaOf s sp = .ok sp1) :
    sp1.name = snprintf sp.name
      (min 64 (setup.get ("Plasma.Species" ++ toString s ++ ".Name") "Unnamed").length)
      (setup.get ("Plasma.Species" ++ toString s ++ ".Name") "Unnamed") := by
  unfold Plasma_speciesPass at h
  cases hk : Plasma_kineticSpecies setup Nm global alphaOf sigmaOf s sp with
  | error e =>
    rw [hk] at h
    simp at h
  | ok sp2 =>
    rw [hk] at h
    have h12 : sp1 = sp2 := by
      cases hp : Plasma_parseProfiles setup Parse global s with
      | error e =>
        rw [hp] at h
        simp at h
      | ok u =>
        rw [hp] at h
        simp only [Except.ok.injEq] at h
        exact h.symm
    rw [h12]
    unfold Plasma_kineticSpecies at hk
    simp only [] at hk
    split_ifs at hk with h1 h2
    · injection hk with hk
      subst hk
      rfl
    · injection hk with hk
      subst hk
      rfl

/-- C30, the code at a failing input: with nothing configured and one kinetic
species, construction completes, and the stored names are the configured ones
without their last character: `"Unnamed(ad."` for the adiabatic species 0
(configured `"Unnamed"` followed by `"(ad.)"`, 12 characters) and `"Unname"`
for the kinetic species 1 (configured default `"Unnamed"`, 7 characters);
`snprintf` is called with the size `min(64, length)` and writes one character
less than its size. -/
theorem C30_stored_name_loses_last_character (Parse : String → String → Int)
    (alphaOf sigmaOf : Species → ℚ) (species : Int → Species) :
    (emptySetup.get "Plasma.Species1.Name" "Unnamed").length ≤ 63
    ∧ (emptySetup.get "Plasma.Species0.Name" "Unnamed" ++ "(ad.)").length ≤ 63
    ∧ ∃ tbl, Plasma_Plasma emptySetup 1 Parse alphaOf sigmaOf 1 1 species = .ok tbl
      ∧ (tbl 1).name = "Unname"
      ∧ (tbl 1).name ≠ emptySetup.get "Plasma.Species1.Name" "Unnamed"
      ∧ (tbl 0).name = "Unnamed(ad."
      ∧ (tbl 0).name ≠ emptySetup.get "Plasma.Species0.Name" "Unnamed" ++ "(ad.)" := by
  refine ⟨by decide, by decide, ?_⟩
  have hpass : ∃ sp1, Plasma_speciesPass emptySetup 1 Parse false alphaOf sigmaOf 1 (species 1)
      = .ok sp1 ∧ sp1.q = 1 ∧ sp1.n0 = 0 := by
    rcases Plasma_speciesPass_cases emptySetup 1 Parse false alphaOf sigmaOf 1 (species 1) with
      ⟨hlow, _⟩ | ⟨_, ⟨sp1, hk, hq, hn⟩ | ⟨hg, _⟩⟩
    · have hm : Plasma_configuredMass emptySetup 1 = 1 := rfl
      rw [hm] at hlow
      norm_num at hlow
    · exact ⟨sp1, hk, hq, hn⟩
    · simp at hg
  obtain ⟨sp1, hk, hq, hn⟩ := hpass
  have hname := Plasma_speciesPass_name _ _ _ _ _ _ _ _ _ hk
  have hl : Plasma_kineticLoop emptySetup 1 Parse false alphaOf sigmaOf 1
      (Function.update species 0 (Plasma_adiabaticSpecies emptySetup (species 0)))
      = .ok (Function.update
          (Function.update species 0 (Plasma_adiabaticSpecies emptySetup (species 0))) 1 sp1) := by
    simp [Plasma_kineticLoop, forLoop, loopFrom, hk]
  have hg : decide (emptySetup.getInt "Plasma.Global" 0 ≠ 0) = false := rfl
  have hrho : Plasma_rho0_tot 1 (Function.update
      (Function.update species 0 (Plasma_adiabaticSpecies emptySetup (species 0))) 1 sp1)
      = 0 := by
    have n0 : (Plasma_adiabaticSpecies emptySetup (species 0)).n0 = 0 := rfl
    simp [Plasma_rho0_tot, forLoop, loopFrom, hq, hn, n0]
  have hc := Plasma_checkTotalCharge_default emptySetup 1 (Function.update
      (Function.update species 0 (Plasma_adiabaticSpecies emptySetup (species 0))) 1 sp1) rfl
  rw [hrho, if_neg (by norm_num)] at hc
  have h1 : sp1.name = "Unname" := by
    rw [hname]
    show snprintf (species 1).name (min 64 "Unnamed".length) "Unnamed" = "Unname"
    unfold snprintf
    rw [if_neg (by decide)]
    decide
  have h0 : (Plasma_adiabaticSpecies emptySetup (species 0)).name = "Unnamed(ad." := by
    show snprintf (species 0).name (min 64 ("Unnamed" ++ "(ad.)").length) ("Unnamed" ++ "(ad.)")
      = "Unnamed(ad."
    unfold snprintf
    rw [if_neg (by decide)]
    decide
  refine ⟨Function.update
      (Function.update species 0 (Plasma_adiabaticSpecies emptySetup (species 0))) 1 sp1,
    by simp only [Plasma_Plasma, hg, hl, hc], ?_, ?_, ?_, ?_⟩
  · simpa using h1
  · simp only [Function.update_same, h1]
    decide
  · simpa using h0
  · simp only [ne_eq, one_ne_zero, not_false_eq_true, Function.update_noteq, zero_ne_one,
      Function.update_same, h0]
    decide

end GKC
